import Mathlib

/-!
# MotoROS motion server (`MotionServer.c`)

A shallow embedding of the increment queue, the interpolator, the trajectory
validator and the realtime dispatcher of `MotionServer.c`, of its message
handlers (trajectory points, motion control, I/O), of the connection reader and
of the start and stop of a connection, and theorems about them.

Conventions of the embedding.

* C `int`/`long` values are mathematical integers (`Int`); the embedding covers
  the executions without signed overflow (which is undefined in C).
* C `float` values are exact rationals (`ℚ`); a conversion `float -> int`
  truncates toward zero.
* Arrays of `MP_GRP_AXES_NUM`/`MAX_PULSE_AXES` slots are functions on `Axis`.
* Constants and macros of the headers that are not among the sources
  (`Q_SIZE`, `AXIS_INVALID`, the `ROS_RESULT_*` codes, ...) are the fields of
  `Consts`, a parameter of every operation that uses one.
* A task observes the rest of the system (controller status, the stop flag,
  semaphores, what happens while it sleeps) through `Others`, indexed by the
  number of observations the task has made so far.
* The message handlers and the connection reader work on a state `Sys` (the
  controller, the number of observations, the primitives called so far) and
  observe the controller primitives, the sockets and the other tasks through
  `Env`. Sizes, protocol codes and limits of the missing headers are the fields
  of `Proto`; message types and commands are the constructors of `SmMsgType` and
  `SmCommandType`, with one constructor for all the values that the sources do
  not name.
* The functions that start and stop a connection work on a state `Server`: the
  controller, the tables of sockets and reader tasks, the task numbers of the
  dispatcher and of the interpolator of every group, and the calls of `mpClose`,
  `mpCreateTask` and `mpDeleteTask` made so far. `MAX_MOTION_CONNECTIONS`,
  `INVALID_SOCKET`, `INVALID_TASK` and `ERROR` are the fields of `TaskConsts`.
* `int` and `size_t` have 32 bits; a comparison of an `int` with a `sizeof`
  value converts the `int` to `unsigned` (`toUnsigned`).
* The embedding is of a build without `DX100` and without `DUMMY_SERVO_MODE`.
-/

namespace MotoRos

/-! ## Data model -/

/-- Modelled from the spec: the number of axis slots of a control group ("up to 8
slots"); `MP_GRP_AXES_NUM` and `MAX_PULSE_AXES` are declared in headers that are
not among the sources. -/
abbrev MP_GRP_AXES_NUM : Nat := 8

/-- Index of an axis slot of a control group. -/
abbrev Axis : Type := Fin MP_GRP_AXES_NUM

/-- Header constants that the sources use but do not define. -/
structure Consts where
  Q_SIZE : Int
  ROS_MAX_JOINT : Nat
  AXIS_INVALID : Int
  MP_INC_PULSE_DTYPE : Int
  ROS_RESULT_SUCCESS : Int
  ROS_RESULT_TRUE : Int
  ROS_RESULT_BUSY : Int
  ROS_RESULT_FAILURE : Int
  ROS_RESULT_FALSE : Int
  ROS_RESULT_INVALID : Int
  ROS_RESULT_NOT_READY : Int
  ROS_RESULT_MP_FAILURE : Int
  ROS_RESULT_INVALID_MSGSIZE : Int
  ROS_RESULT_INVALID_MSGTYPE : Int
  ROS_RESULT_INVALID_GROUPNO : Int
  ROS_RESULT_INVALID_SEQUENCE : Int
  ROS_RESULT_INVALID_DATA_INSUFFICIENT : Int
  ROS_RESULT_INVALID_DATA_START_POS : Int
  ROS_RESULT_INVALID_DATA_SPEED : Int
  ROS_RESULT_INVALID_READIO : Int
  ROS_RESULT_INVALID_GETFBPULSEPOS : Int

/-- Sample values in the style of the MotoROS headers, used for concrete runs. -/
def motoRosConsts : Consts where
  Q_SIZE := 200
  ROS_MAX_JOINT := 10
  AXIS_INVALID := 2
  MP_INC_PULSE_DTYPE := 0
  ROS_RESULT_SUCCESS := 0
  ROS_RESULT_TRUE := 0
  ROS_RESULT_BUSY := 1
  ROS_RESULT_FAILURE := 2
  ROS_RESULT_FALSE := 2
  ROS_RESULT_INVALID := 3
  ROS_RESULT_NOT_READY := 5
  ROS_RESULT_MP_FAILURE := 6
  ROS_RESULT_INVALID_MSGSIZE := 3001
  ROS_RESULT_INVALID_MSGTYPE := 3003
  ROS_RESULT_INVALID_GROUPNO := 3004
  ROS_RESULT_INVALID_SEQUENCE := 3005
  ROS_RESULT_INVALID_DATA_INSUFFICIENT := 3015
  ROS_RESULT_INVALID_DATA_START_POS := 3011
  ROS_RESULT_INVALID_DATA_SPEED := 3013
  ROS_RESULT_INVALID_READIO := 3016
  ROS_RESULT_INVALID_GETFBPULSEPOS := 3017

/-- A small queue capacity, for runs that wrap around the ring. -/
def smallConsts : Consts := { motoRosConsts with Q_SIZE := 3 }

/-- `JointMotionData`: a trajectory point in engineering units. -/
structure JointMotionData where
  flag : Int
  time : Int
  pos : Axis → ℚ
  vel : Axis → ℚ
  acc : Axis → ℚ

/-- `Incremental_data`: one entry of the increment queue. -/
structure Incremental_data where
  time : Int
  inc : Axis → Int
  tool : Int
  frame : Int
  user : Int

/-- `Incremental_q`: the ring buffer (`data` has `Q_SIZE` slots, indexed from 0). -/
structure Incremental_q where
  cnt : Int
  idx : Int
  data : Int → Incremental_data

/-- `CtrlGroup`: the part of a control group that the motion server uses.
`convertToMotoPos` is the external `Ros_CtrlGroup_ConvertToMotoPos` of the group
(radians to pulses), an arbitrary function of the position vector. -/
structure CtrlGroup where
  groupNo : Int
  numAxes : Nat
  axisType : Axis → Int
  maxIncrement : Axis → Int
  maxSpeed : Axis → ℚ
  bIsBaxisSlave : Bool
  convertToMotoPos : (Axis → ℚ) → Axis → Int
  jointMotionData : JointMotionData
  jointMotionDataToProcess : JointMotionData
  hasDataToProcess : Bool
  timeLeftover_ms : Int
  q_time : Int
  prevPulsePos : Axis → Int
  inc_q : Incremental_q

/-- The feedback signals of the external `Ros_Controller_SetIOState` that
`MotionServer.c` names. -/
inductive IoFeedback where
  | IO_FEEDBACK_MP_INCMOVE_DONE
  | IO_FEEDBACK_MOTIONSERVERCONNECTED
  | IO_FEEDBACK_FAILURE
  deriving DecidableEq

/-- `Controller`: the process-wide state. `motionReady` is the value of the
external `Ros_Controller_IsMotionReady`, `notReadySubcode` that of
`Ros_Controller_GetNotReadySubcode`; `operating`, `eStop`, `hold`, `remote`,
`error`, `alarm`, `servoOn` and `ecoMode` are the values of
`Ros_Controller_IsOperating`, `..._IsEStop`, `..._IsHold`, `..._IsRemote`,
`..._IsError`, `..._IsAlarm`, `..._IsServoOn` and `..._IsEcoMode`; `ioState` holds
the feedback signals set with `Ros_Controller_SetIOState`. -/
structure Controller where
  numGroup : Nat
  ctrlGroups : Nat → CtrlGroup
  interpolPeriod : Int
  bStopMotion : Bool
  motionReady : Bool
  notReadySubcode : Int
  operating : Bool := false
  eStop : Bool := false
  hold : Bool := false
  remote : Bool := true
  error : Bool := false
  alarm : Bool := false
  servoOn : Bool := true
  ecoMode : Bool := false
  ioState : IoFeedback → Bool := fun _ => false

/-- What a task observes of the other tasks; the argument is the number of
observations the task has made before. `sleep k q` is the queue as the task
finds it after its sleep, given that it was `q` before. -/
structure Others where
  motionReady : Nat → Bool
  bStopMotion : Nat → Bool
  semTake : Nat → Bool
  sleep : Nat → Incremental_q → Incremental_q

/-- One group's slot `grp_pos_info[i]` of the move data handed to the
increment-move primitive. -/
structure GrpPosInfo where
  pos_tag : Nat → Int
  pos : Axis → Int

/-- `MP_EXPOS_DATA`: the argument of `mpExRcsIncrementMove`. -/
structure MP_EXPOS_DATA where
  ctrl_grp : Int
  grp_pos_info : Nat → GrpPosInfo

/-! ## Increment queue -/

/-- Modelled from the spec: the macro `Q_OFFSET_IDX(a, b, c)` of the missing
header, "append at `(head+count) mod Q`". -/
def Q_OFFSET_IDX (a b c : Int) : Int := (a + b) % c

/-- `Ros_MotionServer_AddPulseIncPointToQ`. The result is `none` when the fuel
runs out while the queue is still full, else the returned `BOOL`, the number of
observations made, and the queue. -/
def Ros_MotionServer_AddPulseIncPointToQ (K : Consts) (w : Others) :
    Nat → Nat → Incremental_q → Incremental_data → Option (Bool × Nat × Incremental_q)
  | 0, _, _, _ => none
  | fuel + 1, n, q, dataToEnQ =>
    if q.cnt ≥ K.Q_SIZE then
      -- Ros_Sleep(controller->interpolPeriod)
      let q1 := w.sleep n q
      if !w.motionReady n then some (false, n + 1, q1)
      else Ros_MotionServer_AddPulseIncPointToQ K w fuel (n + 1) q1 dataToEnQ
    else if w.semTake n then
      let index := Q_OFFSET_IDX q.idx q.cnt K.Q_SIZE
      some (true, n + 1, { q with data := Function.update q.data index dataToEnQ, cnt := q.cnt + 1 })
    else
      some (false, n + 1, q)

/-- Modelled from the spec: `Ros_Controller_IsValidGroupNo` (in `Controller.c`, not
among the sources), "group number must be in `[0, num_groups)`". -/
def Ros_Controller_IsValidGroupNo (c : Controller) (groupNo : Int) : Bool :=
  decide (0 ≤ groupNo ∧ groupNo < (c.numGroup : Int))

/-- Replace group `i` of the controller. -/
def Controller.setGroup (c : Controller) (i : Nat) (g : CtrlGroup) : Controller :=
  { c with ctrlGroups := Function.update c.ctrlGroups i g }

/-- `Ros_MotionServer_ClearQ`; `semTake` is the outcome of `mpSemTake`. -/
def Ros_MotionServer_ClearQ (semTake : Bool) (c : Controller) (groupNo : Int) : Bool × Controller :=
  if !Ros_Controller_IsValidGroupNo c groupNo then (false, c)
  else if semTake then
    let g := c.ctrlGroups groupNo.toNat
    (true, c.setGroup groupNo.toNat { g with inc_q := { g.inc_q with cnt := 0 } })
  else (false, c)

/-- `Ros_MotionServer_GetQueueCnt`; `semTake` is the outcome of `mpSemTake`. -/
def Ros_MotionServer_GetQueueCnt (semTake : Bool) (c : Controller) (groupNo : Int) : Int :=
  if !Ros_Controller_IsValidGroupNo c groupNo then -1
  else if semTake then (c.ctrlGroups groupNo.toNat).inc_q.cnt
  else -1

/-- `Ros_MotionServer_HasDataInQueue`; `semTake g` is the outcome of `mpSemTake`
on the queue of group `g`. -/
def Ros_MotionServer_HasDataInQueue (semTake : Nat → Bool) (c : Controller) : Bool :=
  (List.range c.numGroup).any fun groupNo =>
    decide (Ros_MotionServer_GetQueueCnt (semTake groupNo) c (groupNo : Int) > 0)

/-! ## Realtime dispatcher -/

/-- The inner `while(q->cnt > 0)` loop of `Ros_MotionServer_IncMoveLoopStart`:
merges the following entries of the same interpolation period. The state is the
queue, the outbound slot and the local `time`; the first argument bounds the
number of iterations (each one pops an entry). -/
def mergeLoop (K : Consts) (interpolPeriod q_time : Int) :
    Nat → Incremental_q → GrpPosInfo → Int → Incremental_q × GrpPosInfo × Int
  | 0, q, m, time => (q, m, time)
  | n + 1, q, m, time =>
    if q.cnt > 0 then
      if q_time ≤ (q.data q.idx).time ∧ (q.data q.idx).time - q_time ≤ interpolPeriod then
        if m.pos_tag 2 ≠ (q.data q.idx).tool ∨ m.pos_tag 3 ≠ (q.data q.idx).frame
            ∨ m.pos_tag 4 ≠ (q.data q.idx).user then
          (q, m, time)
        else
          mergeLoop K interpolPeriod q_time n
            { q with idx := Q_OFFSET_IDX q.idx 1 K.Q_SIZE, cnt := q.cnt - 1 }
            { m with pos := fun axis => m.pos axis + (q.data q.idx).inc axis }
            (q.data q.idx).time
      else (q, m, time)
    else (q, m, time)

/-- Write the three pos-tag bytes `data[2]`, `data[3]`, `data[4]`. -/
def setTags (t : Nat → Int) (tool frame user : Int) : Nat → Int :=
  Function.update (Function.update (Function.update t 2 tool) 3 frame) 4 user

/-- The body of the `for` loop over the groups in
`Ros_MotionServer_IncMoveLoopStart`, for one group: `semTake` is the outcome of
`mpSemTake` on the group's queue. -/
def dispatchGroup (K : Consts) (interpolPeriod : Int) (semTake : Bool)
    (g : CtrlGroup) (m : GrpPosInfo) : CtrlGroup × GrpPosInfo :=
  if semTake then
    if g.inc_q.cnt > 0 then
      let q := g.inc_q
      let head := q.data q.idx
      let m1 : GrpPosInfo :=
        { pos_tag := setTags m.pos_tag head.tool head.frame head.user, pos := head.inc }
      let q1 : Incremental_q := { q with idx := Q_OFFSET_IDX q.idx 1 K.Q_SIZE, cnt := q.cnt - 1 }
      let r := mergeLoop K interpolPeriod g.q_time q1.cnt.toNat q1 m1 head.time
      ({ g with inc_q := r.1, q_time := r.2.2 }, r.2.1)
    else
      (g, { pos_tag := setTags m.pos_tag 0 K.MP_INC_PULSE_DTYPE 0, pos := fun _ => 0 })
  else
    (g, { m with pos := fun _ => 0 })

/-- The `for(i=0; i<controller->numGroup; i++)` loop of the dispatcher, from
group `i` on, for `k` groups. -/
def dispatchGroups (K : Consts) (semTake : Nat → Bool) :
    Nat → Nat → Controller → MP_EXPOS_DATA → Controller × MP_EXPOS_DATA
  | 0, _, c, moveData => (c, moveData)
  | k + 1, i, c, moveData =>
    let r := dispatchGroup K c.interpolPeriod (semTake i) (c.ctrlGroups i) (moveData.grp_pos_info i)
    dispatchGroups K semTake k (i + 1) (c.setGroup i r.1)
      { moveData with grp_pos_info := Function.update moveData.grp_pos_info i r.2 }

/-- One iteration of the `FOREVER` loop of `Ros_MotionServer_IncMoveLoopStart`
(build without `DX100`), after `mpClkAnnounce`. `semCnt g` is the outcome of
`mpSemTake` on group `g` in the queue-count query, `semPop g` in the dispatch
loop. The last component lists the calls of `mpExRcsIncrementMove`. -/
def IncMoveTick (K : Consts) (semCnt semPop : Nat → Bool) (c : Controller)
    (moveData : MP_EXPOS_DATA) : Controller × MP_EXPOS_DATA × List MP_EXPOS_DATA :=
  if c.motionReady && Ros_MotionServer_HasDataInQueue semCnt c && !c.bStopMotion then
    let r := dispatchGroups K semPop c.numGroup 0 c moveData
    (r.1, r.2, [r.2])
  else (c, moveData, [])

/-! ## Abstract view of the queue -/

/-- The queue as the list of its `cnt` entries, oldest first. -/
def Incremental_q.view (K : Consts) (q : Incremental_q) : List Incremental_data :=
  (List.range q.cnt.toNat).map fun (k : Nat) => q.data ((q.idx + (k : Int)) % K.Q_SIZE)

/-- The queue invariant: `0 <= cnt <= Q_SIZE` and `0 <= idx < Q_SIZE`. -/
def Incremental_q.Inv (K : Consts) (q : Incremental_q) : Prop :=
  0 ≤ q.cnt ∧ q.cnt ≤ K.Q_SIZE ∧ 0 ≤ q.idx ∧ q.idx < K.Q_SIZE

/-- Sum of the increments of a list of entries on one axis. -/
def incSum (l : List Incremental_data) (a : Axis) : Int := (l.map fun e => e.inc a).sum

/-- The timestamp of the last entry of a list, `t` for the empty list. -/
def lastTime (l : List Incremental_data) (t : Int) : Int := l.foldl (fun _ e => e.time) t

/-! ## Interpolator -/

/-- The B-axis correction of `Ros_MotionServer_JointTrajDataToIncQueue`, applied
to the end point when `bIsBaxisSlave` is set. -/
def bAxisSlaveAdjust (e : JointMotionData) : JointMotionData :=
  { e with pos := Function.update e.pos 3 (e.pos 3 + (-e.pos 1 + e.pos 2)),
           vel := Function.update e.vel 3 (e.vel 3 + (-e.vel 1 + e.vel 2)) }

/-- The locals of `Ros_MotionServer_JointTrajDataToIncQueue` that are fixed before
its `while` loop. -/
structure IncLocals where
  startTrajData : JointMotionData
  accCoef1 : Axis → ℚ
  accCoef2 : Axis → ℚ

/-- The acceleration coefficients: zero-initialised, and set for the axes below
`numAxes` when `interval > 0`. -/
def accCoefs (numAxes : Nat) (s e : JointMotionData) : IncLocals :=
  let interval : ℚ := ((e.time - s.time : Int) : ℚ) / 1000
  { startTrajData := s
    accCoef1 := fun i =>
      if interval > 0 ∧ i.val < numAxes then
        (6 * (e.pos i - s.pos i) / (interval * interval))
          - (2 * (e.vel i + 2 * s.vel i) / interval)
      else 0
    accCoef2 := fun i =>
      if interval > 0 ∧ i.val < numAxes then
        (-12 * (e.pos i - s.pos i) / (interval * interval * interval))
          + (6 * (e.vel i + s.vel i) / (interval * interval))
      else 0 }

/-- The first part of the body of the `while` loop, up to the pulse conversion:
the new `calculationTime_ms` is given; returns the group and the new
`timeInc_ms`. -/
def interpolStep (interpolPeriod : Int) (L : IncLocals) (calculationTime_ms timeInc_ms : Int)
    (g : CtrlGroup) : CtrlGroup × Int :=
  let interpolTime : ℚ := ((calculationTime_ms - L.startTrajData.time : Int) : ℚ) / 1000
  if calculationTime_ms < g.jointMotionDataToProcess.time then
    let cur : JointMotionData :=
      { g.jointMotionData with
        time := calculationTime_ms
        pos := fun i =>
          if i.val < g.numAxes then
            L.startTrajData.pos i + L.startTrajData.vel i * interpolTime
              + L.accCoef1 i * interpolTime * interpolTime / 2
              + L.accCoef2 i * interpolTime * interpolTime * interpolTime / 6
          else g.jointMotionData.pos i
        vel := fun i =>
          if i.val < g.numAxes then
            L.startTrajData.vel i + L.accCoef1 i * interpolTime
              + L.accCoef2 i * interpolTime * interpolTime / 2
          else g.jointMotionData.vel i }
    if timeInc_ms < interpolPeriod then
      ({ g with jointMotionData := cur, timeLeftover_ms := 0 }, interpolPeriod)
    else
      ({ g with jointMotionData := cur }, timeInc_ms)
  else
    if calculationTime_ms > g.jointMotionDataToProcess.time then
      ({ g with jointMotionData := g.jointMotionDataToProcess,
                timeLeftover_ms := calculationTime_ms - g.jointMotionDataToProcess.time }, timeInc_ms)
    else
      ({ g with jointMotionData := g.jointMotionDataToProcess }, timeInc_ms)

/-- The increment computed in the loop body from the new pulse position. -/
def mkIncData (K : Consts) (g : CtrlGroup) (newPulsePos : Axis → Int) : Incremental_data :=
  { time := g.jointMotionData.time
    inc := fun i => if g.axisType i ≠ K.AXIS_INVALID then newPulsePos i - g.prevPulsePos i else 0
    tool := 0
    frame := K.MP_INC_PULSE_DTYPE
    user := 0 }

/-- The `while` loop of `Ros_MotionServer_JointTrajDataToIncQueue`. The state is
the observation count, `calculationTime_ms`, `timeInc_ms`, the group, and the
list of the increments that were added to the queue so far (a record of the
successful calls of `Ros_MotionServer_AddPulseIncPointToQ`). `none` when the fuel
runs out. -/
def incQueueLoop (K : Consts) (w : Others) (interpolPeriod : Int) (L : IncLocals) :
    Nat → Nat → Int → Int → CtrlGroup → List Incremental_data →
      Option (Nat × CtrlGroup × List Incremental_data)
  | 0, _, _, _, _, _ => none
  | fuel + 1, n, calculationTime_ms, timeInc_ms, g, enq =>
    if g.jointMotionData.time < g.jointMotionDataToProcess.time
        ∧ w.motionReady n = true ∧ w.bStopMotion n = false then
      let tcalc := calculationTime_ms + timeInc_ms
      let r := interpolStep interpolPeriod L tcalc timeInc_ms g
      let newPulsePos := r.1.convertToMotoPos r.1.jointMotionData.pos
      let incData := mkIncData K r.1 newPulsePos
      match Ros_MotionServer_AddPulseIncPointToQ K w (fuel + 1) (n + 1) r.1.inc_q incData with
      | none => none
      | some (false, n2, q2) => some (n2, { r.1 with inc_q := q2 }, enq)
      | some (true, n2, q2) =>
        incQueueLoop K w interpolPeriod L fuel n2 tcalc r.2
          { r.1 with inc_q := q2, prevPulsePos := newPulsePos } (enq ++ [incData])
    else some (n, g, enq)

/-- `Ros_MotionServer_JointTrajDataToIncQueue` for the group `g` of a controller
with interpolation period `interpolPeriod`: returns the observation count, the
group, and the increments added to the queue, in order. -/
def Ros_MotionServer_JointTrajDataToIncQueue (K : Consts) (w : Others) (interpolPeriod : Int)
    (fuel n : Nat) (g : CtrlGroup) : Option (Nat × CtrlGroup × List Incremental_data) :=
  let startTrajData := g.jointMotionData
  let g0 : CtrlGroup :=
    if g.bIsBaxisSlave then
      { g with jointMotionDataToProcess := bAxisSlaveAdjust g.jointMotionDataToProcess }
    else g
  let L := accCoefs g0.numAxes startTrajData g0.jointMotionDataToProcess
  let timeInc_ms := if g0.timeLeftover_ms = 0 then interpolPeriod else g0.timeLeftover_ms
  incQueueLoop K w interpolPeriod L fuel n startTrajData.time timeInc_ms g0 []

/-! ## Trajectory validator -/

/-- `SmBodyJointTrajPtFull`: the body of a `ROS_MSG_JOINT_TRAJ_PT_FULL` message;
the arrays have `ROS_MAX_JOINT` entries. -/
structure SmBodyJointTrajPtFull where
  groupNo : Int
  sequence : Int
  validFields : Int
  time : ℚ
  pos : Nat → ℚ
  vel : Nat → ℚ
  acc : Nat → ℚ
  ioReadAddress : Int

/-- Conversion of a C `float` to `int`: truncation toward zero. -/
def truncToInt (x : ℚ) : Int := if 0 ≤ x then ⌊x⌋ else ⌈x⌉

/-- The C library function `int abs(int)` applied to a `float` argument: the
argument is converted to `int` first. -/
def abs_of_float (x : ℚ) : Int := |truncToInt x|

/-- `Ros_MotionServer_ConvertToJointMotionData`. -/
def Ros_MotionServer_ConvertToJointMotionData (K : Consts) (jointTrajData : SmBodyJointTrajPtFull) :
    JointMotionData :=
  let maxAxes := min K.ROS_MAX_JOINT MP_GRP_AXES_NUM
  { flag := jointTrajData.validFields
    time := truncToInt (jointTrajData.time * 1000)
    pos := fun i => if i.val < maxAxes then jointTrajData.pos i.val else 0
    vel := fun i => if i.val < maxAxes then jointTrajData.vel i.val else 0
    acc := fun i => if i.val < maxAxes then jointTrajData.acc i.val else 0 }

/-- The `for(i=0; i<MAX_PULSE_AXES; i++)` loop of
`Ros_MotionServer_InitTrajPointFull` over the remaining axes; 0 when no check
fails. -/
def initAxisLoop (K : Consts) (g : CtrlGroup) (trajPulsePos curCommandedPos : Axis → Int) :
    List Axis → Int
  | [] => 0
  | i :: rest =>
    if |trajPulsePos i - curCommandedPos i| > g.maxIncrement i then
      K.ROS_RESULT_INVALID_DATA_START_POS
    else if ((abs_of_float (g.jointMotionData.vel i) : Int) : ℚ) > g.maxSpeed i then
      K.ROS_RESULT_INVALID_DATA_SPEED
    else initAxisLoop K g trajPulsePos curCommandedPos rest

/-- `Ros_MotionServer_InitTrajPointFull`; `curCommandedPos` is what
`Ros_CtrlGroup_GetPulsePosCmd` delivers. Returns the result code and the group. -/
def Ros_MotionServer_InitTrajPointFull (K : Consts) (curCommandedPos : Axis → Int)
    (g : CtrlGroup) (jointTrajData : SmBodyJointTrajPtFull) : Int × CtrlGroup :=
  if g.groupNo = jointTrajData.groupNo then
    let jmd := Ros_MotionServer_ConvertToJointMotionData K jointTrajData
    let g1 : CtrlGroup := { g with jointMotionData := jmd, timeLeftover_ms := 0, q_time := jmd.time }
    let trajPulsePos := g1.convertToMotoPos g1.jointMotionData.pos
    (initAxisLoop K g1 trajPulsePos curCommandedPos (List.finRange MP_GRP_AXES_NUM), g1)
  else (K.ROS_RESULT_INVALID_GROUPNO, g)

/-- The axes `0 .. numAxes-1` of a group. -/
def activeAxes (numAxes : Nat) : List Axis := (List.finRange MP_GRP_AXES_NUM).take numAxes

/-- `Ros_MotionServer_AddTrajPointFull`. Returns the result code and the group. -/
def Ros_MotionServer_AddTrajPointFull (K : Consts) (g : CtrlGroup)
    (jointTrajData : SmBodyJointTrajPtFull) : Int × CtrlGroup :=
  if g.hasDataToProcess then (K.ROS_RESULT_BUSY, g)
  else
    let jointData := Ros_MotionServer_ConvertToJointMotionData K jointTrajData
    if (activeAxes g.numAxes).any fun i =>
        decide (((abs_of_float (jointData.vel i) : Int) : ℚ) > g.maxSpeed i) then
      (K.ROS_RESULT_INVALID_DATA_SPEED, g)
    else
      (0, { g with jointMotionDataToProcess := jointData, hasDataToProcess := true })

/-- A call of a controller primitive made while a message is handled. The calls
of `mpCancelError`, `mpResetAlarm`, `mpSetServoPower`, `mpStartJob`,
`mpGetAlarmStatus`, `mpGetAlarmCode`, and of `mpReadIO` and `mpWriteIO` by the
I/O handlers, are recorded with what they returned. -/
inductive PrimCall where
  | readIo (addr : Int)
  | getFBPulsePos (groupNo : Int)
  | getTorque (groupNo : Int)
  | getPulsePosCmd (groupNo : Int)
  | getRtc
  | cancelError (ret : Int)
  | resetAlarm (ret : Int)
  | setServoPower (sServoPower ret err_no : Int)
  | startJob (ret err_no : Int)
  | getAlarmStatus (ret : Int)
  | getAlarmCode (ret : Int)
  | readIoBits (ulAddr : List Nat) (apiRet : Int)
  | writeIoBits (data : List (Nat × Nat)) (apiRet : Int)
  deriving DecidableEq

/-- What the controller primitives deliver while one message is handled:
`mpReadIO` (`none` when it does not return `OK`), `Ros_CtrlGroup_GetFBPulsePos`
(`none` when it does not return `TRUE`), `Ros_CtrlGroup_GetPulsePosCmd`,
`Ros_CtrlGroup_ConvertToRosPos`, `Ros_CtrlGroup_GetTorque`, `mpGetRtc`. -/
structure Prims where
  readIo : Int → Option Int
  fbPulsePos : Int → Option (Axis → Int)
  pulsePosCmd : Int → Axis → Int
  convertToRosPos : Int → (Axis → Int) → Axis → ℚ
  torque : Int → Axis → ℚ
  rtc : Int

/-- `SmBodyMotoMotionReply`: the body of a motion reply. -/
structure MotionReply where
  groupNo : Int
  sequence : Int
  result : Int
  subcode : Int
  data : Axis → ℚ
  data2 : Axis → ℚ
  ioValue : Int
  powerOnTimeStamp : Int

/-- Modelled from the spec: `Ros_SimpleMsg_MotionReply` (in `SimpleMessage.c`, not
among the sources) formats a motion reply for a request: group number, the
sequence number of the request, result and subcode; the other fields are zero. -/
def Ros_SimpleMsg_MotionReply (sequence result subcode groupNo : Int) : MotionReply :=
  { groupNo := groupNo, sequence := sequence, result := result, subcode := subcode
    data := fun _ => 0, data2 := fun _ => 0, ioValue := 0, powerOnTimeStamp := 0 }

/-- `Ros_MotionServer_JointTrajDataProcess`: returns the controller, the reply and
the primitives that were called, in order. -/
def Ros_MotionServer_JointTrajDataProcess (K : Consts) (p : Prims) (c : Controller)
    (trajData : SmBodyJointTrajPtFull) : Controller × MotionReply × List PrimCall :=
  let reply := fun (result subcode : Int) =>
    Ros_SimpleMsg_MotionReply trajData.sequence result subcode trajData.groupNo
  if !c.motionReady then
    (c, reply K.ROS_RESULT_NOT_READY c.notReadySubcode, [])
  else if !Ros_Controller_IsValidGroupNo c trajData.groupNo then
    (c, reply K.ROS_RESULT_INVALID K.ROS_RESULT_INVALID_GROUPNO, [])
  else if Int.land trajData.validFields 0x07 ≠ 0x07 then
    (c, reply K.ROS_RESULT_INVALID K.ROS_RESULT_INVALID_DATA_INSUFFICIENT, [])
  else
    let i := trajData.groupNo.toNat
    let ctrlGroup := c.ctrlGroups i
    let readsIo : Bool := decide (Int.land trajData.validFields 0x10 ≠ 0)
    let ioCalls := if readsIo then [PrimCall.readIo trajData.ioReadAddress] else []
    if readsIo && (p.readIo trajData.ioReadAddress).isNone then
      (c, reply K.ROS_RESULT_MP_FAILURE K.ROS_RESULT_INVALID_READIO, ioCalls)
    else
      let ioValue := if readsIo then (p.readIo trajData.ioReadAddress).getD 0 else 0
      match p.fbPulsePos trajData.groupNo with
      | none =>
        (c, reply K.ROS_RESULT_MP_FAILURE K.ROS_RESULT_INVALID_GETFBPULSEPOS,
          ioCalls ++ [PrimCall.getFBPulsePos trajData.groupNo])
      | some pulsePos =>
        let radPos := p.convertToRosPos trajData.groupNo pulsePos
        let torqueValues := p.torque trajData.groupNo
        let calls0 := ioCalls ++ [PrimCall.getFBPulsePos trajData.groupNo,
          PrimCall.getTorque trajData.groupNo]
        let r : Controller × MotionReply × List PrimCall :=
          if trajData.sequence = 0 then
            let ret := Ros_MotionServer_InitTrajPointFull K (p.pulsePosCmd trajData.groupNo)
              ctrlGroup trajData
            let calls1 := if ctrlGroup.groupNo = trajData.groupNo then
              [PrimCall.getPulsePosCmd trajData.groupNo, PrimCall.getFBPulsePos trajData.groupNo]
              else []
            if ret.1 = 0 then (c.setGroup i ret.2, reply K.ROS_RESULT_SUCCESS 0, calls1)
            else (c.setGroup i ret.2, reply K.ROS_RESULT_INVALID ret.1, calls1)
          else if trajData.sequence > 0 then
            let ret := Ros_MotionServer_AddTrajPointFull K ctrlGroup trajData
            if ret.1 = 0 then (c.setGroup i ret.2, reply K.ROS_RESULT_SUCCESS 0, [])
            else if ret.1 = 1 then (c.setGroup i ret.2, reply K.ROS_RESULT_BUSY 0, [])
            else (c.setGroup i ret.2, reply K.ROS_RESULT_INVALID ret.1, [])
          else (c, reply K.ROS_RESULT_INVALID K.ROS_RESULT_INVALID_SEQUENCE, [])
        (r.1,
          { r.2.1 with
            ioValue := if readsIo then ioValue else r.2.1.ioValue
            powerOnTimeStamp := p.rtc
            data := radPos
            data2 := torqueValues },
          calls0 ++ r.2.2 ++ [PrimCall.getRtc])

/-! ## Schedules of queue operations -/

/-- An observer for which every semaphore is free, the controller is
motion-ready and nothing happens during a sleep. -/
def quietOthers (semTake : Bool) : Others where
  motionReady := fun _ => true
  bStopMotion := fun _ => false
  semTake := fun _ => semTake
  sleep := fun _ q => q

/-- A step of a schedule on one group's queue: the interpolator's enqueue
(`Ros_MotionServer_AddPulseIncPointToQ` run until its first sleep) or the
dispatcher's turn for this group in one tick; each with the outcome of its
`mpSemTake`. -/
inductive QOp where
  | enq (d : Incremental_data) (semTake : Bool)
  | tick (semTake : Bool)

/-- State of a schedule: the group, its outbound slot, and two records: the
entries whose enqueue returned `TRUE`, and the entries the dispatcher removed
from the queue, both in order of occurrence. -/
structure QTrace where
  g : CtrlGroup
  m : GrpPosInfo
  enqueued : List Incremental_data
  dispatched : List Incremental_data

/-- The entries that left the queue between `q` and `q1`, read off the front of
the view of `q`. -/
def removedFront (K : Consts) (q q1 : Incremental_q) : List Incremental_data :=
  (q.view K).take (q.cnt - q1.cnt).toNat

/-- One step of a schedule. -/
def QTrace.step (K : Consts) (interpolPeriod : Int) (s : QTrace) : QOp → QTrace
  | QOp.enq d semTake =>
    match Ros_MotionServer_AddPulseIncPointToQ K (quietOthers semTake) 1 0 s.g.inc_q d with
    | some (true, _, q1) => { s with g := { s.g with inc_q := q1 }, enqueued := s.enqueued ++ [d] }
    | _ => s
  | QOp.tick semTake =>
    let r := dispatchGroup K interpolPeriod semTake s.g s.m
    { s with g := r.1, m := r.2, dispatched := s.dispatched ++ removedFront K s.g.inc_q r.1.inc_q }

/-- Run a schedule. -/
def QTrace.run (K : Consts) (interpolPeriod : Int) (s : QTrace) (ops : List QOp) : QTrace :=
  ops.foldl (QTrace.step K interpolPeriod) s

/-! ## Sample data for concrete runs -/

/-- An entry with time `t` and the same increment `v` on every axis. -/
def sampleInc (t v : Int) : Incremental_data where
  time := t
  inc := fun _ => v
  tool := 0
  frame := 0
  user := 0

/-- An empty queue. -/
def emptyQ : Incremental_q where
  cnt := 0
  idx := 0
  data := fun _ => sampleInc 0 0

/-- A queue with the single entry `d` at slot `i`. -/
def singletonQ (i : Int) (d : Incremental_data) : Incremental_q where
  cnt := 1
  idx := i
  data := fun _ => d

/-- A trajectory point at time `t` with position `p` and velocity `v` on every
axis. -/
def samplePoint (t : Int) (p v : ℚ) : JointMotionData where
  flag := 7
  time := t
  pos := fun _ => p
  vel := fun _ => v
  acc := fun _ => 0

/-- A six-axis group, one pulse per unit of position, at rest at position 0. -/
def sampleGroup : CtrlGroup where
  groupNo := 0
  numAxes := 6
  axisType := fun i => if i.val < 6 then 0 else 2
  maxIncrement := fun _ => 100
  maxSpeed := fun _ => 3 / 8
  bIsBaxisSlave := false
  convertToMotoPos := fun p i => ⌊p i⌋
  jointMotionData := samplePoint 0 0 0
  jointMotionDataToProcess := samplePoint 0 0 0
  hasDataToProcess := false
  timeLeftover_ms := 0
  q_time := 0
  prevPulsePos := fun _ => 0
  inc_q := emptyQ

/-- A motion-ready controller with the one group `g` and a period of 4 ms. -/
def sampleController (g : CtrlGroup) : Controller where
  numGroup := 1
  ctrlGroups := fun _ => g
  interpolPeriod := 4
  bStopMotion := false
  motionReady := true
  notReadySubcode := 0

/-- Move data with all slots zero. -/
def zeroMoveData : MP_EXPOS_DATA where
  ctrl_grp := 1
  grp_pos_info := fun _ => { pos_tag := fun _ => 0, pos := fun _ => 0 }

/-- The other tasks at their best: motion-ready, no stop, every lock free, and
the queue emptied during every sleep. -/
def helpfulOthers : Others where
  motionReady := fun _ => true
  bStopMotion := fun _ => false
  semTake := fun _ => true
  sleep := fun _ q => { q with cnt := 0 }

/-- Start of a schedule on the sample group. -/
def sampleTrace : QTrace where
  g := sampleGroup
  m := { pos_tag := fun _ => 0, pos := fun _ => 0 }
  enqueued := []
  dispatched := []

/-- A schedule that wraps around a ring of three slots. -/
def sampleOps : List QOp :=
  [QOp.enq (sampleInc 4 1) true, QOp.enq (sampleInc 8 2) true, QOp.enq (sampleInc 12 3) true,
   QOp.enq (sampleInc 16 4) true, QOp.tick true, QOp.enq (sampleInc 16 4) true,
   QOp.tick false, QOp.tick true, QOp.enq (sampleInc 20 5) false, QOp.enq (sampleInc 20 5) true,
   QOp.tick true, QOp.tick true, QOp.tick true]

/-- Every enqueue succeeds: from every queue and at every observation count,
`Ros_MotionServer_AddPulseIncPointToQ` returns `TRUE` when given at least `F`
units of fuel. -/
def EnqueueSucceeds (K : Consts) (w : Others) (F : Nat) : Prop :=
  ∀ (n : Nat) (q : Incremental_q) (d : Incremental_data), ∃ (n1 : Nat) (q1 : Incremental_q),
    ∀ fuel, F ≤ fuel →
      Ros_MotionServer_AddPulseIncPointToQ K w fuel n q d = some (true, n1, q1)

/-- The sample group about to interpolate a segment from time `s` (position 0) to
time `e` (position `p`), with leftover `l`. -/
def sampleSegment (s e l : Int) (p : ℚ) : CtrlGroup :=
  { sampleGroup with
    jointMotionData := samplePoint s 0 0
    jointMotionDataToProcess := samplePoint e p 0
    hasDataToProcess := true
    timeLeftover_ms := l }

/-- A message for group 0 with sequence number `seq`, the fields time, position
and velocity valid, time `t` (seconds), and position `p` and velocity `v` on
every joint. -/
def sampleMsg (seq : Int) (t p v : ℚ) : SmBodyJointTrajPtFull where
  groupNo := 0
  sequence := seq
  validFields := 7
  time := t
  pos := fun _ => p
  vel := fun _ => v
  acc := fun _ => 0
  ioReadAddress := 0

/-- Primitives that succeed: feedback and commanded pulse position `cmd` on every
axis. -/
def samplePrims (cmd : Int) : Prims where
  readIo := fun _ => some 0
  fbPulsePos := fun _ => some (fun _ => cmd)
  pulsePosCmd := fun _ _ => cmd
  convertToRosPos := fun _ pulse i => (pulse i : ℚ)
  torque := fun _ _ => 0
  rtc := 0

/-- The sample group in the middle of a trajectory, with a start-position window
of 500 pulses: current point at 40 ms, leftover 3 ms, queue time 40 ms. -/
def driftGroup : CtrlGroup :=
  { sampleGroup with
    maxIncrement := fun _ => 500
    jointMotionData := samplePoint 40 5 0
    timeLeftover_ms := 3
    q_time := 40 }

/-- A follow-up point for group 0 at 1 s whose velocity on joint 2 is 3/4, twice
the speed limit 3/8 of the sample group, and 0 on the other joints. -/
def overspeedMsg : SmBodyJointTrajPtFull where
  groupNo := 0
  sequence := 1
  validFields := 7
  time := 1
  pos := fun _ => 0
  vel := fun j => if j = 2 then 3 / 4 else 0
  acc := fun _ => 0
  ioReadAddress := 0

/-! ## A trajectory that the validator accepts -/

/-- The first point of the trajectory: sequence 0 at 0 s, position 0, at rest. -/
def jumpMsg0 : SmBodyJointTrajPtFull := sampleMsg 0 0 0 0

/-- The second point: sequence 1 at 1/256 s (3 ms), position 1000, at rest. -/
def jumpMsg1 : SmBodyJointTrajPtFull := sampleMsg 1 (1 / 256) 1000 0

/-- The controller after the first point. -/
def jumpController1 : Controller :=
  (Ros_MotionServer_JointTrajDataProcess motoRosConsts (samplePrims 0)
    (sampleController sampleGroup) jumpMsg0).1

/-- The controller after the second point. -/
def jumpController2 : Controller :=
  (Ros_MotionServer_JointTrajDataProcess motoRosConsts (samplePrims 0) jumpController1 jumpMsg1).1

/-- The group after the first point, as `Ros_MotionServer_InitTrajPointFull` leaves
it. -/
def jumpGroup1 : CtrlGroup :=
  { sampleGroup with
    jointMotionData := Ros_MotionServer_ConvertToJointMotionData motoRosConsts jumpMsg0
    timeLeftover_ms := 0
    q_time := (Ros_MotionServer_ConvertToJointMotionData motoRosConsts jumpMsg0).time }

/-- The group after the second point, as `Ros_MotionServer_AddTrajPointFull` leaves
it. -/
def jumpGroup2 : CtrlGroup :=
  { jumpGroup1 with
    jointMotionDataToProcess := Ros_MotionServer_ConvertToJointMotionData motoRosConsts jumpMsg1
    hasDataToProcess := true }

/-! ## Messages -/

/-- `SmMsgType`: the message types that `MotionServer.c` names; `other v` is any
other value of `header.msgType`. -/
inductive SmMsgType where
  | ROS_MSG_GET_VERSION
  | ROS_MSG_ROBOT_STATUS
  | ROS_MSG_JOINT_TRAJ_PT_FULL
  | ROS_MSG_JOINT_FEEDBACK
  | ROS_MSG_MOTO_MOTION_CTRL
  | ROS_MSG_MOTO_MOTION_REPLY
  | ROS_MSG_MOTO_JOINT_TRAJ_PT_FULL_EX
  | ROS_MSG_MOTO_JOINT_FEEDBACK_EX
  | ROS_MSG_MOTO_READ_IO_BIT
  | ROS_MSG_MOTO_WRITE_IO_BIT
  | ROS_MSG_MOTO_READ_IO_GROUP
  | ROS_MSG_MOTO_WRITE_IO_GROUP
  | other (v : Int)
  deriving DecidableEq

/-- `SmCommandType`: the commands that `Ros_MotionServer_MotionCtrlProcess`
names; `other v` is any other value of the `command` field. -/
inductive SmCommandType where
  | ROS_CMD_CHECK_MOTION_READY
  | ROS_CMD_CHECK_QUEUE_CNT
  | ROS_CMD_STOP_MOTION
  | ROS_CMD_START_SERVOS
  | ROS_CMD_STOP_SERVOS
  | ROS_CMD_RESET_ALARM
  | ROS_CMD_START_TRAJ_MODE
  | ROS_CMD_STOP_TRAJ_MODE
  | ROS_CMD_DISCONNECT
  | other (v : Int)
  deriving DecidableEq

/-- `SmBodyMotoMotionCtrl`: the body of a `ROS_MSG_MOTO_MOTION_CTRL` message (the
fields that the server reads). -/
structure SmBodyMotoMotionCtrl where
  groupNo : Int
  sequence : Int
  command : SmCommandType

/-- `SmBodyJointTrajPtExData`: one group's point of a multi-group message. -/
structure SmBodyJointTrajPtExData where
  groupNo : Int
  validFields : Int
  time : ℚ
  pos : Nat → ℚ
  vel : Nat → ℚ
  acc : Nat → ℚ

/-- `SmBodyJointTrajPtFullEx`: the body of a
`ROS_MSG_MOTO_JOINT_TRAJ_PT_FULL_EX` message. -/
structure SmBodyJointTrajPtFullEx where
  numberOfValidGroups : Int
  sequence : Int
  jointTrajPtData : Nat → SmBodyJointTrajPtExData

/-- `SmBodyMotoReadIOBit` and `SmBodyMotoReadIOGroup`: the body of a read
request. -/
structure SmBodyMotoReadIOBit where
  ioAddress : Nat

/-- `SmBodyMotoWriteIOBit` and `SmBodyMotoWriteIOGroup`: the body of a write
request. -/
structure SmBodyMotoWriteIOBit where
  ioAddress : Nat
  ioValue : Nat

/-- `SimpleMsg` as a request: the message type of the header and the members of
the body union that the handlers read. -/
structure SimpleMsg where
  msgType : SmMsgType
  jointTrajData : SmBodyJointTrajPtFull
  jointTrajDataEx : SmBodyJointTrajPtFullEx
  motionCtrl : SmBodyMotoMotionCtrl
  readIOBit : SmBodyMotoReadIOBit
  writeIOBit : SmBodyMotoWriteIOBit
  readIOGroup : SmBodyMotoReadIOBit
  writeIOGroup : SmBodyMotoWriteIOBit

/-- `SimpleMsg` as a reply: the member of the body union that was written. -/
inductive ReplyMsg where
  | motionReply (r : MotionReply)
  | versionReply (version : String)
  | readIOBitReply (value : Nat) (resultCode : Int)
  | readIOGroupReply (value : Nat) (resultCode : Int)
  | writeIOBitReply (resultCode : Int)
  | writeIOGroupReply (resultCode : Int)

/-- Modelled from the spec: the sequence number that `Ros_SimpleMsg_MotionReply`
(in `SimpleMessage.c`, not among the sources) copies from the request. -/
def SimpleMsg.sequence (m : SimpleMsg) : Int :=
  match m.msgType with
  | .ROS_MSG_JOINT_TRAJ_PT_FULL => m.jointTrajData.sequence
  | .ROS_MSG_MOTO_MOTION_CTRL => m.motionCtrl.sequence
  | .ROS_MSG_MOTO_JOINT_TRAJ_PT_FULL_EX => m.jointTrajDataEx.sequence
  | _ => 0

/-- The call `Ros_SimpleMsg_MotionReply(receiveMsg, result, subcode, replyMsg,
groupNo)`: the reply buffer afterwards. -/
def motionReplyTo (receiveMsg : SimpleMsg) (result subcode groupNo : Int) : ReplyMsg :=
  ReplyMsg.motionReply (Ros_SimpleMsg_MotionReply receiveMsg.sequence result subcode groupNo)

/-- Sizes, protocol codes and limits of the headers that are not among the
sources. The sizes are `sizeof` values in bytes; `period_pos` records that the
polling period is positive. -/
structure Proto where
  sizeof_SmPrefix : Nat
  sizeof_SmHeader : Nat
  sizeof_int : Nat
  sizeof_SimpleMsg : Nat
  sizeof_SmBodyRobotStatus : Nat
  sizeof_SmBodyJointTrajPtFull : Nat
  sizeof_SmBodyJointFeedback : Nat
  sizeof_SmBodyMotoMotionCtrl : Nat
  sizeof_SmBodyMotoMotionReply : Nat
  sizeof_SmBodyJointTrajPtExData : Nat
  sizeof_SmBodyJointTrajPtFullEx : Nat
  sizeof_SmBodyJointFeedbackEx : Nat
  sizeof_SmBodyMotoReadIOBit : Nat
  sizeof_SmBodyMotoWriteIOBit : Nat
  sizeof_SmBodyMotoReadIOGroup : Nat
  sizeof_SmBodyMotoWriteIOGroup : Nat
  sizeof_version : Nat
  APPLICATION_VERSION : String
  OK : Int
  NG : Int
  ON : Int
  OFF : Int
  ROS_REPLY_SUCCESS : Int
  ROS_REPLY_FAILURE : Int
  MASK_ISALARM_ACTIVEALARM : Int
  MASK_ISALARM_ACTIVEERROR : Int
  MOTION_STOP_TIMEOUT : Int
  MOTION_START_TIMEOUT : Int
  MOTION_START_CHECK_PERIOD : Int
  period_pos : 0 < MOTION_START_CHECK_PERIOD

/-- Sample values in the style of the MotoROS headers, used for concrete runs. -/
def motoRosProto : Proto where
  sizeof_SmPrefix := 4
  sizeof_SmHeader := 12
  sizeof_int := 4
  sizeof_SimpleMsg := 1024
  sizeof_SmBodyRobotStatus := 28
  sizeof_SmBodyJointTrajPtFull := 136
  sizeof_SmBodyJointFeedback := 132
  sizeof_SmBodyMotoMotionCtrl := 52
  sizeof_SmBodyMotoMotionReply := 100
  sizeof_SmBodyJointTrajPtExData := 132
  sizeof_SmBodyJointTrajPtFullEx := 536
  sizeof_SmBodyJointFeedbackEx := 532
  sizeof_SmBodyMotoReadIOBit := 4
  sizeof_SmBodyMotoWriteIOBit := 8
  sizeof_SmBodyMotoReadIOGroup := 4
  sizeof_SmBodyMotoWriteIOGroup := 8
  sizeof_version := 16
  APPLICATION_VERSION := "1.3.5"
  OK := 0
  NG := -1
  ON := 1
  OFF := 0
  ROS_REPLY_SUCCESS := 1
  ROS_REPLY_FAILURE := 2
  MASK_ISALARM_ACTIVEALARM := 2
  MASK_ISALARM_ACTIVEERROR := 1
  MOTION_STOP_TIMEOUT := 20
  MOTION_START_TIMEOUT := 5000
  MOTION_START_CHECK_PERIOD := 50
  period_pos := by decide

example : Int.lor 5 ((3:Int) <<< (16:Int)) = 196613 := by decide
example : Int.land ((Int.lor 5 ((3:Int) <<< (16:Int))) >>> 16) 0xffff = 3 := by decide
/-! ## The rest of the system as a message handler sees it -/

/-- What a status refresh finds: the values that `Ros_Controller_IsMotionReady`,
`..._IsOperating`, ... and `Ros_Controller_GetNotReadySubcode` return after it. -/
structure CtrlStatus where
  motionReady : Bool
  operating : Bool
  eStop : Bool
  hold : Bool
  remote : Bool
  error : Bool
  alarm : Bool
  servoOn : Bool
  ecoMode : Bool
  notReadySubcode : Int

/-- What a reader task observes of the controller and of the other tasks; the
first argument is the number of observations the task has made before.
`status` is what a status refresh finds; `ret` and `err_no` are the return value
and the `err_no` of the primitive called; `sIsAlarm` is the status word that
`mpGetAlarmStatus` delivers; `ioValue k a` is the value that `mpReadIO` stores
for address `a`; `pulsePosCmd k g` is what `Ros_CtrlGroup_GetPulsePosCmd`
delivers for group `g`; `semTake k g` is the outcome of `mpSemTake` on the queue
of group `g`; `sleep k` is what the other tasks do to the groups while the
reader sleeps; `recv` is the byte count and the buffer after `mpRecv`; `send`
is the return value of `mpSend`. `bStopped` is the value that the local
`bStopped` of `Ros_MotionServer_StopMotion` has before it is first assigned. -/
structure Env where
  status : Nat → CtrlStatus
  ret : Nat → Int
  err_no : Nat → Int
  sIsAlarm : Nat → Int
  ioValue : Nat → Nat → Nat
  pulsePosCmd : Nat → Int → Axis → Int
  semTake : Nat → Nat → Bool
  sleep : Nat → (Nat → CtrlGroup) → Nat → CtrlGroup
  recv : Nat → Int × List Nat
  send : Nat → Int
  bStopped : Bool

/-- The state that a handler works on: the controller, the number of
observations made so far, and the primitives called so far, in order. -/
structure Sys where
  c : Controller
  n : Nat
  calls : List PrimCall

/-- One more observation. -/
def Sys.tick (s : Sys) : Sys := { s with n := s.n + 1 }

/-- A call of a primitive: one more observation, and the call is recorded. -/
def Sys.call (s : Sys) (p : PrimCall) : Sys := { s with n := s.n + 1, calls := s.calls ++ [p] }

/-- Modelled from the spec: `Ros_Controller_StatusUpdate` (in `Controller.c`, not
among the sources), "controller status fields refreshed via primitive
`status_update`". -/
def Ros_Controller_StatusUpdate (e : Env) (s : Sys) : Sys :=
  let st := e.status s.n
  { s with
    c := { s.c with
      motionReady := st.motionReady
      operating := st.operating
      eStop := st.eStop
      hold := st.hold
      remote := st.remote
      error := st.error
      alarm := st.alarm
      servoOn := st.servoOn
      ecoMode := st.ecoMode
      notReadySubcode := st.notReadySubcode }
    n := s.n + 1 }

/-- Modelled from the spec: `Ros_Sleep` (not among the sources), a suspension
point of the task; the other tasks run and may change the groups. -/
def Ros_Sleep (e : Env) (s : Sys) : Sys :=
  { s with c := { s.c with ctrlGroups := e.sleep s.n s.c.ctrlGroups }, n := s.n + 1 }

/-- Modelled from the spec: `Ros_Controller_SetIOState` (in `Controller.c`, not
among the sources) sets a signal of the "I/O-state bit representation used to
signal upstream". -/
def Ros_Controller_SetIOState (signal : IoFeedback) (value : Bool) (c : Controller) : Controller :=
  { c with ioState := Function.update c.ioState signal value }

/-! ## I/O handlers -/

/-- `Ros_MotionServer_ReadIOBit`: the return value, the state and the reply. -/
def Ros_MotionServer_ReadIOBit (P : Proto) (e : Env) (s : Sys) (receiveMsg : SimpleMsg) :
    Int × Sys × ReplyMsg :=
  let ulAddr := receiveMsg.readIOBit.ioAddress
  let apiRet := e.ret s.n
  let ioValue := e.ioValue s.n ulAddr
  let resultCode := if apiRet = P.OK then P.ROS_REPLY_SUCCESS else P.ROS_REPLY_FAILURE
  (P.OK, s.call (PrimCall.readIoBits [ulAddr] apiRet), ReplyMsg.readIOBitReply ioValue resultCode)

/-- `Ros_MotionServer_ReadIOGroup`: the return value, the state and the reply. -/
def Ros_MotionServer_ReadIOGroup (P : Proto) (e : Env) (s : Sys) (receiveMsg : SimpleMsg) :
    Int × Sys × ReplyMsg :=
  let ulAddr := (List.range 8).map fun (i : Nat) => receiveMsg.readIOGroup.ioAddress * 10 + i
  let apiRet := e.ret s.n
  let ioValue := fun (i : Nat) => e.ioValue s.n (receiveMsg.readIOGroup.ioAddress * 10 + i)
  let resultValue := (List.range 8).foldl (fun (acc i : Nat) => acc ||| (ioValue i <<< i)) 0
  let resultCode := if apiRet = P.OK then P.ROS_REPLY_SUCCESS else P.ROS_REPLY_FAILURE
  (P.OK, s.call (PrimCall.readIoBits ulAddr apiRet), ReplyMsg.readIOGroupReply resultValue resultCode)

/-- `Ros_MotionServer_WriteIOBit`: the return value, the state and the reply. -/
def Ros_MotionServer_WriteIOBit (P : Proto) (e : Env) (s : Sys) (receiveMsg : SimpleMsg) :
    Int × Sys × ReplyMsg :=
  let ioWriteData := [(receiveMsg.writeIOBit.ioAddress, receiveMsg.writeIOBit.ioValue)]
  let apiRet := e.ret s.n
  let resultCode := if apiRet = P.OK then P.ROS_REPLY_SUCCESS else P.ROS_REPLY_FAILURE
  (P.OK, s.call (PrimCall.writeIoBits ioWriteData apiRet), ReplyMsg.writeIOBitReply resultCode)

/-- `Ros_MotionServer_WriteIOGroup`: the return value, the state and the reply. -/
def Ros_MotionServer_WriteIOGroup (P : Proto) (e : Env) (s : Sys) (receiveMsg : SimpleMsg) :
    Int × Sys × ReplyMsg :=
  let ioWriteData := (List.range 8).map fun (i : Nat) =>
    (receiveMsg.writeIOGroup.ioAddress * 10 + i,
      (receiveMsg.writeIOGroup.ioValue &&& (1 <<< i)) >>> i)
  let apiRet := e.ret s.n
  let resultCode := if apiRet = P.OK then P.ROS_REPLY_SUCCESS else P.ROS_REPLY_FAILURE
  (P.OK, s.call (PrimCall.writeIoBits ioWriteData apiRet), ReplyMsg.writeIOGroupReply resultCode)

/-- `Ros_MotionServer_GetVersion`: the return value and the reply. -/
def Ros_MotionServer_GetVersion (P : Proto) : Int × ReplyMsg :=
  let version :=
    if P.APPLICATION_VERSION.length < P.sizeof_version then P.APPLICATION_VERSION
    else P.APPLICATION_VERSION.take (P.sizeof_version - 1)
  (P.OK, ReplyMsg.versionReply version)
/-! ## Motion control -/

/-- `Ros_MotionServer_ClearQ_All`; `semTake g` is the outcome of `mpSemTake` on the
queue of group `g`. -/
def Ros_MotionServer_ClearQ_All (semTake : Nat → Bool) (c : Controller) : Bool × Controller :=
  (List.range c.numGroup).foldl
    (fun (acc : Bool × Controller) (groupNo : Nat) =>
      let r := Ros_MotionServer_ClearQ (semTake groupNo) acc.2 (groupNo : Int)
      (acc.1 && r.1, r.2))
    (true, c)

/-- The loop `for(checkCnt=0; checkCnt<MOTION_STOP_TIMEOUT; checkCnt++)` of
`Ros_MotionServer_StopMotion` with the given number of iterations left: the value
of `bStopped` after the loop, and the state. -/
def stopPoll (e : Env) : Nat → Bool → Sys → Bool × Sys
  | 0, bStopped, s => (bStopped, s)
  | k + 1, _, s =>
    let bStopped := (List.range s.c.numGroup).all fun (groupNo : Nat) =>
      !(s.c.ctrlGroups groupNo).hasDataToProcess
    if bStopped then (true, s) else stopPoll e k false (Ros_Sleep e s)

/-- `Ros_MotionServer_StopMotion`: the returned `BOOL` and the state. -/
def Ros_MotionServer_StopMotion (P : Proto) (e : Env) (s : Sys) : Bool × Sys :=
  let s1 : Sys := { s with c := { s.c with bStopMotion := true } }
  let r := stopPoll e P.MOTION_STOP_TIMEOUT.toNat e.bStopped s1
  let q := Ros_MotionServer_ClearQ_All (e.semTake r.2.n) r.2.c
  (r.1 && q.1, { r.2 with c := { q.2 with bStopMotion := false }, n := r.2.n + 1 })

/-- The polling loop `for(checkCount=0; checkCount<MOTION_START_TIMEOUT;
checkCount+=MOTION_START_CHECK_PERIOD)` whose body refreshes the status, leaves
the loop when `done` holds, and sleeps otherwise. The first argument bounds the
number of iterations; `MOTION_START_TIMEOUT` of them are enough because the
period is positive. The result tells whether the loop was left from its body. -/
def waitStatus (P : Proto) (e : Env) (done : Controller → Bool) : Nat → Int → Sys → Bool × Sys
  | 0, _, s => (false, s)
  | fuel + 1, checkCount, s =>
    if checkCount < P.MOTION_START_TIMEOUT then
      let s1 := Ros_Controller_StatusUpdate e s
      if done s1.c then (true, s1)
      else waitStatus P e done fuel (checkCount + P.MOTION_START_CHECK_PERIOD) (Ros_Sleep e s1)
    else (false, s)

/-- The loop of `Ros_MotionServer_StartTrajMode` that waits for the alarm reset:
an iteration that finds no alarm goes on with the next one (`continue`) without
sleeping; the loop always runs up to the timeout. -/
def waitAlarmReset (P : Proto) (e : Env) : Nat → Int → Sys → Sys
  | 0, _, s => s
  | fuel + 1, checkCount, s =>
    if checkCount < P.MOTION_START_TIMEOUT then
      let s1 := Ros_Controller_StatusUpdate e s
      if !s1.c.alarm then
        waitAlarmReset P e fuel (checkCount + P.MOTION_START_CHECK_PERIOD) s1
      else
        waitAlarmReset P e fuel (checkCount + P.MOTION_START_CHECK_PERIOD) (Ros_Sleep e s1)
    else s

/-- The loop `for (i = 0; i < 5; i++)` around `mpSetServoPower` with the given
number of iterations left: the last `ret` and `err_no`, and the state. -/
def setServoPowerLoop (e : Env) (sServoPower : Int) : Nat → Int × Int → Sys → (Int × Int) × Sys
  | 0, last, s => (last, s)
  | k + 1, _, s =>
    let ret := e.ret s.n
    let err_no := e.err_no s.n
    let s1 := s.call (PrimCall.setServoPower sServoPower ret err_no)
    if ret = 0 ∧ err_no = 0 then ((ret, err_no), s1)
    else setServoPowerLoop e sServoPower k (ret, err_no) s1

/-- `Ros_MotionServer_DisableEcoMode` (in a build without `DUMMY_SERVO_MODE`): the
returned `STATUS` and the state. -/
def Ros_MotionServer_DisableEcoMode (P : Proto) (e : Env) (s : Sys) : Int × Sys :=
  if s.c.ecoMode then
    let ret := e.ret s.n
    let err_no := e.err_no s.n
    let s1 := s.call (PrimCall.setServoPower 0 ret err_no)
    if ret = 0 ∧ err_no = 0 then
      let r := waitStatus P e (fun c => !c.ecoMode) P.MOTION_START_TIMEOUT.toNat 0 s1
      (if !r.2.c.ecoMode then P.OK else P.NG, r.2)
    else (P.NG, s1)
  else (P.OK, s)

/-- The value of a C `BOOL` as an `int`. -/
def boolToInt (b : Bool) : Int := if b then 1 else 0

/-- `Ros_MotionServer_ServoPower`: the returned `BOOL` and the state. -/
def Ros_MotionServer_ServoPower (P : Proto) (e : Env) (s : Sys) (servoOnOff : Int) : Bool × Sys :=
  let s0 := if servoOnOff = P.OFF then (Ros_MotionServer_StopMotion P e s).2 else s
  let eco : Int × Sys :=
    if servoOnOff = P.ON then Ros_MotionServer_DisableEcoMode P e s0 else (P.OK, s0)
  if servoOnOff = P.ON ∧ eco.1 = P.NG then
    let s1 := Ros_Controller_StatusUpdate e eco.2
    (decide (boolToInt s1.c.servoOn = servoOnOff), s1)
  else
    let r := setServoPowerLoop e servoOnOff 5 (0, 0) eco.2
    let s2 :=
      if r.1.1 = 0 ∧ r.1.2 = 0 then
        (waitStatus P e (fun c => decide (boolToInt c.servoOn = servoOnOff))
          P.MOTION_START_TIMEOUT.toNat 0 r.2).2
      else r.2
    let s3 := Ros_Controller_StatusUpdate e s2
    (decide (boolToInt s3.c.servoOn = servoOnOff), s3)

/-- `Ros_MotionServer_ResetAlarm`: the returned `BOOL` and the state. -/
def Ros_MotionServer_ResetAlarm (P : Proto) (e : Env) (s : Sys) : Bool × Sys :=
  let sIsAlarm := e.sIsAlarm s.n
  let s1 := s.call (PrimCall.getAlarmStatus (e.ret s.n))
  let r1 : Bool × Sys :=
    if Int.land sIsAlarm P.MASK_ISALARM_ACTIVEALARM ≠ 0 then
      let s2 := s1.call (PrimCall.getAlarmCode (e.ret s1.n))
      let ret := e.ret s2.n
      (decide (ret = 0), s2.call (PrimCall.resetAlarm ret))
    else (true, s1)
  let r2 : Bool × Sys :=
    if Int.land sIsAlarm P.MASK_ISALARM_ACTIVEERROR ≠ 0 then
      let s2 := r1.2.call (PrimCall.getAlarmCode (e.ret r1.2.n))
      let ret := e.ret s2.n
      (if ret ≠ 0 then false else r1.1, s2.call (PrimCall.cancelError ret))
    else r1
  (r2.1, Ros_Controller_StatusUpdate e r2.2)

/-- The tail of `Ros_MotionServer_StartTrajMode` from the label `updateStatus`. -/
def updateStatus (K : Consts) (e : Env) (s : Sys) : Int × Sys :=
  let s1 := Ros_Controller_StatusUpdate e s
  if s1.c.motionReady then (K.ROS_RESULT_SUCCESS, s1)
  else (Int.lor K.ROS_RESULT_NOT_READY (s1.c.notReadySubcode <<< (16 : Int)), s1)

/-- The loop of `Ros_MotionServer_StartTrajMode` that stores the commanded pulse
position of each group in its `prevPulsePos`; the groups that exist are those
below `numGroup`. -/
def initPrevPulsePos (e : Env) (s : Sys) : Sys :=
  (List.range s.c.numGroup).foldl
    (fun (s : Sys) (grpNo : Nat) =>
      let g := s.c.ctrlGroups grpNo
      let s1 := s.call (PrimCall.getPulsePosCmd g.groupNo)
      { s1 with c := s1.c.setGroup grpNo { g with prevPulsePos := e.pulsePosCmd s.n g.groupNo } })
    s

/-- The part of `Ros_MotionServer_StartTrajMode` from the start of the job on. -/
def startJobAndWait (K : Consts) (P : Proto) (e : Env) (s : Sys) : Int × Sys :=
  let s1 := initPrevPulsePos e s
  let ret := e.ret s1.n
  let err_no := e.err_no s1.n
  let s2 := s1.call (PrimCall.startJob ret err_no)
  if ret ≠ 0 ∨ err_no ≠ 0 then
    (Int.lor K.ROS_RESULT_MP_FAILURE (err_no <<< (16 : Int)), Ros_Controller_StatusUpdate e s2)
  else
    let r := waitStatus P e (fun c => c.motionReady) P.MOTION_START_TIMEOUT.toNat 0 s2
    if r.1 then (K.ROS_RESULT_SUCCESS, r.2) else updateStatus K e r.2

/-- The part of `Ros_MotionServer_StartTrajMode` from the servo check on (in a
build without `DUMMY_SERVO_MODE`). -/
def servoOnAndStart (K : Consts) (P : Proto) (e : Env) (s : Sys) : Int × Sys :=
  if !s.c.servoOn then
    let eco := Ros_MotionServer_DisableEcoMode P e s
    if eco.1 = P.NG then updateStatus K e eco.2
    else
      let r := setServoPowerLoop e 1 5 (0, 0) eco.2
      if r.1.1 = 0 ∧ r.1.2 = 0 then
        let w := waitStatus P e (fun c => c.servoOn) P.MOTION_START_TIMEOUT.toNat 0 r.2
        if !w.2.c.servoOn then updateStatus K e w.2
        else startJobAndWait K P e w.2
      else updateStatus K e r.2
  else startJobAndWait K P e s

/-- The part of `Ros_MotionServer_StartTrajMode` from the alarm check on. -/
def resetAlarmAndStart (K : Consts) (P : Proto) (e : Env) (s : Sys) : Int × Sys :=
  if s.c.alarm then
    let ret := e.ret s.n
    let s1 := s.call (PrimCall.resetAlarm ret)
    if ret = 0 then
      let s2 := waitAlarmReset P e P.MOTION_START_TIMEOUT.toNat 0 s1
      if s2.c.alarm then updateStatus K e s2
      else servoOnAndStart K P e s2
    else updateStatus K e s1
  else servoOnAndStart K P e s

/-- `Ros_MotionServer_StartTrajMode` (in a build without `DUMMY_SERVO_MODE`): the
result and the state. -/
def Ros_MotionServer_StartTrajMode (K : Consts) (P : Proto) (e : Env) (s : Sys) : Int × Sys :=
  let s1 := Ros_Controller_StatusUpdate e s
  if s1.c.motionReady then (K.ROS_RESULT_SUCCESS, s1)
  else if s1.c.operating then
    (Int.lor K.ROS_RESULT_NOT_READY (s1.c.notReadySubcode <<< (16 : Int)), s1)
  else if s1.c.eStop || s1.c.hold || !s1.c.remote then
    (Int.lor K.ROS_RESULT_NOT_READY (s1.c.notReadySubcode <<< (16 : Int)), s1)
  else if s1.c.error then
    let ret := e.ret s1.n
    let s2 := s1.call (PrimCall.cancelError ret)
    if ret ≠ 0 then updateStatus K e s2
    else resetAlarmAndStart K P e s2
  else resetAlarmAndStart K P e s1

/-- `Ros_MotionServer_StopTrajMode`: the returned `BOOL` and the state. -/
def Ros_MotionServer_StopTrajMode (P : Proto) (e : Env) (s : Sys) : Bool × Sys :=
  if Ros_MotionServer_HasDataInQueue (e.semTake s.n) s.c then (false, s.tick)
  else
    let r := Ros_MotionServer_StopMotion P e s.tick
    if !r.1 then (false, r.2)
    else
      (true, { r.2 with
        c := Ros_Controller_SetIOState IoFeedback.IO_FEEDBACK_MP_INCMOVE_DONE true r.2.c })

/-- `Ros_MotionServer_MotionCtrlProcess`: the return value (1 asks the reader to
close the connection), the state and the reply buffer. A command that the
`switch` does not name leaves the reply buffer as it was. -/
def Ros_MotionServer_MotionCtrlProcess (K : Consts) (P : Proto) (e : Env) (s : Sys)
    (receiveMsg : SimpleMsg) (replyMsg : ReplyMsg) : Int × Sys × ReplyMsg :=
  let motionCtrl := receiveMsg.motionCtrl
  let reply := fun (result subcode : Int) =>
    motionReplyTo receiveMsg result subcode receiveMsg.motionCtrl.groupNo
  let boolReply := fun (bRet : Bool) =>
    if bRet then reply K.ROS_RESULT_SUCCESS 0 else reply K.ROS_RESULT_FAILURE 0
  match motionCtrl.command with
  | .ROS_CMD_CHECK_MOTION_READY =>
    if s.c.motionReady then (0, s, reply K.ROS_RESULT_TRUE 0)
    else (0, s, reply K.ROS_RESULT_FALSE s.c.notReadySubcode)
  | .ROS_CMD_CHECK_QUEUE_CNT =>
    let count := Ros_MotionServer_GetQueueCnt (e.semTake s.n motionCtrl.groupNo.toNat) s.c
      motionCtrl.groupNo
    if count ≥ 0 then (0, s.tick, reply K.ROS_RESULT_TRUE count)
    else (0, s.tick, reply K.ROS_RESULT_FAILURE count)
  | .ROS_CMD_STOP_MOTION =>
    let r := Ros_MotionServer_StopMotion P e s
    (0, r.2, boolReply r.1)
  | .ROS_CMD_START_SERVOS =>
    let r := Ros_MotionServer_ServoPower P e s P.ON
    (0, r.2, boolReply r.1)
  | .ROS_CMD_STOP_SERVOS =>
    let r := Ros_MotionServer_ServoPower P e s P.OFF
    (0, r.2, boolReply r.1)
  | .ROS_CMD_RESET_ALARM =>
    let r := Ros_MotionServer_ResetAlarm P e s
    (0, r.2, boolReply r.1)
  | .ROS_CMD_START_TRAJ_MODE =>
    let r := Ros_MotionServer_StartTrajMode K P e s
    (0, r.2, reply (Int.land r.1 0xffff) (Int.land (r.1 >>> 16) 0xffff))
  | .ROS_CMD_STOP_TRAJ_MODE =>
    let r := Ros_MotionServer_StopTrajMode P e s
    (0, r.2, boolReply r.1)
  | .ROS_CMD_DISCONNECT =>
    let r := Ros_MotionServer_StopTrajMode P e s
    if r.1 then (1, r.2, reply K.ROS_RESULT_SUCCESS 0)
    else (0, r.2, reply K.ROS_RESULT_FAILURE 0)
  | .other _ => (0, s, replyMsg)
/-! ## Multi-group trajectory points -/

/-- The `SmBodyJointTrajPtFull` that `Ros_MotionServer_InitTrajPointFullEx` and
`Ros_MotionServer_AddTrajPointFullEx` build from one group's point. They do not
assign `ioReadAddress`, which the functions they call do not read. -/
def exToFull (jointTrajDataEx : SmBodyJointTrajPtExData) (sequence : Int) :
    SmBodyJointTrajPtFull :=
  { groupNo := jointTrajDataEx.groupNo
    sequence := sequence
    validFields := jointTrajDataEx.validFields
    time := jointTrajDataEx.time
    pos := jointTrajDataEx.pos
    vel := jointTrajDataEx.vel
    acc := jointTrajDataEx.acc
    ioReadAddress := 0 }

/-- `Ros_MotionServer_InitTrajPointFullEx`. -/
def Ros_MotionServer_InitTrajPointFullEx (K : Consts) (curCommandedPos : Axis → Int)
    (g : CtrlGroup) (jointTrajDataEx : SmBodyJointTrajPtExData) (sequence : Int) :
    Int × CtrlGroup :=
  Ros_MotionServer_InitTrajPointFull K curCommandedPos g (exToFull jointTrajDataEx sequence)

/-- `Ros_MotionServer_AddTrajPointFullEx`. -/
def Ros_MotionServer_AddTrajPointFullEx (K : Consts) (g : CtrlGroup)
    (jointTrajDataEx : SmBodyJointTrajPtExData) (sequence : Int) : Int × CtrlGroup :=
  Ros_MotionServer_AddTrajPointFull K g (exToFull jointTrajDataEx sequence)

/-- The pre-check loop of `Ros_MotionServer_JointTrajPtFullExProcess` over the
remaining indices: the reply of the first check that fails, `none` when all
pass. -/
def exPreCheck (K : Consts) (c : Controller) (receiveMsg : SimpleMsg) : List Nat → Option ReplyMsg
  | [] => none
  | i :: rest =>
    let d := receiveMsg.jointTrajDataEx.jointTrajPtData i
    if Ros_Controller_IsValidGroupNo c d.groupNo then
      if (c.ctrlGroups d.groupNo.toNat).hasDataToProcess then
        some (motionReplyTo receiveMsg K.ROS_RESULT_BUSY 0 d.groupNo)
      else if Int.land d.validFields 0x07 ≠ 0x07 then
        some (motionReplyTo receiveMsg K.ROS_RESULT_INVALID
          K.ROS_RESULT_INVALID_DATA_INSUFFICIENT d.groupNo)
      else exPreCheck K c receiveMsg rest
    else
      some (motionReplyTo receiveMsg K.ROS_RESULT_INVALID K.ROS_RESULT_INVALID_GROUPNO d.groupNo)

/-- The second loop of `Ros_MotionServer_JointTrajPtFullExProcess` over the
remaining indices: the state and the reply buffer. -/
def exApply (K : Consts) (p : Prims) (receiveMsg : SimpleMsg) : List Nat → Sys → ReplyMsg →
    Sys × ReplyMsg
  | [], s, replyMsg => (s, replyMsg)
  | i :: rest, s, _ =>
    let msgBody := receiveMsg.jointTrajDataEx
    let d := msgBody.jointTrajPtData i
    let ctrlGroup := s.c.ctrlGroups d.groupNo.toNat
    if msgBody.sequence = 0 then
      let ret := Ros_MotionServer_InitTrajPointFullEx K (p.pulsePosCmd d.groupNo) ctrlGroup d
        msgBody.sequence
      let calls1 := if ctrlGroup.groupNo = d.groupNo then
        [PrimCall.getPulsePosCmd d.groupNo, PrimCall.getFBPulsePos d.groupNo] else []
      let s1 : Sys := { s with c := s.c.setGroup d.groupNo.toNat ret.2, calls := s.calls ++ calls1 }
      if ret.1 = 0 then
        exApply K p receiveMsg rest s1 (motionReplyTo receiveMsg K.ROS_RESULT_SUCCESS 0 d.groupNo)
      else (s1, motionReplyTo receiveMsg K.ROS_RESULT_INVALID ret.1 d.groupNo)
    else if msgBody.sequence > 0 then
      let ret := Ros_MotionServer_AddTrajPointFullEx K ctrlGroup d msgBody.sequence
      let s1 : Sys := { s with c := s.c.setGroup d.groupNo.toNat ret.2 }
      if ret.1 = 0 then
        exApply K p receiveMsg rest s1 (motionReplyTo receiveMsg K.ROS_RESULT_SUCCESS 0 d.groupNo)
      else if ret.1 = 1 then (s1, motionReplyTo receiveMsg K.ROS_RESULT_BUSY 0 d.groupNo)
      else (s1, motionReplyTo receiveMsg K.ROS_RESULT_INVALID ret.1 d.groupNo)
    else
      (s, motionReplyTo receiveMsg K.ROS_RESULT_INVALID K.ROS_RESULT_INVALID_SEQUENCE d.groupNo)

/-- `Ros_MotionServer_JointTrajPtFullExProcess`: the return value, the state and
the reply buffer. Each loop runs over the indices below `numberOfValidGroups`. -/
def Ros_MotionServer_JointTrajPtFullExProcess (K : Consts) (p : Prims) (s : Sys)
    (receiveMsg : SimpleMsg) (replyMsg : ReplyMsg) : Int × Sys × ReplyMsg :=
  let msgBody := receiveMsg.jointTrajDataEx
  let groups := List.range msgBody.numberOfValidGroups.toNat
  if !s.c.motionReady then
    let subcode := s.c.notReadySubcode
    (0, s, groups.foldl
      (fun (_ : ReplyMsg) (i : Nat) =>
        motionReplyTo receiveMsg K.ROS_RESULT_NOT_READY subcode (msgBody.jointTrajPtData i).groupNo)
      replyMsg)
  else
    match exPreCheck K s.c receiveMsg groups with
    | some reply => (0, s, reply)
    | none =>
      let r := exApply K p receiveMsg groups s replyMsg
      (0, r.1, r.2)

/-! ## Message dispatch and the connection reader -/

/-- Conversion of an `int` to `unsigned` (32 bits), as in a comparison of an `int`
with a `sizeof` value. -/
def toUnsigned (x : Int) : Int := x % 4294967296

/-- Conversion of an `unsigned` value to `int` (32 bits, two's complement). -/
def toInt32 (x : Int) : Int := (x + 2147483648) % 4294967296 - 2147483648

/-- The size that a multi-group trajectory message is expected to have, as
`Ros_MotionServer_WaitForSimpleMsg` and `Ros_MotionServer_SimpleMsgProcess` both
compute it from the size of the header part and the byte count. -/
def exExpectedSize (P : Proto) (minSize byteSize : Int) (receiveMsg : SimpleMsg) : Int :=
  if toUnsigned byteSize ≥ toUnsigned (minSize + P.sizeof_int) then
    toInt32 (minSize + P.sizeof_int * 2 +
      P.sizeof_SmBodyJointTrajPtExData * receiveMsg.jointTrajDataEx.numberOfValidGroups)
  else minSize + P.sizeof_SmBodyJointTrajPtFullEx

/-- `Ros_MotionServer_SimpleMsgProcess`: the return value (-1 failure, 0 success,
1 close the connection), the state and the reply buffer. -/
def Ros_MotionServer_SimpleMsgProcess (K : Consts) (P : Proto) (p : Prims) (e : Env) (s : Sys)
    (receiveMsg : SimpleMsg) (byteSize : Int) (replyMsg : ReplyMsg) : Int × Sys × ReplyMsg :=
  let expectedBytes : Int := P.sizeof_SmPrefix + P.sizeof_SmHeader
  -- the end of the function for a case that has set `invalidSubcode` and not `ret`
  let invalid := fun (invalidSubcode : Int) =>
    if invalidSubcode ≠ 0 then
      ((-1 : Int), s, motionReplyTo receiveMsg K.ROS_RESULT_INVALID invalidSubcode 0)
    else ((0 : Int), s, replyMsg)
  match receiveMsg.msgType with
  | .ROS_MSG_GET_VERSION =>
    if expectedBytes = byteSize then
      let r := Ros_MotionServer_GetVersion P
      (r.1, s, r.2)
    else invalid K.ROS_RESULT_INVALID_MSGSIZE
  | .ROS_MSG_JOINT_TRAJ_PT_FULL =>
    if expectedBytes + P.sizeof_SmBodyJointTrajPtFull = byteSize then
      let r := Ros_MotionServer_JointTrajDataProcess K p s.c receiveMsg.jointTrajData
      (0, { s with c := r.1, calls := s.calls ++ r.2.2 }, ReplyMsg.motionReply r.2.1)
    else invalid K.ROS_RESULT_INVALID_MSGSIZE
  | .ROS_MSG_MOTO_MOTION_CTRL =>
    if expectedBytes + P.sizeof_SmBodyMotoMotionCtrl = byteSize then
      Ros_MotionServer_MotionCtrlProcess K P e s receiveMsg replyMsg
    else invalid K.ROS_RESULT_INVALID_MSGSIZE
  | .ROS_MSG_MOTO_JOINT_TRAJ_PT_FULL_EX =>
    if exExpectedSize P expectedBytes byteSize receiveMsg ≤ byteSize then
      Ros_MotionServer_JointTrajPtFullExProcess K p s receiveMsg replyMsg
    else invalid K.ROS_RESULT_INVALID_MSGSIZE
  | .ROS_MSG_MOTO_READ_IO_BIT =>
    if expectedBytes + P.sizeof_SmBodyMotoReadIOBit = byteSize then
      Ros_MotionServer_ReadIOBit P e s receiveMsg
    else invalid K.ROS_RESULT_INVALID_MSGSIZE
  | .ROS_MSG_MOTO_WRITE_IO_BIT =>
    if expectedBytes + P.sizeof_SmBodyMotoWriteIOBit = byteSize then
      Ros_MotionServer_WriteIOBit P e s receiveMsg
    else invalid K.ROS_RESULT_INVALID_MSGSIZE
  | .ROS_MSG_MOTO_READ_IO_GROUP =>
    if expectedBytes + P.sizeof_SmBodyMotoReadIOGroup = byteSize then
      Ros_MotionServer_ReadIOGroup P e s receiveMsg
    else invalid K.ROS_RESULT_INVALID_MSGSIZE
  | .ROS_MSG_MOTO_WRITE_IO_GROUP =>
    if expectedBytes + P.sizeof_SmBodyMotoWriteIOGroup = byteSize then
      Ros_MotionServer_WriteIOGroup P e s receiveMsg
    else invalid K.ROS_RESULT_INVALID_MSGSIZE
  | _ => invalid K.ROS_RESULT_INVALID_MSGTYPE

/-- The locals of `Ros_MotionServer_WaitForSimpleMsg` that live across
iterations; `receiveMsg` is the receive buffer as a list of bytes. -/
structure Reader where
  receiveMsg : List Nat
  replyMsg : ReplyMsg
  byteSize : Int
  bHasPreviousData : Bool
  bDisconnect : Bool

/-- What the reader does that is visible from outside: a call of `mpRecv` with
the byte count it returned, a call of `Ros_MotionServer_SimpleMsgProcess` with the
buffer and the size it is given, a call of `mpSend` with the reply and the
return value. -/
inductive ReaderEvent where
  | recv (byteSize : Int)
  | process (receiveMsg : List Nat) (expectedSize : Int)
  | send (replyMsg : ReplyMsg) (byteSizeResponse : Int)

/-- The computation of `expectedSize` and `bInvalidMsgType` in
`Ros_MotionServer_WaitForSimpleMsg`. -/
def expectedSizeOf (P : Proto) (receiveMsg : SimpleMsg) (byteSize : Int) : Int × Bool :=
  let minSize : Int := P.sizeof_SmPrefix + P.sizeof_SmHeader
  if byteSize ≥ minSize then
    match receiveMsg.msgType with
    | .ROS_MSG_GET_VERSION => (minSize, false)
    | .ROS_MSG_ROBOT_STATUS => (minSize + P.sizeof_SmBodyRobotStatus, false)
    | .ROS_MSG_JOINT_TRAJ_PT_FULL => (minSize + P.sizeof_SmBodyJointTrajPtFull, false)
    | .ROS_MSG_JOINT_FEEDBACK => (minSize + P.sizeof_SmBodyJointFeedback, false)
    | .ROS_MSG_MOTO_MOTION_CTRL => (minSize + P.sizeof_SmBodyMotoMotionCtrl, false)
    | .ROS_MSG_MOTO_MOTION_REPLY => (minSize + P.sizeof_SmBodyMotoMotionReply, false)
    | .ROS_MSG_MOTO_JOINT_TRAJ_PT_FULL_EX => (exExpectedSize P minSize byteSize receiveMsg, false)
    | .ROS_MSG_MOTO_JOINT_FEEDBACK_EX => (minSize + P.sizeof_SmBodyJointFeedbackEx, false)
    | .ROS_MSG_MOTO_READ_IO_BIT => (minSize + P.sizeof_SmBodyMotoReadIOBit, false)
    | .ROS_MSG_MOTO_WRITE_IO_BIT => (minSize + P.sizeof_SmBodyMotoWriteIOBit, false)
    | .ROS_MSG_MOTO_READ_IO_GROUP => (minSize + P.sizeof_SmBodyMotoReadIOGroup, false)
    | .ROS_MSG_MOTO_WRITE_IO_GROUP => (minSize + P.sizeof_SmBodyMotoWriteIOGroup, false)
    | .other _ => (-1, true)
  else (-1, false)

/-- The C library function `memmove(buf, buf + src, cnt)` on a buffer given as a
list of bytes. -/
def memmove (buf : List Nat) (src cnt : Nat) : List Nat :=
  (buf.drop src).take cnt ++ buf.drop cnt

/-- The outcome of one iteration of the loop of
`Ros_MotionServer_WaitForSimpleMsg`: the locals, the state, what the iteration
did, and whether the loop goes on (it does not after a `break`). -/
structure ReaderStep where
  r : Reader
  s : Sys
  events : List ReaderEvent
  goesOn : Bool

/-- The part of an iteration of `Ros_MotionServer_WaitForSimpleMsg` between the
receipt and the sending of the reply: the locals, the state and the events. -/
def waitHandle (K : Consts) (P : Proto) (p : Prims) (e : Env) (decode : List Nat → SimpleMsg)
    (r : Reader) (s : Sys) : Reader × Sys × List ReaderEvent :=
  let receiveMsg := decode r.receiveMsg
  let sz := expectedSizeOf P receiveMsg r.byteSize
  let expectedSize := sz.1
  let bInvalidMsgType := sz.2
  if r.byteSize ≥ expectedSize ∧ toUnsigned expectedSize ≤ P.sizeof_SimpleMsg then
    let h := Ros_MotionServer_SimpleMsgProcess K P p e s receiveMsg expectedSize r.replyMsg
    let ev := [ReaderEvent.process r.receiveMsg expectedSize]
    if h.1 = 1 then
      ({ r with replyMsg := h.2.2, bHasPreviousData := false, bDisconnect := true }, h.2.1, ev)
    else if r.byteSize > expectedSize then
      ({ r with
          replyMsg := h.2.2
          receiveMsg := memmove r.receiveMsg expectedSize.toNat (r.byteSize - expectedSize).toNat
          byteSize := r.byteSize - expectedSize
          bHasPreviousData := true }, h.2.1, ev)
    else ({ r with replyMsg := h.2.2, bHasPreviousData := false }, h.2.1, ev)
  else if bInvalidMsgType then
    ({ r with
        replyMsg := motionReplyTo receiveMsg K.ROS_RESULT_INVALID K.ROS_RESULT_INVALID_MSGTYPE 0
        bHasPreviousData := false }, s, [])
  else
    ({ r with
        replyMsg := motionReplyTo receiveMsg K.ROS_RESULT_INVALID K.ROS_RESULT_INVALID_MSGSIZE 0
        bHasPreviousData := false }, s, [])

/-- One iteration of the loop of `Ros_MotionServer_WaitForSimpleMsg`. `decode`
reads the bytes of the receive buffer as a `SimpleMsg` (the layout is declared in
headers that are not among the sources). -/
def waitStep (K : Consts) (P : Proto) (p : Prims) (e : Env) (decode : List Nat → SimpleMsg)
    (r : Reader) (s : Sys) : ReaderStep :=
  let s0 := Ros_Sleep e s
  if !r.bHasPreviousData ∧ (e.recv s0.n).1 ≤ 0 then
    { r := { r with receiveMsg := (e.recv s0.n).2, byteSize := (e.recv s0.n).1 }
      s := s0.tick
      events := [ReaderEvent.recv (e.recv s0.n).1]
      goesOn := false }
  else
    let r1 : Reader :=
      if !r.bHasPreviousData then
        { r with receiveMsg := (e.recv s0.n).2, byteSize := (e.recv s0.n).1 }
      else r
    let s1 := if !r.bHasPreviousData then s0.tick else s0
    let ev1 := if !r.bHasPreviousData then [ReaderEvent.recv (e.recv s0.n).1] else []
    let h := waitHandle K P p e decode r1 s1
    let byteSizeResponse := e.send h.2.1.n
    { r := h.1
      s := h.2.1.tick
      events := ev1 ++ h.2.2 ++ [ReaderEvent.send h.1.replyMsg byteSizeResponse]
      goesOn := decide (byteSizeResponse > 0) }

/-- At most `k` iterations of the loop of `Ros_MotionServer_WaitForSimpleMsg`:
the locals, the state and the events, in order. -/
def waitLoop (K : Consts) (P : Proto) (p : Prims) (e : Env) (decode : List Nat → SimpleMsg) :
    Nat → Reader → Sys → Reader × Sys × List ReaderEvent
  | 0, r, s => (r, s, [])
  | k + 1, r, s =>
    if r.bDisconnect then (r, s, [])
    else
      let x := waitStep K P p e decode r s
      if x.goesOn then
        let y := waitLoop K P p e decode k x.r x.s
        (y.1, y.2.1, x.events ++ y.2.2)
      else (x.r, x.s, x.events)

/-! ## An I/O store -/

/-- An I/O store (address to value) after a `mpWriteIO` of `data`: the entries
are written in order. -/
def ioStoreWrite (io : Nat → Nat) (data : List (Nat × Nat)) : Nat → Nat :=
  data.foldl (fun (io : Nat → Nat) (d : Nat × Nat) => Function.update io d.1 d.2) io
/-! ## Sample data for runs of the message handlers -/

/-- A status in which the controller is ready for motion. -/
def readyStatus : CtrlStatus where
  motionReady := true
  operating := false
  eStop := false
  hold := false
  remote := true
  error := false
  alarm := false
  servoOn := true
  ecoMode := false
  notReadySubcode := 0

/-- An environment in which the controller is ready, every primitive succeeds,
every semaphore is free, the other tasks leave the groups alone, nothing is
received and every send delivers 16 bytes. -/
def quietEnv : Env where
  status := fun _ => readyStatus
  ret := fun _ => 0
  err_no := fun _ => 0
  sIsAlarm := fun _ => 0
  ioValue := fun _ _ => 0
  pulsePosCmd := fun _ _ _ => 0
  semTake := fun _ _ => true
  sleep := fun _ groups => groups
  recv := fun _ => (0, [])
  send := fun _ => 16
  bStopped := false

/-- A handler state with no observation and no call made so far. -/
def startSys (c : Controller) : Sys where
  c := c
  n := 0
  calls := []

/-- A request of the given type whose body members are all zero. -/
def sampleRequest (msgType : SmMsgType) : SimpleMsg where
  msgType := msgType
  jointTrajData := sampleMsg 0 0 0 0
  jointTrajDataEx := SmBodyJointTrajPtFullEx.mk 0 0
    (fun _ => SmBodyJointTrajPtExData.mk 0 0 0 (fun _ => 0) (fun _ => 0) (fun _ => 0))
  motionCtrl := SmBodyMotoMotionCtrl.mk 0 0 SmCommandType.ROS_CMD_CHECK_MOTION_READY
  readIOBit := SmBodyMotoReadIOBit.mk 0
  writeIOBit := SmBodyMotoWriteIOBit.mk 0 0
  readIOGroup := SmBodyMotoReadIOBit.mk 0
  writeIOGroup := SmBodyMotoWriteIOBit.mk 0 0

/-- A request to write the value 421 to the I/O group 1001. -/
def groupWriteRequest : SimpleMsg :=
  { sampleRequest SmMsgType.ROS_MSG_MOTO_WRITE_IO_GROUP with
    writeIOGroup := SmBodyMotoWriteIOBit.mk 1001 421 }

/-- A request to read the I/O group 1001. -/
def groupReadRequest : SimpleMsg :=
  { sampleRequest SmMsgType.ROS_MSG_MOTO_READ_IO_GROUP with
    readIOGroup := SmBodyMotoReadIOBit.mk 1001 }

/-- An environment whose I/O is an all-zero store to which the group write of
`groupWriteRequest` has been applied. -/
def groupEnv : Env :=
  { quietEnv with
    ioValue := fun _ => ioStoreWrite (fun _ => 0)
      ((List.range 8).map fun (i : Nat) => (1001 * 10 + i, (421 >>> i) &&& 1)) }
/-- An environment in which the first primitive called fails (returns -1) and
no alarm or error is active. -/
def firstCallFailsEnv : Env :=
  { quietEnv with ret := fun n => if n = 0 then -1 else 0 }
/-- An environment in which the controller is found in emergency stop. -/
def eStopEnv : Env :=
  { quietEnv with
    status := fun _ => { readyStatus with motionReady := false, eStop := true, notReadySubcode := 5002 } }
/-- The motion reply that a reply buffer holds, if it holds one. -/
def ReplyMsg.motion : ReplyMsg → Option MotionReply
  | ReplyMsg.motionReply r => some r
  | _ => none

/-- An environment in which no queue lock can be taken at the first
observation, and every lock is free afterwards. -/
def lockedOnceEnv : Env :=
  { quietEnv with semTake := fun n _ => decide (n ≠ 0) }

/-- A motion-control request with the given command, for group 0. -/
def ctrlRequest (command : SmCommandType) : SimpleMsg :=
  { sampleRequest SmMsgType.ROS_MSG_MOTO_MOTION_CTRL with
    motionCtrl := SmBodyMotoMotionCtrl.mk 0 0 command }

/-- A motion-ready controller whose one group has an entry in its queue and no
pending point. -/
def loadedController : Controller :=
  sampleController { sampleGroup with inc_q := singletonQ 0 (sampleInc 4 1) }
/-- The size of the body of a message of a type of fixed size, as the `switch`
of `Ros_MotionServer_WaitForSimpleMsg` has it; `none` for the multi-group
trajectory message, whose size varies, and for a type that is not recognised. -/
def fixedBodySize (P : Proto) : SmMsgType → Option Nat
  | .ROS_MSG_GET_VERSION => some 0
  | .ROS_MSG_ROBOT_STATUS => some P.sizeof_SmBodyRobotStatus
  | .ROS_MSG_JOINT_TRAJ_PT_FULL => some P.sizeof_SmBodyJointTrajPtFull
  | .ROS_MSG_JOINT_FEEDBACK => some P.sizeof_SmBodyJointFeedback
  | .ROS_MSG_MOTO_MOTION_CTRL => some P.sizeof_SmBodyMotoMotionCtrl
  | .ROS_MSG_MOTO_MOTION_REPLY => some P.sizeof_SmBodyMotoMotionReply
  | .ROS_MSG_MOTO_JOINT_TRAJ_PT_FULL_EX => none
  | .ROS_MSG_MOTO_JOINT_FEEDBACK_EX => some P.sizeof_SmBodyJointFeedbackEx
  | .ROS_MSG_MOTO_READ_IO_BIT => some P.sizeof_SmBodyMotoReadIOBit
  | .ROS_MSG_MOTO_WRITE_IO_BIT => some P.sizeof_SmBodyMotoWriteIOBit
  | .ROS_MSG_MOTO_READ_IO_GROUP => some P.sizeof_SmBodyMotoReadIOGroup
  | .ROS_MSG_MOTO_WRITE_IO_GROUP => some P.sizeof_SmBodyMotoWriteIOGroup
  | .other _ => none

/-- The byte count that an iteration of the reader works on: the count carried
over, or the count that `mpRecv` returns. -/
def Reader.bytesIn (e : Env) (r : Reader) (s : Sys) : Int :=
  if r.bHasPreviousData then r.byteSize else (e.recv (s.n + 1)).1

/-- The buffer that an iteration of the reader works on: the buffer carried
over, or the buffer after `mpRecv`. -/
def Reader.bufferIn (e : Env) (r : Reader) (s : Sys) : List Nat :=
  if r.bHasPreviousData then r.receiveMsg else (e.recv (s.n + 1)).2

/-- An iteration of the reader that does not call the message dispatch and
answers INVALID with the given subcode: the reply buffer holds that reply, the
iteration sends it once (after the `mpRecv`, if it has made one), `bDisconnect`
is as before, no primitive is called, the controller is as the sleep at the start
of the iteration left it, and the loop goes on exactly when the send returned a
positive count. -/
def FramingError (K : Consts) (e : Env) (decode : List Nat → SimpleMsg) (r : Reader) (s : Sys)
    (st : ReaderStep) (subcode : Int) : Prop :=
  st.r.replyMsg = motionReplyTo (decode (r.bufferIn e s)) K.ROS_RESULT_INVALID subcode 0 ∧
  st.events = (if r.bHasPreviousData then [] else [ReaderEvent.recv (r.bytesIn e s)]) ++
    [ReaderEvent.send st.r.replyMsg (e.send (st.s.n - 1))] ∧
  st.r.bDisconnect = r.bDisconnect ∧
  st.s.calls = s.calls ∧
  st.s.c = (Ros_Sleep e s).c ∧
  (st.goesOn = true ↔ 0 < e.send (st.s.n - 1))

/-- A way to read a buffer as a message, for concrete runs: byte 0 is the type
(1 motion control, 2 version, 3 group read, 4 multi-group trajectory point with
no group; anything else is not recognised),
byte 1 the command of a motion control message (1 check ready, 2 disconnect,
3 stop trajectory mode; anything else is not named by the handler). -/
def sampleDecode (buf : List Nat) : SimpleMsg :=
  let command :=
    if buf.getD 1 0 = 1 then SmCommandType.ROS_CMD_CHECK_MOTION_READY
    else if buf.getD 1 0 = 2 then SmCommandType.ROS_CMD_DISCONNECT
    else if buf.getD 1 0 = 3 then SmCommandType.ROS_CMD_STOP_TRAJ_MODE
    else SmCommandType.other (buf.getD 1 0)
  let msgType :=
    if buf.getD 0 0 = 1 then SmMsgType.ROS_MSG_MOTO_MOTION_CTRL
    else if buf.getD 0 0 = 2 then SmMsgType.ROS_MSG_GET_VERSION
    else if buf.getD 0 0 = 3 then SmMsgType.ROS_MSG_MOTO_READ_IO_GROUP
    else if buf.getD 0 0 = 4 then SmMsgType.ROS_MSG_MOTO_JOINT_TRAJ_PT_FULL_EX
    else SmMsgType.other (buf.getD 0 0)
  { sampleRequest msgType with motionCtrl := SmBodyMotoMotionCtrl.mk 0 0 command }

/-- The locals of the reader at the start of the task. -/
def startReader (replyMsg : ReplyMsg) : Reader where
  receiveMsg := []
  replyMsg := replyMsg
  byteSize := 0
  bHasPreviousData := false
  bDisconnect := false

/-- An environment in which every `mpRecv` delivers the given bytes. -/
def recvEnv (bytes : List Nat) : Env :=
  { quietEnv with recv := fun _ => ((bytes.length : Int), bytes) }

/-- The bytes of a message of type `t` (see `sampleDecode`) with second byte `c`
and `n` bytes in all. -/
def msgBytes (t c n : Nat) : List Nat := [t, c] ++ List.replicate (n - 2) 0

/-- The invalid subcodes. -/
def invalidSubcodes (K : Consts) : List Int :=
  [K.ROS_RESULT_INVALID_MSGTYPE, K.ROS_RESULT_INVALID_MSGSIZE, K.ROS_RESULT_INVALID_GROUPNO,
    K.ROS_RESULT_INVALID_SEQUENCE, K.ROS_RESULT_INVALID_DATA_INSUFFICIENT,
    K.ROS_RESULT_INVALID_DATA_START_POS, K.ROS_RESULT_INVALID_DATA_SPEED,
    K.ROS_RESULT_INVALID_READIO, K.ROS_RESULT_INVALID_GETFBPULSEPOS]

/-- A reply buffer that does not hold a motion reply with result INVALID and a
subcode that is not one of the invalid subcodes. -/
def InvalidHasSubcode (K : Consts) (reply : ReplyMsg) : Prop :=
  ∀ r, reply.motion = some r → r.result = K.ROS_RESULT_INVALID → r.subcode ∈ invalidSubcodes K

/-- What the handlers assume of the result codes: INVALID differs from the other
result codes, BUSY is the value 1 that the callers of
`Ros_MotionServer_AddTrajPointFull` test for, and the codes that
`Ros_MotionServer_StartTrajMode` packs with a subcode are below `2^16`. -/
def ResultCodes (K : Consts) : Prop :=
  K.ROS_RESULT_INVALID ≠ K.ROS_RESULT_SUCCESS ∧
  K.ROS_RESULT_INVALID ≠ K.ROS_RESULT_TRUE ∧
  K.ROS_RESULT_INVALID ≠ K.ROS_RESULT_FALSE ∧
  K.ROS_RESULT_INVALID ≠ K.ROS_RESULT_FAILURE ∧
  K.ROS_RESULT_INVALID ≠ K.ROS_RESULT_BUSY ∧
  K.ROS_RESULT_INVALID ≠ K.ROS_RESULT_NOT_READY ∧
  K.ROS_RESULT_INVALID ≠ K.ROS_RESULT_MP_FAILURE ∧
  K.ROS_RESULT_BUSY = 1 ∧
  (0 ≤ K.ROS_RESULT_SUCCESS ∧ K.ROS_RESULT_SUCCESS < 65536) ∧
  (0 ≤ K.ROS_RESULT_NOT_READY ∧ K.ROS_RESULT_NOT_READY < 65536) ∧
  (0 ≤ K.ROS_RESULT_MP_FAILURE ∧ K.ROS_RESULT_MP_FAILURE < 65536)

/-- Primitives of which `mpReadIO` fails. -/
def noReadPrims : Prims :=
  { samplePrims 0 with readIo := fun _ => none }

/-- A trajectory point for group 0 that asks for an I/O read (bit 4 of the
validity bitmap). -/
def readIoPoint : SmBodyJointTrajPtFull :=
  { sampleMsg 1 0 0 0 with validFields := 23 }

/-! ## What a run of the reader did -/

/-- The bytes handed to each call of the message dispatch, in order: the first
`expectedSize` bytes of the buffer at the time of the call. -/
def dispatched : List ReaderEvent → List (List Nat)
  | [] => []
  | ReaderEvent.process receiveMsg expectedSize :: rest =>
    receiveMsg.take expectedSize.toNat :: dispatched rest
  | ReaderEvent.recv _ :: rest => dispatched rest
  | ReaderEvent.send _ _ :: rest => dispatched rest

/-- The number of calls of `mpRecv`. -/
def recvCount : List ReaderEvent → Nat
  | [] => 0
  | ReaderEvent.recv _ :: rest => recvCount rest + 1
  | ReaderEvent.process _ _ :: rest => recvCount rest
  | ReaderEvent.send _ _ :: rest => recvCount rest

/-- The number of calls of `mpSend`. -/
def sendCount : List ReaderEvent → Nat
  | [] => 0
  | ReaderEvent.send _ _ :: rest => sendCount rest + 1
  | ReaderEvent.process _ _ :: rest => sendCount rest
  | ReaderEvent.recv _ :: rest => sendCount rest

/-- Some call of `mpSend` did not return a positive count. -/
def sendFailed : List ReaderEvent → Prop
  | [] => False
  | ReaderEvent.send _ byteSizeResponse :: rest => byteSizeResponse ≤ 0 ∨ sendFailed rest
  | ReaderEvent.process _ _ :: rest => sendFailed rest
  | ReaderEvent.recv _ :: rest => sendFailed rest

/-- The type of a message is read from its first `sizeof(SmPrefix) +
sizeof(SmHeader)` bytes. -/
def HeaderDecidesType (P : Proto) (decode : List Nat → SimpleMsg) : Prop :=
  ∀ buf1 buf2 : List Nat,
    buf1.take (P.sizeof_SmPrefix + P.sizeof_SmHeader)
      = buf2.take (P.sizeof_SmPrefix + P.sizeof_SmHeader) →
    (decode buf1).msgType = (decode buf2).msgType

/-- Each of `msgs` is a complete message of a type of fixed size: it has the size
expected for its type, and this size is at most `sizeof(SimpleMsg)`. -/
def FixedSizeMsgs (P : Proto) (decode : List Nat → SimpleMsg) (msgs : List (List Nat)) : Prop :=
  ∀ m, m ∈ msgs → ∃ n : Nat, fixedBodySize P (decode m).msgType = some n ∧
    m.length = P.sizeof_SmPrefix + P.sizeof_SmHeader + n ∧ m.length ≤ P.sizeof_SimpleMsg

/-- The state in which an iteration of the reader hands the buffer to the
message dispatch: after the sleep, and after the `mpRecv` if it makes one. -/
def Reader.sysIn (e : Env) (r : Reader) (s : Sys) : Sys :=
  if r.bHasPreviousData then Ros_Sleep e s else (Ros_Sleep e s).tick

/-- Two messages back to back: a motion control message with the command
"check motion ready" and a version request. -/
def twoRequests : List (List Nat) := [msgBytes 1 1 68, msgBytes 2 0 16]

/-- Two messages back to back: a motion control message with the command
"disconnect" and a version request. -/
def disconnectFirst : List (List Nat) := [msgBytes 1 2 68, msgBytes 2 0 16]

/-! ## The dispatcher's merge test and the interpolation polynomial -/

/-- The test that the merge loop of `Ros_MotionServer_IncMoveLoopStart` makes on
the entry `e` at the front of the queue, `head` being the entry that the tick
popped first and `q_time` the local `q_time` of the loop: the entry is merged
when this holds. -/
def mergesWith (interpolPeriod q_time : Int) (head e : Incremental_data) : Bool :=
  decide ((q_time ≤ e.time ∧ e.time - q_time ≤ interpolPeriod)
    ∧ ¬ (head.tool ≠ e.tool ∨ head.frame ≠ e.frame ∨ head.user ≠ e.user))

/-- The value that the loop of `Ros_MotionServer_JointTrajDataToIncQueue` assigns
to `curTrajData->pos[i]`, as a function of `interpolTime`. -/
def curTrajPos (L : IncLocals) (i : Axis) (interpolTime : ℚ) : ℚ :=
  L.startTrajData.pos i + L.startTrajData.vel i * interpolTime
    + L.accCoef1 i * interpolTime * interpolTime / 2
    + L.accCoef2 i * interpolTime * interpolTime * interpolTime / 6

/-- The value that the loop assigns to `curTrajData->vel[i]`, as a function of
`interpolTime`. -/
def curTrajVel (L : IncLocals) (i : Axis) (interpolTime : ℚ) : ℚ :=
  L.startTrajData.vel i + L.accCoef1 i * interpolTime
    + L.accCoef2 i * interpolTime * interpolTime / 2

/-- A queue with the two entries `d1` and `d2`, in this order, from slot 0. -/
def pairQ (d1 d2 : Incremental_data) : Incremental_q where
  cnt := 2
  idx := 0
  data := fun k => if k = 0 then d1 else d2

/-! ## Connections -/

/-- The constants of the missing headers that the connection functions use. -/
structure TaskConsts where
  MAX_MOTION_CONNECTIONS : Nat
  INVALID_SOCKET : Int
  INVALID_TASK : Int
  ERROR : Int

/-- The entry point and arguments of a task that `Ros_MotionServer_StartNewConnection`
creates. -/
inductive TaskEntry where
  | Ros_MotionServer_IncMoveLoopStart
  | Ros_MotionServer_AddToIncQueueProcess (groupNo : Nat)
  | Ros_MotionServer_WaitForSimpleMsg (connectionIndex : Nat)
  deriving DecidableEq

/-- A call of `mpClose`, of `mpCreateTask` (with the value it returned) or of
`mpDeleteTask`. -/
inductive TaskCall where
  | mpClose (sd : Int)
  | mpCreateTask (entry : TaskEntry) (tid : Int)
  | mpDeleteTask (tid : Int)
  deriving DecidableEq

/-- The state that the connection functions work on: the controller, its tables
`sdMotionConnections` and `tidMotionConnections`, its `tidIncMoveThread`, the
`tidAddToIncQueue` of every group (indexed by the group number), and the calls of
the task and socket primitives made so far. -/
structure Server where
  c : Controller
  sdMotionConnections : Nat → Int
  tidMotionConnections : Nat → Int
  tidIncMoveThread : Int
  tidAddToIncQueue : Nat → Int
  calls : List TaskCall

/-- The `for` loop over the groups in `Ros_MotionServer_StartNewConnection`, over
the remaining group numbers; `mpCreateTask` gives the value that the primitive
returns. The flag is `false` when the function returned from within the loop. -/
def startGroupTasks (T : TaskConsts) (mpCreateTask : TaskEntry → Int) (sd : Int) :
    List Nat → Server → Bool × Server
  | [], v => (true, v)
  | groupNo :: rest, v =>
    if v.tidAddToIncQueue groupNo = T.INVALID_TASK then
      let tid := mpCreateTask (TaskEntry.Ros_MotionServer_AddToIncQueueProcess groupNo)
      let created := TaskCall.mpCreateTask (TaskEntry.Ros_MotionServer_AddToIncQueueProcess groupNo) tid
      if tid = T.ERROR then
        (false, { v with
          tidAddToIncQueue := Function.update v.tidAddToIncQueue groupNo T.INVALID_TASK
          calls := v.calls ++ [created, TaskCall.mpClose sd]
          c := Ros_Controller_SetIOState IoFeedback.IO_FEEDBACK_FAILURE true v.c })
      else
        startGroupTasks T mpCreateTask sd rest
          { v with tidAddToIncQueue := Function.update v.tidAddToIncQueue groupNo tid
                   calls := v.calls ++ [created] }
    else startGroupTasks T mpCreateTask sd rest v

/-- The part of `Ros_MotionServer_StartNewConnection` that starts the dispatcher
task if it is not running. The flag is `false` when the function returned here. -/
def startIncMoveTask (T : TaskConsts) (mpCreateTask : TaskEntry → Int) (sd : Int) (v : Server) :
    Bool × Server :=
  if v.tidIncMoveThread = T.INVALID_TASK then
    let tid := mpCreateTask TaskEntry.Ros_MotionServer_IncMoveLoopStart
    let created := TaskCall.mpCreateTask TaskEntry.Ros_MotionServer_IncMoveLoopStart tid
    if tid = T.ERROR then
      (false, { v with
        tidIncMoveThread := T.INVALID_TASK
        calls := v.calls ++ [created, TaskCall.mpClose sd]
        c := Ros_Controller_SetIOState IoFeedback.IO_FEEDBACK_FAILURE true v.c })
    else (true, { v with tidIncMoveThread := tid, calls := v.calls ++ [created] })
  else (true, v)

/-- The last part of `Ros_MotionServer_StartNewConnection`: the reader task of the
slot `connectionIndex`. -/
def startReaderTask (T : TaskConsts) (mpCreateTask : TaskEntry → Int) (sd : Int)
    (connectionIndex : Nat) (v : Server) : Server :=
  if v.tidMotionConnections connectionIndex = T.INVALID_TASK then
    let tid := mpCreateTask (TaskEntry.Ros_MotionServer_WaitForSimpleMsg connectionIndex)
    let created :=
      TaskCall.mpCreateTask (TaskEntry.Ros_MotionServer_WaitForSimpleMsg connectionIndex) tid
    if tid ≠ T.ERROR then
      { v with
        tidMotionConnections := Function.update v.tidMotionConnections connectionIndex tid
        calls := v.calls ++ [created]
        c := Ros_Controller_SetIOState IoFeedback.IO_FEEDBACK_MOTIONSERVERCONNECTED true v.c }
    else
      { v with
        sdMotionConnections := Function.update v.sdMotionConnections connectionIndex T.INVALID_SOCKET
        tidMotionConnections :=
          Function.update v.tidMotionConnections connectionIndex T.INVALID_TASK
        calls := v.calls ++ [created, TaskCall.mpClose sd]
        c := Ros_Controller_SetIOState IoFeedback.IO_FEEDBACK_FAILURE true v.c }
  else v

/-- `Ros_MotionServer_StartNewConnection`; `mpCreateTask` gives the value that the
primitive returns for each task. -/
def Ros_MotionServer_StartNewConnection (T : TaskConsts) (mpCreateTask : TaskEntry → Int)
    (v : Server) (sd : Int) : Server :=
  match (List.range T.MAX_MOTION_CONNECTIONS).find?
      (fun connectionIndex => decide (v.sdMotionConnections connectionIndex = T.INVALID_SOCKET)) with
  | none => { v with calls := v.calls ++ [TaskCall.mpClose sd] }
  | some connectionIndex =>
    let v1 : Server :=
      { v with sdMotionConnections := Function.update v.sdMotionConnections connectionIndex sd }
    let r2 := startIncMoveTask T mpCreateTask sd v1
    if !r2.1 then r2.2
    else
      let r3 := startGroupTasks T mpCreateTask sd (List.range r2.2.c.numGroup) r2.2
      if !r3.1 then r3.2
      else startReaderTask T mpCreateTask sd connectionIndex r3.2

/-- The `for` loop over the groups in `Ros_MotionServer_StopConnection`, over the
remaining group numbers. -/
def stopGroupTasks (T : TaskConsts) : List Nat → Server → Server
  | [], v => v
  | i :: rest, v =>
    let tid := v.tidAddToIncQueue i
    stopGroupTasks T rest
      { v with
        c := v.c.setGroup i { v.c.ctrlGroups i with hasDataToProcess := false }
        tidAddToIncQueue := Function.update v.tidAddToIncQueue i T.INVALID_TASK
        calls := v.calls ++ [TaskCall.mpDeleteTask tid] }

/-- `Ros_MotionServer_StopConnection`. The loop that looks for a connection that
is still valid runs over `i` below `MAX_MOTION_CONNECTIONS` and tests
`sdMotionConnections[connectionIndex]`, as in the source. -/
def Ros_MotionServer_StopConnection (T : TaskConsts) (v : Server) (connectionIndex : Nat) :
    Server :=
  let v1 : Server :=
    { v with
      calls := v.calls ++ [TaskCall.mpClose (v.sdMotionConnections connectionIndex)]
      sdMotionConnections := Function.update v.sdMotionConnections connectionIndex T.INVALID_SOCKET }
  let bDeleteIncMovTask : Bool :=
    !(List.range T.MAX_MOTION_CONNECTIONS).any
      fun (_ : Nat) => decide (v1.sdMotionConnections connectionIndex ≠ T.INVALID_SOCKET)
  let v2 : Server :=
    if bDeleteIncMovTask then
      let v3 := stopGroupTasks T (List.range v1.c.numGroup)
        { v1 with c := Ros_Controller_SetIOState IoFeedback.IO_FEEDBACK_MOTIONSERVERCONNECTED false v1.c }
      { v3 with tidIncMoveThread := T.INVALID_TASK
                calls := v3.calls ++ [TaskCall.mpDeleteTask v3.tidIncMoveThread] }
    else v1
  { v2 with
    tidMotionConnections := Function.update v2.tidMotionConnections connectionIndex T.INVALID_TASK
    calls := v2.calls ++ [TaskCall.mpDeleteTask (v2.tidMotionConnections connectionIndex)] }

/-- The invariant of the connection slots: a slot has a socket exactly when it
has a reader task. -/
def SlotInv (T : TaskConsts) (v : Server) : Prop :=
  ∀ i, i < T.MAX_MOTION_CONNECTIONS →
    (v.sdMotionConnections i = T.INVALID_SOCKET ↔ v.tidMotionConnections i = T.INVALID_TASK)

/-- Another slot than `connectionIndex` holds a socket. -/
def otherSlotLive (T : TaskConsts) (v : Server) (connectionIndex : Nat) : Bool :=
  (List.range T.MAX_MOTION_CONNECTIONS).any
    fun i => decide (i ≠ connectionIndex ∧ v.sdMotionConnections i ≠ T.INVALID_SOCKET)

/-- Two connection slots; -1 for an invalid socket, an invalid task and `ERROR`. -/
def sampleTasks : TaskConsts where
  MAX_MOTION_CONNECTIONS := 2
  INVALID_SOCKET := -1
  INVALID_TASK := -1
  ERROR := -1

/-- A server without connections and without tasks. -/
def idleServer : Server where
  c := sampleController sampleGroup
  sdMotionConnections := fun _ => -1
  tidMotionConnections := fun _ => -1
  tidIncMoveThread := -1
  tidAddToIncQueue := fun _ => -1
  calls := []

/-- A server with two clients connected (sockets 7 and 8, reader tasks 21 and
22), the dispatcher task 11, the interpolator task 12 of group 0, and a point
pending in group 0. -/
def busyServer : Server where
  c := Ros_Controller_SetIOState IoFeedback.IO_FEEDBACK_MOTIONSERVERCONNECTED true
    (sampleController { sampleGroup with hasDataToProcess := true })
  sdMotionConnections := fun i => if i = 0 then 7 else if i = 1 then 8 else -1
  tidMotionConnections := fun i => if i = 0 then 21 else if i = 1 then 22 else -1
  tidIncMoveThread := 11
  tidAddToIncQueue := fun i => if i = 0 then 12 else -1
  calls := []

/-- Task creation that fails for the dispatcher task and gives the task number
30 otherwise. -/
def noIncMoveTask : TaskEntry → Int
  | TaskEntry.Ros_MotionServer_IncMoveLoopStart => -1
  | _ => 30

/-- Task creation that fails for the interpolator tasks and gives the task number
30 otherwise. -/
def noAddToIncQueueTask : TaskEntry → Int
  | TaskEntry.Ros_MotionServer_AddToIncQueueProcess _ => -1
  | _ => 30

/-! ## Multi-group sample data -/

/-- A motion-ready controller with two groups like the sample group. -/
def twoGroups : Controller :=
  { sampleController sampleGroup with
    numGroup := 2
    ctrlGroups := fun i => { sampleGroup with groupNo := (i : Int) } }

/-- A multi-group point with sequence number 1 for the groups 0 and 1 at 1 s:
group 0 at rest, group 1 with velocity 1 on every joint, above the speed limit
3/8. -/
def exPairRequest : SimpleMsg :=
  { sampleRequest SmMsgType.ROS_MSG_MOTO_JOINT_TRAJ_PT_FULL_EX with
    jointTrajDataEx := SmBodyJointTrajPtFullEx.mk 2 1
      (fun i => SmBodyJointTrajPtExData.mk (i : Int) 7 1 (fun _ => 0)
        (fun _ => if i = 0 then 0 else 1) (fun _ => 0)) }

/-- The sample controller with two entries queued, at 4 ms and at 8 ms, after a
tick that left `q_time` at 0 ms. -/
def staleWindowController : Controller :=
  sampleController { sampleGroup with inc_q := pairQ (sampleInc 4 1) (sampleInc 8 2) }

/-- The controller with two groups when it is not motion-ready (subcode 5002). -/
def notReadyTwoGroups : Controller :=
  { twoGroups with motionReady := false, notReadySubcode := 5002 }

/-! # Theorems -/

/-! ## Lemmas on the ring buffer -/

theorem emod_slot_ne (Q a k n : Int) (hk : 0 ≤ k) (hkn : k < n) (hn : n < Q) :
    (a + k) % Q ≠ (a + n) % Q := by
  intro h
  have h1 : (Q : Int) ∣ (a + n) - (a + k) := Int.ModEq.dvd h
  have h2 : (a + n) - (a + k) = n - k := by ring
  rw [h2] at h1
  have h3 := Int.le_of_dvd (by omega) h1
  omega

theorem view_length (K : Consts) (q : Incremental_q) : (q.view K).length = q.cnt.toNat := by
  simp [Incremental_q.view]

/-- Appending at slot `(idx+cnt) mod Q_SIZE` appends to the view. -/
theorem view_add (K : Consts) (q : Incremental_q) (d : Incremental_data)
    (hinv : q.Inv K) (hlt : q.cnt < K.Q_SIZE) :
    ({ q with data := Function.update q.data (Q_OFFSET_IDX q.idx q.cnt K.Q_SIZE) d,
              cnt := q.cnt + 1 } : Incremental_q).view K = q.view K ++ [d] := by
  obtain ⟨h0, _, _, _⟩ := hinv
  have hn : (q.cnt + 1).toNat = q.cnt.toNat + 1 := by omega
  simp only [Incremental_q.view, hn, List.range_succ, List.map_append, List.map_cons, List.map_nil]
  congr 1
  · apply List.map_congr_left
    intro k hk
    rw [List.mem_range] at hk
    have hne : (q.idx + (k : Int)) % K.Q_SIZE ≠ Q_OFFSET_IDX q.idx q.cnt K.Q_SIZE := by
      unfold Q_OFFSET_IDX
      exact emod_slot_ne _ _ _ _ (by omega) (by omega) hlt
    simp [Function.update_noteq hne]
  · have hc : ((q.cnt.toNat : Nat) : Int) = q.cnt := Int.toNat_of_nonneg h0
    simp only [Q_OFFSET_IDX]
    rw [hc, Function.update_same]

/-- Popping the head (`idx := (idx+1) mod Q_SIZE`, `cnt--`) removes the first
entry of the view. -/
theorem view_pop (K : Consts) (q : Incremental_q) (hinv : q.Inv K) (hpos : 0 < q.cnt) :
    q.view K = q.data q.idx ::
      ({ q with idx := Q_OFFSET_IDX q.idx 1 K.Q_SIZE, cnt := q.cnt - 1 } : Incremental_q).view K := by
  obtain ⟨_, _, hi0, hiQ⟩ := hinv
  have hn : q.cnt.toNat = (q.cnt - 1).toNat + 1 := by omega
  simp only [Incremental_q.view]
  rw [hn, List.range_succ_eq_map, List.map_cons, List.map_map]
  congr 1
  · simp [Int.emod_eq_of_lt hi0 hiQ]
  · apply List.map_congr_left
    intro k _
    simp only [Function.comp, Q_OFFSET_IDX]
    rw [Int.emod_add_emod]
    congr 2
    push_cast
    ring

theorem inv_pop (K : Consts) (q : Incremental_q) (hinv : q.Inv K) (hpos : 0 < q.cnt) :
    ({ q with idx := Q_OFFSET_IDX q.idx 1 K.Q_SIZE, cnt := q.cnt - 1 } : Incremental_q).Inv K := by
  obtain ⟨h0, hQ, hi0, hiQ⟩ := hinv
  have hQpos : 0 < K.Q_SIZE := by omega
  refine ⟨by simp only; omega, by simp only; omega, ?_, ?_⟩
  · exact Int.emod_nonneg _ (by omega)
  · exact Int.emod_lt_of_pos _ hQpos

/-- What the merge loop does: it pops a front segment `l` of the view, adds its
increments to the outbound slot, leaves the tags and the slots alone and keeps
the invariant. -/
theorem mergeLoop_spec (K : Consts) (period q_time : Int) (n : Nat) (q : Incremental_q)
    (m : GrpPosInfo) (time : Int) (hinv : q.Inv K) :
    ∃ l : List Incremental_data,
      q.view K = l ++ (mergeLoop K period q_time n q m time).1.view K
      ∧ (∀ a, (mergeLoop K period q_time n q m time).2.1.pos a = m.pos a + incSum l a)
      ∧ (mergeLoop K period q_time n q m time).2.1.pos_tag = m.pos_tag
      ∧ (mergeLoop K period q_time n q m time).1.Inv K
      ∧ (mergeLoop K period q_time n q m time).1.data = q.data
      ∧ (mergeLoop K period q_time n q m time).1.cnt = q.cnt - l.length
      ∧ (mergeLoop K period q_time n q m time).1.idx = (q.idx + l.length) % K.Q_SIZE
      ∧ (mergeLoop K period q_time n q m time).2.2 = lastTime l time := by
  induction n generalizing q m time with
  | zero =>
    refine ⟨[], ?_⟩
    obtain ⟨_, _, hi0, hiQ⟩ := hinv
    simp [mergeLoop, incSum, lastTime, Incremental_q.Inv, Int.emod_eq_of_lt hi0 hiQ]
    exact ⟨by assumption, by assumption, hi0, hiQ⟩
  | succ n ih =>
    have hstop : ∃ l : List Incremental_data,
        q.view K = l ++ q.view K ∧ (∀ a, m.pos a = m.pos a + incSum l a) ∧ m.pos_tag = m.pos_tag
        ∧ q.Inv K ∧ q.data = q.data ∧ q.cnt = q.cnt - l.length
        ∧ q.idx = (q.idx + l.length) % K.Q_SIZE
        ∧ time = lastTime l time := by
      refine ⟨[], ?_⟩
      obtain ⟨_, _, hi0, hiQ⟩ := hinv
      simp [incSum, lastTime, Int.emod_eq_of_lt hi0 hiQ, Incremental_q.Inv]
      exact ⟨by assumption, by assumption, hi0, hiQ⟩
    unfold mergeLoop
    split_ifs with h1 h2 h3
    · exact hstop
    · obtain ⟨l, hv, hp, ht, hi, hd, hc, hx, htm⟩ :=
        ih { q with idx := Q_OFFSET_IDX q.idx 1 K.Q_SIZE, cnt := q.cnt - 1 }
          { m with pos := fun axis => m.pos axis + (q.data q.idx).inc axis }
          (q.data q.idx).time (inv_pop K q hinv h1)
      refine ⟨q.data q.idx :: l, ?_, ?_, ht, hi, hd, ?_, ?_, ?_⟩
      · rw [view_pop K q hinv h1, hv]; simp
      · intro a; rw [hp a]; simp [incSum]; ring
      · rw [hc]; simp; ring
      · rw [hx]; simp only [Q_OFFSET_IDX]; rw [Int.emod_add_emod]; congr 1; simp; ring
      · rw [htm]; simp [lastTime]
    · exact hstop
    · exact hstop

/-- The bound `cnt` on the iterations of the merge loop is enough: more fuel
gives the same result (every iteration pops an entry). -/
theorem mergeLoop_fuel (K : Consts) (period q_time : Int) (n : Nat) :
    ∀ (q : Incremental_q) (m : GrpPosInfo) (time : Int), q.cnt.toNat ≤ n →
      mergeLoop K period q_time n q m time = mergeLoop K period q_time q.cnt.toNat q m time := by
  induction n with
  | zero =>
    intro q m time h
    have h0 : q.cnt.toNat = 0 := by omega
    rw [h0]
  | succ n ih =>
    intro q m time h
    by_cases hpos : q.cnt > 0
    · obtain ⟨k, hk⟩ : ∃ k, q.cnt.toNat = k + 1 := ⟨q.cnt.toNat - 1, by omega⟩
      rw [hk]
      unfold mergeLoop
      split_ifs with h2 h3
      · rfl
      · have hk2 : ({ q with idx := Q_OFFSET_IDX q.idx 1 K.Q_SIZE, cnt := q.cnt - 1 } :
            Incremental_q).cnt.toNat = k := by
          simp only; omega
        rw [ih _ _ _ (by rw [hk2]; omega), hk2]
      · rfl
    · have h0 : q.cnt.toNat = 0 := by omega
      rw [h0]
      simp [mergeLoop, hpos]

/-! ## The dispatcher's turn for one group -/

/-- What `dispatchGroup` does to the queue and the outbound slot: it removes a
front segment `l` of the view (non-empty exactly when the lock was taken and the
queue held data) and hands out the sum of its increments. -/
theorem dispatchGroup_spec (K : Consts) (period : Int) (semTake : Bool) (g : CtrlGroup)
    (m : GrpPosInfo) (hinv : g.inc_q.Inv K) :
    ∃ l : List Incremental_data,
      g.inc_q.view K = l ++ (dispatchGroup K period semTake g m).1.inc_q.view K
      ∧ (∀ a, (dispatchGroup K period semTake g m).2.pos a = incSum l a)
      ∧ (dispatchGroup K period semTake g m).1.inc_q.Inv K
      ∧ (dispatchGroup K period semTake g m).1.inc_q.data = g.inc_q.data
      ∧ (dispatchGroup K period semTake g m).1.inc_q.cnt = g.inc_q.cnt - l.length
      ∧ (dispatchGroup K period semTake g m).1.inc_q.idx = (g.inc_q.idx + l.length) % K.Q_SIZE
      ∧ (dispatchGroup K period semTake g m).1.q_time = lastTime l g.q_time
      ∧ (l ≠ [] ↔ (semTake = true ∧ 0 < g.inc_q.cnt)) := by
  have hidx : g.inc_q.idx = g.inc_q.idx % K.Q_SIZE := by
    obtain ⟨_, _, hi0, hiQ⟩ := hinv
    simp [Int.emod_eq_of_lt hi0 hiQ]
  unfold dispatchGroup
  split_ifs with h1 h2
  · obtain ⟨l, hv, hp, _, hi, hd, hc, hx, htm⟩ :=
      mergeLoop_spec K period g.q_time
        ({ g.inc_q with idx := Q_OFFSET_IDX g.inc_q.idx 1 K.Q_SIZE, cnt := g.inc_q.cnt - 1 } :
          Incremental_q).cnt.toNat
        { g.inc_q with idx := Q_OFFSET_IDX g.inc_q.idx 1 K.Q_SIZE, cnt := g.inc_q.cnt - 1 }
        { pos_tag := setTags m.pos_tag (g.inc_q.data g.inc_q.idx).tool
            (g.inc_q.data g.inc_q.idx).frame (g.inc_q.data g.inc_q.idx).user,
          pos := (g.inc_q.data g.inc_q.idx).inc }
        (g.inc_q.data g.inc_q.idx).time (inv_pop K g.inc_q hinv h2)
    refine ⟨g.inc_q.data g.inc_q.idx :: l, ?_, ?_, hi, hd, ?_, ?_, ?_, ?_⟩
    · rw [view_pop K g.inc_q hinv h2, hv]; simp
    · intro a; simp only; rw [hp a]; simp [incSum]
    · simp only; rw [hc]; simp; ring
    · simp only; rw [hx]; simp only [Q_OFFSET_IDX]; rw [Int.emod_add_emod]; congr 1; simp; ring
    · simp only; rw [htm]; simp [lastTime]
    · simp [h1]; exact h2
  · refine ⟨[], ?_⟩
    simp [incSum, lastTime, hinv, h1]
    exact ⟨hidx, by omega⟩
  · refine ⟨[], ?_⟩
    simp [incSum, lastTime, hinv, h1]
    exact hidx

/-- The dispatch loop over the groups treats every group `j` of its range by
`dispatchGroup` on the group's own state and leaves the other groups alone. -/
theorem dispatchGroups_at (K : Consts) (semTake : Nat → Bool) (k : Nat) :
    ∀ (i : Nat) (c : Controller) (md : MP_EXPOS_DATA) (j : Nat),
      ((dispatchGroups K semTake k i c md).1.ctrlGroups j
          = if i ≤ j ∧ j < i + k then
              (dispatchGroup K c.interpolPeriod (semTake j) (c.ctrlGroups j) (md.grp_pos_info j)).1
            else c.ctrlGroups j)
      ∧ ((dispatchGroups K semTake k i c md).2.grp_pos_info j
          = if i ≤ j ∧ j < i + k then
              (dispatchGroup K c.interpolPeriod (semTake j) (c.ctrlGroups j) (md.grp_pos_info j)).2
            else md.grp_pos_info j) := by
  induction k with
  | zero =>
    intro i c md j
    have h : ¬ (i ≤ j ∧ j < i) := by omega
    simp [dispatchGroups, h]
  | succ k ih =>
    intro i c md j
    unfold dispatchGroups
    obtain ⟨h1, h2⟩ := ih (i + 1)
      (c.setGroup i (dispatchGroup K c.interpolPeriod (semTake i) (c.ctrlGroups i)
        (md.grp_pos_info i)).1)
      { md with grp_pos_info := (Function.update md.grp_pos_info i
          (dispatchGroup K c.interpolPeriod (semTake i) (c.ctrlGroups i) (md.grp_pos_info i)).2) } j
    simp only [] at h1 h2 ⊢
    rw [h1, h2]
    by_cases hji : j = i
    · subst hji
      have ha : ¬ (j + 1 ≤ j ∧ j < j + 1 + k) := by omega
      have hb : j ≤ j ∧ j < j + (k + 1) := by omega
      simp [ha, hb, Controller.setGroup]
    · by_cases hr : i + 1 ≤ j ∧ j < i + 1 + k
      · have hb : i ≤ j ∧ j < i + (k + 1) := by omega
        simp [hr, hb, Controller.setGroup, Function.update_noteq hji]
      · have hb : ¬ (i ≤ j ∧ j < i + (k + 1)) := by omega
        simp [hr, hb, Controller.setGroup, Function.update_noteq hji]

/-- The dispatch loop changes nothing of the controller but the groups, and
nothing of the move data but the group slots. -/
theorem dispatchGroups_frame (K : Consts) (semTake : Nat → Bool) (k : Nat) :
    ∀ (i : Nat) (c : Controller) (md : MP_EXPOS_DATA),
      (dispatchGroups K semTake k i c md).1.numGroup = c.numGroup
      ∧ (dispatchGroups K semTake k i c md).1.interpolPeriod = c.interpolPeriod
      ∧ (dispatchGroups K semTake k i c md).1.bStopMotion = c.bStopMotion
      ∧ (dispatchGroups K semTake k i c md).1.motionReady = c.motionReady
      ∧ (dispatchGroups K semTake k i c md).1.notReadySubcode = c.notReadySubcode
      ∧ (dispatchGroups K semTake k i c md).2.ctrl_grp = md.ctrl_grp := by
  induction k with
  | zero => intro i c md; simp [dispatchGroups]
  | succ k ih =>
    intro i c md
    unfold dispatchGroups
    exact ih (i + 1) _ _

/-! ## Enqueue -/

/-- On a queue with room and with the lock available the enqueue returns `TRUE`
at once and writes slot `(idx+cnt) mod Q_SIZE`. -/
theorem add_room (K : Consts) (w : Others) (fuel n : Nat) (q : Incremental_q)
    (d : Incremental_data) (hroom : q.cnt < K.Q_SIZE) (hsem : w.semTake n = true) :
    Ros_MotionServer_AddPulseIncPointToQ K w (fuel + 1) n q d
      = some (true, n + 1,
          { q with data := Function.update q.data ((q.idx + q.cnt) % K.Q_SIZE) d,
                   cnt := q.cnt + 1 }) := by
  have h : ¬ q.cnt ≥ K.Q_SIZE := by omega
  simp [Ros_MotionServer_AddPulseIncPointToQ, h, hsem, Q_OFFSET_IDX]

theorem inv_add (K : Consts) (q : Incremental_q) (d : Incremental_data) (hq : q.Inv K)
    (hroom : q.cnt < K.Q_SIZE) :
    ({ q with data := Function.update q.data ((q.idx + q.cnt) % K.Q_SIZE) d,
              cnt := q.cnt + 1 } : Incremental_q).Inv K := by
  obtain ⟨h0, _, hi0, hiQ⟩ := hq
  exact ⟨by simp only; omega, by simp only; omega, hi0, hiQ⟩

/-- The enqueue keeps the queue invariant on every path, when the other tasks
keep it during the sleeps. -/
theorem add_inv (K : Consts) (w : Others)
    (hw : ∀ k q0, q0.Inv K → (w.sleep k q0).Inv K) (d : Incremental_data) (fuel : Nat) :
    ∀ (n : Nat) (q : Incremental_q) (b : Bool) (n1 : Nat) (q1 : Incremental_q), q.Inv K →
      Ros_MotionServer_AddPulseIncPointToQ K w fuel n q d = some (b, n1, q1) → q1.Inv K := by
  induction fuel with
  | zero => intro n q b n1 q1 _ h; simp [Ros_MotionServer_AddPulseIncPointToQ] at h
  | succ fuel ih =>
    intro n q b n1 q1 hq h
    unfold Ros_MotionServer_AddPulseIncPointToQ at h
    split_ifs at h with h1 h2 h3
    · simp only [Option.some.injEq, Prod.mk.injEq] at h
      rw [← h.2.2]; exact hw n q hq
    · exact ih (n + 1) (w.sleep n q) b n1 q1 (hw n q hq) h
    · simp only [Option.some.injEq, Prod.mk.injEq] at h
      rw [← h.2.2]
      exact inv_add K q d hq (by omega)
    · simp only [Option.some.injEq, Prod.mk.injEq] at h
      rw [← h.2.2]; exact hq

/-! ## Schedules -/

theorem removedFront_eq (K : Consts) (q q1 : Incremental_q) (l : List Incremental_data)
    (hv : q.view K = l ++ q1.view K) (hc : q1.cnt = q.cnt - l.length) :
    removedFront K q q1 = l := by
  have h : (q.cnt - q1.cnt).toNat = l.length := by omega
  simp [removedFront, h, hv]

/-- One step of a schedule keeps the invariant, only extends the two records,
and keeps `dispatched ++ queue = (what was there) ++ enqueued`. -/
theorem step_order (K : Consts) (period : Int) (s : QTrace) (op : QOp)
    (hs : s.g.inc_q.Inv K) :
    (s.step K period op).g.inc_q.Inv K
    ∧ ∃ e : List Incremental_data,
        (s.step K period op).enqueued = s.enqueued ++ e
        ∧ (s.step K period op).dispatched ++ (s.step K period op).g.inc_q.view K
            = s.dispatched ++ s.g.inc_q.view K ++ e := by
  cases op with
  | enq d semTake =>
    by_cases hroom : s.g.inc_q.cnt < K.Q_SIZE
    · cases semTake with
      | true =>
        have h := add_room K (quietOthers true) 0 0 s.g.inc_q d hroom rfl
        simp only [QTrace.step, h]
        refine ⟨inv_add K _ d hs hroom, [d], rfl, ?_⟩
        have hv := view_add K s.g.inc_q d hs hroom
        simp only [Q_OFFSET_IDX] at hv
        simp only [hv, List.append_assoc]
      | false =>
        have h : ¬ s.g.inc_q.cnt ≥ K.Q_SIZE := by omega
        simp only [QTrace.step, Ros_MotionServer_AddPulseIncPointToQ, h, quietOthers]
        exact ⟨hs, [], by simp⟩
    · have h : s.g.inc_q.cnt ≥ K.Q_SIZE := by omega
      simp only [QTrace.step, Ros_MotionServer_AddPulseIncPointToQ, h, quietOthers]
      exact ⟨hs, [], by simp⟩
  | tick semTake =>
    obtain ⟨l, hv, _, hi, _, hc, _, _, _⟩ := dispatchGroup_spec K period semTake s.g s.m hs
    simp only [QTrace.step]
    refine ⟨hi, [], by simp, ?_⟩
    rw [removedFront_eq K _ _ l hv hc, hv]
    simp

/-- A schedule keeps the invariant and the order. -/
theorem run_order (K : Consts) (period : Int) (ops : List QOp) :
    ∀ s : QTrace, s.g.inc_q.Inv K →
      (s.run K period ops).g.inc_q.Inv K
      ∧ ∃ e : List Incremental_data,
          (s.run K period ops).enqueued = s.enqueued ++ e
          ∧ (s.run K period ops).dispatched ++ (s.run K period ops).g.inc_q.view K
              = s.dispatched ++ s.g.inc_q.view K ++ e := by
  induction ops with
  | nil => intro s hs; exact ⟨hs, [], by simp [QTrace.run]⟩
  | cons op ops ih =>
    intro s hs
    obtain ⟨hi1, e1, he1, hd1⟩ := step_order K period s op hs
    obtain ⟨hi2, e2, he2, hd2⟩ := ih (s.step K period op) hi1
    have hrun : s.run K period (op :: ops) = (s.step K period op).run K period ops := by
      simp [QTrace.run]
    rw [hrun]
    refine ⟨hi2, e1 ++ e2, ?_, ?_⟩
    · rw [he2, he1, List.append_assoc]
    · rw [hd2, hd1]; simp

/-! ## Claims on the increment queue -/

/-- C5: on a queue with room and with the lock available,
`Ros_MotionServer_AddPulseIncPointToQ` appends its argument at the end of the
list view of the queue (slot `(idx+cnt) mod Q_SIZE`, `cnt+1`, `idx` and all other
slots unchanged); the dispatcher removes a front segment `l` of the view and
hands out the sum of its increments; and for every schedule of enqueues and
dispatcher turns, the entries dispatched so far followed by the entries still
queued are the entries that were there followed by the entries enqueued, in
that order. -/
theorem C5_queue_order_is_enqueue_order (K : Consts) (period : Int) (w : Others)
    (fuel n : Nat) (q : Incremental_q) (d : Incremental_data) (s : QTrace) (ops : List QOp)
    (hq : q.Inv K) (hroom : q.cnt < K.Q_SIZE) (hsem : w.semTake n = true)
    (hs : s.g.inc_q.Inv K) :
    (∃ q1 : Incremental_q,
        Ros_MotionServer_AddPulseIncPointToQ K w (fuel + 1) n q d = some (true, n + 1, q1)
        ∧ q1.view K = q.view K ++ [d]
        ∧ q1.data ((q.idx + q.cnt) % K.Q_SIZE) = d
        ∧ q1.cnt = q.cnt + 1 ∧ q1.idx = q.idx
        ∧ ∀ j, j ≠ (q.idx + q.cnt) % K.Q_SIZE → q1.data j = q.data j)
    ∧ (∀ (semTake : Bool) (m : GrpPosInfo), ∃ l : List Incremental_data,
        s.g.inc_q.view K = l ++ (dispatchGroup K period semTake s.g m).1.inc_q.view K
        ∧ ∀ a, (dispatchGroup K period semTake s.g m).2.pos a = incSum l a)
    ∧ (∃ e : List Incremental_data,
        (s.run K period ops).enqueued = s.enqueued ++ e
        ∧ (s.run K period ops).dispatched ++ (s.run K period ops).g.inc_q.view K
            = s.dispatched ++ s.g.inc_q.view K ++ e) := by
  refine ⟨⟨_, add_room K w fuel n q d hroom hsem, ?_, ?_, rfl, rfl, ?_⟩, ?_, ?_⟩
  · have hv := view_add K q d hq hroom
    simp only [Q_OFFSET_IDX] at hv
    exact hv
  · simp
  · intro j hj
    simp [Function.update_noteq hj]
  · intro semTake m
    obtain ⟨l, hv, hp, _⟩ := dispatchGroup_spec K period semTake s.g m hs
    exact ⟨l, hv, hp⟩
  · exact (run_order K period ops s hs).2

theorem C5_queue_order_is_enqueue_order_witness :
    (singletonQ 2 (sampleInc 4 1)).Inv smallConsts
    ∧ (singletonQ 2 (sampleInc 4 1)).cnt < smallConsts.Q_SIZE
    ∧ helpfulOthers.semTake 0 = true
    ∧ sampleTrace.g.inc_q.Inv smallConsts
    ∧ (∃ q1 : Incremental_q,
        Ros_MotionServer_AddPulseIncPointToQ smallConsts helpfulOthers 1 0
            (singletonQ 2 (sampleInc 4 1)) (sampleInc 8 2) = some (true, 1, q1)
        ∧ q1.view smallConsts = (singletonQ 2 (sampleInc 4 1)).view smallConsts ++ [sampleInc 8 2]
        ∧ q1.data ((2 + 1) % 3) = sampleInc 8 2)
    ∧ (∃ e : List Incremental_data,
        (sampleTrace.run smallConsts 4 sampleOps).enqueued = sampleTrace.enqueued ++ e
        ∧ (sampleTrace.run smallConsts 4 sampleOps).dispatched
            ++ (sampleTrace.run smallConsts 4 sampleOps).g.inc_q.view smallConsts
            = sampleTrace.dispatched ++ sampleTrace.g.inc_q.view smallConsts ++ e) := by
  have h1 : (singletonQ 2 (sampleInc 4 1)).Inv smallConsts := by
    simp [Incremental_q.Inv, singletonQ, smallConsts]
  have h2 : (singletonQ 2 (sampleInc 4 1)).cnt < smallConsts.Q_SIZE := by
    simp [singletonQ, smallConsts]
  have h4 : sampleTrace.g.inc_q.Inv smallConsts := by
    simp [Incremental_q.Inv, sampleTrace, sampleGroup, emptyQ, smallConsts]
  have h := C5_queue_order_is_enqueue_order smallConsts 4 helpfulOthers 0 0
    (singletonQ 2 (sampleInc 4 1)) (sampleInc 8 2) sampleTrace sampleOps h1 h2 rfl h4
  obtain ⟨⟨q1, ha, hb, hc, _⟩, _, h3⟩ := h
  exact ⟨h1, h2, rfl, h4, ⟨q1, ha, hb, hc⟩, h3⟩

/-- C6: the queue invariant `0 <= cnt <= Q_SIZE`, `0 <= idx < Q_SIZE` is kept by
`Ros_MotionServer_AddPulseIncPointToQ` on every path on which it returns (the
other tasks keeping it during its sleeps), by the dispatcher's pop-and-merge
(for one group and for a whole tick of `Ros_MotionServer_IncMoveLoopStart`), by
`Ros_MotionServer_ClearQ`, and `Ros_MotionServer_GetQueueCnt`, which has no effect
on the state, returns -1 or a count within the bounds. -/
theorem C6_queue_invariant_preserved (K : Consts) (w : Others) (fuel n : Nat)
    (q : Incremental_q) (d : Incremental_data) (period : Int) (semTake : Bool)
    (g : CtrlGroup) (m : GrpPosInfo) (c : Controller) (groupNo : Int)
    (semCnt semPop : Nat → Bool) (md : MP_EXPOS_DATA)
    (hq : q.Inv K) (hw : ∀ k q0, q0.Inv K → (w.sleep k q0).Inv K)
    (hg : g.inc_q.Inv K) (hc : ∀ j, (c.ctrlGroups j).inc_q.Inv K) :
    (∀ b n1 q1, Ros_MotionServer_AddPulseIncPointToQ K w fuel n q d = some (b, n1, q1) →
        q1.Inv K)
    ∧ (dispatchGroup K period semTake g m).1.inc_q.Inv K
    ∧ (∀ j, ((IncMoveTick K semCnt semPop c md).1.ctrlGroups j).inc_q.Inv K)
    ∧ (∀ j, ((Ros_MotionServer_ClearQ semTake c groupNo).2.ctrlGroups j).inc_q.Inv K)
    ∧ (-1 ≤ Ros_MotionServer_GetQueueCnt semTake c groupNo
        ∧ Ros_MotionServer_GetQueueCnt semTake c groupNo ≤ K.Q_SIZE) := by
  have hQ : 0 ≤ K.Q_SIZE := by
    obtain ⟨h0, h1, _, _⟩ := hq
    omega
  refine ⟨?_, ?_, ?_, ?_, ?_⟩
  · intro b n1 q1 h
    exact add_inv K w hw d fuel n q b n1 q1 hq h
  · obtain ⟨l, _, _, hi, _⟩ := dispatchGroup_spec K period semTake g m hg
    exact hi
  · intro j
    unfold IncMoveTick
    split_ifs
    · simp only
      rw [(dispatchGroups_at K semPop c.numGroup 0 c md j).1]
      split_ifs
      · obtain ⟨l, _, _, hi, _⟩ :=
          dispatchGroup_spec K c.interpolPeriod (semPop j) (c.ctrlGroups j) (md.grp_pos_info j) (hc j)
        exact hi
      · exact hc j
    · exact hc j
  · intro j
    unfold Ros_MotionServer_ClearQ
    split_ifs
    · exact hc j
    · simp only [Controller.setGroup]
      by_cases hj : j = groupNo.toNat
      · subst hj
        obtain ⟨_, h1, h2, h3⟩ := hc groupNo.toNat
        simp only [Function.update_same]
        exact ⟨le_refl _, hQ, h2, h3⟩
      · rw [Function.update_noteq hj]; exact hc j
    · exact hc j
  · unfold Ros_MotionServer_GetQueueCnt
    split_ifs
    · omega
    · obtain ⟨h0, h1, _, _⟩ := hc groupNo.toNat
      omega
    · omega

theorem C6_queue_invariant_preserved_witness :
    (singletonQ 2 (sampleInc 4 1)).Inv smallConsts
    ∧ (∀ k q0, q0.Inv smallConsts → (helpfulOthers.sleep k q0).Inv smallConsts)
    ∧ (∀ j, ((sampleController { sampleGroup with inc_q := singletonQ 2 (sampleInc 4 1) }).ctrlGroups j).inc_q.Inv
          smallConsts)
    ∧ (∀ b n1 q1, Ros_MotionServer_AddPulseIncPointToQ smallConsts helpfulOthers 2 0
          (singletonQ 2 (sampleInc 4 1)) (sampleInc 8 2) = some (b, n1, q1) → q1.Inv smallConsts)
    ∧ (∀ j, ((IncMoveTick smallConsts (fun _ => true) (fun _ => true)
          (sampleController { sampleGroup with inc_q := singletonQ 2 (sampleInc 4 1) })
          zeroMoveData).1.ctrlGroups j).inc_q.Inv smallConsts) := by
  have h1 : (singletonQ 2 (sampleInc 4 1)).Inv smallConsts := by
    simp [Incremental_q.Inv, singletonQ, smallConsts]
  have h2 : ∀ k q0, q0.Inv smallConsts → (helpfulOthers.sleep k q0).Inv smallConsts := by
    intro k q0 h
    obtain ⟨a, b, c, d⟩ := h
    exact ⟨le_refl _, by simp [smallConsts, helpfulOthers], c, d⟩
  have h3 : ∀ j, ((sampleController { sampleGroup with inc_q := singletonQ 2 (sampleInc 4 1) }).ctrlGroups
      j).inc_q.Inv smallConsts := fun _ => h1
  have h := C6_queue_invariant_preserved smallConsts helpfulOthers 2 0
    (singletonQ 2 (sampleInc 4 1)) (sampleInc 8 2) 4 true
    { sampleGroup with inc_q := singletonQ 2 (sampleInc 4 1) }
    { pos_tag := fun _ => 0, pos := fun _ => 0 }
    (sampleController { sampleGroup with inc_q := singletonQ 2 (sampleInc 4 1) }) 0
    (fun _ => true) (fun _ => true) zeroMoveData h1 h2 h1 h3
  exact ⟨h1, h2, h3, h.1, h.2.2.1⟩

/-! ## Claims on the realtime dispatcher -/

/-- The queue-count query finds data exactly when some group's lock could be
taken and its count is positive. -/
theorem hasDataInQueue_iff (semCnt : Nat → Bool) (c : Controller) :
    Ros_MotionServer_HasDataInQueue semCnt c = true
      ↔ ∃ g, g < c.numGroup ∧ semCnt g = true ∧ 0 < (c.ctrlGroups g).inc_q.cnt := by
  unfold Ros_MotionServer_HasDataInQueue
  rw [List.any_eq_true]
  constructor
  · rintro ⟨g, hg, h⟩
    rw [List.mem_range] at hg
    refine ⟨g, hg, ?_⟩
    have hv : Ros_Controller_IsValidGroupNo c (g : Int) = true := by
      simp [Ros_Controller_IsValidGroupNo, hg]
    simp only [Ros_MotionServer_GetQueueCnt, hv, Bool.not_true, Bool.false_eq_true, if_false,
      Int.toNat_ofNat, decide_eq_true_eq] at h
    cases hs : semCnt g with
    | true => simp [hs] at h; exact ⟨rfl, h⟩
    | false => simp [hs] at h
  · rintro ⟨g, hg, hs, hpos⟩
    refine ⟨g, List.mem_range.mpr hg, ?_⟩
    have hv : Ros_Controller_IsValidGroupNo c (g : Int) = true := by
      simp [Ros_Controller_IsValidGroupNo, hg]
    simp [Ros_MotionServer_GetQueueCnt, hv, hs, hpos]

/-- C4 (amended): in every tick of `Ros_MotionServer_IncMoveLoopStart`, if the
controller is not motion-ready, or the queue-count query finds no data (a group
counts as holding data only when the query takes its lock and reads a positive
count), or `bStopMotion` is set, then the increment-move primitive is not
called and the controller (every queue and every `q_time`) and the move data are
unchanged; otherwise the primitive is called exactly once, with the move data
of the tick, which carries for every group the output of the group's dispatch.
In particular nothing is emitted while `bStopMotion` is set. -/
theorem C4_tick_emits_iff_ready_data_not_stopped (K : Consts) (semCnt semPop : Nat → Bool)
    (c : Controller) (md : MP_EXPOS_DATA) :
    (¬ (c.motionReady = true
          ∧ (∃ g, g < c.numGroup ∧ semCnt g = true ∧ 0 < (c.ctrlGroups g).inc_q.cnt)
          ∧ c.bStopMotion = false) →
        (IncMoveTick K semCnt semPop c md).2.2 = []
        ∧ (IncMoveTick K semCnt semPop c md).1 = c
        ∧ (IncMoveTick K semCnt semPop c md).2.1 = md)
    ∧ ((c.motionReady = true
          ∧ (∃ g, g < c.numGroup ∧ semCnt g = true ∧ 0 < (c.ctrlGroups g).inc_q.cnt)
          ∧ c.bStopMotion = false) →
        (IncMoveTick K semCnt semPop c md).2.2 = [(IncMoveTick K semCnt semPop c md).2.1]
        ∧ ∀ i, i < c.numGroup →
            (IncMoveTick K semCnt semPop c md).2.1.grp_pos_info i
              = (dispatchGroup K c.interpolPeriod (semPop i) (c.ctrlGroups i)
                  (md.grp_pos_info i)).2)
    ∧ (c.bStopMotion = true → (IncMoveTick K semCnt semPop c md).2.2 = []) := by
  have hcond : (c.motionReady && Ros_MotionServer_HasDataInQueue semCnt c && !c.bStopMotion) = true
      ↔ (c.motionReady = true
          ∧ (∃ g, g < c.numGroup ∧ semCnt g = true ∧ 0 < (c.ctrlGroups g).inc_q.cnt)
          ∧ c.bStopMotion = false) := by
    rw [Bool.and_eq_true, Bool.and_eq_true, hasDataInQueue_iff]
    simp [and_assoc]
  refine ⟨?_, ?_, ?_⟩
  · intro h
    have h1 : ¬ (c.motionReady && Ros_MotionServer_HasDataInQueue semCnt c && !c.bStopMotion) = true :=
      fun hh => h (hcond.mp hh)
    simp [IncMoveTick, h1]
  · intro h
    have h1 := hcond.mpr h
    simp only [IncMoveTick, h1, if_true, true_and]
    intro i hi
    rw [(dispatchGroups_at K semPop c.numGroup 0 c md i).2]
    have hr : 0 ≤ i ∧ i < 0 + c.numGroup := by omega
    rw [if_pos hr]
  · intro h
    simp [IncMoveTick, h]

/-- C4 (as stated) fails: the controller is motion-ready, `bStopMotion` is clear
and the queue of group 0 holds an entry, but the count query cannot take the
queue's lock, and the primitive is not called. -/
theorem C4_counterexample :
    (sampleController { sampleGroup with inc_q := singletonQ 0 (sampleInc 4 1) }).motionReady = true
    ∧ (sampleController { sampleGroup with inc_q := singletonQ 0 (sampleInc 4 1) }).bStopMotion = false
    ∧ 0 < ((sampleController { sampleGroup with inc_q := singletonQ 0 (sampleInc 4 1) }).ctrlGroups
          0).inc_q.cnt
    ∧ (IncMoveTick motoRosConsts (fun _ => false) (fun _ => true)
        (sampleController { sampleGroup with inc_q := singletonQ 0 (sampleInc 4 1) })
        zeroMoveData).2.2 = [] := by
  refine ⟨rfl, rfl, by decide, ?_⟩
  simp [IncMoveTick, Ros_MotionServer_HasDataInQueue, Ros_MotionServer_GetQueueCnt]

/-! ## The interpolator -/

/-- The step before the pulse conversion touches only `jointMotionData` and
`timeLeftover_ms`. -/
theorem interpolStep_frame (period : Int) (L : IncLocals) (tcalc T : Int) (g : CtrlGroup) :
    (interpolStep period L tcalc T g).1.axisType = g.axisType
    ∧ (interpolStep period L tcalc T g).1.convertToMotoPos = g.convertToMotoPos
    ∧ (interpolStep period L tcalc T g).1.jointMotionDataToProcess = g.jointMotionDataToProcess
    ∧ (interpolStep period L tcalc T g).1.prevPulsePos = g.prevPulsePos
    ∧ (interpolStep period L tcalc T g).1.inc_q = g.inc_q
    ∧ (interpolStep period L tcalc T g).1.numAxes = g.numAxes := by
  unfold interpolStep
  split_ifs <;> simp

/-- A step that stays before the end time: the current time becomes the
calculation time and the next time increment is the period. -/
theorem interpolStep_before (period : Int) (L : IncLocals) (tcalc T : Int) (g : CtrlGroup)
    (h : tcalc < g.jointMotionDataToProcess.time) (hT : T ≤ period) :
    (interpolStep period L tcalc T g).1.jointMotionData.time = tcalc
    ∧ (interpolStep period L tcalc T g).2 = period := by
  unfold interpolStep
  rw [if_pos h]
  split_ifs with h1
  · simp
  · simp; omega

/-- A step that reaches the end time: the current point becomes the end point. -/
theorem interpolStep_final (period : Int) (L : IncLocals) (tcalc T : Int) (g : CtrlGroup)
    (h : ¬ tcalc < g.jointMotionDataToProcess.time) :
    (interpolStep period L tcalc T g).1.jointMotionData = g.jointMotionDataToProcess := by
  unfold interpolStep
  rw [if_neg h]
  split_ifs <;> simp

/-- The run of the `while` loop when the controller stays motion-ready, the stop
flag stays clear and every enqueue succeeds: from a state with `m` steps to go
the loop ends, having enqueued `m` increments whose sum on an active axis is the
change of `prevPulsePos`, and which are 0 on the inactive slots. -/
theorem incQueueLoop_run (K : Consts) (w : Others) (period : Int) (L : IncLocals) (F : Nat)
    (hp : 0 < period) (hready : ∀ n, w.motionReady n = true)
    (hstop : ∀ n, w.bStopMotion n = false) (hadd : EnqueueSucceeds K w F) (m : Nat) :
    ∀ (fuel n : Nat) (tcalc T : Int) (g : CtrlGroup) (enq : List Incremental_data),
      m + F + 1 ≤ fuel →
      ((m = 0 ∧ g.jointMotionDataToProcess.time ≤ g.jointMotionData.time)
        ∨ (0 < m ∧ g.jointMotionData.time = tcalc ∧ tcalc < g.jointMotionDataToProcess.time
            ∧ 0 < T ∧ T ≤ period
            ∧ ((m : Int) - 2) * period < g.jointMotionDataToProcess.time - tcalc - T
            ∧ g.jointMotionDataToProcess.time - tcalc - T ≤ ((m : Int) - 1) * period)) →
      ∃ (n1 : Nat) (g1 : CtrlGroup) (incs : List Incremental_data),
        incQueueLoop K w period L fuel n tcalc T g enq = some (n1, g1, enq ++ incs)
        ∧ incs.length = m
        ∧ (∀ a, incSum incs a
            = if g.axisType a ≠ K.AXIS_INVALID then g1.prevPulsePos a - g.prevPulsePos a else 0)
        ∧ (∀ d ∈ incs, ∀ a, g.axisType a = K.AXIS_INVALID → d.inc a = 0)
        ∧ (0 < m → g1.prevPulsePos = g.convertToMotoPos g.jointMotionDataToProcess.pos
            ∧ g1.jointMotionData = g.jointMotionDataToProcess)
        ∧ (m = 0 → g1 = g)
        ∧ g1.jointMotionDataToProcess = g.jointMotionDataToProcess := by
  induction m with
  | zero =>
    intro fuel n tcalc T g enq hfuel hst
    rcases hst with ⟨_, hle⟩ | ⟨hpos, _⟩
    · obtain ⟨f, rfl⟩ : ∃ f, fuel = f + 1 := ⟨fuel - 1, by omega⟩
      refine ⟨n, g, [], ?_, rfl, ?_, ?_, ?_, fun _ => rfl, rfl⟩
      · have hc : ¬ (g.jointMotionData.time < g.jointMotionDataToProcess.time
            ∧ w.motionReady n = true ∧ w.bStopMotion n = false) := by
          intro h; omega
        simp only [incQueueLoop, hc, if_false, List.append_nil]
      · intro a; simp [incSum]
      · intro d hd; simp at hd
      · intro h; omega
    · omega
  | succ m ih =>
    intro fuel n tcalc T g enq hfuel hst
    rcases hst with ⟨h0, _⟩ | ⟨_, hcur, hlt, hT0, hTp, hlo, hhi⟩
    · omega
    obtain ⟨f, rfl⟩ : ∃ f, fuel = f + 1 := ⟨fuel - 1, by omega⟩
    have hc : g.jointMotionData.time < g.jointMotionDataToProcess.time
        ∧ w.motionReady n = true ∧ w.bStopMotion n = false :=
      ⟨by omega, hready n, hstop n⟩
    obtain ⟨hfa, hfc, hfe, hfp, hfq, _⟩ := interpolStep_frame period L (tcalc + T) T g
    obtain ⟨n2, q2, hq2⟩ := hadd (n + 1) (interpolStep period L (tcalc + T) T g).1.inc_q
      (mkIncData K (interpolStep period L (tcalc + T) T g).1
        ((interpolStep period L (tcalc + T) T g).1.convertToMotoPos
          (interpolStep period L (tcalc + T) T g).1.jointMotionData.pos))
    have hq3 := hq2 (f + 1) (by omega)
    -- the state after this iteration
    have hstate : (m = 0 ∧ g.jointMotionDataToProcess.time
          ≤ (interpolStep period L (tcalc + T) T g).1.jointMotionData.time)
        ∨ (0 < m ∧ (interpolStep period L (tcalc + T) T g).1.jointMotionData.time = tcalc + T
            ∧ tcalc + T < g.jointMotionDataToProcess.time
            ∧ 0 < (interpolStep period L (tcalc + T) T g).2
            ∧ (interpolStep period L (tcalc + T) T g).2 ≤ period
            ∧ ((m : Int) - 2) * period < g.jointMotionDataToProcess.time - (tcalc + T)
                - (interpolStep period L (tcalc + T) T g).2
            ∧ g.jointMotionDataToProcess.time - (tcalc + T)
                - (interpolStep period L (tcalc + T) T g).2 ≤ ((m : Int) - 1) * period) := by
      rcases Nat.eq_zero_or_pos m with hm | hm
      · left
        subst hm
        have hfin : ¬ tcalc + T < g.jointMotionDataToProcess.time := by
          simp at hhi; omega
        rw [interpolStep_final period L (tcalc + T) T g hfin]
        exact ⟨rfl, le_refl _⟩
      · right
        have hm1 : (1 : Int) ≤ (m : Int) := by exact_mod_cast hm
        have hbef : tcalc + T < g.jointMotionDataToProcess.time := by
          have : 0 ≤ ((m : Int) - 1) * period := by nlinarith
          push_cast at hlo
          nlinarith
        obtain ⟨ht, hT2⟩ := interpolStep_before period L (tcalc + T) T g hbef hTp
        rw [ht, hT2]
        refine ⟨hm, rfl, hbef, hp, le_refl _, ?_, ?_⟩
        · push_cast at hlo; nlinarith
        · push_cast at hhi; nlinarith
    obtain ⟨n1, g1, incs, hrun, hlen, hsum, hzero, hend, hg0, hkeep⟩ :=
      ih f n2 (tcalc + T) (interpolStep period L (tcalc + T) T g).2
        { (interpolStep period L (tcalc + T) T g).1 with
          inc_q := q2
          prevPulsePos := (interpolStep period L (tcalc + T) T g).1.convertToMotoPos
            (interpolStep period L (tcalc + T) T g).1.jointMotionData.pos }
        (enq ++ [mkIncData K (interpolStep period L (tcalc + T) T g).1
          ((interpolStep period L (tcalc + T) T g).1.convertToMotoPos
            (interpolStep period L (tcalc + T) T g).1.jointMotionData.pos)])
        (by omega) (by simpa [hfe] using hstate)
    refine ⟨n1, g1, mkIncData K (interpolStep period L (tcalc + T) T g).1
        ((interpolStep period L (tcalc + T) T g).1.convertToMotoPos
          (interpolStep period L (tcalc + T) T g).1.jointMotionData.pos) :: incs,
      ?_, by simp [hlen], ?_, ?_, ?_, fun h => by omega, ?_⟩
    · simp only [incQueueLoop, hc, and_self, if_true, hq3]
      rw [hrun]; simp
    · intro a
      have hs := hsum a
      simp only [hfa, hfp] at hs
      simp only [incSum, List.map_cons, List.sum_cons] at hs ⊢
      rw [hs]
      by_cases hax : g.axisType a = K.AXIS_INVALID
      · simp [mkIncData, hfa, hax]
      · simp [mkIncData, hfa, hfp, hax]
    · intro d hd a hax
      rcases List.mem_cons.mp hd with rfl | hd
      · simp [mkIncData, hfa, hax]
      · exact hzero d hd a (by simpa [hfa] using hax)
    · intro _
      rcases Nat.eq_zero_or_pos m with hm | hm
      · subst hm
        have hfin : ¬ tcalc + T < g.jointMotionDataToProcess.time := by
          simp at hhi; omega
        have hg1 := hg0 rfl
        rw [hg1]
        simp only [hfc]
        rw [interpolStep_final period L (tcalc + T) T g hfin]
        exact ⟨rfl, rfl⟩
      · obtain ⟨hpv, hjm⟩ := hend hm
        simp only [hfc, hfe] at hpv hjm
        exact ⟨hpv, hjm⟩
    · simpa [hfe] using hkeep

/-- More fuel does not change a result of the enqueue. -/
theorem add_mono (K : Consts) (w : Others) (d : Incremental_data) (fuel : Nat) :
    ∀ (k n : Nat) (q : Incremental_q) (r : Bool × Nat × Incremental_q),
      Ros_MotionServer_AddPulseIncPointToQ K w fuel n q d = some r →
      Ros_MotionServer_AddPulseIncPointToQ K w (fuel + k) n q d = some r := by
  induction fuel with
  | zero => intro k n q r h; simp [Ros_MotionServer_AddPulseIncPointToQ] at h
  | succ fuel ih =>
    intro k n q r h
    have hk : fuel + 1 + k = (fuel + k) + 1 := by omega
    rw [hk]
    unfold Ros_MotionServer_AddPulseIncPointToQ at h ⊢
    split_ifs at h ⊢ with h1 h2 h3
    · exact h
    · exact ih k (n + 1) (w.sleep n q) r h
    · exact h
    · exact h

/-- When every enqueue succeeds, no enqueue returns `FALSE`, whatever the fuel. -/
theorem add_true_of_succeeds (K : Consts) (w : Others) (F : Nat) (hadd : EnqueueSucceeds K w F)
    (fuel n : Nat) (q : Incremental_q) (d : Incremental_data) (b : Bool) (n1 : Nat)
    (q1 : Incremental_q)
    (h : Ros_MotionServer_AddPulseIncPointToQ K w fuel n q d = some (b, n1, q1)) : b = true := by
  obtain ⟨n2, q2, h2⟩ := hadd n q d
  have h3 := h2 (fuel + F) (by omega)
  have h4 := add_mono K w d fuel F n q _ h
  rw [h4] at h3
  simp only [Option.some.injEq, Prod.mk.injEq] at h3
  exact h3.1

/-- With the helpful other tasks every enqueue succeeds with two units of fuel. -/
theorem enqueueSucceeds_helpful (K : Consts) (hQ : 0 < K.Q_SIZE) :
    EnqueueSucceeds K helpfulOthers 2 := by
  intro n q d
  by_cases h : q.cnt ≥ K.Q_SIZE
  · refine ⟨n + 1 + 1, Incremental_q.mk (0 + 1) q.idx
      (Function.update q.data (Q_OFFSET_IDX q.idx 0 K.Q_SIZE) d), ?_⟩
    intro fuel hf
    obtain ⟨f, rfl⟩ : ∃ f, fuel = f + 2 := ⟨fuel - 2, by omega⟩
    have h0 : ¬ (0 : Int) ≥ K.Q_SIZE := by omega
    simp only [Ros_MotionServer_AddPulseIncPointToQ, h, helpfulOthers, if_true, Bool.not_true,
      Bool.false_eq_true, if_false, h0]
  · refine ⟨n + 1, Incremental_q.mk (q.cnt + 1) q.idx
      (Function.update q.data (Q_OFFSET_IDX q.idx q.cnt K.Q_SIZE) d), ?_⟩
    intro fuel hf
    obtain ⟨f, rfl⟩ : ∃ f, fuel = f + 1 := ⟨fuel - 1, by omega⟩
    simp only [Ros_MotionServer_AddPulseIncPointToQ, h, helpfulOthers, if_true, if_false]

/-- Bounds of the ceiling of a quotient of integers. -/
theorem ceil_div_bounds (a p : Int) (hp : 0 < p) :
    (⌈(a : ℚ) / (p : ℚ)⌉ - 1) * p < a ∧ a ≤ ⌈(a : ℚ) / (p : ℚ)⌉ * p := by
  have hpq : (0 : ℚ) < (p : ℚ) := by exact_mod_cast hp
  have h1 := Int.le_ceil ((a : ℚ) / (p : ℚ))
  have h2 := Int.ceil_lt_add_one ((a : ℚ) / (p : ℚ))
  constructor
  · have h3 : ((⌈(a : ℚ) / (p : ℚ)⌉ : ℚ) - 1) * (p : ℚ) < (a : ℚ) := by
      rw [← lt_div_iff₀ hpq]; linarith
    exact_mod_cast h3
  · have h3 : (a : ℚ) ≤ (⌈(a : ℚ) / (p : ℚ)⌉ : ℚ) * (p : ℚ) := by
      rw [← div_le_iff₀ hpq]; exact h1
    exact_mod_cast h3

/-- The whole of `Ros_MotionServer_JointTrajDataToIncQueue` on a segment with
`end.t > start.t`, a positive period and a leftover in `[0, period)`, when the
controller stays motion-ready, the stop flag stays clear and every enqueue
succeeds: with `m` the number of steps, enough fuel gives a result with `m`
increments. -/
theorem incQueue_run (K : Consts) (w : Others) (period : Int) (F : Nat) (g : CtrlGroup)
    (hp : 0 < period) (hready : ∀ n, w.motionReady n = true)
    (hstop : ∀ n, w.bStopMotion n = false) (hadd : EnqueueSucceeds K w F)
    (hD : g.jointMotionData.time < g.jointMotionDataToProcess.time)
    (hL0 : 0 ≤ g.timeLeftover_ms) (hLp : g.timeLeftover_ms < period) (m : Nat) (hm : 0 < m)
    (hlo : ((m : Int) - 2) * period < g.jointMotionDataToProcess.time - g.jointMotionData.time
        - (if g.timeLeftover_ms = 0 then period else g.timeLeftover_ms))
    (hhi : g.jointMotionDataToProcess.time - g.jointMotionData.time
        - (if g.timeLeftover_ms = 0 then period else g.timeLeftover_ms) ≤ ((m : Int) - 1) * period)
    (fuel n : Nat) (hfuel : m + F + 1 ≤ fuel) :
    ∃ (n1 : Nat) (g1 : CtrlGroup) (incs : List Incremental_data),
      Ros_MotionServer_JointTrajDataToIncQueue K w period fuel n g = some (n1, g1, incs)
      ∧ incs.length = m
      ∧ (∀ a, incSum incs a
          = if g.axisType a ≠ K.AXIS_INVALID then g1.prevPulsePos a - g.prevPulsePos a else 0)
      ∧ (∀ d ∈ incs, ∀ a, g.axisType a = K.AXIS_INVALID → d.inc a = 0)
      ∧ g1.prevPulsePos = g.convertToMotoPos g1.jointMotionDataToProcess.pos
      ∧ g1.jointMotionData = g1.jointMotionDataToProcess
      ∧ g1.jointMotionDataToProcess
          = (if g.bIsBaxisSlave then bAxisSlaveAdjust g.jointMotionDataToProcess
             else g.jointMotionDataToProcess) := by
  have key : ∀ g0 : CtrlGroup, g0.jointMotionData = g.jointMotionData →
      g0.jointMotionDataToProcess.time = g.jointMotionDataToProcess.time →
      g0.timeLeftover_ms = g.timeLeftover_ms →
      ∃ (n1 : Nat) (g1 : CtrlGroup) (incs : List Incremental_data),
        incQueueLoop K w period (accCoefs g0.numAxes g.jointMotionData g0.jointMotionDataToProcess)
          fuel n g.jointMotionData.time
          (if g0.timeLeftover_ms = 0 then period else g0.timeLeftover_ms) g0 [] = some (n1, g1, incs)
        ∧ incs.length = m
        ∧ (∀ a, incSum incs a
            = if g0.axisType a ≠ K.AXIS_INVALID then g1.prevPulsePos a - g0.prevPulsePos a else 0)
        ∧ (∀ d ∈ incs, ∀ a, g0.axisType a = K.AXIS_INVALID → d.inc a = 0)
        ∧ g1.prevPulsePos = g0.convertToMotoPos g1.jointMotionDataToProcess.pos
        ∧ g1.jointMotionData = g1.jointMotionDataToProcess
        ∧ g1.jointMotionDataToProcess = g0.jointMotionDataToProcess := by
    intro g0 hcur hend hleft
    have hT : 0 < (if g0.timeLeftover_ms = 0 then period else g0.timeLeftover_ms)
        ∧ (if g0.timeLeftover_ms = 0 then period else g0.timeLeftover_ms) ≤ period := by
      rw [hleft]; split_ifs with h0
      · exact ⟨hp, le_refl _⟩
      · exact ⟨by omega, by omega⟩
    obtain ⟨n1, g1, incs, hrun, hlen, hsum, hzero, hfin, _, hkeep⟩ :=
      incQueueLoop_run K w period
        (accCoefs g0.numAxes g.jointMotionData g0.jointMotionDataToProcess) F hp hready hstop hadd m
        fuel n g.jointMotionData.time
        (if g0.timeLeftover_ms = 0 then period else g0.timeLeftover_ms) g0 [] hfuel
        (Or.inr ⟨hm, by rw [hcur], by rw [hend]; exact hD, hT.1, hT.2,
          by rw [hend, hleft]; exact hlo, by rw [hend, hleft]; exact hhi⟩)
    obtain ⟨hpv, hjm⟩ := hfin hm
    refine ⟨n1, g1, incs, by simpa using hrun, hlen, hsum, hzero, ?_, ?_, hkeep⟩
    · rw [hpv, hkeep]
    · rw [hjm, hkeep]
  unfold Ros_MotionServer_JointTrajDataToIncQueue
  by_cases hb : g.bIsBaxisSlave = true
  · obtain ⟨n1, g1, incs, hrun, hlen, hsum, hzero, hpv, hjm, hkeep⟩ :=
      key { g with jointMotionDataToProcess := bAxisSlaveAdjust g.jointMotionDataToProcess }
        rfl rfl rfl
    refine ⟨n1, g1, incs, ?_, hlen, hsum, hzero, hpv, hjm, ?_⟩
    · rw [if_pos hb]; exact hrun
    · rw [hkeep]; simp [hb]
  · obtain ⟨n1, g1, incs, hrun, hlen, hsum, hzero, hpv, hjm, hkeep⟩ := key g rfl rfl rfl
    refine ⟨n1, g1, incs, ?_, hlen, hsum, hzero, hpv, hjm, ?_⟩
    · rw [if_neg hb]; exact hrun
    · rw [hkeep]; simp [hb]

/-- A step that stays before the end time sets the current time to the
calculation time. -/
theorem interpolStep_before_time (period : Int) (L : IncLocals) (tcalc T : Int) (g : CtrlGroup)
    (h : tcalc < g.jointMotionDataToProcess.time) :
    (interpolStep period L tcalc T g).1.jointMotionData.time = tcalc := by
  unfold interpolStep
  rw [if_pos h]
  split_ifs <;> rfl

/-- Every run of the `while` loop that returns, when the controller stays
motion-ready, the stop flag stays clear and every enqueue succeeds: the
increments enqueued sum up to the change of `prevPulsePos` on the active axes and
are 0 on the inactive slots; and if the loop was entered, the group ends at the
end point with `prevPulsePos` its pulse position. -/
theorem incQueueLoop_partial (K : Consts) (w : Others) (period : Int) (L : IncLocals) (F : Nat)
    (hready : ∀ n, w.motionReady n = true) (hstop : ∀ n, w.bStopMotion n = false)
    (hadd : EnqueueSucceeds K w F) (fuel : Nat) :
    ∀ (n : Nat) (tcalc T : Int) (g : CtrlGroup) (enq : List Incremental_data) (n1 : Nat)
      (g1 : CtrlGroup) (out : List Incremental_data),
      incQueueLoop K w period L fuel n tcalc T g enq = some (n1, g1, out) →
      ∃ incs : List Incremental_data,
        out = enq ++ incs
        ∧ (∀ a, incSum incs a
            = if g.axisType a ≠ K.AXIS_INVALID then g1.prevPulsePos a - g.prevPulsePos a else 0)
        ∧ (∀ d ∈ incs, ∀ a, g.axisType a = K.AXIS_INVALID → d.inc a = 0)
        ∧ g1.jointMotionDataToProcess = g.jointMotionDataToProcess
        ∧ (g.jointMotionData.time < g.jointMotionDataToProcess.time →
            g1.prevPulsePos = g.convertToMotoPos g.jointMotionDataToProcess.pos
            ∧ g1.jointMotionData = g.jointMotionDataToProcess)
        ∧ (¬ g.jointMotionData.time < g.jointMotionDataToProcess.time → g1 = g ∧ incs = []) := by
  induction fuel with
  | zero => intro n tcalc T g enq n1 g1 out h; simp [incQueueLoop] at h
  | succ f ih =>
    intro n tcalc T g enq n1 g1 out h
    by_cases hlt : g.jointMotionData.time < g.jointMotionDataToProcess.time
    · have hc : g.jointMotionData.time < g.jointMotionDataToProcess.time
          ∧ w.motionReady n = true ∧ w.bStopMotion n = false := ⟨hlt, hready n, hstop n⟩
      obtain ⟨hfa, hfc, hfe, hfp, hfq, _⟩ := interpolStep_frame period L (tcalc + T) T g
      unfold incQueueLoop at h
      rw [if_pos hc] at h
      dsimp only at h
      cases hA : Ros_MotionServer_AddPulseIncPointToQ K w (f + 1) (n + 1)
          (interpolStep period L (tcalc + T) T g).1.inc_q
          (mkIncData K (interpolStep period L (tcalc + T) T g).1
            ((interpolStep period L (tcalc + T) T g).1.convertToMotoPos
              (interpolStep period L (tcalc + T) T g).1.jointMotionData.pos)) with
      | none => rw [hA] at h; simp at h
      | some r =>
        obtain ⟨b, n2, q2⟩ := r
        have hb : b = true := add_true_of_succeeds K w F hadd _ _ _ _ b n2 q2 hA
        subst hb
        rw [hA] at h
        dsimp only at h
        obtain ⟨incs, hout, hsum, hzero, hkeep, hin, hnot⟩ := ih _ _ _ _ _ _ _ _ h
        refine ⟨mkIncData K (interpolStep period L (tcalc + T) T g).1
            ((interpolStep period L (tcalc + T) T g).1.convertToMotoPos
              (interpolStep period L (tcalc + T) T g).1.jointMotionData.pos) :: incs,
          by rw [hout]; simp, ?_, ?_, by rw [hkeep]; exact hfe, ?_, fun hn => absurd hlt hn⟩
        · intro a
          have hs := hsum a
          simp only [hfa, hfp] at hs
          simp only [incSum, List.map_cons, List.sum_cons] at hs ⊢
          rw [hs]
          by_cases hax : g.axisType a = K.AXIS_INVALID
          · simp [mkIncData, hfa, hax]
          · simp [mkIncData, hfa, hfp, hax]
        · intro d hd a hax
          rcases List.mem_cons.mp hd with rfl | hd
          · simp [mkIncData, hfa, hax]
          · exact hzero d hd a (by simpa [hfa] using hax)
        · intro _
          by_cases hbef : tcalc + T < g.jointMotionDataToProcess.time
          · have ht := interpolStep_before_time period L (tcalc + T) T g hbef
            have hin2 := hin (by simp only [hfe, ht]; exact hbef)
            simp only [hfc, hfe] at hin2
            exact hin2
          · have hj := interpolStep_final period L (tcalc + T) T g hbef
            have hn2 := hnot (by simp only [hfe, hj]; omega)
            rw [hn2.1]
            simp only [hfc, hj]
            exact ⟨trivial, trivial⟩
    · have hc : ¬ (g.jointMotionData.time < g.jointMotionDataToProcess.time
          ∧ w.motionReady n = true ∧ w.bStopMotion n = false) := fun hh => hlt hh.1
      unfold incQueueLoop at h
      rw [if_neg hc] at h
      simp only [Option.some.injEq, Prod.mk.injEq] at h
      obtain ⟨_, hg, ho⟩ := h
      subst hg; subst ho
      refine ⟨[], by simp, ?_, ?_, rfl, fun hh => absurd hh hlt, fun _ => ⟨rfl, rfl⟩⟩
      · intro a; simp [incSum]
      · intro d hd; simp at hd

/-- The ceiling of a quotient of integers from integer bounds. -/
theorem ceil_div_eq (a p z : Int) (hp : 0 < p) (h1 : (z - 1) * p < a) (h2 : a ≤ z * p) :
    ⌈(a : ℚ) / (p : ℚ)⌉ = z := by
  have hpq : (0 : ℚ) < (p : ℚ) := by exact_mod_cast hp
  rw [Int.ceil_eq_iff]
  constructor
  · rw [lt_div_iff₀ hpq]; exact_mod_cast h1
  · rw [div_le_iff₀ hpq]; exact_mod_cast h2

/-! ## Claims on the interpolator -/

/-- C2 (amended): for every segment with `end.t > start.t`, a period `> 0` and a
leftover `0 <= time_leftover_ms < period` at entry, if the controller stays
motion-ready, the stop flag stays clear and every enqueue succeeds, then
`Ros_MotionServer_JointTrajDataToIncQueue` returns (given enough fuel) and
enqueues exactly `ceil((end.t - start.t - time_leftover_ms)/period)` increments,
plus one when `time_leftover_ms` is not 0; so exactly
`ceil((end.t - start.t)/period)` when `time_leftover_ms = 0` at entry. -/
theorem C2_increment_count (K : Consts) (w : Others) (period : Int) (F n : Nat) (g : CtrlGroup)
    (hp : 0 < period) (hD : g.jointMotionData.time < g.jointMotionDataToProcess.time)
    (hL0 : 0 ≤ g.timeLeftover_ms) (hLp : g.timeLeftover_ms < period)
    (hready : ∀ k, w.motionReady k = true) (hstop : ∀ k, w.bStopMotion k = false)
    (hadd : EnqueueSucceeds K w F) :
    ∃ fuel0 : Nat, ∀ fuel, fuel0 ≤ fuel →
      ∃ (n1 : Nat) (g1 : CtrlGroup) (incs : List Incremental_data),
        Ros_MotionServer_JointTrajDataToIncQueue K w period fuel n g = some (n1, g1, incs)
        ∧ (incs.length : Int)
            = ⌈((g.jointMotionDataToProcess.time - g.jointMotionData.time - g.timeLeftover_ms : Int) : ℚ)
                / (period : ℚ)⌉ + (if g.timeLeftover_ms = 0 then 0 else 1) := by
  obtain ⟨hb1, hb2⟩ := ceil_div_bounds
    (g.jointMotionDataToProcess.time - g.jointMotionData.time
      - (if g.timeLeftover_ms = 0 then period else g.timeLeftover_ms)) period hp
  generalize hz : ⌈((g.jointMotionDataToProcess.time - g.jointMotionData.time
      - (if g.timeLeftover_ms = 0 then period else g.timeLeftover_ms) : Int) : ℚ) / (period : ℚ)⌉ = z
      at hb1 hb2
  have hT : (if g.timeLeftover_ms = 0 then period else g.timeLeftover_ms) ≤ period := by
    split_ifs <;> omega
  have hz0 : 0 ≤ z := by
    by_contra hneg
    have hz1 : z ≤ -1 := by omega
    have : z * period ≤ -1 * period := by nlinarith
    omega
  have hm : ((z.toNat + 1 : Nat) : Int) = z + 1 := by omega
  refine ⟨(z.toNat + 1) + F + 1, fun fuel hfuel => ?_⟩
  obtain ⟨n1, g1, incs, hrun, hlen, _⟩ :=
    incQueue_run K w period F g hp hready hstop hadd hD hL0 hLp (z.toNat + 1) (by omega)
      (by rw [hm]; have : z + 1 - 2 = z - 1 := by ring
          rw [this]; exact hb1)
      (by rw [hm]; have : z + 1 - 1 = z := by ring
          rw [this]; exact hb2)
      fuel n hfuel
  refine ⟨n1, g1, incs, hrun, ?_⟩
  rw [hlen, hm]
  by_cases h0 : g.timeLeftover_ms = 0
  · simp only [h0, if_true, sub_zero, add_zero] at hb1 hb2 ⊢
    symm
    apply ceil_div_eq _ _ _ hp
    · have : z + 1 - 1 = z := by ring
      rw [this]; nlinarith
    · nlinarith
  · simp only [h0, if_false] at hb1 hb2 ⊢
    rw [ceil_div_eq _ _ z hp hb1 hb2]

theorem C2_increment_count_witness :
    ∃ fuel0 : Nat, ∀ fuel, fuel0 ≤ fuel →
      ∃ (n1 : Nat) (g1 : CtrlGroup) (incs : List Incremental_data),
        Ros_MotionServer_JointTrajDataToIncQueue motoRosConsts helpfulOthers 4 fuel 0
            (sampleSegment 0 1000 0 1) = some (n1, g1, incs)
        ∧ (incs.length : Int) = 250 := by
  obtain ⟨fuel0, h⟩ := C2_increment_count motoRosConsts helpfulOthers 4 2 0
    (sampleSegment 0 1000 0 1) (by norm_num) (by simp [sampleSegment, samplePoint])
    (by simp [sampleSegment]) (by simp [sampleSegment]) (fun _ => rfl) (fun _ => rfl)
    (enqueueSucceeds_helpful motoRosConsts (by simp [motoRosConsts]))
  refine ⟨fuel0, fun fuel hf => ?_⟩
  obtain ⟨n1, g1, incs, hrun, hlen⟩ := h fuel hf
  refine ⟨n1, g1, incs, hrun, ?_⟩
  rw [hlen]
  have hc : ⌈(((sampleSegment 0 1000 0 1).jointMotionDataToProcess.time
      - (sampleSegment 0 1000 0 1).jointMotionData.time
      - (sampleSegment 0 1000 0 1).timeLeftover_ms : Int) : ℚ) / ((4 : Int) : ℚ)⌉ = 250 := by
    apply ceil_div_eq _ _ _ (by norm_num) <;> simp [sampleSegment, samplePoint]
  rw [hc]
  simp [sampleSegment]

/-- C2 (as stated) fails: with `time_leftover_ms = 2` at entry, the segment from
0 ms to 8 ms at period 4 ms gets 3 increments (at 2, 6 and 8 ms), not
`ceil(8/4) = 2`, although the controller stays motion-ready, the stop flag stays
clear and every enqueue succeeds. -/
theorem C2_counterexample :
    EnqueueSucceeds motoRosConsts helpfulOthers 2
    ∧ ∃ (n1 : Nat) (g1 : CtrlGroup) (incs : List Incremental_data),
        Ros_MotionServer_JointTrajDataToIncQueue motoRosConsts helpfulOthers 4 6 0
            (sampleSegment 0 8 2 1) = some (n1, g1, incs)
        ∧ incs.length = 3
        ∧ ⌈(((sampleSegment 0 8 2 1).jointMotionDataToProcess.time
              - (sampleSegment 0 8 2 1).jointMotionData.time : Int) : ℚ) / ((4 : Int) : ℚ)⌉ = 2 := by
  have hadd := enqueueSucceeds_helpful motoRosConsts (by simp [motoRosConsts])
  refine ⟨hadd, ?_⟩
  obtain ⟨n1, g1, incs, hrun, hlen, _⟩ :=
    incQueue_run motoRosConsts helpfulOthers 4 2 (sampleSegment 0 8 2 1) (by norm_num)
      (fun _ => rfl) (fun _ => rfl) hadd (by simp [sampleSegment, samplePoint])
      (by simp [sampleSegment]) (by simp [sampleSegment]) 3 (by norm_num)
      (by simp [sampleSegment, samplePoint]) (by simp [sampleSegment, samplePoint])
      6 0 (by norm_num)
  refine ⟨n1, g1, incs, hrun, hlen, ?_⟩
  apply ceil_div_eq _ _ _ (by norm_num) <;> simp [sampleSegment, samplePoint]

/-- C3 (amended): for every segment with `end.t > start.t` that
`Ros_MotionServer_JointTrajDataToIncQueue` runs to completion (motion-ready, not
stopped, every enqueue succeeds), with `end` the end point as the function leaves
it in `jointMotionDataToProcess` (for a B-axis-slave group, with the B-axis
correction applied): on each active axis the sum of the increments enqueued is
`to_pulse(end.pos)` minus `prevPulsePos` at segment start, `prevPulsePos`
afterwards is `to_pulse(end.pos)`, and on every inactive slot every enqueued
increment is 0. -/
theorem C3_increments_sum_to_pulse_change (K : Consts) (w : Others) (period : Int)
    (F fuel n : Nat) (g : CtrlGroup) (n1 : Nat) (g1 : CtrlGroup) (incs : List Incremental_data)
    (hD : g.jointMotionData.time < g.jointMotionDataToProcess.time)
    (hready : ∀ k, w.motionReady k = true) (hstop : ∀ k, w.bStopMotion k = false)
    (hadd : EnqueueSucceeds K w F)
    (hrun : Ros_MotionServer_JointTrajDataToIncQueue K w period fuel n g = some (n1, g1, incs)) :
    (∀ a, g.axisType a ≠ K.AXIS_INVALID →
        incSum incs a
          = g.convertToMotoPos g1.jointMotionDataToProcess.pos a - g.prevPulsePos a)
    ∧ g1.prevPulsePos = g.convertToMotoPos g1.jointMotionDataToProcess.pos
    ∧ (∀ d ∈ incs, ∀ a, g.axisType a = K.AXIS_INVALID → d.inc a = 0)
    ∧ g1.jointMotionDataToProcess
        = (if g.bIsBaxisSlave then bAxisSlaveAdjust g.jointMotionDataToProcess
           else g.jointMotionDataToProcess) := by
  have key : ∀ (g0 : CtrlGroup) (Lc : IncLocals) (T : Int), g0.jointMotionData = g.jointMotionData →
      g0.jointMotionDataToProcess.time = g.jointMotionDataToProcess.time →
      incQueueLoop K w period Lc fuel n g.jointMotionData.time T g0 [] = some (n1, g1, incs) →
      (∀ a, g0.axisType a ≠ K.AXIS_INVALID →
          incSum incs a
            = g0.convertToMotoPos g1.jointMotionDataToProcess.pos a - g0.prevPulsePos a)
      ∧ g1.prevPulsePos = g0.convertToMotoPos g1.jointMotionDataToProcess.pos
      ∧ (∀ d ∈ incs, ∀ a, g0.axisType a = K.AXIS_INVALID → d.inc a = 0)
      ∧ g1.jointMotionDataToProcess = g0.jointMotionDataToProcess := by
    intro g0 Lc T hcur hend h
    obtain ⟨incs2, hout, hsum, hzero, hkeep, hin, _⟩ :=
      incQueueLoop_partial K w period Lc F hready hstop hadd fuel n _ T g0 [] n1 g1 incs h
    simp only [List.nil_append] at hout
    subst hout
    obtain ⟨hpv, _⟩ := hin (by rw [hcur, hend]; exact hD)
    refine ⟨?_, by rw [hpv, hkeep], hzero, hkeep⟩
    intro a ha
    rw [hsum a, if_pos ha, hpv, hkeep]
  unfold Ros_MotionServer_JointTrajDataToIncQueue at hrun
  by_cases hb : g.bIsBaxisSlave = true
  · rw [if_pos hb] at hrun
    obtain ⟨h1, h2, h3, h4⟩ :=
      key { g with jointMotionDataToProcess := bAxisSlaveAdjust g.jointMotionDataToProcess }
        _ _ rfl rfl hrun
    exact ⟨h1, h2, h3, by rw [h4]; simp [hb]⟩
  · rw [if_neg hb] at hrun
    obtain ⟨h1, h2, h3, h4⟩ := key g _ _ rfl rfl hrun
    exact ⟨h1, h2, h3, by rw [h4]; simp [hb]⟩

theorem C3_increments_sum_to_pulse_change_witness :
    ∃ (n1 : Nat) (g1 : CtrlGroup) (incs : List Incremental_data),
      Ros_MotionServer_JointTrajDataToIncQueue motoRosConsts helpfulOthers 4 6 0
          (sampleSegment 0 8 2 1000) = some (n1, g1, incs)
      ∧ (∀ a, (sampleSegment 0 8 2 1000).axisType a ≠ motoRosConsts.AXIS_INVALID →
          incSum incs a
            = (sampleSegment 0 8 2 1000).convertToMotoPos g1.jointMotionDataToProcess.pos a
              - (sampleSegment 0 8 2 1000).prevPulsePos a)
      ∧ g1.prevPulsePos
          = (sampleSegment 0 8 2 1000).convertToMotoPos g1.jointMotionDataToProcess.pos := by
  have hadd := enqueueSucceeds_helpful motoRosConsts (by simp [motoRosConsts])
  obtain ⟨n1, g1, incs, hrun, _⟩ :=
    incQueue_run motoRosConsts helpfulOthers 4 2 (sampleSegment 0 8 2 1000) (by norm_num)
      (fun _ => rfl) (fun _ => rfl) hadd (by simp [sampleSegment, samplePoint])
      (by simp [sampleSegment]) (by simp [sampleSegment]) 3 (by norm_num)
      (by simp [sampleSegment, samplePoint]) (by simp [sampleSegment, samplePoint])
      6 0 (by norm_num)
  have h := C3_increments_sum_to_pulse_change motoRosConsts helpfulOthers 4 2 6 0
    (sampleSegment 0 8 2 1000) n1 g1 incs (by simp [sampleSegment, samplePoint])
    (fun _ => rfl) (fun _ => rfl) hadd hrun
  exact ⟨n1, g1, incs, hrun, h.1, h.2.1⟩

/-- C3 (as stated) fails on a segment with `end.t = start.t`: the function runs
to completion without enqueuing anything, so the sum of the increments on the
active axis 0 is 0, while `to_pulse(end.pos)` minus `prevPulsePos` is 1000. -/
theorem C3_counterexample :
    Ros_MotionServer_JointTrajDataToIncQueue motoRosConsts helpfulOthers 4 1 0
        (sampleSegment 0 0 0 1000) = some (0, sampleSegment 0 0 0 1000, [])
    ∧ (sampleSegment 0 0 0 1000).axisType 0 ≠ motoRosConsts.AXIS_INVALID
    ∧ incSum [] 0 = 0
    ∧ (sampleSegment 0 0 0 1000).convertToMotoPos
          (sampleSegment 0 0 0 1000).jointMotionDataToProcess.pos 0
        - (sampleSegment 0 0 0 1000).prevPulsePos 0 = 1000 := by
  refine ⟨?_, ?_, ?_, ?_⟩
  · simp [Ros_MotionServer_JointTrajDataToIncQueue, incQueueLoop, sampleSegment, sampleGroup,
      samplePoint]
  · simp [sampleSegment, sampleGroup, motoRosConsts]
  · simp [incSum]
  · simp [sampleSegment, sampleGroup, samplePoint]

/-! ## The trajectory validator -/

/-- The magnitude that the code compares with the speed limit, C `abs()` of the
truncated velocity, never exceeds the real magnitude of the velocity. -/
theorem abs_of_float_le (x : ℚ) : ((abs_of_float x : Int) : ℚ) ≤ |x| := by
  unfold abs_of_float truncToInt
  split_ifs with h
  · have h1 : (0 : Int) ≤ ⌊x⌋ := Int.floor_nonneg.mpr h
    rw [abs_of_nonneg h1, abs_of_nonneg h]
    exact Int.floor_le x
  · have hx : x < 0 := lt_of_not_ge h
    have h1 : ⌈x⌉ ≤ (0 : Int) := Int.ceil_le.mpr (by exact_mod_cast hx.le)
    rw [abs_of_nonpos h1, abs_of_neg hx]
    have h2 := Int.le_ceil x
    push_cast
    linarith

/-- The loop over the axes of `Ros_MotionServer_InitTrajPointFull`, when no
velocity check fires on the axes of `l`: the loop returns 0 exactly when every
axis of `l` starts within `maxIncrement` of the commanded position, and the
start-position code otherwise. -/
theorem initAxisLoop_start (K : Consts) (g : CtrlGroup) (tp cc : Axis → Int) (l : List Axis)
    (hstart : K.ROS_RESULT_INVALID_DATA_START_POS ≠ 0)
    (hvel : ∀ i ∈ l, ¬ ((abs_of_float (g.jointMotionData.vel i) : Int) : ℚ) > g.maxSpeed i) :
    (initAxisLoop K g tp cc l = 0 ↔ ∀ i ∈ l, |tp i - cc i| ≤ g.maxIncrement i)
    ∧ (¬ (∀ i ∈ l, |tp i - cc i| ≤ g.maxIncrement i) →
        initAxisLoop K g tp cc l = K.ROS_RESULT_INVALID_DATA_START_POS) := by
  induction l with
  | nil => simp [initAxisLoop]
  | cons i rest ih =>
    obtain ⟨ih1, ih2⟩ := ih (fun j hj => hvel j (List.mem_cons_of_mem i hj))
    have hv := hvel i (List.mem_cons_self i rest)
    unfold initAxisLoop
    by_cases h : |tp i - cc i| > g.maxIncrement i
    · rw [if_pos h]
      constructor
      · constructor
        · intro h0; exact absurd h0 hstart
        · intro hall
          have := hall i (List.mem_cons_self i rest)
          omega
      · intro _; rfl
    · rw [if_neg h, if_neg hv]
      have hle : |tp i - cc i| ≤ g.maxIncrement i := by omega
      constructor
      · rw [ih1]
        constructor
        · intro hall j hj
          rcases List.mem_cons.mp hj with rfl | hj
          · exact hle
          · exact hall j hj
        · intro hall j hj
          exact hall j (List.mem_cons_of_mem i hj)
      · intro hn
        apply ih2
        intro hall
        apply hn
        intro j hj
        rcases List.mem_cons.mp hj with rfl | hj
        · exact hle
        · exact hall j hj

/-- C7: for a point whose group number matches and whose velocities are all
within the limits (`|vel[i]| <= maxSpeed[i]` on every axis slot),
`Ros_MotionServer_InitTrajPointFull` returns 0 exactly when
`|to_pulse(pos)[i] - cur_cmd_pulse[i]| <= maxIncrement[i]` on every axis slot,
and returns `ROS_RESULT_INVALID_DATA_START_POS` otherwise; so equality with
`maxIncrement[i]` is accepted and a difference of `maxIncrement[i] + 1` is
rejected. The start-position code is not 0. -/
theorem C7_start_position_check_inclusive (K : Consts) (curCommandedPos : Axis → Int)
    (g : CtrlGroup) (m : SmBodyJointTrajPtFull)
    (hgrp : g.groupNo = m.groupNo)
    (hvel : ∀ i, |(Ros_MotionServer_ConvertToJointMotionData K m).vel i| ≤ g.maxSpeed i)
    (hstart : K.ROS_RESULT_INVALID_DATA_START_POS ≠ 0) :
    ((Ros_MotionServer_InitTrajPointFull K curCommandedPos g m).1 = 0
      ↔ ∀ i, |g.convertToMotoPos (Ros_MotionServer_ConvertToJointMotionData K m).pos i
              - curCommandedPos i| ≤ g.maxIncrement i)
    ∧ (∀ i, |g.convertToMotoPos (Ros_MotionServer_ConvertToJointMotionData K m).pos i
              - curCommandedPos i| = g.maxIncrement i + 1 →
        (Ros_MotionServer_InitTrajPointFull K curCommandedPos g m).1
          = K.ROS_RESULT_INVALID_DATA_START_POS) := by
  have hv : ∀ i ∈ List.finRange MP_GRP_AXES_NUM,
      ¬ ((abs_of_float ((Ros_MotionServer_ConvertToJointMotionData K m).vel i) : Int) : ℚ)
        > g.maxSpeed i := by
    intro i _
    have h1 := abs_of_float_le ((Ros_MotionServer_ConvertToJointMotionData K m).vel i)
    have h2 := hvel i
    simp only [gt_iff_lt, not_lt]
    linarith
  obtain ⟨h1, h2⟩ := initAxisLoop_start K
    { g with jointMotionData := Ros_MotionServer_ConvertToJointMotionData K m,
             timeLeftover_ms := 0,
             q_time := (Ros_MotionServer_ConvertToJointMotionData K m).time }
    (g.convertToMotoPos (Ros_MotionServer_ConvertToJointMotionData K m).pos) curCommandedPos
    (List.finRange MP_GRP_AXES_NUM) hstart hv
  simp only [List.mem_finRange, true_implies] at h1 h2
  constructor
  · simp only [Ros_MotionServer_InitTrajPointFull, hgrp, if_true]
    exact h1
  · intro i hi
    simp only [Ros_MotionServer_InitTrajPointFull, hgrp, if_true]
    apply h2
    intro hall
    have := hall i
    simp only at this
    omega

theorem C7_start_position_check_inclusive_witness :
    (Ros_MotionServer_InitTrajPointFull motoRosConsts (fun _ => 0) sampleGroup
        (sampleMsg 0 0 100 0)).1 = 0
    ∧ (Ros_MotionServer_InitTrajPointFull motoRosConsts (fun _ => 0) sampleGroup
        (sampleMsg 0 0 101 0)).1 = motoRosConsts.ROS_RESULT_INVALID_DATA_START_POS := by
  have hvel : ∀ (p : ℚ) (i : Axis),
      |(Ros_MotionServer_ConvertToJointMotionData motoRosConsts (sampleMsg 0 0 p 0)).vel i|
        ≤ sampleGroup.maxSpeed i := by
    intro p i
    simp [Ros_MotionServer_ConvertToJointMotionData, sampleMsg, sampleGroup]
    norm_num
  have hpos : ∀ (p : Int) (i : Axis),
      sampleGroup.convertToMotoPos
        (Ros_MotionServer_ConvertToJointMotionData motoRosConsts (sampleMsg 0 0 (p : ℚ) 0)).pos i
        = p := by
    intro p i
    have hi : i.val < 10 := lt_trans i.isLt (by decide)
    simp [Ros_MotionServer_ConvertToJointMotionData, sampleMsg, sampleGroup, motoRosConsts, hi]
  have h100 := C7_start_position_check_inclusive motoRosConsts (fun _ => 0) sampleGroup
    (sampleMsg 0 0 ((100 : Int) : ℚ) 0) rfl (hvel _) (by simp [motoRosConsts])
  have h101 := C7_start_position_check_inclusive motoRosConsts (fun _ => 0) sampleGroup
    (sampleMsg 0 0 ((101 : Int) : ℚ) 0) rfl (hvel _) (by simp [motoRosConsts])
  constructor
  · have := h100.1.mpr (fun i => by rw [hpos 100 i]; simp [sampleGroup])
    simpa using this
  · have := h101.2 0 (by rw [hpos 101 0]; simp [sampleGroup])
    simpa using this

/-- The eight axis slots. -/
theorem finRange_axes : List.finRange MP_GRP_AXES_NUM = [0, 1, 2, 3, 4, 5, 6, 7] := by
  decide

/-- `Ros_MotionServer_InitTrajPointFull` on a matching group writes the point
into `jointMotionData`, zeroes `timeLeftover_ms` and sets `q_time`, whatever it
returns. -/
theorem init_state (K : Consts) (cc : Axis → Int) (g : CtrlGroup) (m : SmBodyJointTrajPtFull)
    (hgrp : g.groupNo = m.groupNo) :
    (Ros_MotionServer_InitTrajPointFull K cc g m).2
      = { g with jointMotionData := Ros_MotionServer_ConvertToJointMotionData K m,
                 timeLeftover_ms := 0,
                 q_time := (Ros_MotionServer_ConvertToJointMotionData K m).time } := by
  simp [Ros_MotionServer_InitTrajPointFull, hgrp]

/-- A message that passes the entry checks of
`Ros_MotionServer_JointTrajDataProcess` (motion-ready, valid group, time, position
and velocity valid) and whose primitives succeed is dispatched on its sequence
number: the controller and the result and subcode of the reply. -/
theorem process_dispatch (K : Consts) (p : Prims) (c : Controller) (m : SmBodyJointTrajPtFull)
    (pulsePos : Axis → Int)
    (hready : c.motionReady = true)
    (hvalid : Ros_Controller_IsValidGroupNo c m.groupNo = true)
    (hfields : Int.land m.validFields 0x07 = 0x07)
    (hio : Int.land m.validFields 0x10 ≠ 0 → (p.readIo m.ioReadAddress).isNone = false)
    (hfb : p.fbPulsePos m.groupNo = some pulsePos) :
    (m.sequence = 0 →
      (Ros_MotionServer_JointTrajDataProcess K p c m).1
        = c.setGroup m.groupNo.toNat
            (Ros_MotionServer_InitTrajPointFull K (p.pulsePosCmd m.groupNo)
              (c.ctrlGroups m.groupNo.toNat) m).2
      ∧ (Ros_MotionServer_JointTrajDataProcess K p c m).2.1.result
        = (if (Ros_MotionServer_InitTrajPointFull K (p.pulsePosCmd m.groupNo)
              (c.ctrlGroups m.groupNo.toNat) m).1 = 0 then K.ROS_RESULT_SUCCESS
           else K.ROS_RESULT_INVALID)
      ∧ (Ros_MotionServer_JointTrajDataProcess K p c m).2.1.subcode
        = (Ros_MotionServer_InitTrajPointFull K (p.pulsePosCmd m.groupNo)
              (c.ctrlGroups m.groupNo.toNat) m).1)
    ∧ (m.sequence > 0 →
      (Ros_MotionServer_JointTrajDataProcess K p c m).1
        = c.setGroup m.groupNo.toNat
            (Ros_MotionServer_AddTrajPointFull K (c.ctrlGroups m.groupNo.toNat) m).2
      ∧ (Ros_MotionServer_JointTrajDataProcess K p c m).2.1.result
        = (if (Ros_MotionServer_AddTrajPointFull K (c.ctrlGroups m.groupNo.toNat) m).1 = 0 then
             K.ROS_RESULT_SUCCESS
           else if (Ros_MotionServer_AddTrajPointFull K (c.ctrlGroups m.groupNo.toNat) m).1 = 1 then
             K.ROS_RESULT_BUSY
           else K.ROS_RESULT_INVALID)
      ∧ (Ros_MotionServer_JointTrajDataProcess K p c m).2.1.subcode
        = (if (Ros_MotionServer_AddTrajPointFull K (c.ctrlGroups m.groupNo.toNat) m).1 = 0 then 0
           else if (Ros_MotionServer_AddTrajPointFull K (c.ctrlGroups m.groupNo.toNat) m).1 = 1 then 0
           else (Ros_MotionServer_AddTrajPointFull K (c.ctrlGroups m.groupNo.toNat) m).1)) := by
  have hio2 : (decide (Int.land m.validFields 0x10 ≠ 0) && (p.readIo m.ioReadAddress).isNone)
      = false := by
    by_cases h : Int.land m.validFields 0x10 ≠ 0
    · simp [hio h]
    · simp [h]
  have hf : ¬ Int.land m.validFields 0x07 ≠ 0x07 := fun h => h hfields
  constructor
  · intro hseq
    unfold Ros_MotionServer_JointTrajDataProcess
    simp only [hready, hvalid, Bool.not_true, Bool.false_eq_true, if_false, hf, hio2, hfb, hseq,
      if_true]
    split_ifs <;> simp_all [Ros_SimpleMsg_MotionReply]
  · intro hseq
    have hne : ¬ m.sequence = 0 := by omega
    unfold Ros_MotionServer_JointTrajDataProcess
    simp only [hready, hvalid, Bool.not_true, Bool.false_eq_true, if_false, hf, hio2, hfb, hseq,
      hne, if_true]
    split_ifs <;> simp_all [Ros_SimpleMsg_MotionReply]

/-! ## Claims on the trajectory validator -/

/-- C8: the code at the failing input. The group is in the middle of a
trajectory (current point at 40 ms, leftover 3 ms, queue time 40 ms), the
commanded position is 1000 pulses and the window 500; a sequence-0 point at 2 s
whose position converts to 2000 pulses is rejected with
INVALID / INVALID_DATA_START_POS, and yet the group has changed: `timeLeftover_ms`
is 0, `q_time` and the time of `jointMotionData` are 2000. -/
theorem C8_rejected_start_point_modifies_group :
    (Ros_MotionServer_JointTrajDataProcess motoRosConsts (samplePrims 1000)
        (sampleController driftGroup) (sampleMsg 0 2 2000 0)).2.1.result
      = motoRosConsts.ROS_RESULT_INVALID
    ∧ (Ros_MotionServer_JointTrajDataProcess motoRosConsts (samplePrims 1000)
        (sampleController driftGroup) (sampleMsg 0 2 2000 0)).2.1.subcode
      = motoRosConsts.ROS_RESULT_INVALID_DATA_START_POS
    ∧ driftGroup.timeLeftover_ms = 3
    ∧ ((Ros_MotionServer_JointTrajDataProcess motoRosConsts (samplePrims 1000)
        (sampleController driftGroup) (sampleMsg 0 2 2000 0)).1.ctrlGroups 0).timeLeftover_ms = 0
    ∧ driftGroup.q_time = 40
    ∧ ((Ros_MotionServer_JointTrajDataProcess motoRosConsts (samplePrims 1000)
        (sampleController driftGroup) (sampleMsg 0 2 2000 0)).1.ctrlGroups 0).q_time = 2000
    ∧ driftGroup.jointMotionData.time = 40
    ∧ ((Ros_MotionServer_JointTrajDataProcess motoRosConsts (samplePrims 1000)
        (sampleController driftGroup) (sampleMsg 0 2 2000 0)).1.ctrlGroups 0).jointMotionData.time
      = 2000 := by
  have htime : (Ros_MotionServer_ConvertToJointMotionData motoRosConsts
      (sampleMsg 0 2 2000 0)).time = 2000 := by
    have h : ⌊(2000 : ℚ)⌋ = 2000 := by exact_mod_cast Int.floor_intCast (2000 : Int)
    simp only [Ros_MotionServer_ConvertToJointMotionData, sampleMsg, truncToInt]
    norm_num
  have hpos : sampleGroup.convertToMotoPos (Ros_MotionServer_ConvertToJointMotionData motoRosConsts
      (sampleMsg 0 2 2000 0)).pos 0 = 2000 := by
    have h : ⌊(2000 : ℚ)⌋ = 2000 := by exact_mod_cast Int.floor_intCast (2000 : Int)
    simp [Ros_MotionServer_ConvertToJointMotionData, sampleMsg, sampleGroup, motoRosConsts, h]
  have hret : (Ros_MotionServer_InitTrajPointFull motoRosConsts ((samplePrims 1000).pulsePosCmd (sampleMsg 0 2 2000 0).groupNo)
      driftGroup (sampleMsg 0 2 2000 0)).1 = motoRosConsts.ROS_RESULT_INVALID_DATA_START_POS := by
    have hgt : |sampleGroup.convertToMotoPos (Ros_MotionServer_ConvertToJointMotionData
        motoRosConsts (sampleMsg 0 2 2000 0)).pos 0 - 1000| > (500 : Int) := by
      rw [hpos]; decide
    have hg : driftGroup.groupNo = (sampleMsg 0 2 2000 0).groupNo := rfl
    simp only [Ros_MotionServer_InitTrajPointFull, hg, if_true, finRange_axes, initAxisLoop]
    rw [if_pos]
    exact hgt
  obtain ⟨h0, _⟩ := process_dispatch motoRosConsts (samplePrims 1000) (sampleController driftGroup)
    (sampleMsg 0 2 2000 0) (fun _ => 1000) rfl (by decide) (by decide)
    (fun _ => rfl) rfl
  obtain ⟨hc, hr, hs⟩ := h0 rfl
  have hst := init_state motoRosConsts ((samplePrims 1000).pulsePosCmd (sampleMsg 0 2 2000 0).groupNo) driftGroup
    (sampleMsg 0 2 2000 0) rfl
  have hg0 : (sampleController driftGroup).ctrlGroups (sampleMsg 0 2 2000 0).groupNo.toNat
      = driftGroup := rfl
  rw [hg0] at hc hr hs
  have hgrp : (Ros_MotionServer_JointTrajDataProcess motoRosConsts (samplePrims 1000)
      (sampleController driftGroup) (sampleMsg 0 2 2000 0)).1.ctrlGroups 0
      = (Ros_MotionServer_InitTrajPointFull motoRosConsts ((samplePrims 1000).pulsePosCmd (sampleMsg 0 2 2000 0).groupNo)
          driftGroup (sampleMsg 0 2 2000 0)).2 := by
    rw [hc]; simp [Controller.setGroup, sampleMsg]
  refine ⟨?_, ?_, rfl, ?_, rfl, ?_, rfl, ?_⟩
  · rw [hr, hret]; simp [motoRosConsts]
  · rw [hs, hret]
  · rw [hgrp, hst]
  · rw [hgrp, hst]; exact htime
  · rw [hgrp, hst]; exact htime

/-- C abs() of 3/4 is 0. -/
theorem abs_of_float_three_quarters : abs_of_float (3 / 4) = 0 := by
  have h : ⌊(3 / 4 : ℚ)⌋ = 0 := by
    rw [Int.floor_eq_iff]; norm_num
  have h0 : (0 : ℚ) ≤ 3 / 4 := by norm_num
  simp [abs_of_float, truncToInt, h0, h]

/-- C abs() of 0 is 0. -/
theorem abs_of_float_zero : abs_of_float 0 = 0 := by
  simp [abs_of_float, truncToInt]

/-- C9: the code at the failing input. The sample group (six active axes, speed
limit 3/8 on each, nothing pending) receives a follow-up point with velocity 3/4
on axis 2, twice the limit; C `abs()` truncates 3/4 to 0, the velocity check
passes, `Ros_MotionServer_AddTrajPointFull` returns 0 and sets `hasDataToProcess`,
and the reply is SUCCESS with subcode 0. -/
theorem C9_overspeed_point_accepted :
    (2 : Axis).val < sampleGroup.numAxes
    ∧ |(Ros_MotionServer_ConvertToJointMotionData motoRosConsts overspeedMsg).vel 2|
        > sampleGroup.maxSpeed 2
    ∧ (Ros_MotionServer_AddTrajPointFull motoRosConsts sampleGroup overspeedMsg).1 = 0
    ∧ sampleGroup.hasDataToProcess = false
    ∧ (Ros_MotionServer_AddTrajPointFull motoRosConsts sampleGroup
        overspeedMsg).2.hasDataToProcess = true
    ∧ (Ros_MotionServer_JointTrajDataProcess motoRosConsts (samplePrims 0)
        (sampleController sampleGroup) overspeedMsg).2.1.result = motoRosConsts.ROS_RESULT_SUCCESS
    ∧ (Ros_MotionServer_JointTrajDataProcess motoRosConsts (samplePrims 0)
        (sampleController sampleGroup) overspeedMsg).2.1.subcode = 0 := by
  have hvel : ∀ i : Axis,
      abs_of_float ((Ros_MotionServer_ConvertToJointMotionData motoRosConsts overspeedMsg).vel i)
        = 0 := by
    intro i
    have hi : i.val < 10 := lt_trans i.isLt (by decide)
    simp only [Ros_MotionServer_ConvertToJointMotionData, overspeedMsg, motoRosConsts]
    have hm : i.val < min 10 MP_GRP_AXES_NUM := by simp [hi]
    rw [if_pos hm]
    split_ifs
    · exact abs_of_float_three_quarters
    · exact abs_of_float_zero
  have hadd : Ros_MotionServer_AddTrajPointFull motoRosConsts sampleGroup overspeedMsg
      = (0, { sampleGroup with
              jointMotionDataToProcess :=
                Ros_MotionServer_ConvertToJointMotionData motoRosConsts overspeedMsg,
              hasDataToProcess := true }) := by
    have hno : ((activeAxes sampleGroup.numAxes).any fun i =>
        decide (((abs_of_float ((Ros_MotionServer_ConvertToJointMotionData motoRosConsts
          overspeedMsg).vel i) : Int) : ℚ) > sampleGroup.maxSpeed i)) = false := by
      rw [List.any_eq_false]
      intro i _
      rw [hvel i]
      simp [sampleGroup]
      norm_num
    have hp : sampleGroup.hasDataToProcess = false := rfl
    simp only [Ros_MotionServer_AddTrajPointFull, hp, hno, Bool.false_eq_true, if_false]
  obtain ⟨_, h1⟩ := process_dispatch motoRosConsts (samplePrims 0) (sampleController sampleGroup)
    overspeedMsg (fun _ => 0) rfl (by decide) (by decide) (fun _ => rfl) rfl
  obtain ⟨_, hr, hs⟩ := h1 (by decide)
  have hg0 : (sampleController sampleGroup).ctrlGroups overspeedMsg.groupNo.toNat
      = sampleGroup := rfl
  rw [hg0, hadd] at hr hs
  refine ⟨by decide, ?_, by rw [hadd], rfl, by rw [hadd], ?_, ?_⟩
  · have h2 : (Ros_MotionServer_ConvertToJointMotionData motoRosConsts overspeedMsg).vel 2
        = 3 / 4 := by
      simp [Ros_MotionServer_ConvertToJointMotionData, overspeedMsg, motoRosConsts]
    have h3 : sampleGroup.maxSpeed 2 = 3 / 8 := rfl
    rw [h2, h3]
    norm_num [abs_of_pos]
  · rw [hr]; simp
  · rw [hs]; simp

/-- C10: for every sequence>0 point that arrives while the group's
`hasDataToProcess` is set, whatever its velocities, `Ros_MotionServer_AddTrajPointFull`
returns `ROS_RESULT_BUSY` and the group as it was;
`Ros_MotionServer_JointTrajDataProcess` leaves the whole controller unchanged, on
every path; and when the message reaches the dispatch on the sequence number
(motion-ready, valid group, time, position and velocity valid, primitives
succeed) the reply is BUSY with subcode 0. `ROS_RESULT_BUSY` is 1, the value the
caller compares with. -/
theorem C10_busy_leaves_group_untouched (K : Consts) (p : Prims) (c : Controller)
    (m : SmBodyJointTrajPtFull)
    (hseq : m.sequence > 0)
    (hpend : (c.ctrlGroups m.groupNo.toNat).hasDataToProcess = true)
    (hbusy : K.ROS_RESULT_BUSY = 1) :
    Ros_MotionServer_AddTrajPointFull K (c.ctrlGroups m.groupNo.toNat) m
      = (K.ROS_RESULT_BUSY, c.ctrlGroups m.groupNo.toNat)
    ∧ (Ros_MotionServer_JointTrajDataProcess K p c m).1 = c
    ∧ (c.motionReady = true → Ros_Controller_IsValidGroupNo c m.groupNo = true →
        Int.land m.validFields 0x07 = 0x07 →
        (Int.land m.validFields 0x10 ≠ 0 → (p.readIo m.ioReadAddress).isNone = false) →
        (p.fbPulsePos m.groupNo).isSome = true →
        (Ros_MotionServer_JointTrajDataProcess K p c m).2.1.result = K.ROS_RESULT_BUSY
        ∧ (Ros_MotionServer_JointTrajDataProcess K p c m).2.1.subcode = 0) := by
  have hadd : Ros_MotionServer_AddTrajPointFull K (c.ctrlGroups m.groupNo.toNat) m
      = (K.ROS_RESULT_BUSY, c.ctrlGroups m.groupNo.toNat) := by
    simp [Ros_MotionServer_AddTrajPointFull, hpend]
  have hne : ¬ m.sequence = 0 := by omega
  have hself : c.setGroup m.groupNo.toNat (c.ctrlGroups m.groupNo.toNat) = c := by
    simp [Controller.setGroup]
  refine ⟨hadd, ?_, ?_⟩
  · unfold Ros_MotionServer_JointTrajDataProcess
    simp only [hadd, hne, hseq, if_false, if_true, hself]
    split_ifs <;> try rfl
    all_goals (split <;> simp)
  · intro hready hvalid hfields hio hfb
    obtain ⟨pulsePos, hpp⟩ := Option.isSome_iff_exists.mp hfb
    obtain ⟨_, h1⟩ := process_dispatch K p c m pulsePos hready hvalid hfields hio hpp
    obtain ⟨_, hr, hs⟩ := h1 hseq
    rw [hadd] at hr hs
    have hb0 : ¬ K.ROS_RESULT_BUSY = 0 := by omega
    constructor
    · rw [hr]; simp [hb0, hbusy]
    · rw [hs]; simp [hb0, hbusy]

theorem C10_busy_leaves_group_untouched_witness :
    (sampleMsg 1 1 0 100).sequence > 0
    ∧ ((sampleController { sampleGroup with hasDataToProcess := true }).ctrlGroups
          (sampleMsg 1 1 0 100).groupNo.toNat).hasDataToProcess = true
    ∧ motoRosConsts.ROS_RESULT_BUSY = 1
    ∧ (Ros_MotionServer_JointTrajDataProcess motoRosConsts (samplePrims 0)
        (sampleController { sampleGroup with hasDataToProcess := true })
        (sampleMsg 1 1 0 100)).1 = sampleController { sampleGroup with hasDataToProcess := true }
    ∧ (Ros_MotionServer_JointTrajDataProcess motoRosConsts (samplePrims 0)
        (sampleController { sampleGroup with hasDataToProcess := true })
        (sampleMsg 1 1 0 100)).2.1.result = motoRosConsts.ROS_RESULT_BUSY
    ∧ (Ros_MotionServer_JointTrajDataProcess motoRosConsts (samplePrims 0)
        (sampleController { sampleGroup with hasDataToProcess := true })
        (sampleMsg 1 1 0 100)).2.1.subcode = 0 := by
  have h := C10_busy_leaves_group_untouched motoRosConsts (samplePrims 0)
    (sampleController { sampleGroup with hasDataToProcess := true }) (sampleMsg 1 1 0 100)
    (by decide) rfl rfl
  have h2 := h.2.2 rfl (by decide) (by decide) (fun _ => rfl) rfl
  exact ⟨by decide, rfl, rfl, h.2.1, h2.1, h2.2⟩

/-! ## From the validator to the dispatcher -/

/-- A segment that ends within the first time increment: the interpolator
enqueues one increment, the whole change of the pulse position. -/
theorem incQueue_one_step (K : Consts) (w : Others) (period : Int) (n : Nat) (g : CtrlGroup)
    (hslave : g.bIsBaxisSlave = false)
    (hlt : g.jointMotionData.time < g.jointMotionDataToProcess.time)
    (hreach : ¬ g.jointMotionData.time
        + (if g.timeLeftover_ms = 0 then period else g.timeLeftover_ms)
        < g.jointMotionDataToProcess.time)
    (hready : w.motionReady n = true) (hstop : w.bStopMotion n = false)
    (hroom : g.inc_q.cnt < K.Q_SIZE) (hsem : w.semTake (n + 1) = true) :
    ∃ (g1 : CtrlGroup) (d : Incremental_data),
      Ros_MotionServer_JointTrajDataToIncQueue K w period 2 n g = some (n + 1 + 1, g1, [d])
      ∧ g1.inc_q = { g.inc_q with
                      data := Function.update g.inc_q.data ((g.inc_q.idx + g.inc_q.cnt) % K.Q_SIZE) d,
                      cnt := g.inc_q.cnt + 1 }
      ∧ (∀ a, d.inc a = if g.axisType a ≠ K.AXIS_INVALID then
            g.convertToMotoPos g.jointMotionDataToProcess.pos a - g.prevPulsePos a else 0)
      ∧ g1.q_time = g.q_time ∧ g1.maxIncrement = g.maxIncrement
      ∧ g1.axisType = g.axisType := by
  have hc : g.jointMotionData.time < g.jointMotionDataToProcess.time
      ∧ w.motionReady n = true ∧ w.bStopMotion n = false := ⟨hlt, hready, hstop⟩
  have hs : ¬ g.bIsBaxisSlave = true := by simp [hslave]
  obtain ⟨hfa, hfc, hfe, hfp, hfq, _⟩ := interpolStep_frame period
    (accCoefs g.numAxes g.jointMotionData g.jointMotionDataToProcess)
    (g.jointMotionData.time + (if g.timeLeftover_ms = 0 then period else g.timeLeftover_ms))
    (if g.timeLeftover_ms = 0 then period else g.timeLeftover_ms) g
  have hfin := interpolStep_final period
    (accCoefs g.numAxes g.jointMotionData g.jointMotionDataToProcess)
    (g.jointMotionData.time + (if g.timeLeftover_ms = 0 then period else g.timeLeftover_ms))
    (if g.timeLeftover_ms = 0 then period else g.timeLeftover_ms) g hreach
  have hq : ¬ (interpolStep period
      (accCoefs g.numAxes g.jointMotionData g.jointMotionDataToProcess)
      (g.jointMotionData.time + (if g.timeLeftover_ms = 0 then period else g.timeLeftover_ms))
      (if g.timeLeftover_ms = 0 then period else g.timeLeftover_ms) g).1.inc_q.cnt ≥ K.Q_SIZE := by
    rw [hfq]; omega
  refine ⟨
    { (interpolStep period (accCoefs g.numAxes g.jointMotionData g.jointMotionDataToProcess)
        (g.jointMotionData.time + (if g.timeLeftover_ms = 0 then period else g.timeLeftover_ms))
        (if g.timeLeftover_ms = 0 then period else g.timeLeftover_ms) g).1 with
      inc_q := Incremental_q.mk (g.inc_q.cnt + 1) g.inc_q.idx
        (Function.update g.inc_q.data ((g.inc_q.idx + g.inc_q.cnt) % K.Q_SIZE)
          (mkIncData K (interpolStep period
            (accCoefs g.numAxes g.jointMotionData g.jointMotionDataToProcess)
            (g.jointMotionData.time + (if g.timeLeftover_ms = 0 then period else g.timeLeftover_ms))
            (if g.timeLeftover_ms = 0 then period else g.timeLeftover_ms) g).1
            (g.convertToMotoPos g.jointMotionDataToProcess.pos)))
      prevPulsePos := g.convertToMotoPos g.jointMotionDataToProcess.pos },
    mkIncData K (interpolStep period
      (accCoefs g.numAxes g.jointMotionData g.jointMotionDataToProcess)
      (g.jointMotionData.time + (if g.timeLeftover_ms = 0 then period else g.timeLeftover_ms))
      (if g.timeLeftover_ms = 0 then period else g.timeLeftover_ms) g).1
      (g.convertToMotoPos g.jointMotionDataToProcess.pos), ?_, ?_, ?_, ?_, ?_, ?_⟩
  · have hroom2 : ¬ g.inc_q.cnt ≥ K.Q_SIZE := by omega
    unfold Ros_MotionServer_JointTrajDataToIncQueue
    rw [if_neg hs]
    simp only [incQueueLoop, hc, and_self, if_true, Ros_MotionServer_AddPulseIncPointToQ, hq,
      hroom2, if_false, hsem, hfin, hfe, hfc, hfq, lt_irrefl, false_and, List.nil_append,
      Q_OFFSET_IDX]
  · rfl
  · intro a
    simp only [mkIncData, hfa, hfp]
  · simp only; unfold interpolStep; split_ifs <;> rfl
  · simp only; unfold interpolStep; split_ifs <;> rfl
  · exact hfa

/-- The move data of an emitting tick carries, for every group, the output of the
group's dispatch. -/
theorem tick_delta (K : Consts) (semCnt semPop : Nat → Bool) (c : Controller)
    (md : MP_EXPOS_DATA) (hemit : (IncMoveTick K semCnt semPop c md).2.2 ≠ []) (i : Nat)
    (hi : i < c.numGroup) :
    (IncMoveTick K semCnt semPop c md).2.2 = [(IncMoveTick K semCnt semPop c md).2.1]
    ∧ (IncMoveTick K semCnt semPop c md).2.1.grp_pos_info i
        = (dispatchGroup K c.interpolPeriod (semPop i) (c.ctrlGroups i) (md.grp_pos_info i)).2
    ∧ (IncMoveTick K semCnt semPop c md).1.ctrlGroups i
        = (dispatchGroup K c.interpolPeriod (semPop i) (c.ctrlGroups i) (md.grp_pos_info i)).1 := by
  unfold IncMoveTick at hemit ⊢
  split_ifs at hemit ⊢ with h
  · have hr : 0 ≤ i ∧ i < 0 + c.numGroup := by omega
    obtain ⟨h1, h2⟩ := dispatchGroups_at K semPop c.numGroup 0 c md i
    rw [if_pos hr] at h1 h2
    exact ⟨rfl, h2, h1⟩
  · exact absurd rfl hemit

/-- C1 (amended): every per-tick pulse delta that the dispatcher hands to the
increment-move primitive for a group is, axis by axis, the sum of the increments
of the entries it removed from the front of the group's queue in that tick; so
it lies within `[-maxIncrement[a], +maxIncrement[a]]` exactly when that sum does.
Acceptance of the points by the validator does not bound it. -/
theorem C1_dispatched_delta_is_sum_of_merged (K : Consts) (semCnt semPop : Nat → Bool)
    (c : Controller) (md : MP_EXPOS_DATA) (i : Nat) (hi : i < c.numGroup)
    (hinv : (c.ctrlGroups i).inc_q.Inv K)
    (hemit : (IncMoveTick K semCnt semPop c md).2.2 ≠ []) :
    ∃ l : List Incremental_data,
      (c.ctrlGroups i).inc_q.view K
        = l ++ ((IncMoveTick K semCnt semPop c md).1.ctrlGroups i).inc_q.view K
      ∧ (∀ a, ((IncMoveTick K semCnt semPop c md).2.1.grp_pos_info i).pos a = incSum l a)
      ∧ (∀ a, (-(c.ctrlGroups i).maxIncrement a
              ≤ ((IncMoveTick K semCnt semPop c md).2.1.grp_pos_info i).pos a
            ∧ ((IncMoveTick K semCnt semPop c md).2.1.grp_pos_info i).pos a
              ≤ (c.ctrlGroups i).maxIncrement a)
          ↔ |incSum l a| ≤ (c.ctrlGroups i).maxIncrement a) := by
  obtain ⟨_, h2, h1⟩ := tick_delta K semCnt semPop c md hemit i hi
  obtain ⟨l, hv, hp, _⟩ :=
    dispatchGroup_spec K c.interpolPeriod (semPop i) (c.ctrlGroups i) (md.grp_pos_info i) hinv
  refine ⟨l, by rw [h1]; exact hv, fun a => by rw [h2]; exact hp a, fun a => ?_⟩
  rw [h2, hp a, abs_le]

theorem C1_dispatched_delta_is_sum_of_merged_witness :
    (0 : Nat) < (sampleController { sampleGroup with inc_q := singletonQ 2 (sampleInc 4 1) }).numGroup
    ∧ ((sampleController { sampleGroup with inc_q := singletonQ 2 (sampleInc 4 1) }).ctrlGroups
        0).inc_q.Inv smallConsts
    ∧ (IncMoveTick smallConsts (fun _ => true) (fun _ => true)
        (sampleController { sampleGroup with inc_q := singletonQ 2 (sampleInc 4 1) })
        zeroMoveData).2.2 ≠ []
    ∧ ∃ l : List Incremental_data,
        ((sampleController { sampleGroup with inc_q := singletonQ 2 (sampleInc 4 1) }).ctrlGroups
          0).inc_q.view smallConsts
          = l ++ ((IncMoveTick smallConsts (fun _ => true) (fun _ => true)
              (sampleController { sampleGroup with inc_q := singletonQ 2 (sampleInc 4 1) })
              zeroMoveData).1.ctrlGroups 0).inc_q.view smallConsts
        ∧ (∀ a, ((IncMoveTick smallConsts (fun _ => true) (fun _ => true)
              (sampleController { sampleGroup with inc_q := singletonQ 2 (sampleInc 4 1) })
              zeroMoveData).2.1.grp_pos_info 0).pos a = incSum l a) := by
  have h1 : ((sampleController { sampleGroup with inc_q := singletonQ 2 (sampleInc 4 1) }).ctrlGroups
      0).inc_q.Inv smallConsts := by
    simp [Incremental_q.Inv, sampleController, singletonQ, smallConsts]
  have h2 : (IncMoveTick smallConsts (fun _ => true) (fun _ => true)
      (sampleController { sampleGroup with inc_q := singletonQ 2 (sampleInc 4 1) })
      zeroMoveData).2.2 ≠ [] := by
    simp [IncMoveTick, Ros_MotionServer_HasDataInQueue, Ros_MotionServer_GetQueueCnt,
      Ros_Controller_IsValidGroupNo, sampleController, singletonQ]
  obtain ⟨l, ha, hb, _⟩ := C1_dispatched_delta_is_sum_of_merged smallConsts (fun _ => true)
    (fun _ => true) (sampleController { sampleGroup with inc_q := singletonQ 2 (sampleInc 4 1) })
    zeroMoveData 0 (by decide) h1 h2
  exact ⟨by decide, h1, h2, l, ha, hb⟩

/-- The sample messages are at rest: C `abs()` of every velocity is 0. -/
theorem sampleMsg_rest (seq : Int) (t p : ℚ) (i : Axis) :
    abs_of_float ((Ros_MotionServer_ConvertToJointMotionData motoRosConsts
      (sampleMsg seq t p 0)).vel i) = 0 := by
  simp only [Ros_MotionServer_ConvertToJointMotionData, sampleMsg]
  split_ifs <;> exact abs_of_float_zero

/-- The pulse position of a sample message with an integer position. -/
theorem sampleMsg_pulse (seq : Int) (t : ℚ) (p : Int) (i : Axis) :
    sampleGroup.convertToMotoPos
      (Ros_MotionServer_ConvertToJointMotionData motoRosConsts (sampleMsg seq t (p : ℚ) 0)).pos i
      = p := by
  have hi : i.val < 10 := lt_trans i.isLt (by decide)
  simp [Ros_MotionServer_ConvertToJointMotionData, sampleMsg, sampleGroup, motoRosConsts, hi]

theorem jumpMsg0_time :
    (Ros_MotionServer_ConvertToJointMotionData motoRosConsts jumpMsg0).time = 0 := by
  simp [Ros_MotionServer_ConvertToJointMotionData, jumpMsg0, sampleMsg, truncToInt]

theorem jumpMsg1_time :
    (Ros_MotionServer_ConvertToJointMotionData motoRosConsts jumpMsg1).time = 3 := by
  have h0 : (0 : ℚ) ≤ 1 / 256 * 1000 := by norm_num
  have h : ⌊(1 / 256 * 1000 : ℚ)⌋ = 3 := by
    rw [Int.floor_eq_iff]; norm_num
  simp only [Ros_MotionServer_ConvertToJointMotionData, jumpMsg1, sampleMsg, truncToInt, h0,
    if_true, h]

/-- The first point is accepted and leaves the group as `jumpGroup1`. -/
theorem jump_first_point :
    (Ros_MotionServer_JointTrajDataProcess motoRosConsts (samplePrims 0)
        (sampleController sampleGroup) jumpMsg0).2.1.result = motoRosConsts.ROS_RESULT_SUCCESS
    ∧ jumpController1 = (sampleController sampleGroup).setGroup 0 jumpGroup1 := by
  obtain ⟨h0, _⟩ := process_dispatch motoRosConsts (samplePrims 0) (sampleController sampleGroup)
    jumpMsg0 (fun _ => 0) rfl (by decide) (by decide) (fun _ => rfl) rfl
  obtain ⟨hc, hr, _⟩ := h0 rfl
  have hg0 : (sampleController sampleGroup).ctrlGroups jumpMsg0.groupNo.toNat = sampleGroup := rfl
  rw [hg0] at hc hr
  have hst := init_state motoRosConsts ((samplePrims 0).pulsePosCmd jumpMsg0.groupNo) sampleGroup
    jumpMsg0 rfl
  have hret : (Ros_MotionServer_InitTrajPointFull motoRosConsts
      ((samplePrims 0).pulsePosCmd jumpMsg0.groupNo) sampleGroup jumpMsg0).1 = 0 := by
    have hg : sampleGroup.groupNo = jumpMsg0.groupNo := rfl
    simp only [Ros_MotionServer_InitTrajPointFull, hg, if_true]
    refine (initAxisLoop_start motoRosConsts _ _ _ _ (by simp [motoRosConsts]) ?_).1.mpr ?_
    · intro i _
      have := sampleMsg_rest 0 0 0 i
      simp only [jumpMsg0]
      rw [this]
      simp [sampleGroup]; norm_num
    · intro i _
      have := sampleMsg_pulse 0 0 0 i
      simp only [jumpMsg0, Int.cast_zero] at this ⊢
      rw [this]
      simp [samplePrims, sampleGroup]
  constructor
  · rw [hr, hret]; simp
  · unfold jumpController1
    rw [hc, hst]
    rfl

/-- The second point is accepted and leaves the group as `jumpGroup2`. -/
theorem jump_second_point :
    (Ros_MotionServer_JointTrajDataProcess motoRosConsts (samplePrims 0) jumpController1
        jumpMsg1).2.1.result = motoRosConsts.ROS_RESULT_SUCCESS
    ∧ jumpController2 = ((sampleController sampleGroup).setGroup 0 jumpGroup1).setGroup 0
        jumpGroup2 := by
  have hc1 := jump_first_point.2
  have hready : jumpController1.motionReady = true := by rw [hc1]; rfl
  have hvalid : Ros_Controller_IsValidGroupNo jumpController1 jumpMsg1.groupNo = true := by
    rw [hc1]; decide
  obtain ⟨_, h1⟩ := process_dispatch motoRosConsts (samplePrims 0) jumpController1
    jumpMsg1 (fun _ => 0) hready hvalid (by decide) (fun _ => rfl) rfl
  obtain ⟨hc, hr, _⟩ := h1 (by decide)
  have hg0 : jumpController1.ctrlGroups jumpMsg1.groupNo.toNat = jumpGroup1 := by
    rw [hc1]; simp [Controller.setGroup, jumpMsg1, sampleMsg]
  rw [hg0] at hc hr
  have hadd : Ros_MotionServer_AddTrajPointFull motoRosConsts jumpGroup1 jumpMsg1
      = (0, jumpGroup2) := by
    have hno : ((activeAxes jumpGroup1.numAxes).any fun i =>
        decide (((abs_of_float ((Ros_MotionServer_ConvertToJointMotionData motoRosConsts
          jumpMsg1).vel i) : Int) : ℚ) > jumpGroup1.maxSpeed i)) = false := by
      rw [List.any_eq_false]
      intro i _
      have := sampleMsg_rest 1 (1 / 256) 1000 i
      simp only [jumpMsg1, this]
      simp [jumpGroup1, sampleGroup]
      norm_num
    have hp : jumpGroup1.hasDataToProcess = false := rfl
    simp only [Ros_MotionServer_AddTrajPointFull, hp, hno, Bool.false_eq_true, if_false]
    rfl
  rw [hadd] at hc hr
  constructor
  · rw [hr]; simp
  · unfold jumpController2
    rw [hc, hc1]
    rfl

/-- C1 (as stated) fails. Both points of the trajectory are accepted by the
validator (replies SUCCESS): sequence 0 at 0 ms at the commanded position, and
sequence 1 at 3 ms, at rest, 1000 pulses away. The interpolator turns the segment
into one increment, and the dispatcher hands the primitive a delta of 1000
pulses on the active axis 0, whose `maxIncrement` is 100. -/
theorem C1_counterexample :
    (Ros_MotionServer_JointTrajDataProcess motoRosConsts (samplePrims 0)
        (sampleController sampleGroup) jumpMsg0).2.1.result = motoRosConsts.ROS_RESULT_SUCCESS
    ∧ (Ros_MotionServer_JointTrajDataProcess motoRosConsts (samplePrims 0) jumpController1
        jumpMsg1).2.1.result = motoRosConsts.ROS_RESULT_SUCCESS
    ∧ ∃ (g3 : CtrlGroup) (d : Incremental_data),
        Ros_MotionServer_JointTrajDataToIncQueue motoRosConsts helpfulOthers
            jumpController2.interpolPeriod 2 0 (jumpController2.ctrlGroups 0) = some (2, g3, [d])
        ∧ (jumpController2.ctrlGroups 0).axisType 0 ≠ motoRosConsts.AXIS_INVALID
        ∧ (jumpController2.ctrlGroups 0).maxIncrement 0 = 100
        ∧ (IncMoveTick motoRosConsts (fun _ => true) (fun _ => true)
            (jumpController2.setGroup 0 g3) zeroMoveData).2.2
          = [(IncMoveTick motoRosConsts (fun _ => true) (fun _ => true)
              (jumpController2.setGroup 0 g3) zeroMoveData).2.1]
        ∧ ((IncMoveTick motoRosConsts (fun _ => true) (fun _ => true)
            (jumpController2.setGroup 0 g3) zeroMoveData).2.1.grp_pos_info 0).pos 0 = 1000 := by
  obtain ⟨hr0, _⟩ := jump_first_point
  obtain ⟨hr1, hc2⟩ := jump_second_point
  refine ⟨hr0, hr1, ?_⟩
  have hg2 : jumpController2.ctrlGroups 0 = jumpGroup2 := by
    rw [hc2]; simp [Controller.setGroup]
  have hper : jumpController2.interpolPeriod = 4 := by rw [hc2]; rfl
  have ht0 : jumpGroup2.jointMotionData.time = 0 := jumpMsg0_time
  have ht1 : jumpGroup2.jointMotionDataToProcess.time = 3 := jumpMsg1_time
  have hl : jumpGroup2.timeLeftover_ms = 0 := rfl
  obtain ⟨g3, d, hrun, hq, hd, _, _, _⟩ := incQueue_one_step motoRosConsts helpfulOthers 4 0
    jumpGroup2 rfl (by rw [ht0, ht1]; decide) (by rw [ht0, ht1, hl]; decide) rfl rfl
    (by decide) rfl
  have hd0 : d.inc 0 = 1000 := by
    rw [hd 0]
    have hp := sampleMsg_pulse 1 (1 / 256) 1000 0
    have hax : jumpGroup2.axisType 0 ≠ motoRosConsts.AXIS_INVALID := by decide
    rw [if_pos hax]
    show sampleGroup.convertToMotoPos (Ros_MotionServer_ConvertToJointMotionData motoRosConsts
      (sampleMsg 1 (1 / 256) 1000 0)).pos 0 - 0 = 1000
    have hc : ((1000 : Int) : ℚ) = 1000 := by norm_num
    rw [hc] at hp
    rw [hp]; rfl
  rw [hg2, hper]
  refine ⟨g3, d, hrun, by decide, rfl, ?_⟩
  have hcnt : g3.inc_q.cnt = 1 := by rw [hq]; rfl
  have hemit : (IncMoveTick motoRosConsts (fun _ => true) (fun _ => true)
      (jumpController2.setGroup 0 g3) zeroMoveData).2.2 ≠ [] := by
    have hready : (jumpController2.setGroup 0 g3).motionReady = true := by rw [hc2]; rfl
    have hstop : (jumpController2.setGroup 0 g3).bStopMotion = false := by rw [hc2]; rfl
    have hdata : Ros_MotionServer_HasDataInQueue (fun _ => true) (jumpController2.setGroup 0 g3)
        = true := by
      rw [hasDataInQueue_iff]
      refine ⟨0, ?_, rfl, ?_⟩
      · rw [hc2]; exact Nat.one_pos
      · simp [Controller.setGroup, hcnt]
    simp [IncMoveTick, hready, hstop, hdata]
  obtain ⟨he, hp, _⟩ := tick_delta motoRosConsts (fun _ => true) (fun _ => true)
    (jumpController2.setGroup 0 g3) zeroMoveData hemit 0 (by rw [hc2]; exact Nat.one_pos)
  refine ⟨he, ?_⟩
  rw [hp]
  have hg3 : (jumpController2.setGroup 0 g3).ctrlGroups 0 = g3 := by
    simp [Controller.setGroup]
  rw [hg3]
  have hpos : 0 < g3.inc_q.cnt := by rw [hcnt]; decide
  have hhead : g3.inc_q.data g3.inc_q.idx = d := by
    rw [hq]
    show Function.update jumpGroup2.inc_q.data
      ((jumpGroup2.inc_q.idx + jumpGroup2.inc_q.cnt) % motoRosConsts.Q_SIZE) d jumpGroup2.inc_q.idx = d
    have : (jumpGroup2.inc_q.idx + jumpGroup2.inc_q.cnt) % motoRosConsts.Q_SIZE
        = jumpGroup2.inc_q.idx := by decide
    rw [this, Function.update_same]
  simp only [dispatchGroup, if_true, hpos, hcnt, hhead, sub_self, Int.toNat_zero, mergeLoop]
  exact hd0

/-- C11: `Ros_MotionServer_JointTrajDataProcess` reports the first failing check
in the order not motion-ready (NOT_READY with the not-ready subcode), group number
outside `[0, numGroup)` (INVALID / INVALID_GROUPNO), `validFields & 0x07 != 0x07`
(INVALID / INVALID_DATA_INSUFFICIENT); in each of these cases the controller, with
all its groups, is unchanged and no primitive is called. -/
theorem C11_entry_checks_in_order (K : Consts) (p : Prims) (c : Controller)
    (m : SmBodyJointTrajPtFull) :
    (c.motionReady = false →
      (Ros_MotionServer_JointTrajDataProcess K p c m).2.1.result = K.ROS_RESULT_NOT_READY ∧
      (Ros_MotionServer_JointTrajDataProcess K p c m).2.1.subcode = c.notReadySubcode ∧
      (Ros_MotionServer_JointTrajDataProcess K p c m).1 = c ∧
      (Ros_MotionServer_JointTrajDataProcess K p c m).2.2 = []) ∧
    (c.motionReady = true → ¬ (0 ≤ m.groupNo ∧ m.groupNo < (c.numGroup : Int)) →
      (Ros_MotionServer_JointTrajDataProcess K p c m).2.1.result = K.ROS_RESULT_INVALID ∧
      (Ros_MotionServer_JointTrajDataProcess K p c m).2.1.subcode = K.ROS_RESULT_INVALID_GROUPNO ∧
      (Ros_MotionServer_JointTrajDataProcess K p c m).1 = c ∧
      (Ros_MotionServer_JointTrajDataProcess K p c m).2.2 = []) ∧
    (c.motionReady = true → (0 ≤ m.groupNo ∧ m.groupNo < (c.numGroup : Int)) →
      Int.land m.validFields 0x07 ≠ 0x07 →
      (Ros_MotionServer_JointTrajDataProcess K p c m).2.1.result = K.ROS_RESULT_INVALID ∧
      (Ros_MotionServer_JointTrajDataProcess K p c m).2.1.subcode =
        K.ROS_RESULT_INVALID_DATA_INSUFFICIENT ∧
      (Ros_MotionServer_JointTrajDataProcess K p c m).1 = c ∧
      (Ros_MotionServer_JointTrajDataProcess K p c m).2.2 = []) := by
  refine ⟨fun h => ?_, fun h hg => ?_, fun h hg hv => ?_⟩
  · simp [Ros_MotionServer_JointTrajDataProcess, h, Ros_SimpleMsg_MotionReply]
  · have hv : Ros_Controller_IsValidGroupNo c m.groupNo = false := by
      simp only [Ros_Controller_IsValidGroupNo, decide_eq_false_iff_not]; exact hg
    simp [Ros_MotionServer_JointTrajDataProcess, h, hv, Ros_SimpleMsg_MotionReply]
  · have hv2 : Ros_Controller_IsValidGroupNo c m.groupNo = true := by
      simp only [Ros_Controller_IsValidGroupNo, decide_eq_true_eq]; exact hg
    simp only [Ros_MotionServer_JointTrajDataProcess, h, hv2, Bool.not_true, Bool.false_eq_true,
      if_false, if_pos hv, Ros_SimpleMsg_MotionReply]
    simp

/-- A point for group 0 whose validity bitmap lacks the velocity bit. -/
theorem C11_entry_checks_in_order_witness :
    (sampleController sampleGroup).motionReady = true ∧
    (0 ≤ (sampleMsg 1 0 0 0).groupNo ∧
      (sampleMsg 1 0 0 0).groupNo < ((sampleController sampleGroup).numGroup : Int)) ∧
    Int.land ({ sampleMsg 1 0 0 0 with validFields := 3 } : SmBodyJointTrajPtFull).validFields 0x07
      ≠ 0x07 ∧
    (Ros_MotionServer_JointTrajDataProcess motoRosConsts (samplePrims 0)
      (sampleController sampleGroup) { sampleMsg 1 0 0 0 with validFields := 3 }).2.1.subcode = 3015 :=
  ⟨rfl, by decide, by decide,
    ((C11_entry_checks_in_order motoRosConsts (samplePrims 0) (sampleController sampleGroup)
      { sampleMsg 1 0 0 0 with validFields := 3 }).2.2 rfl (by decide) (by decide)).2.1⟩
/-! ## Group I/O -/

/-- Bit `i` of `v`, as `Ros_MotionServer_WriteIOGroup` extracts it. -/
theorem and_shift_bit (v i : Nat) : (v &&& (1 <<< i)) >>> i = (v >>> i) &&& 1 := by
  rw [Nat.one_shiftLeft, Nat.and_two_pow, Nat.shiftRight_eq_div_pow, Nat.shiftRight_eq_div_pow,
    Nat.and_one_is_mod, Nat.toNat_testBit, Nat.mul_div_cancel _ (Nat.two_pow_pos i)]

/-- Adding a bit above the bits collected so far. -/
theorem or_shift_bit (acc b i : Nat) (hacc : acc < 2 ^ i) :
    acc ||| (b <<< i) = acc + b * 2 ^ i := by
  rw [Nat.shiftLeft_eq, Nat.lor_comm, Nat.mul_comm b, ← Nat.mul_add_lt_is_or hacc, Nat.add_comm]

theorem range_eight : List.range 8 = [0, 1, 2, 3, 4, 5, 6, 7] := by decide

/-- The loop of `Ros_MotionServer_ReadIOGroup` over eight values that are bits. -/
theorem fold_bits (b : Nat → Nat) (hb : ∀ i, i < 8 → b i ≤ 1) :
    (List.range 8).foldl (fun (acc i : Nat) => acc ||| (b i <<< i)) 0
        = ∑ i in Finset.range 8, b i * 2 ^ i ∧
      ∑ i in Finset.range 8, b i * 2 ^ i ≤ 255 := by
  have h0 := hb 0 (by norm_num); have h1 := hb 1 (by norm_num); have h2 := hb 2 (by norm_num)
  have h3 := hb 3 (by norm_num); have h4 := hb 4 (by norm_num); have h5 := hb 5 (by norm_num)
  have h6 := hb 6 (by norm_num); have h7 := hb 7 (by norm_num)
  rw [range_eight]
  simp only [List.foldl_cons, List.foldl_nil]
  rw [or_shift_bit _ _ 0 (by norm_num), or_shift_bit _ _ 1 (by omega), or_shift_bit _ _ 2 (by omega),
    or_shift_bit _ _ 3 (by omega), or_shift_bit _ _ 4 (by omega), or_shift_bit _ _ 5 (by omega),
    or_shift_bit _ _ 6 (by omega), or_shift_bit _ _ 7 (by omega)]
  simp only [Finset.sum_range_succ, Finset.sum_range_zero]
  constructor
  · simp
  · norm_num
    omega

/-- The store after a group write holds bit `j` of the value at address
`A * 10 + j`. -/
theorem ioStoreWrite_group (io : Nat → Nat) (A v j : Nat) (hj : j < 8) :
    ioStoreWrite io ((List.range 8).map fun (i : Nat) => (A * 10 + i, (v >>> i) &&& 1))
      (A * 10 + j) = (v >>> j) &&& 1 := by
  rw [range_eight]
  simp only [ioStoreWrite, List.map_cons, List.map_nil, List.foldl_cons, List.foldl_nil]
  interval_cases j <;> simp [Function.update]

/-- The bits of a value add up to the value modulo 256. -/
theorem bits_sum (v : Nat) : ∑ i in Finset.range 8, ((v >>> i) &&& 1) * 2 ^ i = v % 256 := by
  simp only [Finset.sum_range_succ, Finset.sum_range_zero, Nat.shiftRight_eq_div_pow,
    Nat.and_one_is_mod]
  omega

/-- C19: a group write at address `A` writes `(v >> i) & 1` to the bit address
`A * 10 + i` for `i = 0..7`; a group read reads these eight addresses and, when
the values read are bits, returns the sum of `b_i * 2^i`, which is at most 255;
a read of the group from an I/O store to which the group write of `v` has been
applied returns `v mod 256`. -/
theorem C19_group_io_bit_addresses (P : Proto) (e : Env) (sw sr : Sys) (mw mr : SimpleMsg) :
    (Ros_MotionServer_WriteIOGroup P e sw mw).2.1.calls = sw.calls ++
      [PrimCall.writeIoBits
        ((List.range 8).map fun (i : Nat) =>
          (mw.writeIOGroup.ioAddress * 10 + i, (mw.writeIOGroup.ioValue >>> i) &&& 1))
        (e.ret sw.n)] ∧
    (Ros_MotionServer_ReadIOGroup P e sr mr).2.1.calls = sr.calls ++
      [PrimCall.readIoBits ((List.range 8).map fun (i : Nat) => mr.readIOGroup.ioAddress * 10 + i)
        (e.ret sr.n)] ∧
    ((∀ i, i < 8 → e.ioValue sr.n (mr.readIOGroup.ioAddress * 10 + i) ≤ 1) →
      (Ros_MotionServer_ReadIOGroup P e sr mr).2.2 = ReplyMsg.readIOGroupReply
        (∑ i in Finset.range 8, e.ioValue sr.n (mr.readIOGroup.ioAddress * 10 + i) * 2 ^ i)
        (if e.ret sr.n = P.OK then P.ROS_REPLY_SUCCESS else P.ROS_REPLY_FAILURE) ∧
      ∑ i in Finset.range 8, e.ioValue sr.n (mr.readIOGroup.ioAddress * 10 + i) * 2 ^ i ≤ 255) ∧
    (∀ io : Nat → Nat, mr.readIOGroup.ioAddress = mw.writeIOGroup.ioAddress →
      e.ioValue sr.n = ioStoreWrite io
        ((List.range 8).map fun (i : Nat) =>
          (mw.writeIOGroup.ioAddress * 10 + i, (mw.writeIOGroup.ioValue >>> i) &&& 1)) →
      (Ros_MotionServer_ReadIOGroup P e sr mr).2.2 = ReplyMsg.readIOGroupReply
        (mw.writeIOGroup.ioValue % 256)
        (if e.ret sr.n = P.OK then P.ROS_REPLY_SUCCESS else P.ROS_REPLY_FAILURE) ∧
      mw.writeIOGroup.ioValue % 256 ≤ 255) := by
  refine ⟨?_, ?_, fun hb => ?_, fun io hA hio => ?_⟩
  · simp only [Ros_MotionServer_WriteIOGroup, Sys.call, and_shift_bit]
  · simp only [Ros_MotionServer_ReadIOGroup, Sys.call]
  · have h := fold_bits (fun i => e.ioValue sr.n (mr.readIOGroup.ioAddress * 10 + i)) hb
    refine ⟨?_, h.2⟩
    simp only [Ros_MotionServer_ReadIOGroup]
    rw [h.1]
  · have hb : ∀ i, i < 8 → e.ioValue sr.n (mr.readIOGroup.ioAddress * 10 + i)
        = (mw.writeIOGroup.ioValue >>> i) &&& 1 := by
      intro i hi
      rw [hio, hA, ioStoreWrite_group io _ _ i hi]
    have hb1 : ∀ i, i < 8 → e.ioValue sr.n (mr.readIOGroup.ioAddress * 10 + i) ≤ 1 := by
      intro i hi
      rw [hb i hi, Nat.and_one_is_mod]
      omega
    have h := fold_bits (fun i => e.ioValue sr.n (mr.readIOGroup.ioAddress * 10 + i)) hb1
    have hsum : ∑ i in Finset.range 8, e.ioValue sr.n (mr.readIOGroup.ioAddress * 10 + i) * 2 ^ i
        = mw.writeIOGroup.ioValue % 256 := by
      rw [← bits_sum]
      exact Finset.sum_congr rfl fun i hi => by rw [hb i (Finset.mem_range.mp hi)]
    refine ⟨?_, by omega⟩
    simp only [Ros_MotionServer_ReadIOGroup]
    rw [h.1, hsum]
/-- Writing 421 to group 1001 of an all-zero store and reading the group back
gives 165. -/
theorem C19_group_io_bit_addresses_witness :
    groupReadRequest.readIOGroup.ioAddress = groupWriteRequest.writeIOGroup.ioAddress ∧
    groupEnv.ioValue 0 = ioStoreWrite (fun _ => 0)
      ((List.range 8).map fun (i : Nat) =>
        (groupWriteRequest.writeIOGroup.ioAddress * 10 + i,
          (groupWriteRequest.writeIOGroup.ioValue >>> i) &&& 1)) ∧
    (Ros_MotionServer_ReadIOGroup motoRosProto groupEnv (startSys (sampleController sampleGroup))
      groupReadRequest).2.2 = ReplyMsg.readIOGroupReply 165 1 :=
  ⟨rfl, rfl,
    ((C19_group_io_bit_addresses motoRosProto groupEnv (startSys (sampleController sampleGroup))
      (startSys (sampleController sampleGroup)) groupWriteRequest groupReadRequest).2.2.2
      (fun _ => 0) rfl rfl).1⟩
/-! ## Stopping the motion -/

/-- What a sleep of the reader leaves alone. -/
theorem sleep_iterate_frame (e : Env) (k : Nat) (s : Sys) :
    ((Ros_Sleep e)^[k] s).c.numGroup = s.c.numGroup ∧
    ((Ros_Sleep e)^[k] s).c.bStopMotion = s.c.bStopMotion ∧
    ((Ros_Sleep e)^[k] s).c.ioState = s.c.ioState ∧
    ((Ros_Sleep e)^[k] s).calls = s.calls ∧
    ((Ros_Sleep e)^[k] s).n = s.n + k := by
  induction k generalizing s with
  | zero => simp
  | succ k ih =>
    rw [Function.iterate_succ_apply]
    obtain ⟨h1, h2, h3, h4, h5⟩ := ih (Ros_Sleep e s)
    rw [h1, h2, h3, h4, h5]
    simp only [Ros_Sleep]
    refine ⟨trivial, trivial, trivial, trivial, ?_⟩
    omega

/-- The polling loop of `Ros_MotionServer_StopMotion`: it ends after at most `k`
sleeps, and `bStopped` is true afterwards exactly when one of the `k` polls found
every group without pending data (with no poll at all, it keeps its value). -/
theorem stopPoll_spec (e : Env) (k : Nat) (b : Bool) (s : Sys) :
    ∃ m, m ≤ k ∧ (stopPoll e k b s).2 = (Ros_Sleep e)^[m] s ∧
      ((stopPoll e k b s).1 = true ↔
        (k = 0 ∧ b = true) ∨
        ∃ j, j < k ∧ ∀ g, g < s.c.numGroup →
          (((Ros_Sleep e)^[j] s).c.ctrlGroups g).hasDataToProcess = false) := by
  induction k generalizing b s with
  | zero => exact ⟨0, le_refl _, rfl, by simp [stopPoll]⟩
  | succ k ih =>
    by_cases hs : ∀ g, g < s.c.numGroup → (s.c.ctrlGroups g).hasDataToProcess = false
    · have hall : ((List.range s.c.numGroup).all fun (groupNo : Nat) =>
          !(s.c.ctrlGroups groupNo).hasDataToProcess) = true := by
        rw [List.all_eq_true]
        intro g hg
        simp [hs g (List.mem_range.mp hg)]
      refine ⟨0, Nat.zero_le _, ?_, ?_⟩
      · simp only [stopPoll, hall, if_true, Function.iterate_zero, id_eq]
      · simp only [stopPoll, hall, if_true, true_iff]
        exact Or.inr ⟨0, Nat.succ_pos k, hs⟩
    · have hall : ((List.range s.c.numGroup).all fun (groupNo : Nat) =>
          !(s.c.ctrlGroups groupNo).hasDataToProcess) = false := by
        rw [Bool.eq_false_iff]
        intro h
        rw [List.all_eq_true] at h
        apply hs
        intro g hg
        have := h g (List.mem_range.mpr hg)
        simpa using this
      obtain ⟨m, hm, h2, h1⟩ := ih false (Ros_Sleep e s)
      refine ⟨m + 1, Nat.succ_le_succ hm, ?_, ?_⟩
      · simp only [stopPoll, hall, Bool.false_eq_true, if_false]
        rw [h2, Function.iterate_succ_apply]
      · simp only [stopPoll, hall, Bool.false_eq_true, if_false]
        rw [h1]
        have hn : (Ros_Sleep e s).c.numGroup = s.c.numGroup := rfl
        constructor
        · rintro (⟨_, hf⟩ | ⟨j, hj, hj2⟩)
          · exact absurd hf (by simp)
          · refine Or.inr ⟨j + 1, Nat.succ_lt_succ hj, ?_⟩
            rw [Function.iterate_succ_apply]
            rw [hn] at hj2
            exact hj2
        · rintro (⟨h0, _⟩ | ⟨j, hj, hj2⟩)
          · exact absurd h0 (Nat.succ_ne_zero k)
          · cases j with
            | zero => exact absurd hj2 hs
            | succ j =>
              refine Or.inr ⟨j, Nat.lt_of_succ_lt_succ hj, ?_⟩
              rw [Function.iterate_succ_apply] at hj2
              rw [hn]
              exact hj2

/-- `Ros_MotionServer_ClearQ_All` over the first `n` groups. -/
theorem clearQ_fold (semTake : Nat → Bool) (c : Controller) (n : Nat) (hn : n ≤ c.numGroup) :
    (List.range n).foldl
      (fun (acc : Bool × Controller) (groupNo : Nat) =>
        ((acc.1 && (Ros_MotionServer_ClearQ (semTake groupNo) acc.2 (groupNo : Int)).1,
          (Ros_MotionServer_ClearQ (semTake groupNo) acc.2 (groupNo : Int)).2) : Bool × Controller))
      (true, c)
    = (decide (∀ g, g < n → semTake g = true),
        { c with ctrlGroups := fun g =>
            if g < n ∧ semTake g = true then
              { c.ctrlGroups g with inc_q := { (c.ctrlGroups g).inc_q with cnt := 0 } }
            else c.ctrlGroups g }) := by
  induction n with
  | zero => simp
  | succ n ih =>
    rw [List.range_succ, List.foldl_append, ih (Nat.le_of_succ_le hn)]
    simp only [List.foldl_cons, List.foldl_nil]
    have hv : Ros_Controller_IsValidGroupNo
        { c with ctrlGroups := fun g =>
            if g < n ∧ semTake g = true then
              { c.ctrlGroups g with inc_q := { (c.ctrlGroups g).inc_q with cnt := 0 } }
            else c.ctrlGroups g } (n : Int) = true := by
      simp only [Ros_Controller_IsValidGroupNo, decide_eq_true_eq]
      omega
    simp only [Ros_MotionServer_ClearQ, hv, Bool.not_true, Bool.false_eq_true, if_false,
      Int.toNat_ofNat, Controller.setGroup]
    by_cases hs : semTake n = true
    · simp only [hs, if_true, Bool.and_true]
      congr 1
      · simp only [decide_eq_decide]
        constructor
        · intro h g hg
          rcases Nat.lt_succ_iff_lt_or_eq.mp hg with h1 | h1
          · exact h g h1
          · rw [h1]; exact hs
        · intro h g hg
          exact h g (Nat.lt_succ_of_lt hg)
      · congr 1
        funext g
        by_cases hg : g = n
        · subst hg
          simp [hs]
        · rw [Function.update_noteq hg]
          have : (g < n + 1) ↔ g < n := by omega
          simp only [this]
    · have hs2 : semTake n = false := by simpa using hs
      simp only [hs2, Bool.false_eq_true, if_false, Bool.and_false]
      congr 1
      · symm
        simp only [decide_eq_false_iff_not, not_forall]
        exact ⟨n, Nat.lt_succ_self n, by simp [hs2]⟩
      · congr 1
        funext g
        by_cases hg : g = n
        · subst hg
          simp [hs2]
        · have : (g < n + 1) ↔ g < n := by omega
          simp only [this]
/-- `Ros_MotionServer_StopMotion` in terms of its two stages: `m` is the number of
sleeps of the polling loop, so that the queues are cleared at observation
`s.n + m`. -/
theorem stopMotion_spec (P : Proto) (e : Env) (s : Sys) :
    ∃ m, m ≤ P.MOTION_STOP_TIMEOUT.toNat ∧
      (Ros_MotionServer_StopMotion P e s).2.n = s.n + m + 1 ∧
      (Ros_MotionServer_StopMotion P e s).2.calls = s.calls ∧
      (Ros_MotionServer_StopMotion P e s).2.c.bStopMotion = false ∧
      (Ros_MotionServer_StopMotion P e s).2.c.numGroup = s.c.numGroup ∧
      (Ros_MotionServer_StopMotion P e s).2.c.ioState = s.c.ioState ∧
      (∀ g, g < s.c.numGroup → e.semTake (s.n + m) g = true →
        ((Ros_MotionServer_StopMotion P e s).2.c.ctrlGroups g).inc_q.cnt = 0) ∧
      ((Ros_MotionServer_StopMotion P e s).1 = true ↔
        ((P.MOTION_STOP_TIMEOUT.toNat = 0 ∧ e.bStopped = true) ∨
          ∃ j, j < P.MOTION_STOP_TIMEOUT.toNat ∧ ∀ g, g < s.c.numGroup →
            (((Ros_Sleep e)^[j] { s with c := { s.c with bStopMotion := true } }).c.ctrlGroups
              g).hasDataToProcess = false) ∧
        ∀ g, g < s.c.numGroup → e.semTake (s.n + m) g = true) := by
  obtain ⟨m, hm, h2, h1⟩ := stopPoll_spec e P.MOTION_STOP_TIMEOUT.toNat e.bStopped
    { s with c := { s.c with bStopMotion := true } }
  obtain ⟨f1, f2, f3, f4, f5⟩ := sleep_iterate_frame e m
    { s with c := { s.c with bStopMotion := true } }
  have hfold := clearQ_fold (e.semTake (s.n + m))
    ((Ros_Sleep e)^[m] { s with c := { s.c with bStopMotion := true } }).c
    ((Ros_Sleep e)^[m] { s with c := { s.c with bStopMotion := true } }).c.numGroup (le_refl _)
  simp only at f1 f5 f4 f3
  refine ⟨m, hm, ?_, ?_, ?_, ?_, ?_, ?_, ?_⟩
  · simp only [Ros_MotionServer_StopMotion, h2, f5]
  · simp only [Ros_MotionServer_StopMotion, h2, f4]
  · simp only [Ros_MotionServer_StopMotion]
  · simp only [Ros_MotionServer_StopMotion, Ros_MotionServer_ClearQ_All, h2, f5]
    rw [hfold]
    exact f1
  · simp only [Ros_MotionServer_StopMotion, Ros_MotionServer_ClearQ_All, h2, f5]
    rw [hfold]
    exact f3
  · intro g hg hsem
    simp only [Ros_MotionServer_StopMotion, Ros_MotionServer_ClearQ_All, h2, f5]
    rw [hfold]
    simp only [f1, hg, hsem, and_self, if_true]
  · simp only [Ros_MotionServer_StopMotion, Ros_MotionServer_ClearQ_All, h2, f5]
    rw [hfold]
    simp only [Bool.and_eq_true, h1, f1, decide_eq_true_eq]

/-- C16: with a positive `MOTION_STOP_TIMEOUT`, `Ros_MotionServer_StopMotion`
returns TRUE exactly when one of the polls (poll `j` comes after `j` sleeps)
found every group without pending data and the lock of every group's queue was
acquired for the clearing, which happens at the last observation; on return
`bStopMotion` is FALSE, and every queue whose lock was acquired has `cnt = 0`,
whatever the polls found. -/
theorem C16_stop_motion_result (P : Proto) (e : Env) (s : Sys)
    (hT : 0 < P.MOTION_STOP_TIMEOUT) :
    ((Ros_MotionServer_StopMotion P e s).1 = true ↔
      (∃ j, j < P.MOTION_STOP_TIMEOUT.toNat ∧ ∀ g, g < s.c.numGroup →
        (((Ros_Sleep e)^[j] { s with c := { s.c with bStopMotion := true } }).c.ctrlGroups
          g).hasDataToProcess = false) ∧
      ∀ g, g < s.c.numGroup →
        e.semTake ((Ros_MotionServer_StopMotion P e s).2.n - 1) g = true) ∧
    (Ros_MotionServer_StopMotion P e s).2.c.bStopMotion = false ∧
    ∀ g, g < s.c.numGroup →
      e.semTake ((Ros_MotionServer_StopMotion P e s).2.n - 1) g = true →
      ((Ros_MotionServer_StopMotion P e s).2.c.ctrlGroups g).inc_q.cnt = 0 := by
  obtain ⟨m, _, hn, _, hb, _, _, hq, hr⟩ := stopMotion_spec P e s
  have hT2 : P.MOTION_STOP_TIMEOUT.toNat ≠ 0 := by omega
  have hn2 : (Ros_MotionServer_StopMotion P e s).2.n - 1 = s.n + m := by omega
  rw [hn2]
  refine ⟨?_, hb, hq⟩
  rw [hr]
  simp only [hT2, false_and, false_or]

/-- One idle group, every lock free: the first poll succeeds and the queue is
cleared. -/
theorem C16_stop_motion_result_witness :
    0 < motoRosProto.MOTION_STOP_TIMEOUT ∧
    (Ros_MotionServer_StopMotion motoRosProto quietEnv
      (startSys (sampleController sampleGroup))).1 = true :=
  ⟨by decide,
    (C16_stop_motion_result motoRosProto quietEnv (startSys (sampleController sampleGroup))
      (by decide)).1.mpr
      ⟨⟨0, by decide, fun _ _ => rfl⟩, fun _ _ => rfl⟩⟩
/-! ## Alarm reset -/

/-- C18 (as stated) fails: `mpGetAlarmStatus` fails, no alarm or error bit is
set, and `Ros_MotionServer_ResetAlarm` returns TRUE. -/
theorem C18_counterexample :
    (Ros_MotionServer_ResetAlarm motoRosProto firstCallFailsEnv
      (startSys (sampleController sampleGroup))).2.calls = [PrimCall.getAlarmStatus (-1)] ∧
    (Ros_MotionServer_ResetAlarm motoRosProto firstCallFailsEnv
      (startSys (sampleController sampleGroup))).1 = true := by
  constructor <;> rfl

/-- C18 (amended): `Ros_MotionServer_ResetAlarm` returns TRUE exactly when neither
`mpResetAlarm` nor `mpCancelError`, where called, returned non-zero (what
`mpGetAlarmStatus` and `mpGetAlarmCode` return is ignored); `mpResetAlarm` is
called exactly when the active-alarm bit of the status word is set and
`mpCancelError` exactly when the active-error bit is set. `l` is the list of the
calls made. -/
theorem C18_reset_alarm_result (P : Proto) (e : Env) (s : Sys) :
    ∃ l : List PrimCall,
      (Ros_MotionServer_ResetAlarm P e s).2.calls = s.calls ++ l ∧
      ((Ros_MotionServer_ResetAlarm P e s).1 = true ↔
        ∀ ret, PrimCall.resetAlarm ret ∈ l ∨ PrimCall.cancelError ret ∈ l → ret = 0) ∧
      ((∃ ret, PrimCall.resetAlarm ret ∈ l) ↔
        Int.land (e.sIsAlarm s.n) P.MASK_ISALARM_ACTIVEALARM ≠ 0) ∧
      ((∃ ret, PrimCall.cancelError ret ∈ l) ↔
        Int.land (e.sIsAlarm s.n) P.MASK_ISALARM_ACTIVEERROR ≠ 0) := by
  by_cases ha : Int.land (e.sIsAlarm s.n) P.MASK_ISALARM_ACTIVEALARM ≠ 0 <;>
    by_cases he : Int.land (e.sIsAlarm s.n) P.MASK_ISALARM_ACTIVEERROR ≠ 0
  · refine ⟨[PrimCall.getAlarmStatus (e.ret s.n), PrimCall.getAlarmCode (e.ret (s.n + 1)),
      PrimCall.resetAlarm (e.ret (s.n + 1 + 1)), PrimCall.getAlarmCode (e.ret (s.n + 1 + 1 + 1)),
      PrimCall.cancelError (e.ret (s.n + 1 + 1 + 1 + 1))], ?_, ?_, ?_, ?_⟩
    · simp [Ros_MotionServer_ResetAlarm, ha, he, Sys.call, Ros_Controller_StatusUpdate]
    · by_cases h1 : e.ret (s.n + 1 + 1) = 0 <;> by_cases h2 : e.ret (s.n + 1 + 1 + 1 + 1) = 0 <;>
        simp [Ros_MotionServer_ResetAlarm, ha, he, Sys.call, h1, h2]
    · simp [ha]
    · simp [he]
  · refine ⟨[PrimCall.getAlarmStatus (e.ret s.n), PrimCall.getAlarmCode (e.ret (s.n + 1)),
      PrimCall.resetAlarm (e.ret (s.n + 1 + 1))], ?_, ?_, ?_, ?_⟩
    · simp [Ros_MotionServer_ResetAlarm, ha, he, Sys.call, Ros_Controller_StatusUpdate]
    · simp [Ros_MotionServer_ResetAlarm, ha, he, Sys.call]
    · simp [ha]
    · simp [he]
  · refine ⟨[PrimCall.getAlarmStatus (e.ret s.n), PrimCall.getAlarmCode (e.ret (s.n + 1)),
      PrimCall.cancelError (e.ret (s.n + 1 + 1))], ?_, ?_, ?_, ?_⟩
    · simp [Ros_MotionServer_ResetAlarm, ha, he, Sys.call, Ros_Controller_StatusUpdate]
    · simp [Ros_MotionServer_ResetAlarm, ha, he, Sys.call]
    · simp [ha]
    · simp [he]
  · refine ⟨[PrimCall.getAlarmStatus (e.ret s.n)], ?_, ?_, ?_, ?_⟩
    · simp [Ros_MotionServer_ResetAlarm, ha, he, Sys.call, Ros_Controller_StatusUpdate]
    · simp [Ros_MotionServer_ResetAlarm, ha, he, Sys.call]
    · simp [ha]
    · simp [he]
/-! ## Result words -/

/-- A value below `2^16` is its own low 16 bits. -/
theorem low16_self (a : Int) (h0 : 0 ≤ a) (h1 : a < 65536) : Int.land a 0xffff = a := by
  obtain ⟨n, rfl⟩ := Int.eq_ofNat_of_zero_le h0
  have hn : n < 65536 := by omega
  show ((n &&& 65535 : Nat) : Int) = (n : Int)
  congr 1
  have := Nat.and_pow_two_sub_one_eq_mod n 16
  norm_num at this
  rw [this]
  omega

/-- The low 16 bits of `a | (b << 16)` are `a`, for `a` below `2^16` and any
`b`. -/
theorem low16_lor_shift (a b : Int) (h0 : 0 ≤ a) (h1 : a < 65536) :
    Int.land (Int.lor a (b <<< (16 : Int))) 0xffff = a := by
  obtain ⟨n, rfl⟩ := Int.eq_ofNat_of_zero_le h0
  have hn : n < 2 ^ 16 := by omega
  cases b with
  | ofNat m =>
    show (((n ||| (m <<< 16)) &&& 65535 : Nat) : Int) = (n : Int)
    congr 1
    apply Nat.eq_of_testBit_eq
    intro i
    have h65 : (65535 : Nat) = 2 ^ 16 - 1 := by norm_num
    rw [Nat.testBit_and, Nat.testBit_or, Nat.testBit_shiftLeft, h65, Nat.testBit_two_pow_sub_one]
    by_cases hi : i < 16
    · have : ¬ (i ≥ 16) := by omega
      simp [hi, this]
    · have hlt : n < 2 ^ i := lt_of_lt_of_le hn (Nat.pow_le_pow_right (by norm_num) (by omega))
      simp [hi, Nat.testBit_lt_two_pow hlt]
  | negSucc m =>
    have hs : Int.negSucc m <<< (16 : Int) = Int.negSucc (Nat.shiftLeft' true m 16) :=
      Int.shiftLeft_negSucc m 16
    rw [hs]
    show ((Nat.ldiff 65535 (Nat.ldiff (Nat.shiftLeft' true m 16) n) : Nat) : Int) = (n : Int)
    congr 1
    have hS : Nat.shiftLeft' true m 16 = 2 ^ 16 * m ||| 65535 := by
      rw [← Nat.mul_add_lt_is_or (by norm_num : 65535 < 2 ^ 16)]
      have := Nat.shiftLeft'_tt_eq_mul_pow m 16
      omega
    apply Nat.eq_of_testBit_eq
    intro i
    have h65 : (65535 : Nat) = 2 ^ 16 - 1 := by norm_num
    rw [Nat.testBit_ldiff, Nat.testBit_ldiff, hS, Nat.testBit_or, h65,
      Nat.testBit_two_pow_sub_one]
    by_cases hi : i < 16
    · simp [hi]
    · have hlt : n < 2 ^ i := lt_of_lt_of_le hn (Nat.pow_le_pow_right (by norm_num) (by omega))
      simp [hi, Nat.testBit_lt_two_pow hlt]
/-! ## Start of the trajectory mode -/

/-- C15: in `Ros_MotionServer_StartTrajMode`, when the status refresh at entry
finds the controller not ready for motion and operating, in emergency stop, in
hold or not in remote mode, the low 16 bits of the result are NOT_READY (a code
below `2^16`), no primitive is called (so none of `mpCancelError`,
`mpResetAlarm`, `mpSetServoPower`, `mpStartJob`) and no group is modified (so no
`prevPulsePos`). -/
theorem C15_start_traj_mode_needs_operator (K : Consts) (P : Proto) (e : Env) (s : Sys)
    (h0 : 0 ≤ K.ROS_RESULT_NOT_READY) (h1 : K.ROS_RESULT_NOT_READY < 65536)
    (hready : (e.status s.n).motionReady = false)
    (hblock : (e.status s.n).operating = true ∨ (e.status s.n).eStop = true ∨
      (e.status s.n).hold = true ∨ (e.status s.n).remote = false) :
    Int.land (Ros_MotionServer_StartTrajMode K P e s).1 0xffff = K.ROS_RESULT_NOT_READY ∧
    (Ros_MotionServer_StartTrajMode K P e s).2.calls = s.calls ∧
    (Ros_MotionServer_StartTrajMode K P e s).2.c.ctrlGroups = s.c.ctrlGroups := by
  have hlow := low16_lor_shift K.ROS_RESULT_NOT_READY (e.status s.n).notReadySubcode h0 h1
  by_cases hop : (e.status s.n).operating = true
  · simp only [Ros_MotionServer_StartTrajMode, Ros_Controller_StatusUpdate, hready, hop,
      Bool.false_eq_true, if_false, if_true]
    exact ⟨hlow, trivial, trivial⟩
  · have hrest : ((e.status s.n).eStop || (e.status s.n).hold || !(e.status s.n).remote) = true := by
      rcases hblock with h | h | h | h
      · exact absurd h hop
      · simp [h]
      · simp [h]
      · simp [h]
    simp only [Ros_MotionServer_StartTrajMode, Ros_Controller_StatusUpdate, hready, hop, hrest,
      Bool.false_eq_true, if_false, if_true]
    exact ⟨hlow, trivial, trivial⟩

/-- A controller in emergency stop: the result is `NOT_READY | (5002 << 16)`. -/
theorem C15_start_traj_mode_needs_operator_witness :
    (0 ≤ motoRosConsts.ROS_RESULT_NOT_READY ∧ motoRosConsts.ROS_RESULT_NOT_READY < 65536) ∧
    (eStopEnv.status 0).motionReady = false ∧
    (eStopEnv.status 0).eStop = true ∧
    Int.land (Ros_MotionServer_StartTrajMode motoRosConsts motoRosProto eStopEnv
      (startSys (sampleController sampleGroup))).1 0xffff = 5 :=
  ⟨by decide, rfl, rfl,
    (C15_start_traj_mode_needs_operator motoRosConsts motoRosProto eStopEnv
      (startSys (sampleController sampleGroup)) (by decide) (by decide) rfl
      (Or.inr (Or.inl rfl))).1⟩
/-! ## Stop of the trajectory mode -/

/-- C17 fails in the code: the queue of group 0 holds an entry, but the count
query of `Ros_MotionServer_HasDataInQueue` cannot take the queue's lock, so that
`Ros_MotionServer_StopTrajMode` goes on: it stops the motion, clears the queue,
raises the signal and the reply is SUCCESS. With the lock free the same request
is refused with FAILURE and the queue keeps its entry. -/
theorem C17_locked_count_query_changes_mode :
    (loadedController.ctrlGroups 0).inc_q.cnt = 1 ∧
    (loadedController.ioState IoFeedback.IO_FEEDBACK_MP_INCMOVE_DONE) = false ∧
    ((Ros_MotionServer_MotionCtrlProcess motoRosConsts motoRosProto lockedOnceEnv
      (startSys loadedController) (ctrlRequest SmCommandType.ROS_CMD_STOP_TRAJ_MODE)
      (ReplyMsg.writeIOBitReply 0)).2.2.motion.map fun r => r.result)
      = some motoRosConsts.ROS_RESULT_SUCCESS ∧
    (((Ros_MotionServer_MotionCtrlProcess motoRosConsts motoRosProto lockedOnceEnv
      (startSys loadedController) (ctrlRequest SmCommandType.ROS_CMD_STOP_TRAJ_MODE)
      (ReplyMsg.writeIOBitReply 0)).2.1.c.ctrlGroups 0).inc_q.cnt) = 0 ∧
    ((Ros_MotionServer_MotionCtrlProcess motoRosConsts motoRosProto lockedOnceEnv
      (startSys loadedController) (ctrlRequest SmCommandType.ROS_CMD_STOP_TRAJ_MODE)
      (ReplyMsg.writeIOBitReply 0)).2.1.c.ioState IoFeedback.IO_FEEDBACK_MP_INCMOVE_DONE) = true ∧
    ((Ros_MotionServer_MotionCtrlProcess motoRosConsts motoRosProto quietEnv
      (startSys loadedController) (ctrlRequest SmCommandType.ROS_CMD_STOP_TRAJ_MODE)
      (ReplyMsg.writeIOBitReply 0)).2.2.motion.map fun r => r.result)
      = some motoRosConsts.ROS_RESULT_FAILURE ∧
    (((Ros_MotionServer_MotionCtrlProcess motoRosConsts motoRosProto quietEnv
      (startSys loadedController) (ctrlRequest SmCommandType.ROS_CMD_STOP_TRAJ_MODE)
      (ReplyMsg.writeIOBitReply 0)).2.1.c.ctrlGroups 0).inc_q.cnt) = 1 := by
  refine ⟨rfl, rfl, ?_, ?_, ?_, ?_, ?_⟩ <;> rfl
/-! ## The connection reader -/

/-- The expected size of a message of a type of fixed size. -/
theorem expectedSizeOf_fixed (P : Proto) (m : SimpleMsg) (b : Int) (n : Nat)
    (hb : ((P.sizeof_SmPrefix + P.sizeof_SmHeader : Nat) : Int) ≤ b)
    (hn : fixedBodySize P m.msgType = some n) :
    expectedSizeOf P m b = (((P.sizeof_SmPrefix + P.sizeof_SmHeader : Nat) : Int) + n, false) := by
  have hb2 : b ≥ (P.sizeof_SmPrefix : Int) + (P.sizeof_SmHeader : Int) := by push_cast at hb; omega
  unfold expectedSizeOf
  simp only [hb2, if_true]
  cases hm : m.msgType <;> rw [hm] at hn <;> simp only [fixedBodySize, Option.some.injEq] at hn <;>
    first
    | (subst hn; simp)
    | exact absurd hn (by simp)

/-- The expected size for a type that is not recognised. -/
theorem expectedSizeOf_other (P : Proto) (m : SimpleMsg) (b : Int) (v : Int)
    (hb : ((P.sizeof_SmPrefix + P.sizeof_SmHeader : Nat) : Int) ≤ b)
    (hm : m.msgType = SmMsgType.other v) :
    expectedSizeOf P m b = (-1, true) := by
  have hb2 : b ≥ (P.sizeof_SmPrefix : Int) + (P.sizeof_SmHeader : Int) := by push_cast at hb; omega
  unfold expectedSizeOf
  simp only [hb2, if_true, hm]

/-- One iteration of the reader in terms of the byte count and the buffer that
it works on, when the byte count is positive. -/
theorem waitStep_eq (K : Consts) (P : Proto) (p : Prims) (e : Env) (decode : List Nat → SimpleMsg)
    (r : Reader) (s : Sys) (hpos : 0 < r.bytesIn e s) :
    waitStep K P p e decode r s =
      { r := (waitHandle K P p e decode
          { r with receiveMsg := r.bufferIn e s, byteSize := r.bytesIn e s }
          (if r.bHasPreviousData then Ros_Sleep e s else (Ros_Sleep e s).tick)).1
        s := (waitHandle K P p e decode
          { r with receiveMsg := r.bufferIn e s, byteSize := r.bytesIn e s }
          (if r.bHasPreviousData then Ros_Sleep e s else (Ros_Sleep e s).tick)).2.1.tick
        events := (if r.bHasPreviousData then [] else [ReaderEvent.recv (r.bytesIn e s)]) ++
          (waitHandle K P p e decode
            { r with receiveMsg := r.bufferIn e s, byteSize := r.bytesIn e s }
            (if r.bHasPreviousData then Ros_Sleep e s else (Ros_Sleep e s).tick)).2.2 ++
          [ReaderEvent.send (waitHandle K P p e decode
            { r with receiveMsg := r.bufferIn e s, byteSize := r.bytesIn e s }
            (if r.bHasPreviousData then Ros_Sleep e s else (Ros_Sleep e s).tick)).1.replyMsg
            (e.send (waitHandle K P p e decode
              { r with receiveMsg := r.bufferIn e s, byteSize := r.bytesIn e s }
              (if r.bHasPreviousData then Ros_Sleep e s else (Ros_Sleep e s).tick)).2.1.n)]
        goesOn := decide (e.send (waitHandle K P p e decode
              { r with receiveMsg := r.bufferIn e s, byteSize := r.bytesIn e s }
              (if r.bHasPreviousData then Ros_Sleep e s else (Ros_Sleep e s).tick)).2.1.n > 0) } := by
  have hn : (Ros_Sleep e s).n = s.n + 1 := rfl
  cases hprev : r.bHasPreviousData
  · simp only [Reader.bytesIn, hprev, Bool.false_eq_true, if_false] at hpos
    have hnot : ¬ (e.recv (s.n + 1)).1 ≤ 0 := by omega
    simp only [waitStep, hprev, hn, Reader.bytesIn, Reader.bufferIn, Bool.not_false, Bool.false_eq_true,
      if_false, if_true, true_and, hnot]
  · simp only [waitStep, hprev, Reader.bytesIn, Reader.bufferIn, Bool.not_true, Bool.false_eq_true,
      if_false, if_true, false_and]
    cases r
    simp only at hprev
    subst hprev
    rfl
/-- The reader's handling of a buffer whose size check fails. -/
theorem waitHandle_reject (K : Consts) (P : Proto) (p : Prims) (e : Env)
    (decode : List Nat → SimpleMsg) (r : Reader) (s : Sys)
    (hrej : ¬ (r.byteSize ≥ (expectedSizeOf P (decode r.receiveMsg) r.byteSize).1 ∧
      toUnsigned (expectedSizeOf P (decode r.receiveMsg) r.byteSize).1 ≤ P.sizeof_SimpleMsg)) :
    waitHandle K P p e decode r s =
      ({ r with
          replyMsg := motionReplyTo (decode r.receiveMsg) K.ROS_RESULT_INVALID
            (if (expectedSizeOf P (decode r.receiveMsg) r.byteSize).2 then
              K.ROS_RESULT_INVALID_MSGTYPE else K.ROS_RESULT_INVALID_MSGSIZE) 0
          bHasPreviousData := false }, s, []) := by
  unfold waitHandle
  simp only [hrej, if_false]
  split <;> rfl

/-- An iteration of the reader whose size check fails. -/
theorem waitStep_reject (K : Consts) (P : Proto) (p : Prims) (e : Env)
    (decode : List Nat → SimpleMsg) (r : Reader) (s : Sys) (hpos : 0 < r.bytesIn e s)
    (hrej : ¬ (r.bytesIn e s ≥ (expectedSizeOf P (decode (r.bufferIn e s)) (r.bytesIn e s)).1 ∧
      toUnsigned (expectedSizeOf P (decode (r.bufferIn e s)) (r.bytesIn e s)).1
        ≤ P.sizeof_SimpleMsg)) :
    FramingError K e decode r s (waitStep K P p e decode r s)
      (if (expectedSizeOf P (decode (r.bufferIn e s)) (r.bytesIn e s)).2 then
        K.ROS_RESULT_INVALID_MSGTYPE else K.ROS_RESULT_INVALID_MSGSIZE) := by
  rw [waitStep_eq K P p e decode r s hpos, waitHandle_reject K P p e decode _ _ hrej]
  unfold FramingError
  cases hprev : r.bHasPreviousData <;>
    simp [Sys.tick, Ros_Sleep]

/-- C12: in an iteration of `Ros_MotionServer_WaitForSimpleMsg` that works on a
byte count of at least `sizeof(SmPrefix) + sizeof(SmHeader)`: when the message
type is not recognised the reply is INVALID / INVALID_MSGTYPE, and when the type
is one of fixed size and the byte count is below the expected size the reply is
INVALID / INVALID_MSGSIZE; in both cases the message dispatch is not called,
`bDisconnect` is not set and the reply is sent once. -/
theorem C12_framing_errors_keep_connection (K : Consts) (P : Proto) (p : Prims) (e : Env)
    (decode : List Nat → SimpleMsg) (r : Reader) (s : Sys)
    (hmin : 0 < P.sizeof_SmPrefix + P.sizeof_SmHeader)
    (hfit : P.sizeof_SimpleMsg < 4294967295)
    (hb : ((P.sizeof_SmPrefix + P.sizeof_SmHeader : Nat) : Int) ≤ r.bytesIn e s) :
    ((∃ v, (decode (r.bufferIn e s)).msgType = SmMsgType.other v) →
      FramingError K e decode r s (waitStep K P p e decode r s) K.ROS_RESULT_INVALID_MSGTYPE) ∧
    (∀ n : Nat, fixedBodySize P (decode (r.bufferIn e s)).msgType = some n →
      r.bytesIn e s < ((P.sizeof_SmPrefix + P.sizeof_SmHeader : Nat) : Int) + n →
      FramingError K e decode r s (waitStep K P p e decode r s) K.ROS_RESULT_INVALID_MSGSIZE) := by
  have hpos : 0 < r.bytesIn e s := by omega
  constructor
  · rintro ⟨v, hv⟩
    have hsz := expectedSizeOf_other P (decode (r.bufferIn e s)) (r.bytesIn e s) v hb hv
    have hrej : ¬ (r.bytesIn e s ≥ (expectedSizeOf P (decode (r.bufferIn e s)) (r.bytesIn e s)).1 ∧
        toUnsigned (expectedSizeOf P (decode (r.bufferIn e s)) (r.bytesIn e s)).1
          ≤ P.sizeof_SimpleMsg) := by
      rw [hsz]
      simp only [toUnsigned]
      omega
    have h := waitStep_reject K P p e decode r s hpos hrej
    rw [hsz] at h
    exact h
  · intro n hn hlt
    have hsz := expectedSizeOf_fixed P (decode (r.bufferIn e s)) (r.bytesIn e s) n hb hn
    have hrej : ¬ (r.bytesIn e s ≥ (expectedSizeOf P (decode (r.bufferIn e s)) (r.bytesIn e s)).1 ∧
        toUnsigned (expectedSizeOf P (decode (r.bufferIn e s)) (r.bytesIn e s)).1
          ≤ P.sizeof_SimpleMsg) := by
      rw [hsz]
      simp only
      omega
    have h := waitStep_reject K P p e decode r s hpos hrej
    rw [hsz] at h
    exact h

/-- Twenty bytes of a type that is not recognised: the reply is INVALID /
INVALID_MSGTYPE. -/
theorem C12_framing_errors_keep_connection_witness :
    0 < motoRosProto.sizeof_SmPrefix + motoRosProto.sizeof_SmHeader ∧
    motoRosProto.sizeof_SimpleMsg < 4294967295 ∧
    ((motoRosProto.sizeof_SmPrefix + motoRosProto.sizeof_SmHeader : Nat) : Int) ≤
      (startReader (ReplyMsg.writeIOBitReply 0)).bytesIn (recvEnv (List.replicate 20 9))
        (startSys loadedController) ∧
    (∃ v, (sampleDecode ((startReader (ReplyMsg.writeIOBitReply 0)).bufferIn
      (recvEnv (List.replicate 20 9)) (startSys loadedController))).msgType = SmMsgType.other v) ∧
    FramingError motoRosConsts (recvEnv (List.replicate 20 9)) sampleDecode
      (startReader (ReplyMsg.writeIOBitReply 0)) (startSys loadedController)
      (waitStep motoRosConsts motoRosProto (samplePrims 0) (recvEnv (List.replicate 20 9))
        sampleDecode (startReader (ReplyMsg.writeIOBitReply 0)) (startSys loadedController))
      motoRosConsts.ROS_RESULT_INVALID_MSGTYPE :=
  ⟨by decide, by decide, by decide, ⟨9, rfl⟩,
    (C12_framing_errors_keep_connection motoRosConsts motoRosProto (samplePrims 0)
      (recvEnv (List.replicate 20 9)) sampleDecode (startReader (ReplyMsg.writeIOBitReply 0))
      (startSys loadedController) (by decide) (by decide) (by decide)).1 ⟨9, rfl⟩⟩

/-! ## Requests that leave the reply buffer as it was -/

/-- C14 fails in the code: for a motion control message whose command the
`switch` of `Ros_MotionServer_MotionCtrlProcess` does not name, and for a
multi-group trajectory message with `numberOfValidGroups = 0`, the handler
returns without writing the reply buffer, and the reader sends whatever the
buffer held before (`stale`). -/
theorem C14_stale_reply_is_sent (stale : ReplyMsg) :
    (waitStep motoRosConsts motoRosProto (samplePrims 0) (recvEnv (msgBytes 1 9 68)) sampleDecode
      (startReader stale) (startSys loadedController)).events
      = [ReaderEvent.recv 68, ReaderEvent.process (msgBytes 1 9 68) 68, ReaderEvent.send stale 16] ∧
    (waitStep motoRosConsts motoRosProto (samplePrims 0) (recvEnv (msgBytes 4 0 24)) sampleDecode
      (startReader stale) (startSys loadedController)).events
      = [ReaderEvent.recv 24, ReaderEvent.process (msgBytes 4 0 24) 24, ReaderEvent.send stale 16] := by
  constructor <;> rfl
/-! ## Results and subcodes of the motion replies -/

/-- C20 (as stated) fails: a trajectory point that asks for an I/O read while
`mpReadIO` fails is answered with the subcode INVALID_READIO, one of the invalid
subcodes, and with the result MP_FAILURE, not INVALID. -/
theorem C20_counterexample :
    (Ros_MotionServer_JointTrajDataProcess motoRosConsts noReadPrims
      (sampleController sampleGroup) readIoPoint).2.1.subcode
        = motoRosConsts.ROS_RESULT_INVALID_READIO ∧
    motoRosConsts.ROS_RESULT_INVALID_READIO ∈ invalidSubcodes motoRosConsts ∧
    (Ros_MotionServer_JointTrajDataProcess motoRosConsts noReadPrims
      (sampleController sampleGroup) readIoPoint).2.1.result
        = motoRosConsts.ROS_RESULT_MP_FAILURE ∧
    motoRosConsts.ROS_RESULT_MP_FAILURE ≠ motoRosConsts.ROS_RESULT_INVALID := by
  refine ⟨rfl, by decide, rfl, by decide⟩

/-- A motion reply whose result is not INVALID, or whose subcode is an invalid
subcode. -/
theorem good_motionReplyTo (K : Consts) (m : SimpleMsg) (result subcode groupNo : Int)
    (h : result ≠ K.ROS_RESULT_INVALID ∨ subcode ∈ invalidSubcodes K) :
    InvalidHasSubcode K (motionReplyTo m result subcode groupNo) := by
  intro r hr hres
  simp only [motionReplyTo, ReplyMsg.motion, Option.some.injEq, Ros_SimpleMsg_MotionReply] at hr
  subst hr
  rcases h with h | h
  · exact absurd hres h
  · exact h

/-- The result of the axis loop of `Ros_MotionServer_InitTrajPointFull`. -/
theorem initAxisLoop_codes (K : Consts) (g : CtrlGroup) (tp cc : Axis → Int) (l : List Axis) :
    initAxisLoop K g tp cc l = 0 ∨
    initAxisLoop K g tp cc l = K.ROS_RESULT_INVALID_DATA_START_POS ∨
    initAxisLoop K g tp cc l = K.ROS_RESULT_INVALID_DATA_SPEED := by
  induction l with
  | nil => exact Or.inl rfl
  | cons i rest ih =>
    simp only [initAxisLoop]
    split
    · exact Or.inr (Or.inl rfl)
    · split
      · exact Or.inr (Or.inr rfl)
      · exact ih

/-- The result of `Ros_MotionServer_InitTrajPointFull`. -/
theorem init_codes (K : Consts) (cc : Axis → Int) (g : CtrlGroup) (m : SmBodyJointTrajPtFull) :
    (Ros_MotionServer_InitTrajPointFull K cc g m).1 = 0 ∨
    (Ros_MotionServer_InitTrajPointFull K cc g m).1 ∈ invalidSubcodes K := by
  simp only [Ros_MotionServer_InitTrajPointFull]
  split
  · rcases initAxisLoop_codes K _ _ cc (List.finRange MP_GRP_AXES_NUM) with h | h | h
    · exact Or.inl h
    · right; simp only [h]; simp [invalidSubcodes]
    · right; simp only [h]; simp [invalidSubcodes]
  · right; simp [invalidSubcodes]

/-- The result of `Ros_MotionServer_AddTrajPointFull`. -/
theorem add_codes (K : Consts) (g : CtrlGroup) (m : SmBodyJointTrajPtFull) :
    (Ros_MotionServer_AddTrajPointFull K g m).1 = 0 ∨
    (Ros_MotionServer_AddTrajPointFull K g m).1 = K.ROS_RESULT_BUSY ∨
    (Ros_MotionServer_AddTrajPointFull K g m).1 ∈ invalidSubcodes K := by
  simp only [Ros_MotionServer_AddTrajPointFull]
  split
  · exact Or.inr (Or.inl rfl)
  · split
    · right; right; simp [invalidSubcodes]
    · exact Or.inl rfl
/-- Result and subcode of the reply of `Ros_MotionServer_JointTrajDataProcess`. -/
theorem jtdp_codes (K : Consts) (p : Prims) (c : Controller) (m : SmBodyJointTrajPtFull)
    (hK : ResultCodes K) :
    (Ros_MotionServer_JointTrajDataProcess K p c m).2.1.result ≠ K.ROS_RESULT_INVALID ∨
    (Ros_MotionServer_JointTrajDataProcess K p c m).2.1.subcode ∈ invalidSubcodes K := by
  obtain ⟨h1, h2, h3, h4, h5, h6, h7, h8, h9, h10, h11⟩ := hK
  have hi := init_codes K (p.pulsePosCmd m.groupNo) (c.ctrlGroups m.groupNo.toNat) m
  have ha := add_codes K (c.ctrlGroups m.groupNo.toNat) m
  cases hready : c.motionReady
  · left
    simp only [Ros_MotionServer_JointTrajDataProcess, hready, Bool.not_false, if_true,
      Ros_SimpleMsg_MotionReply]
    exact Ne.symm h6
  cases hvalid : Ros_Controller_IsValidGroupNo c m.groupNo
  · right
    simp only [Ros_MotionServer_JointTrajDataProcess, hready, hvalid, Bool.not_true, Bool.not_false,
      Bool.false_eq_true, if_false, if_true, Ros_SimpleMsg_MotionReply]
    simp [invalidSubcodes]
  by_cases hfields : Int.land m.validFields 0x07 = 0x07
  swap
  · right
    simp only [Ros_MotionServer_JointTrajDataProcess, hready, hvalid, Bool.not_true,
      Bool.false_eq_true, if_false, ne_eq, hfields, not_false_eq_true, if_true,
      Ros_SimpleMsg_MotionReply]
    simp [invalidSubcodes]
  have hf : ¬ Int.land m.validFields 0x07 ≠ 0x07 := fun h => h hfields
  cases hio : (decide (Int.land m.validFields 0x10 ≠ 0) && (p.readIo m.ioReadAddress).isNone)
  swap
  · left
    simp only [Ros_MotionServer_JointTrajDataProcess, hready, hvalid, Bool.not_true,
      Bool.false_eq_true, if_false, hf, hio, if_true, Ros_SimpleMsg_MotionReply]
    exact Ne.symm h7
  cases hfb : p.fbPulsePos m.groupNo with
  | none =>
    left
    simp only [Ros_MotionServer_JointTrajDataProcess, hready, hvalid, Bool.not_true,
      Bool.false_eq_true, if_false, hf, hio, hfb, Ros_SimpleMsg_MotionReply]
    exact Ne.symm h7
  | some pulsePos =>
    have hio2 : Int.land m.validFields 0x10 ≠ 0 → (p.readIo m.ioReadAddress).isNone = false := by
      intro h
      simpa [h] using hio
    have hd := process_dispatch K p c m pulsePos hready hvalid hfields hio2 hfb
    rcases lt_trichotomy m.sequence 0 with hs | hs | hs
    · right
      have hne : ¬ m.sequence = 0 := by omega
      have hng : ¬ m.sequence > 0 := by omega
      simp only [Ros_MotionServer_JointTrajDataProcess, hready, hvalid, Bool.not_true,
        Bool.false_eq_true, if_false, hf, hio, hfb, hne, hng, Ros_SimpleMsg_MotionReply]
      simp [invalidSubcodes]
    · obtain ⟨_, hres, hsub⟩ := hd.1 hs
      rw [hres, hsub]
      rcases hi with hi | hi
      · left; rw [if_pos hi]; exact Ne.symm h1
      · exact Or.inr hi
    · obtain ⟨_, hres, hsub⟩ := hd.2 hs
      rw [hres, hsub]
      rcases ha with ha | ha | ha
      · left; rw [if_pos ha]; exact Ne.symm h1
      · by_cases h0 : (Ros_MotionServer_AddTrajPointFull K (c.ctrlGroups m.groupNo.toNat) m).1 = 0
        · left; rw [if_pos h0]; exact Ne.symm h1
        · left; rw [if_neg h0, if_pos (ha.trans h8)]; exact Ne.symm h5
      · by_cases h0 : (Ros_MotionServer_AddTrajPointFull K (c.ctrlGroups m.groupNo.toNat) m).1 = 0
        · left; rw [if_pos h0]; exact Ne.symm h1
        · by_cases h01 : (Ros_MotionServer_AddTrajPointFull K (c.ctrlGroups m.groupNo.toNat) m).1 = 1
          · left; rw [if_neg h0, if_pos h01]; exact Ne.symm h5
          · right; rw [if_neg h0, if_neg h01]; exact ha
/-- The shape of a result of `Ros_MotionServer_StartTrajMode`. -/
theorem updateStatus_result (K : Consts) (e : Env) (s : Sys) :
    (updateStatus K e s).1 = K.ROS_RESULT_SUCCESS ∨
    ∃ b : Int, (updateStatus K e s).1 = Int.lor K.ROS_RESULT_NOT_READY (b <<< (16 : Int)) ∨
      (updateStatus K e s).1 = Int.lor K.ROS_RESULT_MP_FAILURE (b <<< (16 : Int)) := by
  unfold updateStatus
  simp only
  split
  · exact Or.inl rfl
  · exact Or.inr ⟨_, Or.inl rfl⟩

theorem startJobAndWait_result (K : Consts) (P : Proto) (e : Env) (s : Sys) :
    (startJobAndWait K P e s).1 = K.ROS_RESULT_SUCCESS ∨
    ∃ b : Int, (startJobAndWait K P e s).1 = Int.lor K.ROS_RESULT_NOT_READY (b <<< (16 : Int)) ∨
      (startJobAndWait K P e s).1 = Int.lor K.ROS_RESULT_MP_FAILURE (b <<< (16 : Int)) := by
  unfold startJobAndWait
  simp only
  split
  · exact Or.inr ⟨_, Or.inr rfl⟩
  · split
    · exact Or.inl rfl
    · exact updateStatus_result K e _

theorem servoOnAndStart_result (K : Consts) (P : Proto) (e : Env) (s : Sys) :
    (servoOnAndStart K P e s).1 = K.ROS_RESULT_SUCCESS ∨
    ∃ b : Int, (servoOnAndStart K P e s).1 = Int.lor K.ROS_RESULT_NOT_READY (b <<< (16 : Int)) ∨
      (servoOnAndStart K P e s).1 = Int.lor K.ROS_RESULT_MP_FAILURE (b <<< (16 : Int)) := by
  unfold servoOnAndStart
  simp only
  split
  · split
    · exact updateStatus_result K e _
    · split
      · split
        · exact updateStatus_result K e _
        · exact startJobAndWait_result K P e _
      · exact updateStatus_result K e _
  · exact startJobAndWait_result K P e _

theorem resetAlarmAndStart_result (K : Consts) (P : Proto) (e : Env) (s : Sys) :
    (resetAlarmAndStart K P e s).1 = K.ROS_RESULT_SUCCESS ∨
    ∃ b : Int, (resetAlarmAndStart K P e s).1 = Int.lor K.ROS_RESULT_NOT_READY (b <<< (16 : Int)) ∨
      (resetAlarmAndStart K P e s).1 = Int.lor K.ROS_RESULT_MP_FAILURE (b <<< (16 : Int)) := by
  unfold resetAlarmAndStart
  simp only
  split
  · split
    · split
      · exact updateStatus_result K e _
      · exact servoOnAndStart_result K P e _
    · exact updateStatus_result K e _
  · exact servoOnAndStart_result K P e _

theorem startTrajMode_result (K : Consts) (P : Proto) (e : Env) (s : Sys) :
    (Ros_MotionServer_StartTrajMode K P e s).1 = K.ROS_RESULT_SUCCESS ∨
    ∃ b : Int,
      (Ros_MotionServer_StartTrajMode K P e s).1
        = Int.lor K.ROS_RESULT_NOT_READY (b <<< (16 : Int)) ∨
      (Ros_MotionServer_StartTrajMode K P e s).1
        = Int.lor K.ROS_RESULT_MP_FAILURE (b <<< (16 : Int)) := by
  unfold Ros_MotionServer_StartTrajMode
  simp only
  split
  · exact Or.inl rfl
  · split
    · exact Or.inr ⟨_, Or.inl rfl⟩
    · split
      · exact Or.inr ⟨_, Or.inl rfl⟩
      · split
        · split
          · exact updateStatus_result K e _
          · exact resetAlarmAndStart_result K P e _
        · exact resetAlarmAndStart_result K P e _

/-- The low 16 bits of a result of `Ros_MotionServer_StartTrajMode` are not
INVALID. -/
theorem startTrajMode_low16 (K : Consts) (P : Proto) (e : Env) (s : Sys) (hK : ResultCodes K) :
    Int.land (Ros_MotionServer_StartTrajMode K P e s).1 0xffff ≠ K.ROS_RESULT_INVALID := by
  obtain ⟨h1, _, _, _, _, h6, h7, _, h9, h10, h11⟩ := hK
  rcases startTrajMode_result K P e s with h | ⟨b, h | h⟩
  · rw [h, low16_self _ h9.1 h9.2]; exact Ne.symm h1
  · rw [h, low16_lor_shift _ _ h10.1 h10.2]; exact Ne.symm h6
  · rw [h, low16_lor_shift _ _ h11.1 h11.2]; exact Ne.symm h7

/-- The reply buffer after `Ros_MotionServer_MotionCtrlProcess`. -/
theorem motionCtrl_good (K : Consts) (P : Proto) (e : Env) (s : Sys) (m : SimpleMsg)
    (old : ReplyMsg) (hK : ResultCodes K) :
    (Ros_MotionServer_MotionCtrlProcess K P e s m old).2.2 = old ∨
    InvalidHasSubcode K (Ros_MotionServer_MotionCtrlProcess K P e s m old).2.2 := by
  have hlow := startTrajMode_low16 K P e s hK
  obtain ⟨h1, h2, h3, h4, h5, h6, h7, h8, h9, h10, h11⟩ := hK
  unfold Ros_MotionServer_MotionCtrlProcess
  simp only
  split
  · right
    split
    · exact good_motionReplyTo K m _ _ _ (Or.inl (Ne.symm h2))
    · exact good_motionReplyTo K m _ _ _ (Or.inl (Ne.symm h3))
  · right
    split
    · exact good_motionReplyTo K m _ _ _ (Or.inl (Ne.symm h2))
    · exact good_motionReplyTo K m _ _ _ (Or.inl (Ne.symm h4))
  · right
    split
    · exact good_motionReplyTo K m _ _ _ (Or.inl (Ne.symm h1))
    · exact good_motionReplyTo K m _ _ _ (Or.inl (Ne.symm h4))
  · right
    split
    · exact good_motionReplyTo K m _ _ _ (Or.inl (Ne.symm h1))
    · exact good_motionReplyTo K m _ _ _ (Or.inl (Ne.symm h4))
  · right
    split
    · exact good_motionReplyTo K m _ _ _ (Or.inl (Ne.symm h1))
    · exact good_motionReplyTo K m _ _ _ (Or.inl (Ne.symm h4))
  · right
    split
    · exact good_motionReplyTo K m _ _ _ (Or.inl (Ne.symm h1))
    · exact good_motionReplyTo K m _ _ _ (Or.inl (Ne.symm h4))
  · right
    exact good_motionReplyTo K m _ _ _ (Or.inl hlow)
  · right
    split
    · exact good_motionReplyTo K m _ _ _ (Or.inl (Ne.symm h1))
    · exact good_motionReplyTo K m _ _ _ (Or.inl (Ne.symm h4))
  · right
    split
    · exact good_motionReplyTo K m _ _ _ (Or.inl (Ne.symm h1))
    · exact good_motionReplyTo K m _ _ _ (Or.inl (Ne.symm h4))
  · exact Or.inl rfl
/-- A reply of the pre-check loop of the multi-group handler. -/
theorem exPreCheck_good (K : Consts) (c : Controller) (m : SimpleMsg) (hK : ResultCodes K)
    (l : List Nat) (reply : ReplyMsg) (h : exPreCheck K c m l = some reply) :
    InvalidHasSubcode K reply := by
  obtain ⟨h1, h2, h3, h4, h5, h6, h7, h8, h9, h10, h11⟩ := hK
  induction l with
  | nil => simp [exPreCheck] at h
  | cons i rest ih =>
    simp only [exPreCheck] at h
    split at h
    · split at h
      · simp only [Option.some.injEq] at h
        rw [← h]
        exact good_motionReplyTo K m _ _ _ (Or.inl (Ne.symm h5))
      · split at h
        · simp only [Option.some.injEq] at h
          rw [← h]
          exact good_motionReplyTo K m _ _ _ (Or.inr (by simp [invalidSubcodes]))
        · exact ih h
    · simp only [Option.some.injEq] at h
      rw [← h]
      exact good_motionReplyTo K m _ _ _ (Or.inr (by simp [invalidSubcodes]))

/-- The reply buffer after the second loop of the multi-group handler. -/
theorem exApply_good (K : Consts) (p : Prims) (m : SimpleMsg) (hK : ResultCodes K)
    (l : List Nat) (s : Sys) (old : ReplyMsg) :
    (exApply K p m l s old).2 = old ∨ InvalidHasSubcode K (exApply K p m l s old).2 := by
  have hK2 := hK
  obtain ⟨h1, h2, h3, h4, h5, h6, h7, h8, h9, h10, h11⟩ := hK
  induction l generalizing s old with
  | nil => exact Or.inl rfl
  | cons i rest ih =>
    right
    simp only [exApply]
    split
    · split
      · rcases ih _ (motionReplyTo m K.ROS_RESULT_SUCCESS 0
          (m.jointTrajDataEx.jointTrajPtData i).groupNo) with h | h
        · rw [h]
          exact good_motionReplyTo K m _ _ _ (Or.inl (Ne.symm h1))
        · exact h
      · rename_i hne
        rcases init_codes K (p.pulsePosCmd (m.jointTrajDataEx.jointTrajPtData i).groupNo)
          (s.c.ctrlGroups (m.jointTrajDataEx.jointTrajPtData i).groupNo.toNat)
          (exToFull (m.jointTrajDataEx.jointTrajPtData i) m.jointTrajDataEx.sequence) with h | h
        · exact absurd h hne
        · exact good_motionReplyTo K m _ _ _ (Or.inr h)
    · split
      · split
        · rcases ih _ (motionReplyTo m K.ROS_RESULT_SUCCESS 0
            (m.jointTrajDataEx.jointTrajPtData i).groupNo) with h | h
          · rw [h]
            exact good_motionReplyTo K m _ _ _ (Or.inl (Ne.symm h1))
          · exact h
        · split
          · exact good_motionReplyTo K m _ _ _ (Or.inl (Ne.symm h5))
          · rename_i hne0 hne1
            rcases add_codes K
              (s.c.ctrlGroups (m.jointTrajDataEx.jointTrajPtData i).groupNo.toNat)
              (exToFull (m.jointTrajDataEx.jointTrajPtData i) m.jointTrajDataEx.sequence)
              with h | h | h
            · exact absurd h hne0
            · exact absurd (h.trans h8) hne1
            · exact good_motionReplyTo K m _ _ _ (Or.inr h)
      · exact good_motionReplyTo K m _ _ _ (Or.inr (by simp [invalidSubcodes]))

/-- The reply buffer after the loop of the multi-group handler for a controller
that is not ready. -/
theorem exNotReady_good (K : Consts) (m : SimpleMsg) (hK : ResultCodes K) (subcode : Int)
    (l : List Nat) (old : ReplyMsg) :
    l.foldl (fun (_ : ReplyMsg) (i : Nat) =>
        motionReplyTo m K.ROS_RESULT_NOT_READY subcode
          (m.jointTrajDataEx.jointTrajPtData i).groupNo) old = old ∨
    InvalidHasSubcode K (l.foldl (fun (_ : ReplyMsg) (i : Nat) =>
        motionReplyTo m K.ROS_RESULT_NOT_READY subcode
          (m.jointTrajDataEx.jointTrajPtData i).groupNo) old) := by
  have h6 := hK.2.2.2.2.2.1
  induction l generalizing old with
  | nil => exact Or.inl rfl
  | cons i rest ih =>
    right
    simp only [List.foldl_cons]
    rcases ih (motionReplyTo m K.ROS_RESULT_NOT_READY subcode
      (m.jointTrajDataEx.jointTrajPtData i).groupNo) with h | h
    · rw [h]
      exact good_motionReplyTo K m _ _ _ (Or.inl (Ne.symm h6))
    · exact h

/-- The reply buffer after `Ros_MotionServer_JointTrajPtFullExProcess`. -/
theorem exProcess_good (K : Consts) (p : Prims) (s : Sys) (m : SimpleMsg) (old : ReplyMsg)
    (hK : ResultCodes K) :
    (Ros_MotionServer_JointTrajPtFullExProcess K p s m old).2.2 = old ∨
    InvalidHasSubcode K (Ros_MotionServer_JointTrajPtFullExProcess K p s m old).2.2 := by
  unfold Ros_MotionServer_JointTrajPtFullExProcess
  simp only
  split
  · exact exNotReady_good K m hK _ _ old
  · split
    · rename_i reply hpre
      exact Or.inr (exPreCheck_good K s.c m hK _ reply hpre)
    · exact exApply_good K p m hK _ s old

/-- A reply buffer that holds no motion reply. -/
theorem good_of_not_motion (K : Consts) (reply : ReplyMsg) (h : reply.motion = none) :
    InvalidHasSubcode K reply := by
  intro r hr
  rw [h] at hr
  exact absurd hr (by simp)

/-- The reply buffer after `Ros_MotionServer_SimpleMsgProcess`. -/
theorem simpleMsgProcess_good (K : Consts) (P : Proto) (p : Prims) (e : Env) (s : Sys)
    (m : SimpleMsg) (byteSize : Int) (old : ReplyMsg) (hK : ResultCodes K) :
    (Ros_MotionServer_SimpleMsgProcess K P p e s m byteSize old).2.2 = old ∨
    InvalidHasSubcode K (Ros_MotionServer_SimpleMsgProcess K P p e s m byteSize old).2.2 := by
  have hinv : ∀ sub : Int, sub ∈ invalidSubcodes K →
      ((if sub ≠ 0 then ((-1 : Int), s, motionReplyTo m K.ROS_RESULT_INVALID sub 0)
        else ((0 : Int), s, old)).2.2 = old ∨
      InvalidHasSubcode K (if sub ≠ 0 then
        ((-1 : Int), s, motionReplyTo m K.ROS_RESULT_INVALID sub 0)
        else ((0 : Int), s, old)).2.2) := by
    intro sub hsub
    split
    · exact Or.inr (good_motionReplyTo K m _ _ _ (Or.inr hsub))
    · exact Or.inl rfl
  have hsize : K.ROS_RESULT_INVALID_MSGSIZE ∈ invalidSubcodes K := by simp [invalidSubcodes]
  have htype : K.ROS_RESULT_INVALID_MSGTYPE ∈ invalidSubcodes K := by simp [invalidSubcodes]
  unfold Ros_MotionServer_SimpleMsgProcess
  simp only
  split
  · split
    · exact Or.inr (good_of_not_motion K _ rfl)
    · exact hinv _ hsize
  · split
    · right
      intro r hr hres
      simp only [ReplyMsg.motion, Option.some.injEq] at hr
      subst hr
      rcases jtdp_codes K p s.c m.jointTrajData hK with h | h
      · exact absurd hres h
      · exact h
    · exact hinv _ hsize
  · split
    · exact motionCtrl_good K P e s m old hK
    · exact hinv _ hsize
  · split
    · exact exProcess_good K p s m old hK
    · exact hinv _ hsize
  · split
    · exact Or.inr (good_of_not_motion K _ rfl)
    · exact hinv _ hsize
  · split
    · exact Or.inr (good_of_not_motion K _ rfl)
    · exact hinv _ hsize
  · split
    · exact Or.inr (good_of_not_motion K _ rfl)
    · exact hinv _ hsize
  · split
    · exact Or.inr (good_of_not_motion K _ rfl)
    · exact hinv _ hsize
  · exact hinv _ htype

/-- The reply buffer after the reader has handled a buffer. -/
theorem waitHandle_good (K : Consts) (P : Proto) (p : Prims) (e : Env)
    (decode : List Nat → SimpleMsg) (r : Reader) (s : Sys) (hK : ResultCodes K) :
    (waitHandle K P p e decode r s).1.replyMsg = r.replyMsg ∨
    InvalidHasSubcode K (waitHandle K P p e decode r s).1.replyMsg := by
  have h := simpleMsgProcess_good K P p e s (decode r.receiveMsg)
    (expectedSizeOf P (decode r.receiveMsg) r.byteSize).1 r.replyMsg hK
  unfold waitHandle
  simp only
  split
  · split
    · exact h
    · split
      · exact h
      · exact h
  · split
    · exact Or.inr (good_motionReplyTo K _ _ _ _ (Or.inr (by simp [invalidSubcodes])))
    · exact Or.inr (good_motionReplyTo K _ _ _ _ (Or.inr (by simp [invalidSubcodes])))

/-- C20 (amended): in every iteration of the reader, the reply buffer afterwards
(which is what the iteration sends) is as it was before, or it does not hold a
motion reply with result INVALID and a subcode other than the invalid subcodes:
a motion reply that a handler or the framing check writes has result INVALID
only with one of the invalid subcodes. -/
theorem C20_invalid_result_has_invalid_subcode (K : Consts) (P : Proto) (p : Prims) (e : Env)
    (decode : List Nat → SimpleMsg) (r : Reader) (s : Sys) (hK : ResultCodes K) :
    (waitStep K P p e decode r s).r.replyMsg = r.replyMsg ∨
    InvalidHasSubcode K (waitStep K P p e decode r s).r.replyMsg := by
  unfold waitStep
  simp only
  split
  · exact Or.inl rfl
  · split
    · exact waitHandle_good K P p e decode _ _ hK
    · exact waitHandle_good K P p e decode _ _ hK

/-- A motion control message with the command "check motion ready", answered
with TRUE. -/
theorem C20_invalid_result_has_invalid_subcode_witness :
    ResultCodes motoRosConsts ∧
    ((waitStep motoRosConsts motoRosProto (samplePrims 0) (recvEnv (msgBytes 1 1 68)) sampleDecode
        (startReader (ReplyMsg.writeIOBitReply 0)) (startSys loadedController)).r.replyMsg
      = (startReader (ReplyMsg.writeIOBitReply 0)).replyMsg ∨
    InvalidHasSubcode motoRosConsts
      (waitStep motoRosConsts motoRosProto (samplePrims 0) (recvEnv (msgBytes 1 1 68)) sampleDecode
        (startReader (ReplyMsg.writeIOBitReply 0)) (startSys loadedController)).r.replyMsg) :=
  ⟨by unfold ResultCodes; decide,
    C20_invalid_result_has_invalid_subcode motoRosConsts motoRosProto (samplePrims 0)
      (recvEnv (msgBytes 1 1 68)) sampleDecode (startReader (ReplyMsg.writeIOBitReply 0))
      (startSys loadedController) (by unfold ResultCodes; decide)⟩

/-! ## Carry-over in the connection reader -/

theorem dispatched_append (a b : List ReaderEvent) :
    dispatched (a ++ b) = dispatched a ++ dispatched b := by
  induction a with
  | nil => rfl
  | cons x rest ih => cases x <;> simp [dispatched, ih]

theorem recvCount_append (a b : List ReaderEvent) :
    recvCount (a ++ b) = recvCount a + recvCount b := by
  induction a with
  | nil => simp [recvCount]
  | cons x rest ih =>
    cases x
    · simp [recvCount, ih]; omega
    · simp [recvCount, ih]
    · simp [recvCount, ih]

theorem sendCount_append (a b : List ReaderEvent) :
    sendCount (a ++ b) = sendCount a + sendCount b := by
  induction a with
  | nil => simp [sendCount]
  | cons x rest ih =>
    cases x
    · simp [sendCount, ih]
    · simp [sendCount, ih]
    · simp [sendCount, ih]; omega

theorem sendFailed_append (a b : List ReaderEvent) :
    sendFailed (a ++ b) ↔ sendFailed a ∨ sendFailed b := by
  induction a with
  | nil => simp [sendFailed]
  | cons x rest ih => cases x <;> simp [sendFailed, ih, or_assoc]

/-- A loop that starts with `bDisconnect` set does nothing. -/
theorem waitLoop_disconnected (K : Consts) (P : Proto) (p : Prims) (e : Env)
    (decode : List Nat → SimpleMsg) (k : Nat) (r : Reader) (s : Sys)
    (h : r.bDisconnect = true) : waitLoop K P p e decode k r s = (r, s, []) := by
  cases k with
  | zero => rfl
  | succ k => simp [waitLoop, h]

/-- The reader's handling of a buffer that passes the size check: one call of
the message dispatch; afterwards the connection is to be closed when the call
returned 1, else the bytes beyond the expected size, if any, are carried over. -/
theorem waitHandle_dispatch (K : Consts) (P : Proto) (p : Prims) (e : Env)
    (decode : List Nat → SimpleMsg) (r : Reader) (s : Sys)
    (hcond : r.byteSize ≥ (expectedSizeOf P (decode r.receiveMsg) r.byteSize).1 ∧
      toUnsigned (expectedSizeOf P (decode r.receiveMsg) r.byteSize).1 ≤ P.sizeof_SimpleMsg) :
    (waitHandle K P p e decode r s).2.2
      = [ReaderEvent.process r.receiveMsg (expectedSizeOf P (decode r.receiveMsg) r.byteSize).1] ∧
    (waitHandle K P p e decode r s).2.1
      = (Ros_MotionServer_SimpleMsgProcess K P p e s (decode r.receiveMsg)
          (expectedSizeOf P (decode r.receiveMsg) r.byteSize).1 r.replyMsg).2.1 ∧
    (waitHandle K P p e decode r s).1.replyMsg
      = (Ros_MotionServer_SimpleMsgProcess K P p e s (decode r.receiveMsg)
          (expectedSizeOf P (decode r.receiveMsg) r.byteSize).1 r.replyMsg).2.2 ∧
    ((Ros_MotionServer_SimpleMsgProcess K P p e s (decode r.receiveMsg)
        (expectedSizeOf P (decode r.receiveMsg) r.byteSize).1 r.replyMsg).1 = 1 →
      (waitHandle K P p e decode r s).1.bDisconnect = true ∧
      (waitHandle K P p e decode r s).1.bHasPreviousData = false ∧
      (waitHandle K P p e decode r s).1.receiveMsg = r.receiveMsg ∧
      (waitHandle K P p e decode r s).1.byteSize = r.byteSize) ∧
    ((Ros_MotionServer_SimpleMsgProcess K P p e s (decode r.receiveMsg)
        (expectedSizeOf P (decode r.receiveMsg) r.byteSize).1 r.replyMsg).1 ≠ 1 →
      (waitHandle K P p e decode r s).1.bDisconnect = r.bDisconnect ∧
      (r.byteSize > (expectedSizeOf P (decode r.receiveMsg) r.byteSize).1 →
        (waitHandle K P p e decode r s).1.bHasPreviousData = true ∧
        (waitHandle K P p e decode r s).1.byteSize
          = r.byteSize - (expectedSizeOf P (decode r.receiveMsg) r.byteSize).1 ∧
        (waitHandle K P p e decode r s).1.receiveMsg
          = memmove r.receiveMsg (expectedSizeOf P (decode r.receiveMsg) r.byteSize).1.toNat
              (r.byteSize - (expectedSizeOf P (decode r.receiveMsg) r.byteSize).1).toNat) ∧
      (¬ r.byteSize > (expectedSizeOf P (decode r.receiveMsg) r.byteSize).1 →
        (waitHandle K P p e decode r s).1.bHasPreviousData = false)) := by
  unfold waitHandle
  simp only [hcond, and_self, if_true]
  by_cases h1 : (Ros_MotionServer_SimpleMsgProcess K P p e s (decode r.receiveMsg)
        (expectedSizeOf P (decode r.receiveMsg) r.byteSize).1 r.replyMsg).1 = 1
  · simp [h1]
  · by_cases h2 : r.byteSize > (expectedSizeOf P (decode r.receiveMsg) r.byteSize).1
    · simp [h1, h2]
    · simp [h1, h2]

/-- An iteration of the reader on a buffer that begins with the complete message
`m` of a type of fixed size, followed by `L` more bytes. -/
theorem waitStep_head (P : Proto) (e : Env)
    (decode : List Nat → SimpleMsg) (r : Reader) (s : Sys) (m : List Nat) (L n : Nat)
    (hmin : 0 < P.sizeof_SmPrefix + P.sizeof_SmHeader)
    (hfit : P.sizeof_SimpleMsg < 4294967296)
    (hdr : HeaderDecidesType P decode)
    (hn : fixedBodySize P (decode m).msgType = some n)
    (hlen : m.length = P.sizeof_SmPrefix + P.sizeof_SmHeader + n)
    (hle : m.length ≤ P.sizeof_SimpleMsg)
    (hb : r.bytesIn e s = ((m.length + L : Nat) : Int))
    (hbuf : (r.bufferIn e s).take m.length = m) :
    expectedSizeOf P (decode (r.bufferIn e s)) (r.bytesIn e s) = ((m.length : Int), false) ∧
    (r.bytesIn e s ≥ (m.length : Int) ∧ toUnsigned (m.length : Int) ≤ P.sizeof_SimpleMsg) := by
  have hty : (decode (r.bufferIn e s)).msgType = (decode m).msgType := by
    apply hdr
    conv_rhs => rw [← hbuf]
    rw [List.take_take]
    congr 1
    omega
  have hminb : ((P.sizeof_SmPrefix + P.sizeof_SmHeader : Nat) : Int) ≤ r.bytesIn e s := by
    rw [hb]; push_cast; omega
  have hsz := expectedSizeOf_fixed P (decode (r.bufferIn e s)) (r.bytesIn e s) n hminb
    (by rw [hty]; exact hn)
  refine ⟨?_, ?_, ?_⟩
  · rw [hsz, hlen]; push_cast; rfl
  · rw [hb]; push_cast; omega
  · simp only [toUnsigned]
    omega

/-- The bytes that `memmove` brings to the start of the buffer. -/
theorem memmove_take (buf : List Nat) (src cnt : Nat) (h : src + cnt ≤ buf.length) :
    (memmove buf src cnt).take cnt = (buf.drop src).take cnt := by
  unfold memmove
  have hl : ((buf.drop src).take cnt).length = cnt := by
    rw [List.length_take, List.length_drop]
    omega
  rw [List.take_append_of_le_length (le_of_eq hl.symm), List.take_of_length_le (le_of_eq hl)]

/-- An iteration of the reader on a buffer that begins with the complete message
`m` of a type of fixed size, followed by `L` more bytes: `m` is dispatched and
the reply is sent; when the dispatch asks to close, `bDisconnect` is set and the
buffer is left as it is, else the `L` bytes are carried over. -/
theorem waitStep_dispatch (K : Consts) (P : Proto) (p : Prims) (e : Env)
    (decode : List Nat → SimpleMsg) (r : Reader) (s : Sys) (m : List Nat) (L n : Nat)
    (hmin : 0 < P.sizeof_SmPrefix + P.sizeof_SmHeader)
    (hfit : P.sizeof_SimpleMsg < 4294967296)
    (hdr : HeaderDecidesType P decode)
    (hn : fixedBodySize P (decode m).msgType = some n)
    (hlen : m.length = P.sizeof_SmPrefix + P.sizeof_SmHeader + n)
    (hle : m.length ≤ P.sizeof_SimpleMsg)
    (hb : r.bytesIn e s = ((m.length + L : Nat) : Int))
    (hbuf : (r.bufferIn e s).take m.length = m) :
    (waitStep K P p e decode r s).events
      = (if r.bHasPreviousData then [] else [ReaderEvent.recv (r.bytesIn e s)]) ++
        [ReaderEvent.process (r.bufferIn e s) (m.length : Int),
          ReaderEvent.send
            (Ros_MotionServer_SimpleMsgProcess K P p e (r.sysIn e s) (decode (r.bufferIn e s))
              (m.length : Int) r.replyMsg).2.2
            (e.send (Ros_MotionServer_SimpleMsgProcess K P p e (r.sysIn e s)
              (decode (r.bufferIn e s)) (m.length : Int) r.replyMsg).2.1.n)] ∧
    (waitStep K P p e decode r s).s
      = (Ros_MotionServer_SimpleMsgProcess K P p e (r.sysIn e s) (decode (r.bufferIn e s))
          (m.length : Int) r.replyMsg).2.1.tick ∧
    ((waitStep K P p e decode r s).goesOn = true ↔
      0 < e.send (Ros_MotionServer_SimpleMsgProcess K P p e (r.sysIn e s)
        (decode (r.bufferIn e s)) (m.length : Int) r.replyMsg).2.1.n) ∧
    ((Ros_MotionServer_SimpleMsgProcess K P p e (r.sysIn e s) (decode (r.bufferIn e s))
        (m.length : Int) r.replyMsg).1 = 1 →
      (waitStep K P p e decode r s).r.bDisconnect = true ∧
      (waitStep K P p e decode r s).r.bHasPreviousData = false ∧
      (waitStep K P p e decode r s).r.receiveMsg = r.bufferIn e s) ∧
    ((Ros_MotionServer_SimpleMsgProcess K P p e (r.sysIn e s) (decode (r.bufferIn e s))
        (m.length : Int) r.replyMsg).1 ≠ 1 →
      (waitStep K P p e decode r s).r.bDisconnect = r.bDisconnect ∧
      (0 < L →
        (waitStep K P p e decode r s).r.bHasPreviousData = true ∧
        (waitStep K P p e decode r s).r.byteSize = (L : Int) ∧
        (waitStep K P p e decode r s).r.receiveMsg = memmove (r.bufferIn e s) m.length L) ∧
      (L = 0 → (waitStep K P p e decode r s).r.bHasPreviousData = false)) := by
  obtain ⟨hsz, hc1, hc2⟩ := waitStep_head P e decode r s m L n hmin hfit hdr hn hlen hle hb hbuf
  have hpos : 0 < r.bytesIn e s := by rw [hb]; push_cast; omega
  have hcond : r.bytesIn e s ≥ (expectedSizeOf P (decode (r.bufferIn e s)) (r.bytesIn e s)).1 ∧
      toUnsigned (expectedSizeOf P (decode (r.bufferIn e s)) (r.bytesIn e s)).1
        ≤ P.sizeof_SimpleMsg := by
    simp only [hsz]
    exact ⟨hc1, hc2⟩
  obtain ⟨d1, d2, d3, d4, d5⟩ := waitHandle_dispatch K P p e decode
    { r with receiveMsg := r.bufferIn e s, byteSize := r.bytesIn e s } (r.sysIn e s) hcond
  simp only [hsz] at d1 d2 d3 d4 d5
  have hstep := waitStep_eq K P p e decode r s hpos
  have hsys : (if r.bHasPreviousData then Ros_Sleep e s else (Ros_Sleep e s).tick) = r.sysIn e s := rfl
  rw [hsys] at hstep
  rw [hstep]
  simp only [d1, d2, d3]
  refine ⟨?_, trivial, ?_, ?_, ?_⟩
  · simp
  · simp
  · intro h1
    obtain ⟨a1, a2, a3, _⟩ := d4 h1
    exact ⟨a1, a2, a3⟩
  · intro h1
    obtain ⟨a1, a2, a3⟩ := d5 h1
    refine ⟨a1, ?_, ?_⟩
    · intro hL
      have hgt : r.bytesIn e s > (m.length : Int) := by rw [hb]; push_cast; omega
      obtain ⟨b1, b2, b3⟩ := a2 hgt
      refine ⟨b1, ?_, ?_⟩
      · rw [b2, hb]; push_cast; omega
      · rw [b3, hb]
        congr 1
        push_cast
        omega
    · intro hL
      have hngt : ¬ r.bytesIn e s > (m.length : Int) := by rw [hb, hL]; push_cast; omega
      exact a3 hngt

/-- A run of the reader on a buffer that holds the complete messages `msgs`, of
types of fixed size, back to back: the messages are dispatched in order, one
reply is sent for each, and no further `mpRecv` is made; the run ends before the
last message only when a dispatch asks to close the connection or a send
fails. -/
theorem waitLoop_framed (K : Consts) (P : Proto) (p : Prims) (e : Env)
    (decode : List Nat → SimpleMsg)
    (hmin : 0 < P.sizeof_SmPrefix + P.sizeof_SmHeader)
    (hfit : P.sizeof_SimpleMsg < 4294967296)
    (hdr : HeaderDecidesType P decode) (msgs : List (List Nat)) :
    ∀ (r : Reader) (s : Sys), msgs ≠ [] → r.bDisconnect = false →
      r.bytesIn e s = ((msgs.flatten.length : Nat) : Int) →
      (r.bufferIn e s).take msgs.flatten.length = msgs.flatten →
      FixedSizeMsgs P decode msgs →
      ∃ j, 1 ≤ j ∧ j ≤ msgs.length ∧
        dispatched (waitLoop K P p e decode msgs.length r s).2.2 = msgs.take j ∧
        sendCount (waitLoop K P p e decode msgs.length r s).2.2 = j ∧
        recvCount (waitLoop K P p e decode msgs.length r s).2.2
          = (if r.bHasPreviousData then 0 else 1) ∧
        (j < msgs.length →
          (waitLoop K P p e decode msgs.length r s).1.bDisconnect = true ∨
          sendFailed (waitLoop K P p e decode msgs.length r s).2.2) := by
  induction msgs with
  | nil => intro r s h; exact absurd rfl h
  | cons m rest ih =>
    intro r s _ hdis hb hbuf hfix
    obtain ⟨n, hn, hlen, hle⟩ := hfix m (List.mem_cons_self m rest)
    have hflat : (m :: rest).flatten = m ++ rest.flatten := List.flatten_cons
    rw [hflat] at hb hbuf
    rw [List.length_append] at hb hbuf
    have hbufm : (r.bufferIn e s).take m.length = m := by
      have := congrArg (List.take m.length) hbuf
      rw [List.take_take, List.take_left, Nat.min_eq_left (Nat.le_add_right _ _)] at this
      exact this
    have hbuflen : m.length + rest.flatten.length ≤ (r.bufferIn e s).length := by
      have := congrArg List.length hbuf
      rw [List.length_take, List.length_append] at this
      omega
    obtain ⟨hev, hs, hgo, hclose, hcarry⟩ := waitStep_dispatch K P p e decode r s m
      rest.flatten.length n hmin hfit hdr hn hlen hle hb hbufm
    have hdisp : dispatched (waitStep K P p e decode r s).events = [m] := by
      rw [hev, dispatched_append]
      have h0 : dispatched (if r.bHasPreviousData then []
          else [ReaderEvent.recv (r.bytesIn e s)]) = [] := by
        cases r.bHasPreviousData <;> rfl
      rw [h0]
      simp only [dispatched, Int.toNat_ofNat, hbufm, List.nil_append]
    have hsend : sendCount (waitStep K P p e decode r s).events = 1 := by
      rw [hev, sendCount_append]
      have h0 : sendCount (if r.bHasPreviousData then []
          else [ReaderEvent.recv (r.bytesIn e s)]) = 0 := by
        cases r.bHasPreviousData <;> rfl
      rw [h0]
      simp only [sendCount]
    have hrecv : recvCount (waitStep K P p e decode r s).events
        = (if r.bHasPreviousData then 0 else 1) := by
      rw [hev, recvCount_append]
      cases r.bHasPreviousData <;> simp [recvCount]
    have hfail : ¬ (waitStep K P p e decode r s).goesOn = true →
        sendFailed (waitStep K P p e decode r s).events := by
      intro hng
      rw [hgo] at hng
      rw [hev, sendFailed_append]
      right
      simp only [sendFailed]
      left
      omega
    simp only [List.length_cons, waitLoop, hdis, Bool.false_eq_true, if_false]
    by_cases hg : (waitStep K P p e decode r s).goesOn = true
    swap
    · -- the send failed
      simp only [hg, Bool.false_eq_true, if_false]
      refine ⟨1, le_refl _, by omega, ?_, hsend, hrecv, fun _ => Or.inr (hfail hg)⟩
      rw [hdisp]
      rfl
    simp only [hg, if_true]
    by_cases h1 : (Ros_MotionServer_SimpleMsgProcess K P p e (r.sysIn e s)
        (decode (r.bufferIn e s)) (m.length : Int) r.replyMsg).1 = 1
    · -- the dispatch asks to close the connection
      obtain ⟨c1, _, _⟩ := hclose h1
      rw [waitLoop_disconnected K P p e decode _ _ _ c1]
      simp only [List.append_nil]
      refine ⟨1, le_refl _, by omega, ?_, hsend, hrecv, fun _ => Or.inl c1⟩
      rw [hdisp]
      rfl
    obtain ⟨c1, c2, c3⟩ := hcarry h1
    cases hrest : rest with
    | nil =>
      simp only [List.length_nil, waitLoop, List.append_nil]
      refine ⟨1, le_refl _, le_refl _, ?_, hsend, hrecv, fun h => absurd h (by omega)⟩
      rw [hdisp]
      rfl
    | cons m2 rest2 =>
      have hne : rest ≠ [] := by rw [hrest]; exact List.cons_ne_nil _ _
      have hL : 0 < rest.flatten.length := by
        obtain ⟨n2, _, hlen2, _⟩ := hfix m2 (by rw [hrest]; simp)
        rw [hrest, List.flatten_cons, List.length_append]
        omega
      obtain ⟨d1, d2, d3⟩ := c2 hL
      have hdis2 : (waitStep K P p e decode r s).r.bDisconnect = false := by rw [c1]; exact hdis
      have hb2 : (waitStep K P p e decode r s).r.bytesIn e (waitStep K P p e decode r s).s
          = ((rest.flatten.length : Nat) : Int) := by
        simp only [Reader.bytesIn, d1, if_true, d2]
      have hbuf2 : ((waitStep K P p e decode r s).r.bufferIn e
          (waitStep K P p e decode r s).s).take rest.flatten.length = rest.flatten := by
        have hbi : (waitStep K P p e decode r s).r.bufferIn e (waitStep K P p e decode r s).s
            = (waitStep K P p e decode r s).r.receiveMsg := by
          unfold Reader.bufferIn
          rw [d1]
          rfl
        rw [hbi, d3, memmove_take _ _ _ hbuflen, List.take_drop, hbuf, List.drop_left]
      have hfix2 : FixedSizeMsgs P decode rest := fun m3 hm3 => hfix m3 (List.mem_cons_of_mem m hm3)
      obtain ⟨j, hj1, hj2, e1, e2, e3, e4⟩ := ih _ _ hne hdis2 hb2 hbuf2 hfix2
      rw [← hrest]
      simp only [d1, if_true] at e3
      refine ⟨j + 1, by omega, by omega, ?_, ?_, ?_, ?_⟩
      · rw [dispatched_append, hdisp, e1]
        rfl
      · rw [sendCount_append, hsend, e2]
        omega
      · rw [recvCount_append, hrecv, e3]
        omega
      · intro hlt
        rcases e4 (by omega) with h | h
        · exact Or.inl h
        · right
          rw [sendFailed_append]
          exact Or.inr h

/-- The reader's handling of a buffer makes no `mpRecv`. -/
theorem waitHandle_no_recv (K : Consts) (P : Proto) (p : Prims) (e : Env)
    (decode : List Nat → SimpleMsg) (r : Reader) (s : Sys) :
    recvCount (waitHandle K P p e decode r s).2.2 = 0 := by
  unfold waitHandle
  simp only
  split
  · split
    · rfl
    · split <;> rfl
  · split <;> rfl

/-- An iteration of the reader that starts with bytes carried over makes no
`mpRecv`. -/
theorem waitStep_carry_no_recv (K : Consts) (P : Proto) (p : Prims) (e : Env)
    (decode : List Nat → SimpleMsg) (r : Reader) (s : Sys) (h : r.bHasPreviousData = true) :
    recvCount (waitStep K P p e decode r s).events = 0 := by
  unfold waitStep
  simp only [h, Bool.not_true, Bool.false_eq_true, false_and, if_false]
  rw [recvCount_append, recvCount_append, waitHandle_no_recv]
  rfl

/-- The message type that `sampleDecode` reads depends on the first byte
only. -/
theorem sampleDecode_header : HeaderDecidesType motoRosProto sampleDecode := by
  intro buf1 buf2 h
  have h0 : buf1.getD 0 0 = buf2.getD 0 0 := by
    have h1 := congrArg (fun l => l.getD 0 0) h
    cases buf1 <;> cases buf2 <;> simp_all [motoRosProto]
  simp only [sampleDecode, sampleRequest, h0]

/-- C13 (as stated) fails: one `mpRecv` delivers a complete "disconnect" message
followed by a complete version request; the first message is dispatched and
answered, then the loop ends: the second message is not dispatched, and the
remaining bytes are not moved to the start of the buffer. -/
theorem C13_counterexample :
    dispatched (waitLoop motoRosConsts motoRosProto (samplePrims 0)
      (recvEnv disconnectFirst.flatten) sampleDecode 2 (startReader (ReplyMsg.writeIOBitReply 0))
      (startSys (sampleController sampleGroup))).2.2 = [msgBytes 1 2 68] ∧
    sendCount (waitLoop motoRosConsts motoRosProto (samplePrims 0)
      (recvEnv disconnectFirst.flatten) sampleDecode 2 (startReader (ReplyMsg.writeIOBitReply 0))
      (startSys (sampleController sampleGroup))).2.2 = 1 ∧
    (waitLoop motoRosConsts motoRosProto (samplePrims 0)
      (recvEnv disconnectFirst.flatten) sampleDecode 2 (startReader (ReplyMsg.writeIOBitReply 0))
      (startSys (sampleController sampleGroup))).1.bDisconnect = true ∧
    (waitLoop motoRosConsts motoRosProto (samplePrims 0)
      (recvEnv disconnectFirst.flatten) sampleDecode 2 (startReader (ReplyMsg.writeIOBitReply 0))
      (startSys (sampleController sampleGroup))).1.bHasPreviousData = false ∧
    (waitLoop motoRosConsts motoRosProto (samplePrims 0)
      (recvEnv disconnectFirst.flatten) sampleDecode 2 (startReader (ReplyMsg.writeIOBitReply 0))
      (startSys (sampleController sampleGroup))).1.receiveMsg = disconnectFirst.flatten := by
  refine ⟨?_, ?_, ?_, ?_, ?_⟩ <;> rfl

/-- C13 (amended): one `mpRecv` delivers the complete messages `m :: rest`, of
types of fixed size, back to back. In the first iteration the reader dispatches
the bytes of `m` and sends the reply; when the dispatch does not ask to close the
connection and bytes remain, it moves them to the start of the buffer, carries
their count (which is smaller than before) over, and the next iteration makes no
`mpRecv`; when the dispatch asks to close (a "disconnect" that succeeded), the
loop is left and the remaining bytes stay where they are. In a run of as many
iterations as there are messages, the messages are dispatched in order with one
reply each and a single `mpRecv`, and the run stops before the last message only
when a dispatch asked to close the connection or a send failed. -/
theorem C13_carry_over_dispatches_in_order (K : Consts) (P : Proto) (p : Prims) (e : Env)
    (decode : List Nat → SimpleMsg) (r : Reader) (s : Sys) (m : List Nat) (rest : List (List Nat))
    (hmin : 0 < P.sizeof_SmPrefix + P.sizeof_SmHeader)
    (hfit : P.sizeof_SimpleMsg < 4294967296)
    (hdr : HeaderDecidesType P decode)
    (hfresh : r.bHasPreviousData = false) (hdis : r.bDisconnect = false)
    (hb : (e.recv (s.n + 1)).1 = (((m :: rest).flatten.length : Nat) : Int))
    (hbuf : (e.recv (s.n + 1)).2.take (m :: rest).flatten.length = (m :: rest).flatten)
    (hfix : FixedSizeMsgs P decode (m :: rest)) :
    ((waitStep K P p e decode r s).events
      = [ReaderEvent.recv (e.recv (s.n + 1)).1,
          ReaderEvent.process (e.recv (s.n + 1)).2 (m.length : Int),
          ReaderEvent.send
            (Ros_MotionServer_SimpleMsgProcess K P p e (r.sysIn e s) (decode (e.recv (s.n + 1)).2)
              (m.length : Int) r.replyMsg).2.2
            (e.send (Ros_MotionServer_SimpleMsgProcess K P p e (r.sysIn e s)
              (decode (e.recv (s.n + 1)).2) (m.length : Int) r.replyMsg).2.1.n)] ∧
      (e.recv (s.n + 1)).2.take m.length = m ∧
      ((Ros_MotionServer_SimpleMsgProcess K P p e (r.sysIn e s) (decode (e.recv (s.n + 1)).2)
          (m.length : Int) r.replyMsg).1 ≠ 1 → rest ≠ [] →
        (waitStep K P p e decode r s).r.bHasPreviousData = true ∧
        (waitStep K P p e decode r s).r.byteSize = (rest.flatten.length : Int) ∧
        0 < (waitStep K P p e decode r s).r.byteSize ∧
        (waitStep K P p e decode r s).r.byteSize < (e.recv (s.n + 1)).1 ∧
        (waitStep K P p e decode r s).r.receiveMsg.take rest.flatten.length = rest.flatten ∧
        recvCount (waitStep K P p e decode (waitStep K P p e decode r s).r
          (waitStep K P p e decode r s).s).events = 0) ∧
      ((Ros_MotionServer_SimpleMsgProcess K P p e (r.sysIn e s) (decode (e.recv (s.n + 1)).2)
          (m.length : Int) r.replyMsg).1 = 1 →
        (waitStep K P p e decode r s).r.bDisconnect = true ∧
        (waitStep K P p e decode r s).r.bHasPreviousData = false ∧
        (waitStep K P p e decode r s).r.receiveMsg = (e.recv (s.n + 1)).2)) ∧
    ∃ j, 1 ≤ j ∧ j ≤ (m :: rest).length ∧
      dispatched (waitLoop K P p e decode (m :: rest).length r s).2.2 = (m :: rest).take j ∧
      sendCount (waitLoop K P p e decode (m :: rest).length r s).2.2 = j ∧
      recvCount (waitLoop K P p e decode (m :: rest).length r s).2.2 = 1 ∧
      (j < (m :: rest).length →
        (waitLoop K P p e decode (m :: rest).length r s).1.bDisconnect = true ∨
        sendFailed (waitLoop K P p e decode (m :: rest).length r s).2.2) := by
  have hbi : r.bytesIn e s = (e.recv (s.n + 1)).1 := by simp [Reader.bytesIn, hfresh]
  have hbu : r.bufferIn e s = (e.recv (s.n + 1)).2 := by simp [Reader.bufferIn, hfresh]
  constructor
  · obtain ⟨n, hn, hlen, hle⟩ := hfix m (List.mem_cons_self m rest)
    have hflat : (m :: rest).flatten = m ++ rest.flatten := List.flatten_cons
    have hb2 := hb
    have hbuf2 := hbuf
    rw [hflat, List.length_append] at hb2 hbuf2
    have hbufm : (e.recv (s.n + 1)).2.take m.length = m := by
      have := congrArg (List.take m.length) hbuf2
      rw [List.take_take, List.take_left, Nat.min_eq_left (Nat.le_add_right _ _)] at this
      exact this
    have hbuflen : m.length + rest.flatten.length ≤ (e.recv (s.n + 1)).2.length := by
      have := congrArg List.length hbuf2
      rw [List.length_take, List.length_append] at this
      omega
    obtain ⟨hev, _, _, hclose, hcarry⟩ := waitStep_dispatch K P p e decode r s m
      rest.flatten.length n hmin hfit hdr hn hlen hle (by rw [hbi]; exact hb2)
      (by rw [hbu]; exact hbufm)
    rw [hbu] at hev hclose hcarry
    rw [hbi] at hev
    refine ⟨?_, hbufm, ?_, hclose⟩
    · rw [hev]
      simp [hfresh]
    · intro h1 hrest
      obtain ⟨_, c2, _⟩ := hcarry h1
      have hL : 0 < rest.flatten.length := by
        cases rest with
        | nil => exact absurd rfl hrest
        | cons m2 rest2 =>
          obtain ⟨n2, _, hlen2, _⟩ := hfix m2 (by simp)
          rw [List.flatten_cons, List.length_append]
          omega
      obtain ⟨d1, d2, d3⟩ := c2 hL
      refine ⟨d1, d2, ?_, ?_, ?_, waitStep_carry_no_recv K P p e decode _ _ d1⟩
      · rw [d2]; exact_mod_cast hL
      · rw [d2, hb2]; push_cast; omega
      · rw [d3, memmove_take _ _ _ hbuflen, List.take_drop, hbuf2, List.drop_left]
  · obtain ⟨j, h1, h2, h3, h4, h5, h6⟩ := waitLoop_framed K P p e decode hmin hfit hdr (m :: rest) r s
      (List.cons_ne_nil _ _) hdis (by rw [hbi]; exact hb) (by rw [hbu]; exact hbuf) hfix
    rw [hfresh] at h5
    exact ⟨j, h1, h2, h3, h4, h5, h6⟩

/-- Two messages delivered by one `mpRecv`, a "check motion ready" and a version
request. -/
theorem C13_carry_over_dispatches_in_order_witness :
    (0 < motoRosProto.sizeof_SmPrefix + motoRosProto.sizeof_SmHeader ∧
      motoRosProto.sizeof_SimpleMsg < 4294967296 ∧
      HeaderDecidesType motoRosProto sampleDecode ∧
      ((recvEnv twoRequests.flatten).recv 1).1
        = (((msgBytes 1 1 68 :: [msgBytes 2 0 16]).flatten.length : Nat) : Int) ∧
      ((recvEnv twoRequests.flatten).recv 1).2.take
          (msgBytes 1 1 68 :: [msgBytes 2 0 16]).flatten.length
        = (msgBytes 1 1 68 :: [msgBytes 2 0 16]).flatten ∧
      FixedSizeMsgs motoRosProto sampleDecode (msgBytes 1 1 68 :: [msgBytes 2 0 16])) ∧
    ∃ j, 1 ≤ j ∧ j ≤ (msgBytes 1 1 68 :: [msgBytes 2 0 16]).length ∧
      dispatched (waitLoop motoRosConsts motoRosProto (samplePrims 0)
        (recvEnv twoRequests.flatten) sampleDecode (msgBytes 1 1 68 :: [msgBytes 2 0 16]).length
        (startReader (ReplyMsg.writeIOBitReply 0)) (startSys loadedController)).2.2
        = (msgBytes 1 1 68 :: [msgBytes 2 0 16]).take j ∧
      sendCount (waitLoop motoRosConsts motoRosProto (samplePrims 0)
        (recvEnv twoRequests.flatten) sampleDecode (msgBytes 1 1 68 :: [msgBytes 2 0 16]).length
        (startReader (ReplyMsg.writeIOBitReply 0)) (startSys loadedController)).2.2 = j ∧
      recvCount (waitLoop motoRosConsts motoRosProto (samplePrims 0)
        (recvEnv twoRequests.flatten) sampleDecode (msgBytes 1 1 68 :: [msgBytes 2 0 16]).length
        (startReader (ReplyMsg.writeIOBitReply 0)) (startSys loadedController)).2.2 = 1 ∧
      (j < (msgBytes 1 1 68 :: [msgBytes 2 0 16]).length →
        (waitLoop motoRosConsts motoRosProto (samplePrims 0)
          (recvEnv twoRequests.flatten) sampleDecode (msgBytes 1 1 68 :: [msgBytes 2 0 16]).length
          (startReader (ReplyMsg.writeIOBitReply 0)) (startSys loadedController)).1.bDisconnect
            = true ∨
        sendFailed (waitLoop motoRosConsts motoRosProto (samplePrims 0)
          (recvEnv twoRequests.flatten) sampleDecode (msgBytes 1 1 68 :: [msgBytes 2 0 16]).length
          (startReader (ReplyMsg.writeIOBitReply 0)) (startSys loadedController)).2.2) :=
  have hfix : FixedSizeMsgs motoRosProto sampleDecode (msgBytes 1 1 68 :: [msgBytes 2 0 16]) := by
    intro m hm
    simp only [List.mem_cons, List.mem_singleton, List.not_mem_nil, or_false] at hm
    rcases hm with rfl | rfl
    · exact ⟨52, rfl, rfl, by decide⟩
    · exact ⟨0, rfl, rfl, by decide⟩
  ⟨⟨by decide, by decide, sampleDecode_header, rfl, rfl, hfix⟩,
    (C13_carry_over_dispatches_in_order motoRosConsts motoRosProto (samplePrims 0)
      (recvEnv twoRequests.flatten) sampleDecode (startReader (ReplyMsg.writeIOBitReply 0))
      (startSys loadedController) (msgBytes 1 1 68) [msgBytes 2 0 16] (by decide) (by decide)
      sampleDecode_header rfl rfl rfl rfl hfix).2⟩

/-! ## The polling loops end within their bound -/

/-- `MOTION_START_TIMEOUT` iterations are enough for the polling loop: more fuel
than the iterations that are left does not change its result. -/
theorem waitStatus_fuel (P : Proto) (e : Env) (done : Controller → Bool) (fuel : Nat) :
    ∀ (checkCount : Int) (s : Sys), (P.MOTION_START_TIMEOUT - checkCount).toNat ≤ fuel →
      waitStatus P e done (fuel + 1) checkCount s = waitStatus P e done fuel checkCount s := by
  have hp := P.period_pos
  induction fuel with
  | zero =>
    intro cc s h
    have hcc : ¬ cc < P.MOTION_START_TIMEOUT := by omega
    simp [waitStatus, hcc]
  | succ fuel ih =>
    intro cc s h
    rw [waitStatus]
    conv_rhs => rw [waitStatus]
    by_cases hcc : cc < P.MOTION_START_TIMEOUT
    · simp only [hcc, if_true]
      split
      · rfl
      · exact ih _ _ (by omega)
    · simp only [hcc, if_false]

/-- `MOTION_START_TIMEOUT` iterations are enough for the loop that waits for the
alarm reset. -/
theorem waitAlarmReset_fuel (P : Proto) (e : Env) (fuel : Nat) :
    ∀ (checkCount : Int) (s : Sys), (P.MOTION_START_TIMEOUT - checkCount).toNat ≤ fuel →
      waitAlarmReset P e (fuel + 1) checkCount s = waitAlarmReset P e fuel checkCount s := by
  have hp := P.period_pos
  induction fuel with
  | zero =>
    intro cc s h
    have hcc : ¬ cc < P.MOTION_START_TIMEOUT := by omega
    simp [waitAlarmReset, hcc]
  | succ fuel ih =>
    intro cc s h
    rw [waitAlarmReset]
    conv_rhs => rw [waitAlarmReset]
    by_cases hcc : cc < P.MOTION_START_TIMEOUT
    · simp only [hcc, if_true]
      split
      · exact ih _ _ (by omega)
      · exact ih _ _ (by omega)
    · simp only [hcc, if_false]

/-! ## The merge window of the dispatcher -/

/-- The merge loop, run for at least `cnt` iterations on a slot that carries the
tags of `head`, pops exactly the longest front segment of the view whose entries
pass the merge test, adds its increments, and returns the time of its last
entry. -/
theorem mergeLoop_takeWhile (K : Consts) (period q_time : Int) (head : Incremental_data)
    (n : Nat) :
    ∀ (q : Incremental_q) (m : GrpPosInfo) (time : Int), q.Inv K → q.cnt.toNat ≤ n →
      m.pos_tag 2 = head.tool → m.pos_tag 3 = head.frame → m.pos_tag 4 = head.user →
      (mergeLoop K period q_time n q m time).1.view K
          = (q.view K).dropWhile (mergesWith period q_time head)
      ∧ (mergeLoop K period q_time n q m time).2.2
          = lastTime ((q.view K).takeWhile (mergesWith period q_time head)) time
      ∧ (∀ a, (mergeLoop K period q_time n q m time).2.1.pos a
          = m.pos a + incSum ((q.view K).takeWhile (mergesWith period q_time head)) a) := by
  induction n with
  | zero =>
    intro q m time _ hn _ _ _
    have hv : q.view K = [] := by
      have h0 : q.cnt.toNat = 0 := by omega
      simp [Incremental_q.view, h0]
    simp [mergeLoop, hv, lastTime, incSum]
  | succ n ih =>
    intro q m time hinv hn h2 h3 h4
    by_cases hpos : q.cnt > 0
    · have hv := view_pop K q hinv hpos
      by_cases htest : mergesWith period q_time head (q.data q.idx) = true
      · have ht := htest
        simp only [mergesWith, decide_eq_true_eq] at ht
        obtain ⟨hw, htag⟩ := ht
        have htag2 : ¬ (m.pos_tag 2 ≠ (q.data q.idx).tool ∨ m.pos_tag 3 ≠ (q.data q.idx).frame
            ∨ m.pos_tag 4 ≠ (q.data q.idx).user) := by
          rw [h2, h3, h4]; exact htag
        obtain ⟨i1, i2, i3⟩ := ih
          { q with idx := Q_OFFSET_IDX q.idx 1 K.Q_SIZE, cnt := q.cnt - 1 }
          { m with pos := fun axis => m.pos axis + (q.data q.idx).inc axis }
          (q.data q.idx).time (inv_pop K q hinv hpos) (by simp only; omega) h2 h3 h4
        unfold mergeLoop
        rw [if_pos hpos, if_pos hw, if_neg htag2, hv, List.dropWhile_cons_of_pos htest,
          List.takeWhile_cons_of_pos htest]
        refine ⟨i1, ?_, ?_⟩
        · rw [i2]; simp [lastTime]
        · intro a; rw [i3 a]; simp [incSum]; ring
      · have hstop : mergeLoop K period q_time (n + 1) q m time = (q, m, time) := by
          unfold mergeLoop
          rw [if_pos hpos]
          by_cases hw : q_time ≤ (q.data q.idx).time ∧ (q.data q.idx).time - q_time ≤ period
          · rw [if_pos hw]
            have htag2 : (m.pos_tag 2 ≠ (q.data q.idx).tool ∨ m.pos_tag 3 ≠ (q.data q.idx).frame
                ∨ m.pos_tag 4 ≠ (q.data q.idx).user) := by
              rw [h2, h3, h4]
              by_contra hc
              exact htest (by simp only [mergesWith, decide_eq_true_eq]; exact ⟨hw, hc⟩)
            rw [if_pos htag2]
          · rw [if_neg hw]
        rw [hstop]
        nth_rewrite 2 3 4 [hv]
        rw [List.dropWhile_cons_of_neg htest, List.takeWhile_cons_of_neg htest]
        refine ⟨hv, ?_, ?_⟩
        · simp [lastTime]
        · intro a; simp [incSum]
    · have hv : q.view K = [] := by
        have h0 : q.cnt.toNat = 0 := by omega
        simp [Incremental_q.view, h0]
      have hstop : mergeLoop K period q_time (n + 1) q m time = (q, m, time) := by
        unfold mergeLoop
        rw [if_neg hpos]
      rw [hstop, hv]
      simp [lastTime, incSum]

/-- What `dispatchGroup` does on a group whose lock is taken and whose queue holds
data: it pops the head and then the longest run of following entries that pass
the merge test against the `q_time` that the group had before. -/
theorem dispatchGroup_merge (K : Consts) (period : Int) (g : CtrlGroup) (m : GrpPosInfo)
    (hinv : g.inc_q.Inv K) (hpos : 0 < g.inc_q.cnt) :
    ∃ (head : Incremental_data) (rest : List Incremental_data),
      head = g.inc_q.data g.inc_q.idx
      ∧ g.inc_q.view K = head :: rest
      ∧ (dispatchGroup K period true g m).1.inc_q.view K
          = rest.dropWhile (mergesWith period g.q_time head)
      ∧ (dispatchGroup K period true g m).1.q_time
          = lastTime (rest.takeWhile (mergesWith period g.q_time head)) head.time
      ∧ (∀ a, (dispatchGroup K period true g m).2.pos a
          = incSum (head :: rest.takeWhile (mergesWith period g.q_time head)) a) := by
  have hv := view_pop K g.inc_q hinv hpos
  obtain ⟨i1, i2, i3⟩ := mergeLoop_takeWhile K period g.q_time (g.inc_q.data g.inc_q.idx)
    ({ g.inc_q with idx := Q_OFFSET_IDX g.inc_q.idx 1 K.Q_SIZE, cnt := g.inc_q.cnt - 1 } :
      Incremental_q).cnt.toNat
    { g.inc_q with idx := Q_OFFSET_IDX g.inc_q.idx 1 K.Q_SIZE, cnt := g.inc_q.cnt - 1 }
    { pos_tag := setTags m.pos_tag (g.inc_q.data g.inc_q.idx).tool
        (g.inc_q.data g.inc_q.idx).frame (g.inc_q.data g.inc_q.idx).user,
      pos := (g.inc_q.data g.inc_q.idx).inc }
    (g.inc_q.data g.inc_q.idx).time (inv_pop K g.inc_q hinv hpos) (le_refl _)
    (by simp [setTags]) (by simp [setTags]) (by simp [setTags])
  refine ⟨g.inc_q.data g.inc_q.idx, _, rfl, hv, ?_, ?_, ?_⟩
  · simp only [dispatchGroup, if_true, hpos]
    exact i1
  · simp only [dispatchGroup, if_true, hpos]
    exact i2
  · intro a
    simp only [dispatchGroup, if_true, hpos]
    rw [i3 a]
    simp [incSum]

/-- A group whose lock is not taken or whose queue is empty keeps its state, and
its outbound deltas are all 0. -/
theorem dispatchGroup_idle (K : Consts) (period : Int) (semTake : Bool) (g : CtrlGroup)
    (m : GrpPosInfo) (h : ¬ (semTake = true ∧ 0 < g.inc_q.cnt)) :
    (dispatchGroup K period semTake g m).1 = g
    ∧ ∀ a, (dispatchGroup K period semTake g m).2.pos a = 0 := by
  unfold dispatchGroup
  split_ifs with h1 h2
  · exact absurd ⟨h1, h2⟩ h
  · exact ⟨rfl, fun _ => rfl⟩
  · exact ⟨rfl, fun _ => rfl⟩

/-- The sample controller with two queued entries emits on a tick. -/
theorem staleWindow_emits :
    (IncMoveTick motoRosConsts (fun _ => true) (fun _ => true) staleWindowController
      zeroMoveData).2.2 ≠ [] := by
  simp [IncMoveTick, Ros_MotionServer_HasDataInQueue, Ros_MotionServer_GetQueueCnt,
    Ros_Controller_IsValidGroupNo, staleWindowController, sampleController, pairQ]

/-- C23 (as stated) fails. The group's `q_time` is 0 ms from the tick before, the
period is 4 ms, and the queue holds an entry at 4 ms and one at 8 ms with the
same tool, frame and user. The second entry is within one period of the popped
head (8 - 4 <= 4), so by the claim it is merged; the code compares with the
`q_time` from before the tick (8 - 0 > 4) and pops the head only: one entry
stays queued, the outbound delta is the head's, and `q_time` becomes 4. -/
theorem C23_counterexample :
    (IncMoveTick motoRosConsts (fun _ => true) (fun _ => true) staleWindowController
      zeroMoveData).2.2 ≠ []
    ∧ (staleWindowController.ctrlGroups 0).inc_q.view motoRosConsts
        = [sampleInc 4 1, sampleInc 8 2]
    ∧ (sampleInc 8 2).time - (sampleInc 4 1).time ≤ staleWindowController.interpolPeriod
    ∧ (sampleInc 8 2).tool = (sampleInc 4 1).tool
    ∧ (sampleInc 8 2).frame = (sampleInc 4 1).frame
    ∧ (sampleInc 8 2).user = (sampleInc 4 1).user
    ∧ ((IncMoveTick motoRosConsts (fun _ => true) (fun _ => true) staleWindowController
        zeroMoveData).1.ctrlGroups 0).inc_q.cnt = 1
    ∧ ((IncMoveTick motoRosConsts (fun _ => true) (fun _ => true) staleWindowController
        zeroMoveData).2.1.grp_pos_info 0).pos 0 = 1
    ∧ ((IncMoveTick motoRosConsts (fun _ => true) (fun _ => true) staleWindowController
        zeroMoveData).1.ctrlGroups 0).q_time = 4 := by
  obtain ⟨_, h2, h1⟩ := tick_delta motoRosConsts (fun _ => true) (fun _ => true)
    staleWindowController zeroMoveData staleWindow_emits 0 (by decide)
  refine ⟨staleWindow_emits, ?_, by decide, rfl, rfl, rfl, ?_, ?_, ?_⟩
  · simp [Incremental_q.view, staleWindowController, sampleController, pairQ, motoRosConsts,
      List.range_succ]
    intro h
    omega
  · rw [h1]
    simp [dispatchGroup, mergeLoop, staleWindowController, sampleController, pairQ, sampleGroup,
      sampleInc, Q_OFFSET_IDX, motoRosConsts]
  · rw [h2]
    simp [dispatchGroup, mergeLoop, staleWindowController, sampleController, pairQ, sampleGroup,
      sampleInc, Q_OFFSET_IDX, motoRosConsts]
  · rw [h1]
    simp [dispatchGroup, mergeLoop, staleWindowController, sampleController, pairQ, sampleGroup,
      sampleInc, Q_OFFSET_IDX, motoRosConsts]

/-- C23 (amended): on an emitting tick, for a group whose lock is acquired and
whose count is above 0, the dispatcher pops the head and then merges and pops
each following entry for as long as `q_time <= entry.time` and
`entry.time - q_time <= period_ms`, `q_time` being the group's `q_time` as it was
before the tick, and the tool, frame and user of the entry equal the head's; it
stops at the first entry that fails this test (or when the queue is empty). The
outbound delta is the sum over the popped entries, and the group's `q_time` is
written once, at the end, as the time of the last popped entry. -/
theorem C23_merge_window_from_previous_q_time (K : Consts) (semCnt semPop : Nat → Bool)
    (c : Controller) (md : MP_EXPOS_DATA) (i : Nat) (hi : i < c.numGroup)
    (hinv : (c.ctrlGroups i).inc_q.Inv K)
    (hemit : (IncMoveTick K semCnt semPop c md).2.2 ≠ [])
    (hsem : semPop i = true) (hpos : 0 < (c.ctrlGroups i).inc_q.cnt) :
    ∃ (head : Incremental_data) (rest : List Incremental_data),
      head = (c.ctrlGroups i).inc_q.data (c.ctrlGroups i).inc_q.idx
      ∧ (c.ctrlGroups i).inc_q.view K = head :: rest
      ∧ ((IncMoveTick K semCnt semPop c md).1.ctrlGroups i).inc_q.view K
          = rest.dropWhile (mergesWith c.interpolPeriod (c.ctrlGroups i).q_time head)
      ∧ ((IncMoveTick K semCnt semPop c md).1.ctrlGroups i).q_time
          = lastTime (rest.takeWhile (mergesWith c.interpolPeriod (c.ctrlGroups i).q_time head))
              head.time
      ∧ (∀ a, ((IncMoveTick K semCnt semPop c md).2.1.grp_pos_info i).pos a
          = incSum (head ::
              rest.takeWhile (mergesWith c.interpolPeriod (c.ctrlGroups i).q_time head)) a) := by
  obtain ⟨_, h2, h1⟩ := tick_delta K semCnt semPop c md hemit i hi
  obtain ⟨head, rest, hh, hv, ha, hb, hc⟩ :=
    dispatchGroup_merge K c.interpolPeriod (c.ctrlGroups i) (md.grp_pos_info i) hinv hpos
  rw [h1, h2, hsem]
  exact ⟨head, rest, hh, hv, ha, hb, hc⟩

theorem C23_merge_window_from_previous_q_time_witness :
    ∃ (head : Incremental_data) (rest : List Incremental_data),
      head = (staleWindowController.ctrlGroups 0).inc_q.data
          (staleWindowController.ctrlGroups 0).inc_q.idx
      ∧ (staleWindowController.ctrlGroups 0).inc_q.view motoRosConsts = head :: rest
      ∧ ((IncMoveTick motoRosConsts (fun _ => true) (fun _ => true) staleWindowController
            zeroMoveData).1.ctrlGroups 0).inc_q.view motoRosConsts
          = rest.dropWhile (mergesWith staleWindowController.interpolPeriod
              (staleWindowController.ctrlGroups 0).q_time head)
      ∧ ((IncMoveTick motoRosConsts (fun _ => true) (fun _ => true) staleWindowController
            zeroMoveData).1.ctrlGroups 0).q_time
          = lastTime (rest.takeWhile (mergesWith staleWindowController.interpolPeriod
              (staleWindowController.ctrlGroups 0).q_time head)) head.time
      ∧ (∀ a, ((IncMoveTick motoRosConsts (fun _ => true) (fun _ => true) staleWindowController
            zeroMoveData).2.1.grp_pos_info 0).pos a
          = incSum (head :: rest.takeWhile (mergesWith staleWindowController.interpolPeriod
              (staleWindowController.ctrlGroups 0).q_time head)) a) :=
  C23_merge_window_from_previous_q_time motoRosConsts (fun _ => true) (fun _ => true)
    staleWindowController zeroMoveData 0 (by decide)
    (by simp [Incremental_q.Inv, staleWindowController, sampleController, pairQ, motoRosConsts])
    staleWindow_emits rfl (by decide)

/-- C28: on an emitting tick, for every group with a sound queue: if the group's
lock is acquired and its count `n` is above 0, the entries popped are a non-empty
front segment `l` of the queue (`k = l.length >= 1`), the outbound delta of every
axis is the sum of the increments of these `k` entries, the count becomes
`n - k`, `idx` advances by `k` modulo `Q_SIZE`, and the remaining entries keep
their contents and order (the old queue is `l` followed by the new one, and no
slot is rewritten); for a group whose queue is empty or whose lock cannot be
acquired the outbound deltas are all 0 and the group, its queue included, is
unchanged. -/
theorem C28_dispatch_pops_a_front_segment (K : Consts) (semCnt semPop : Nat → Bool)
    (c : Controller) (md : MP_EXPOS_DATA) (i : Nat) (hi : i < c.numGroup)
    (hinv : (c.ctrlGroups i).inc_q.Inv K)
    (hemit : (IncMoveTick K semCnt semPop c md).2.2 ≠ []) :
    (semPop i = true ∧ 0 < (c.ctrlGroups i).inc_q.cnt →
      ∃ l : List Incremental_data,
        1 ≤ l.length
        ∧ (c.ctrlGroups i).inc_q.view K
            = l ++ ((IncMoveTick K semCnt semPop c md).1.ctrlGroups i).inc_q.view K
        ∧ (∀ a, ((IncMoveTick K semCnt semPop c md).2.1.grp_pos_info i).pos a = incSum l a)
        ∧ ((IncMoveTick K semCnt semPop c md).1.ctrlGroups i).inc_q.cnt
            = (c.ctrlGroups i).inc_q.cnt - l.length
        ∧ ((IncMoveTick K semCnt semPop c md).1.ctrlGroups i).inc_q.idx
            = ((c.ctrlGroups i).inc_q.idx + l.length) % K.Q_SIZE
        ∧ ((IncMoveTick K semCnt semPop c md).1.ctrlGroups i).inc_q.data
            = (c.ctrlGroups i).inc_q.data)
    ∧ (¬ (semPop i = true ∧ 0 < (c.ctrlGroups i).inc_q.cnt) →
        (∀ a, ((IncMoveTick K semCnt semPop c md).2.1.grp_pos_info i).pos a = 0)
        ∧ (IncMoveTick K semCnt semPop c md).1.ctrlGroups i = c.ctrlGroups i) := by
  obtain ⟨_, h2, h1⟩ := tick_delta K semCnt semPop c md hemit i hi
  rw [h1, h2]
  constructor
  · intro hgo
    obtain ⟨l, hv, hp, _, hd, hc, hx, _, hne⟩ :=
      dispatchGroup_spec K c.interpolPeriod (semPop i) (c.ctrlGroups i) (md.grp_pos_info i) hinv
    have hl : l ≠ [] := hne.mpr hgo
    refine ⟨l, ?_, hv, hp, hc, hx, hd⟩
    cases l with
    | nil => exact absurd rfl hl
    | cons x xs => simp
  · intro hno
    obtain ⟨hg, hz⟩ :=
      dispatchGroup_idle K c.interpolPeriod (semPop i) (c.ctrlGroups i) (md.grp_pos_info i) hno
    exact ⟨hz, hg⟩

theorem C28_dispatch_pops_a_front_segment_witness :
    (∃ l : List Incremental_data,
        1 ≤ l.length
        ∧ (staleWindowController.ctrlGroups 0).inc_q.view motoRosConsts
            = l ++ ((IncMoveTick motoRosConsts (fun _ => true) (fun _ => true)
                staleWindowController zeroMoveData).1.ctrlGroups 0).inc_q.view motoRosConsts
        ∧ (∀ a, ((IncMoveTick motoRosConsts (fun _ => true) (fun _ => true)
                staleWindowController zeroMoveData).2.1.grp_pos_info 0).pos a = incSum l a)
        ∧ ((IncMoveTick motoRosConsts (fun _ => true) (fun _ => true)
                staleWindowController zeroMoveData).1.ctrlGroups 0).inc_q.cnt
            = (staleWindowController.ctrlGroups 0).inc_q.cnt - l.length) := by
  obtain ⟨l, h1, h2, h3, h4, _⟩ :=
    (C28_dispatch_pops_a_front_segment motoRosConsts (fun _ => true) (fun _ => true)
      staleWindowController zeroMoveData 0 (by decide)
      (by simp [Incremental_q.Inv, staleWindowController, sampleController, pairQ, motoRosConsts])
      staleWindow_emits).1 ⟨rfl, by decide⟩
  exact ⟨l, h1, h2, h3, h4⟩

/-! ## Accepted trajectory points and the interpolation polynomial -/

/-- The time of a sample message at 1 s is 1000 ms. -/
theorem sampleMsg_time_one (seq : Int) (p v : ℚ) :
    (Ros_MotionServer_ConvertToJointMotionData motoRosConsts (sampleMsg seq 1 p v)).time = 1000 := by
  simp [Ros_MotionServer_ConvertToJointMotionData, sampleMsg, truncToInt]

/-- The first point at 1 s, at position 0 and at rest, is accepted by the sample
group when the commanded position is 5 pulses on every axis. -/
theorem init_sample_accepted :
    (Ros_MotionServer_InitTrajPointFull motoRosConsts (fun _ => 5) sampleGroup
      (sampleMsg 0 1 0 0)).1 = 0 := by
  have hg : sampleGroup.groupNo = (sampleMsg 0 1 0 0).groupNo := rfl
  simp only [Ros_MotionServer_InitTrajPointFull, hg, if_true]
  refine (initAxisLoop_start motoRosConsts _ _ _ _ (by simp [motoRosConsts]) ?_).1.mpr ?_
  · intro i _
    have := sampleMsg_rest 0 1 0 i
    simp only
    rw [this]
    simp [sampleGroup]; norm_num
  · intro i _
    have := sampleMsg_pulse 0 1 0 i
    simp only [Int.cast_zero] at this ⊢
    rw [this]
    simp [sampleGroup]

/-- C24 (as stated) fails. The sample group (pending point at 0 ms, `prevPulsePos`
0) accepts a first point at 1 s while the commanded pulse position is 5 on every
axis: the function returns 0, but the pending point is not the point of the
message (it still has time 0, not 1000), and `prevPulsePos` is still 0, not the
commanded 5; the point went to `jointMotionData`. -/
theorem C24_counterexample :
    (Ros_MotionServer_InitTrajPointFull motoRosConsts (fun _ => 5) sampleGroup
      (sampleMsg 0 1 0 0)).1 = 0
    ∧ (Ros_MotionServer_InitTrajPointFull motoRosConsts (fun _ => 5) sampleGroup
        (sampleMsg 0 1 0 0)).2.jointMotionDataToProcess.time = 0
    ∧ (Ros_MotionServer_ConvertToJointMotionData motoRosConsts (sampleMsg 0 1 0 0)).time = 1000
    ∧ (∀ a, (Ros_MotionServer_InitTrajPointFull motoRosConsts (fun _ => 5) sampleGroup
        (sampleMsg 0 1 0 0)).2.prevPulsePos a = 0)
    ∧ (Ros_MotionServer_InitTrajPointFull motoRosConsts (fun _ => 5) sampleGroup
        (sampleMsg 0 1 0 0)).2.jointMotionData
        = Ros_MotionServer_ConvertToJointMotionData motoRosConsts (sampleMsg 0 1 0 0) := by
  have hst := init_state motoRosConsts (fun _ => 5) sampleGroup (sampleMsg 0 1 0 0) rfl
  refine ⟨init_sample_accepted, ?_, sampleMsg_time_one 0 0 0, ?_, ?_⟩
  · rw [hst]; rfl
  · intro a; rw [hst]; rfl
  · rw [hst]

/-- C24 (amended): on an accepted `sequence == 0` point (return value 0, the code
for an invalid group number being another value), `Ros_MotionServer_InitTrajPointFull`
writes the converted point into `cur_traj` (`jointMotionData`), so `cur_traj.time`
is the point's time in ms, sets `time_leftover_ms` to 0 and `q_time` to the
point's time, and leaves `pending_traj`, `has_pending`, `prev_pulse` and the queue
unchanged: the commanded pulse vector is only compared with the start
position. -/
theorem C24_init_writes_current_point (K : Consts) (curCommandedPos : Axis → Int)
    (g : CtrlGroup) (m : SmBodyJointTrajPtFull)
    (hK : K.ROS_RESULT_INVALID_GROUPNO ≠ 0)
    (hacc : (Ros_MotionServer_InitTrajPointFull K curCommandedPos g m).1 = 0) :
    (Ros_MotionServer_InitTrajPointFull K curCommandedPos g m).2.jointMotionData
        = Ros_MotionServer_ConvertToJointMotionData K m
    ∧ (Ros_MotionServer_InitTrajPointFull K curCommandedPos g m).2.jointMotionData.time
        = truncToInt (m.time * 1000)
    ∧ (Ros_MotionServer_InitTrajPointFull K curCommandedPos g m).2.timeLeftover_ms = 0
    ∧ (Ros_MotionServer_InitTrajPointFull K curCommandedPos g m).2.q_time
        = truncToInt (m.time * 1000)
    ∧ (Ros_MotionServer_InitTrajPointFull K curCommandedPos g m).2.jointMotionDataToProcess
        = g.jointMotionDataToProcess
    ∧ (Ros_MotionServer_InitTrajPointFull K curCommandedPos g m).2.hasDataToProcess
        = g.hasDataToProcess
    ∧ (Ros_MotionServer_InitTrajPointFull K curCommandedPos g m).2.prevPulsePos = g.prevPulsePos
    ∧ (Ros_MotionServer_InitTrajPointFull K curCommandedPos g m).2.inc_q = g.inc_q := by
  have hgrp : g.groupNo = m.groupNo := by
    by_contra hne
    simp only [Ros_MotionServer_InitTrajPointFull, hne, if_false] at hacc
    exact hK hacc
  rw [init_state K curCommandedPos g m hgrp]
  exact ⟨rfl, rfl, rfl, rfl, rfl, rfl, rfl, rfl⟩

theorem C24_init_writes_current_point_witness :
    (Ros_MotionServer_InitTrajPointFull motoRosConsts (fun _ => 5) sampleGroup
        (sampleMsg 0 1 0 0)).2.jointMotionData
        = Ros_MotionServer_ConvertToJointMotionData motoRosConsts (sampleMsg 0 1 0 0)
    ∧ (Ros_MotionServer_InitTrajPointFull motoRosConsts (fun _ => 5) sampleGroup
        (sampleMsg 0 1 0 0)).2.timeLeftover_ms = 0
    ∧ (Ros_MotionServer_InitTrajPointFull motoRosConsts (fun _ => 5) sampleGroup
        (sampleMsg 0 1 0 0)).2.prevPulsePos = sampleGroup.prevPulsePos := by
  obtain ⟨h1, _, h3, _, _, _, h7, _⟩ := C24_init_writes_current_point motoRosConsts (fun _ => 5)
    sampleGroup (sampleMsg 0 1 0 0) (by simp [motoRosConsts]) init_sample_accepted
  exact ⟨h1, h3, h7⟩

/-- A point for a group that has no point pending and whose active axes are all
within the speed limit is stored as the pending point. -/
theorem add_accepts (K : Consts) (g : CtrlGroup)
    (m : SmBodyJointTrajPtFull) (hfree : g.hasDataToProcess = false)
    (hvel : ∀ i ∈ activeAxes g.numAxes,
      |(Ros_MotionServer_ConvertToJointMotionData K m).vel i| ≤ g.maxSpeed i) :
    Ros_MotionServer_AddTrajPointFull K g m
      = (0, { g with jointMotionDataToProcess := Ros_MotionServer_ConvertToJointMotionData K m,
                     hasDataToProcess := true }) := by
  have hno : ((activeAxes g.numAxes).any fun i =>
      decide (((abs_of_float ((Ros_MotionServer_ConvertToJointMotionData K m).vel i) : Int) : ℚ)
        > g.maxSpeed i)) = false := by
    rw [List.any_eq_false]
    intro i hi
    have h1 := abs_of_float_le ((Ros_MotionServer_ConvertToJointMotionData K m).vel i)
    have h2 := hvel i hi
    simp only [gt_iff_lt, decide_eq_true_eq, not_lt]
    linarith
  simp only [Ros_MotionServer_AddTrajPointFull, hfree, hno, Bool.false_eq_true, if_false]

/-- C25: on a `sequence > 0` point for a group with `has_pending` false and with
every active axis within its speed limit (`|vel[i]| <= maxSpeed[i]` for
`i < numAxes`), `Ros_MotionServer_AddTrajPointFull` returns 0, writes the
converted point into `pending_traj` and sets `has_pending` true; `cur_traj`,
`time_leftover_ms`, `q_time`, `prev_pulse` and the queue are unchanged. -/
theorem C25_add_point_writes_pending_only (K : Consts) (g : CtrlGroup)
    (m : SmBodyJointTrajPtFull) (hfree : g.hasDataToProcess = false)
    (hvel : ∀ i ∈ activeAxes g.numAxes,
      |(Ros_MotionServer_ConvertToJointMotionData K m).vel i| ≤ g.maxSpeed i) :
    Ros_MotionServer_AddTrajPointFull K g m
        = (0, { g with jointMotionDataToProcess := Ros_MotionServer_ConvertToJointMotionData K m,
                       hasDataToProcess := true })
    ∧ (Ros_MotionServer_AddTrajPointFull K g m).2.jointMotionData = g.jointMotionData
    ∧ (Ros_MotionServer_AddTrajPointFull K g m).2.timeLeftover_ms = g.timeLeftover_ms
    ∧ (Ros_MotionServer_AddTrajPointFull K g m).2.q_time = g.q_time
    ∧ (Ros_MotionServer_AddTrajPointFull K g m).2.prevPulsePos = g.prevPulsePos
    ∧ (Ros_MotionServer_AddTrajPointFull K g m).2.inc_q = g.inc_q := by
  rw [add_accepts K g m hfree hvel]
  exact ⟨rfl, rfl, rfl, rfl, rfl, rfl⟩

theorem C25_add_point_writes_pending_only_witness :
    Ros_MotionServer_AddTrajPointFull motoRosConsts sampleGroup (sampleMsg 1 1 0 0)
      = (0, { sampleGroup with
                jointMotionDataToProcess :=
                  Ros_MotionServer_ConvertToJointMotionData motoRosConsts (sampleMsg 1 1 0 0),
                hasDataToProcess := true }) :=
  (C25_add_point_writes_pending_only motoRosConsts sampleGroup (sampleMsg 1 1 0 0) rfl
    (fun i _ => by
      simp [Ros_MotionServer_ConvertToJointMotionData, sampleMsg, sampleGroup]
      norm_num)).1

/-- C26: for every segment with `end.t <= start.t`,
`Ros_MotionServer_JointTrajDataToIncQueue` returns (for any positive fuel) without
an observation of the other tasks, enqueues nothing, and leaves the queue,
`cur_traj`, `prev_pulse` and `time_leftover_ms` unchanged, as well as `q_time` and
`has_pending`. -/
theorem C26_degenerate_segment_enqueues_nothing (K : Consts) (w : Others) (period : Int)
    (fuel n : Nat) (g : CtrlGroup)
    (hD : g.jointMotionDataToProcess.time ≤ g.jointMotionData.time) :
    ∃ g1 : CtrlGroup,
      Ros_MotionServer_JointTrajDataToIncQueue K w period (fuel + 1) n g = some (n, g1, [])
      ∧ g1.inc_q = g.inc_q
      ∧ g1.jointMotionData = g.jointMotionData
      ∧ g1.prevPulsePos = g.prevPulsePos
      ∧ g1.timeLeftover_ms = g.timeLeftover_ms
      ∧ g1.q_time = g.q_time
      ∧ g1.hasDataToProcess = g.hasDataToProcess := by
  unfold Ros_MotionServer_JointTrajDataToIncQueue
  by_cases hb : g.bIsBaxisSlave = true
  · have hc : ¬ (g.jointMotionData.time < (bAxisSlaveAdjust g.jointMotionDataToProcess).time
        ∧ w.motionReady n = true ∧ w.bStopMotion n = false) := by
      intro hh
      have : (bAxisSlaveAdjust g.jointMotionDataToProcess).time = g.jointMotionDataToProcess.time :=
        rfl
      omega
    refine ⟨{ g with jointMotionDataToProcess := bAxisSlaveAdjust g.jointMotionDataToProcess },
      ?_, rfl, rfl, rfl, rfl, rfl, rfl⟩
    rw [if_pos hb]
    simp only [incQueueLoop, hc, if_false]
  · have hc : ¬ (g.jointMotionData.time < g.jointMotionDataToProcess.time
        ∧ w.motionReady n = true ∧ w.bStopMotion n = false) := by
      intro hh
      omega
    refine ⟨g, ?_, rfl, rfl, rfl, rfl, rfl, rfl⟩
    rw [if_neg hb]
    simp only [incQueueLoop, hc, if_false]

theorem C26_degenerate_segment_enqueues_nothing_witness :
    ∃ g1 : CtrlGroup,
      Ros_MotionServer_JointTrajDataToIncQueue motoRosConsts helpfulOthers 4 1 0
          (sampleSegment 8 4 2 1000) = some (0, g1, [])
      ∧ g1.inc_q = (sampleSegment 8 4 2 1000).inc_q
      ∧ g1.jointMotionData = (sampleSegment 8 4 2 1000).jointMotionData
      ∧ g1.prevPulsePos = (sampleSegment 8 4 2 1000).prevPulsePos
      ∧ g1.timeLeftover_ms = (sampleSegment 8 4 2 1000).timeLeftover_ms := by
  obtain ⟨g1, h1, h2, h3, h4, h5, _⟩ :=
    C26_degenerate_segment_enqueues_nothing motoRosConsts helpfulOthers 4 0 0
      (sampleSegment 8 4 2 1000) (by simp [sampleSegment, samplePoint])
  exact ⟨g1, h1, h2, h3, h4, h5⟩

/-- A step of the loop that stays before the end time assigns, on the axes below
`numAxes`, the values of `curTrajPos` and `curTrajVel` at `interpolTime`. -/
theorem interpolStep_curTraj (period : Int) (L : IncLocals) (tcalc T : Int) (g : CtrlGroup)
    (h : tcalc < g.jointMotionDataToProcess.time) (i : Axis) (hi : i.val < g.numAxes) :
    (interpolStep period L tcalc T g).1.jointMotionData.pos i
        = curTrajPos L i (((tcalc - L.startTrajData.time : Int) : ℚ) / 1000)
    ∧ (interpolStep period L tcalc T g).1.jointMotionData.vel i
        = curTrajVel L i (((tcalc - L.startTrajData.time : Int) : ℚ) / 1000) := by
  unfold interpolStep
  rw [if_pos h]
  split_ifs <;> simp [curTrajPos, curTrajVel, hi]

/-- C27: with the coefficients `accCoef1 = 6(p_e - p_s)/D^2 - 2(v_e + 2 v_s)/D`
and `accCoef2 = -12(p_e - p_s)/D^3 + 6(v_e + v_s)/D^2` as
`Ros_MotionServer_JointTrajDataToIncQueue` computes them for an axis below
`numAxes` of a segment of duration `D = (end.t - start.t)/1000 > 0`, the position
`p(t) = p_s + v_s t + accCoef1 t^2/2 + accCoef2 t^3/6` and the velocity
`v(t) = v_s + accCoef1 t + accCoef2 t^2/2` of the loop satisfy `p(0) = p_s`,
`v(0) = v_s`, `p(D) = p_e` and `v(D) = v_e`, in exact rational arithmetic. -/
theorem C27_hermite_boundary_conditions (numAxes : Nat) (s e : JointMotionData) (i : Axis)
    (hi : i.val < numAxes) (hD : s.time < e.time) :
    curTrajPos (accCoefs numAxes s e) i 0 = s.pos i
    ∧ curTrajVel (accCoefs numAxes s e) i 0 = s.vel i
    ∧ curTrajPos (accCoefs numAxes s e) i (((e.time - s.time : Int) : ℚ) / 1000) = e.pos i
    ∧ curTrajVel (accCoefs numAxes s e) i (((e.time - s.time : Int) : ℚ) / 1000) = e.vel i := by
  have hpos : (0 : ℚ) < ((e.time - s.time : Int) : ℚ) / 1000 := by
    have h1 : (0 : ℚ) < ((e.time - s.time : Int) : ℚ) := by
      have : (0 : Int) < e.time - s.time := by omega
      exact_mod_cast this
    positivity
  have hc : ((e.time - s.time : Int) : ℚ) / 1000 > 0 ∧ i.val < numAxes := ⟨hpos, hi⟩
  generalize hDq : ((e.time - s.time : Int) : ℚ) / 1000 = D at hpos hc
  have hne : D ≠ 0 := ne_of_gt hpos
  refine ⟨?_, ?_, ?_, ?_⟩
  · simp [curTrajPos, accCoefs]
  · simp [curTrajVel, accCoefs]
  · simp only [curTrajPos, accCoefs, hDq, hc, and_self, if_true]
    field_simp
    ring
  · simp only [curTrajVel, accCoefs, hDq, hc, and_self, if_true]
    field_simp
    ring

theorem C27_hermite_boundary_conditions_witness :
    curTrajPos (accCoefs 6 (samplePoint 0 0 0) (samplePoint 8 1000 2)) 0 0 = 0
    ∧ curTrajVel (accCoefs 6 (samplePoint 0 0 0) (samplePoint 8 1000 2)) 0 0 = 0
    ∧ curTrajPos (accCoefs 6 (samplePoint 0 0 0) (samplePoint 8 1000 2)) 0
        ((((samplePoint 8 1000 2).time - (samplePoint 0 0 0).time : Int) : ℚ) / 1000) = 1000
    ∧ curTrajVel (accCoefs 6 (samplePoint 0 0 0) (samplePoint 8 1000 2)) 0
        ((((samplePoint 8 1000 2).time - (samplePoint 0 0 0).time : Int) : ℚ) / 1000) = 2 :=
  C27_hermite_boundary_conditions 6 (samplePoint 0 0 0) (samplePoint 8 1000 2) 0 (by decide)
    (by decide)

/-- C29 fails on a trajectory with points at 0 ms, 2 ms and 4 ms at a period of
4 ms, the controller ready, not stopped and every enqueue succeeding. The first
segment (0 ms to 2 ms, leftover 0 at entry) ends with one increment at 2 ms and
leaves `time_leftover_ms = 4 - 2 = 2`. On the second segment (2 ms to 4 ms,
leftover 2 at entry) the only step has `calculationTime_ms = 2 + 2 = 4`, exactly
`end.t`: one increment at 4 ms is enqueued and `time_leftover_ms` is still 2,
not `calculationTime_ms - end.t = 0`. -/
theorem C29_leftover_kept_when_first_step_lands_on_end :
    (Ros_MotionServer_JointTrajDataToIncQueue motoRosConsts helpfulOthers 4 2 0
        (sampleSegment 0 2 0 1)).map
      (fun r => (r.2.1.jointMotionData.time, r.2.1.timeLeftover_ms, r.2.2.map (fun d => d.time)))
      = some (2, 2, [2])
    ∧ (Ros_MotionServer_JointTrajDataToIncQueue motoRosConsts helpfulOthers 4 2 0
        (sampleSegment 2 4 2 1)).map
      (fun r => (r.2.1.jointMotionData.time, r.2.1.timeLeftover_ms, r.2.2.map (fun d => d.time)))
      = some (4, 2, [4]) := by
  constructor
  · simp [Ros_MotionServer_JointTrajDataToIncQueue, incQueueLoop, interpolStep, mkIncData,
      Ros_MotionServer_AddPulseIncPointToQ, sampleSegment, sampleGroup, samplePoint, helpfulOthers,
      emptyQ, motoRosConsts]
  · simp [Ros_MotionServer_JointTrajDataToIncQueue, incQueueLoop, interpolStep, mkIncData,
      Ros_MotionServer_AddPulseIncPointToQ, sampleSegment, sampleGroup, samplePoint, helpfulOthers,
      emptyQ, motoRosConsts]

/-! ## Multi-group points -/

/-- The first group of `exPairRequest` is accepted by `twoGroups`. -/
theorem exPair_first :
    Ros_MotionServer_AddTrajPointFullEx motoRosConsts (twoGroups.ctrlGroups 0)
        (exPairRequest.jointTrajDataEx.jointTrajPtData 0) 1
      = (0, { twoGroups.ctrlGroups 0 with
                jointMotionDataToProcess := Ros_MotionServer_ConvertToJointMotionData motoRosConsts
                  (exToFull (exPairRequest.jointTrajDataEx.jointTrajPtData 0) 1),
                hasDataToProcess := true }) := by
  unfold Ros_MotionServer_AddTrajPointFullEx
  apply add_accepts
  · rfl
  · intro i _
    simp [Ros_MotionServer_ConvertToJointMotionData, exToFull, exPairRequest, twoGroups,
      sampleGroup]
    norm_num

/-- The second group of `exPairRequest` is refused for its speed, whatever the
state of the group's trajectory. -/
theorem exPair_second (g : CtrlGroup) (hfree : g.hasDataToProcess = false)
    (hn : g.numAxes = 6) (hs : g.maxSpeed = fun _ => 3 / 8) :
    Ros_MotionServer_AddTrajPointFullEx motoRosConsts g
        (exPairRequest.jointTrajDataEx.jointTrajPtData 1) 1
      = (motoRosConsts.ROS_RESULT_INVALID_DATA_SPEED, g) := by
  have hany : ((activeAxes g.numAxes).any fun i =>
      decide (((abs_of_float ((Ros_MotionServer_ConvertToJointMotionData motoRosConsts
        (exToFull (exPairRequest.jointTrajDataEx.jointTrajPtData 1) 1)).vel i) : Int) : ℚ)
        > g.maxSpeed i)) = true := by
    rw [List.any_eq_true]
    refine ⟨0, ?_, ?_⟩
    · rw [hn]; simp [activeAxes, finRange_axes]
    · have h1 : abs_of_float 1 = 1 := by simp [abs_of_float, truncToInt]
      simp [Ros_MotionServer_ConvertToJointMotionData, exToFull, exPairRequest, motoRosConsts, hs,
        h1]
      norm_num
  simp only [Ros_MotionServer_AddTrajPointFullEx, Ros_MotionServer_AddTrajPointFull, hfree, hany,
    Bool.false_eq_true, if_false, if_true]

/-- A step of the second loop for a follow-up point that the group accepts: the
group is replaced and the loop goes on. -/
theorem exApply_added (K : Consts) (p : Prims) (m : SimpleMsg) (i : Nat) (rest : List Nat)
    (s : Sys) (old : ReplyMsg) (g1 : CtrlGroup) (hseq : m.jointTrajDataEx.sequence > 0)
    (hadd : Ros_MotionServer_AddTrajPointFullEx K
        (s.c.ctrlGroups (m.jointTrajDataEx.jointTrajPtData i).groupNo.toNat)
        (m.jointTrajDataEx.jointTrajPtData i) m.jointTrajDataEx.sequence = (0, g1)) :
    exApply K p m (i :: rest) s old
      = exApply K p m rest
          { s with c := s.c.setGroup (m.jointTrajDataEx.jointTrajPtData i).groupNo.toNat g1 }
          (motionReplyTo m K.ROS_RESULT_SUCCESS 0 (m.jointTrajDataEx.jointTrajPtData i).groupNo) := by
  have h0 : ¬ m.jointTrajDataEx.sequence = 0 := by omega
  simp only [exApply, h0, hseq, hadd, if_false, if_true]

/-- A step of the second loop for a follow-up point that the group refuses with
a code other than 0 and 1: the loop ends with the reply INVALID. -/
theorem exApply_refused (K : Consts) (p : Prims) (m : SimpleMsg) (i : Nat) (rest : List Nat)
    (s : Sys) (old : ReplyMsg) (ret : Int) (g1 : CtrlGroup)
    (hseq : m.jointTrajDataEx.sequence > 0) (hr0 : ret ≠ 0) (hr1 : ret ≠ 1)
    (hadd : Ros_MotionServer_AddTrajPointFullEx K
        (s.c.ctrlGroups (m.jointTrajDataEx.jointTrajPtData i).groupNo.toNat)
        (m.jointTrajDataEx.jointTrajPtData i) m.jointTrajDataEx.sequence = (ret, g1)) :
    exApply K p m (i :: rest) s old
      = ({ s with c := s.c.setGroup (m.jointTrajDataEx.jointTrajPtData i).groupNo.toNat g1 },
          motionReplyTo m K.ROS_RESULT_INVALID ret (m.jointTrajDataEx.jointTrajPtData i).groupNo) := by
  have h0 : ¬ m.jointTrajDataEx.sequence = 0 := by omega
  simp only [exApply, h0, hseq, hadd, hr0, hr1, if_false, if_true]

/-- C30 (as stated) fails. The message lists the groups 0 and 1 with sequence
number 1; the controller is ready and neither group is busy. Group 0's point is
valid and is stored (`has_pending` becomes true, `pending_traj` the point at
1000 ms); group 1's point is too fast, so the final reply is INVALID with the
speed subcode, for group 1. The reply is not SUCCESS, and group 0 has been
modified. -/
theorem C30_counterexample :
    (Ros_MotionServer_JointTrajPtFullExProcess motoRosConsts (samplePrims 0) (startSys twoGroups)
        exPairRequest (motionReplyTo exPairRequest 0 0 0)).2.2
      = motionReplyTo exPairRequest motoRosConsts.ROS_RESULT_INVALID
          motoRosConsts.ROS_RESULT_INVALID_DATA_SPEED 1
    ∧ motoRosConsts.ROS_RESULT_INVALID ≠ motoRosConsts.ROS_RESULT_SUCCESS
    ∧ (twoGroups.ctrlGroups 0).hasDataToProcess = false
    ∧ (twoGroups.ctrlGroups 0).jointMotionDataToProcess.time = 0
    ∧ ((Ros_MotionServer_JointTrajPtFullExProcess motoRosConsts (samplePrims 0) (startSys twoGroups)
        exPairRequest (motionReplyTo exPairRequest 0 0 0)).2.1.c.ctrlGroups 0).hasDataToProcess = true
    ∧ ((Ros_MotionServer_JointTrajPtFullExProcess motoRosConsts (samplePrims 0) (startSys twoGroups)
        exPairRequest (motionReplyTo exPairRequest 0 0 0)).2.1.c.ctrlGroups 0).jointMotionDataToProcess.time = 1000 := by
  have hl : Int.land 7 7 = 7 := by decide
  have hpre : exPreCheck motoRosConsts (startSys twoGroups).c exPairRequest [0, 1] = none := by
    simp [exPreCheck, Ros_Controller_IsValidGroupNo, twoGroups, exPairRequest, sampleController,
      sampleGroup, sampleRequest, startSys, hl]
  have hrange : List.range (exPairRequest.jointTrajDataEx.numberOfValidGroups).toNat = [0, 1] := by
    decide
  have hready : (startSys twoGroups).c.motionReady = true := rfl
  have hseq : exPairRequest.jointTrajDataEx.sequence > 0 := by decide
  have hstep0 := exApply_added motoRosConsts (samplePrims 0) exPairRequest 0 [1]
    (startSys twoGroups) (motionReplyTo exPairRequest 0 0 0) _ hseq exPair_first
  have hstep1 := exApply_refused motoRosConsts (samplePrims 0) exPairRequest 1 []
    { startSys twoGroups with
      c := (startSys twoGroups).c.setGroup
        (exPairRequest.jointTrajDataEx.jointTrajPtData 0).groupNo.toNat
        { twoGroups.ctrlGroups 0 with
          jointMotionDataToProcess := Ros_MotionServer_ConvertToJointMotionData motoRosConsts
            (exToFull (exPairRequest.jointTrajDataEx.jointTrajPtData 0) 1),
          hasDataToProcess := true } }
    (motionReplyTo exPairRequest motoRosConsts.ROS_RESULT_SUCCESS 0
      (exPairRequest.jointTrajDataEx.jointTrajPtData 0).groupNo)
    motoRosConsts.ROS_RESULT_INVALID_DATA_SPEED _ hseq (by decide) (by decide)
    (exPair_second _ rfl rfl rfl)
  have hrun : (Ros_MotionServer_JointTrajPtFullExProcess motoRosConsts (samplePrims 0)
      (startSys twoGroups) exPairRequest (motionReplyTo exPairRequest 0 0 0)).2
      = exApply motoRosConsts (samplePrims 0) exPairRequest [0, 1] (startSys twoGroups)
          (motionReplyTo exPairRequest 0 0 0) := by
    simp only [Ros_MotionServer_JointTrajPtFullExProcess, hrange, hready, Bool.not_true,
      Bool.false_eq_true, if_false, hpre]
  rw [hrun, hstep0, hstep1]
  refine ⟨rfl, by decide, rfl, rfl, ?_, ?_⟩
  · simp [Controller.setGroup, exPairRequest]
  · simp [Controller.setGroup, exPairRequest]
    simp [Ros_MotionServer_ConvertToJointMotionData, exToFull, truncToInt]

/-- C30 (amended): a multi-group message that is refused before the groups are
applied leaves the whole state untouched: if the controller is not motion-ready,
or the pre-check refuses a listed group (invalid group number, a point pending,
or time, position and velocity not all valid), or the sequence number is
negative, then no group's `cur_traj`, `pending_traj`, `has_pending`,
`time_leftover_ms` or `q_time` has been modified. (A refusal found while the
groups are applied in their order does not undo the groups applied before.) -/
theorem C30_refusal_before_apply_changes_nothing (K : Consts) (p : Prims) (s : Sys)
    (m : SimpleMsg) (old : ReplyMsg)
    (h : s.c.motionReady = false
      ∨ exPreCheck K s.c m (List.range m.jointTrajDataEx.numberOfValidGroups.toNat) ≠ none
      ∨ m.jointTrajDataEx.sequence < 0) :
    (Ros_MotionServer_JointTrajPtFullExProcess K p s m old).2.1 = s := by
  unfold Ros_MotionServer_JointTrajPtFullExProcess
  by_cases hready : s.c.motionReady = true
  · simp only [hready, Bool.not_true, Bool.false_eq_true, if_false]
    cases hpre : exPreCheck K s.c m (List.range m.jointTrajDataEx.numberOfValidGroups.toNat) with
    | some reply => rfl
    | none =>
      rcases h with h | h | h
      · rw [hready] at h; exact absurd h (by decide)
      · exact absurd hpre h
      · simp only
        cases hl : List.range m.jointTrajDataEx.numberOfValidGroups.toNat with
        | nil => simp [exApply]
        | cons i rest =>
          have h0 : ¬ m.jointTrajDataEx.sequence = 0 := by omega
          have h1 : ¬ m.jointTrajDataEx.sequence > 0 := by omega
          simp only [exApply, h0, h1, if_false]
  · have hr : s.c.motionReady = false := by simpa using hready
    simp [hr]

theorem C30_refusal_before_apply_changes_nothing_witness :
    (Ros_MotionServer_JointTrajPtFullExProcess motoRosConsts (samplePrims 0)
      (startSys notReadyTwoGroups) exPairRequest
      (motionReplyTo exPairRequest 0 0 0)).2.1 = startSys notReadyTwoGroups :=
  C30_refusal_before_apply_changes_nothing motoRosConsts (samplePrims 0)
    (startSys notReadyTwoGroups) exPairRequest (motionReplyTo exPairRequest 0 0 0) (Or.inl rfl)

/-! ## Connections and their tasks -/

/-- The loop over the groups of `Ros_MotionServer_StopConnection` leaves the
connection tables and the dispatcher's task number alone. -/
theorem stopGroupTasks_frame (T : TaskConsts) (l : List Nat) :
    ∀ v : Server,
      (stopGroupTasks T l v).sdMotionConnections = v.sdMotionConnections
      ∧ (stopGroupTasks T l v).tidMotionConnections = v.tidMotionConnections
      ∧ (stopGroupTasks T l v).tidIncMoveThread = v.tidIncMoveThread := by
  induction l with
  | nil => intro v; exact ⟨rfl, rfl, rfl⟩
  | cons i rest ih =>
    intro v
    unfold stopGroupTasks
    exact ih _

/-- The connection tables after `Ros_MotionServer_StopConnection`: the slot
`connectionIndex` is cleared in both, the other slots are as before. -/
theorem stopConnection_tables (T : TaskConsts) (v : Server) (connectionIndex : Nat) :
    (Ros_MotionServer_StopConnection T v connectionIndex).sdMotionConnections
        = Function.update v.sdMotionConnections connectionIndex T.INVALID_SOCKET
    ∧ (Ros_MotionServer_StopConnection T v connectionIndex).tidMotionConnections
        = Function.update v.tidMotionConnections connectionIndex T.INVALID_TASK := by
  unfold Ros_MotionServer_StopConnection
  simp only
  split_ifs with h
  · obtain ⟨h1, h2, _⟩ := stopGroupTasks_frame T (List.range v.c.numGroup)
      { v with
        calls := v.calls ++ [TaskCall.mpClose (v.sdMotionConnections connectionIndex)]
        sdMotionConnections :=
          Function.update v.sdMotionConnections connectionIndex T.INVALID_SOCKET
        c := Ros_Controller_SetIOState IoFeedback.IO_FEEDBACK_MOTIONSERVERCONNECTED false v.c }
    exact ⟨h1, by simp only [h2]⟩
  · exact ⟨rfl, rfl⟩

/-- `Ros_MotionServer_StopConnection` keeps the invariant of the connection
slots. -/
theorem stopConnection_slotInv (T : TaskConsts) (v : Server) (connectionIndex : Nat)
    (hinv : SlotInv T v) : SlotInv T (Ros_MotionServer_StopConnection T v connectionIndex) := by
  obtain ⟨h1, h2⟩ := stopConnection_tables T v connectionIndex
  intro i hi
  rw [h1, h2]
  by_cases hc : i = connectionIndex
  · subst hc; simp
  · simp only [Function.update_noteq hc]
    exact hinv i hi

/-- The test of `Ros_MotionServer_StopConnection` for a connection that is still
valid never finds one: it reads the slot that was just cleared. So the function
always clears the connected signal, stops the tasks of the groups and the
dispatcher task. -/
theorem stopConnection_teardown (T : TaskConsts) (v : Server) (connectionIndex : Nat) :
    (Ros_MotionServer_StopConnection T v connectionIndex).tidIncMoveThread = T.INVALID_TASK := by
  unfold Ros_MotionServer_StopConnection
  simp

/-- C21 fails on two paths of `Ros_MotionServer_StartNewConnection`. A server
without connections satisfies the invariant. A client connects with socket 7.
When the creation of the dispatcher task fails, and likewise when the
dispatcher task is created and the creation of an interpolator task fails, the
function closes the socket and returns with `sdMotionConnections[0]` still 7
while `tidMotionConnections[0]` is `INVALID_TASK`: the invariant is broken, and
the slot is taken for good. (The path on which the creation of the reader task
fails resets both entries.) -/
theorem C21_failed_task_creation_leaves_slot_taken :
    SlotInv sampleTasks idleServer
    ∧ (Ros_MotionServer_StartNewConnection sampleTasks noIncMoveTask idleServer
        7).sdMotionConnections 0 = 7
    ∧ (Ros_MotionServer_StartNewConnection sampleTasks noIncMoveTask idleServer
        7).tidMotionConnections 0 = sampleTasks.INVALID_TASK
    ∧ ¬ SlotInv sampleTasks
        (Ros_MotionServer_StartNewConnection sampleTasks noIncMoveTask idleServer 7)
    ∧ (Ros_MotionServer_StartNewConnection sampleTasks noAddToIncQueueTask idleServer
        7).sdMotionConnections 0 = 7
    ∧ (Ros_MotionServer_StartNewConnection sampleTasks noAddToIncQueueTask idleServer
        7).tidMotionConnections 0 = sampleTasks.INVALID_TASK
    ∧ ¬ SlotInv sampleTasks
        (Ros_MotionServer_StartNewConnection sampleTasks noAddToIncQueueTask idleServer 7) := by
  have hfind : (List.range sampleTasks.MAX_MOTION_CONNECTIONS).find?
      (fun connectionIndex =>
        decide (idleServer.sdMotionConnections connectionIndex = sampleTasks.INVALID_SOCKET))
      = some 0 := by decide
  have a1 : (Ros_MotionServer_StartNewConnection sampleTasks noIncMoveTask idleServer
      7).sdMotionConnections 0 = 7 := by
    simp only [Ros_MotionServer_StartNewConnection, hfind]
    simp [startIncMoveTask, idleServer, sampleTasks, noIncMoveTask]
  have a2 : (Ros_MotionServer_StartNewConnection sampleTasks noIncMoveTask idleServer
      7).tidMotionConnections 0 = sampleTasks.INVALID_TASK := by
    simp only [Ros_MotionServer_StartNewConnection, hfind]
    simp [startIncMoveTask, idleServer, sampleTasks, noIncMoveTask]
  have b1 : (Ros_MotionServer_StartNewConnection sampleTasks noAddToIncQueueTask idleServer
      7).sdMotionConnections 0 = 7 := by
    simp only [Ros_MotionServer_StartNewConnection, hfind]
    simp [startIncMoveTask, startGroupTasks, idleServer, sampleTasks, noAddToIncQueueTask,
      sampleController, List.range_succ]
  have b2 : (Ros_MotionServer_StartNewConnection sampleTasks noAddToIncQueueTask idleServer
      7).tidMotionConnections 0 = sampleTasks.INVALID_TASK := by
    simp only [Ros_MotionServer_StartNewConnection, hfind]
    simp [startIncMoveTask, startGroupTasks, idleServer, sampleTasks, noAddToIncQueueTask,
      sampleController, List.range_succ]
  refine ⟨?_, a1, a2, ?_, b1, b2, ?_⟩
  · intro i _
    simp [idleServer, sampleTasks]
  · intro hinv
    have h := (hinv 0 (by decide)).mpr a2
    rw [a1] at h
    exact absurd h (by decide)
  · intro hinv
    have h := (hinv 0 (by decide)).mpr b2
    rw [b1] at h
    exact absurd h (by decide)

/-- C22 fails. Two clients are connected (slots 0 and 1), the dispatcher task
and the interpolator task of group 0 run, and group 0 has a point pending. The
connection of slot 0 is stopped. Slot 1 is still live afterwards, yet the shared
tasks are torn down: the connected signal is cleared, `tidIncMoveThread` and the
group's `tidAddToIncQueue` are `INVALID_TASK`, both tasks were deleted, and the
group's `has_pending` is false. -/
theorem C22_teardown_with_another_slot_live :
    otherSlotLive sampleTasks (Ros_MotionServer_StopConnection sampleTasks busyServer 0) 0 = true
    ∧ (Ros_MotionServer_StopConnection sampleTasks busyServer 0).sdMotionConnections 1 = 8
    ∧ busyServer.tidIncMoveThread = 11
    ∧ (Ros_MotionServer_StopConnection sampleTasks busyServer 0).tidIncMoveThread
        = sampleTasks.INVALID_TASK
    ∧ busyServer.tidAddToIncQueue 0 = 12
    ∧ (Ros_MotionServer_StopConnection sampleTasks busyServer 0).tidAddToIncQueue 0
        = sampleTasks.INVALID_TASK
    ∧ (busyServer.c.ctrlGroups 0).hasDataToProcess = true
    ∧ ((Ros_MotionServer_StopConnection sampleTasks busyServer 0).c.ctrlGroups 0).hasDataToProcess
        = false
    ∧ busyServer.c.ioState IoFeedback.IO_FEEDBACK_MOTIONSERVERCONNECTED = true
    ∧ (Ros_MotionServer_StopConnection sampleTasks busyServer 0).c.ioState
        IoFeedback.IO_FEEDBACK_MOTIONSERVERCONNECTED = false
    ∧ (Ros_MotionServer_StopConnection sampleTasks busyServer 0).calls
        = [TaskCall.mpClose 7, TaskCall.mpDeleteTask 12, TaskCall.mpDeleteTask 11,
           TaskCall.mpDeleteTask 21] := by
  have hrun : Ros_MotionServer_StopConnection sampleTasks busyServer 0
      = { c := (Ros_Controller_SetIOState IoFeedback.IO_FEEDBACK_MOTIONSERVERCONNECTED false
                  busyServer.c).setGroup 0
                { busyServer.c.ctrlGroups 0 with hasDataToProcess := false }
          sdMotionConnections := Function.update busyServer.sdMotionConnections 0 (-1)
          tidMotionConnections := Function.update busyServer.tidMotionConnections 0 (-1)
          tidIncMoveThread := -1
          tidAddToIncQueue := Function.update busyServer.tidAddToIncQueue 0 (-1)
          calls := [TaskCall.mpClose 7, TaskCall.mpDeleteTask 12, TaskCall.mpDeleteTask 11,
            TaskCall.mpDeleteTask 21] } := by
    simp [Ros_MotionServer_StopConnection, stopGroupTasks, busyServer, sampleTasks,
      sampleController, Ros_Controller_SetIOState, List.range_succ]
  rw [hrun]
  refine ⟨?_, ?_, rfl, rfl, rfl, ?_, rfl, ?_, ?_, ?_, rfl⟩
  · simp [otherSlotLive, sampleTasks, busyServer, List.range_succ]
  · simp [busyServer]
  · simp [sampleTasks]
  · simp [Controller.setGroup]
  · simp [busyServer, Ros_Controller_SetIOState]
  · simp [Controller.setGroup, Ros_Controller_SetIOState]

end MotoRos
